import Mathlib

/-! # MACS RTOS: scheduler and synchronisation kernel

A shallow embedding of the scheduler (`macs_scheduler.cpp`), the task and
sync-object base classes (`macs_task.cpp`, `macs_task.hpp`), the intrusive
lists (`macs_list.hpp`), the mutex (`macs_mutex.cpp`, `macs_mutex.hpp`) and
the semaphore (`macs_semaphore.cpp`, `macs_semaphore.hpp`).

Conventions of the embedding.

* Objects live in a heap indexed by natural numbers: a `Task *` is a task
  index, a `Mutex *` a mutex index, and a null pointer is `none`.
* An intrusive singly linked list is the list of the indices of its
  elements, head first.  This presupposes what the source asserts in
  `SList::Add`: an element sits in at most one list per link field.
* Every kernel function is a function from the kernel state to the kernel
  state (paired with its return value when it has one).
* Build options are the defaults of `macs_tunes.h`: `MACS_DEBUG = 0`,
  `MACS_MUTEX_PRIORITY_INVERSION = 1`, `MACS_IRQ_FAST_SWITCH = 1`,
  `MACS_USE_CLOCK = 0`, `MACS_USE_LOG = 0`.
* 32-bit unsigned fields are natural numbers; increments and decrements
  that can wrap are taken modulo `2 ^ 32`.
-/

namespace Macs

/-! ## Constants and enumerations -/

/-- The value of `UINT_MAX` on the 32-bit target. -/
def UINT_MAX : Nat := 2 ^ 32 - 1

/-- The value of `ULONG_MAX` on the 32-bit target. -/
def ULONG_MAX : Nat := 2 ^ 32 - 1

/-- The value of `BYTE_MAX` (`UCHAR_MAX`, macs_utils.hpp). -/
def BYTE_MAX : Nat := 255

/-- The timeout sentinel `INFINITE_TIMEOUT = UINT_MAX` (macs_common.hpp). -/
def INFINITE_TIMEOUT : Nat := UINT_MAX

/-- Result codes, `enum Result` of macs_common.hpp. -/
inductive Result where
  | ResultOk
  | ResultTimeout
  | ResultErrorInterruptNotSupported
  | ResultErrorSysCallNotAllowed
  | ResultErrorNotSupported
  | ResultErrorInvalidArgs
  | ResultErrorInvalidState
  deriving DecidableEq, Repr

/-- Alarm reasons, `ALARM_REASON` of macs_common.hpp. -/
inductive ALARM_REASON where
  | AR_NONE
  | AR_NMI_RAISED
  | AR_HARD_FAULT
  | AR_MEMORY_FAULT
  | AR_NOT_IN_PRIVILEGED
  | AR_BAD_SVC_NUMBER
  | AR_COUNTER_OVERFLOW
  | AR_STACK_CORRUPTED
  | AR_STACK_OVERFLOW
  | AR_STACK_UNDERFLOW
  | AR_SCHED_NOT_ON_PAUSE
  | AR_MEM_LOCKED
  | AR_USER_REQUEST
  | AR_ASSERT_FAILED
  | AR_STACK_ENLARGED
  | AR_OUT_OF_MEMORY
  | AR_SPRINTF_TRUNC
  | AR_DOUBLE_PRN_FMT
  | AR_NESTED_MUTEX_LOCK
  | AR_OWNED_MUTEX_DESTR
  | AR_BLOCKING_MUTEX_DESTR
  | AR_PRIV_TASK_ADDING
  | AR_NO_GRAPH_GUARD
  | AR_UNKNOWN
  deriving DecidableEq, Repr

/-- Task states, `Task::State`. -/
inductive Task.State where
  | StateReady
  | StateRunning
  | StateBlocked
  | StateInactive
  deriving DecidableEq, Repr

/-- Reasons of the last unblocking, `Task::UnblockReason`. -/
inductive Task.UnblockReason where
  | UnblockReasonNone
  | UnblockReasonRequest
  | UnblockReasonTimeout
  | UnblockReasonIrq
  deriving DecidableEq, Repr

/-- Processor modes of a task, `Task::Mode`. -/
inductive Task.Mode where
  | ModePrivileged
  | ModeUnprivileged
  deriving DecidableEq, Repr

/-- A pointer to a sync object used as `Task::UnblockFunctor`; the
constructor is the dynamic type that selects the virtual `OnUnblockTask`
and `OnDeleteTask`. -/
inductive SyncRef where
  | mutex (i : Nat)
  | semaphore (i : Nat)
  | event (i : Nat)
  deriving DecidableEq, Repr

/-! ## Objects -/

/-- The fields of `class Task` (and of `TaskIrq`) the kernel works on. -/
structure Task where
  m_priority : Nat := 30
  m_state : Task.State := Task.State.StateInactive
  m_mode : Task.Mode := Task.Mode.ModeUnprivileged
  m_dream_ticks : Nat := 0
  m_unblock_func : Option SyncRef := none
  m_owned_obj_list : List Nat := []
  m_unblock_reason : Task.UnblockReason := Task.UnblockReason.UnblockReasonNone
  m_irq_up : Bool := false
  m_irq_num : Int := -1
  deriving DecidableEq, Repr

/-- The fields of `class Mutex` with its bases `SyncOwnedObject` and
`SyncObject`. -/
structure Mutex where
  m_blocked_task_list : List Nat := []
  m_owner : Option Nat := none
  m_owner_original_priority : Nat := 0
  m_lock_cnt : Nat := 0
  m_recursive : Bool := false
  deriving DecidableEq, Repr

/-- The fields of `class Semaphore` with its base `SyncObject`. -/
structure Semaphore where
  m_blocked_task_list : List Nat := []
  m_count : Nat := 0
  m_max_count : Nat := 1
  deriving DecidableEq, Repr

/-- The fields of `class Event` with its base `SyncObject`. -/
structure Event where
  m_blocked_task_list : List Nat := []
  m_broadcast : Bool := true
  deriving DecidableEq, Repr

/-- The fields of `class Scheduler`; the three rooms are the lists of the
task indices they hold.  The ready queue and the sleep queue are intrusive
lists through the one field `m_next_sched_task` of a task, and a list of
indices describes them as long as no task is linked while it is still linked:
`SList::Add` asserts `! Next(elm)` and `! * Find(head, elm)`, and the
assertions are empty in the default build.  `m_relinked` is not a field of the
source: it records that one of the two `Insert`s was called for a task that
was still in the ready queue or in the sleep queue.  From then on the lists
`m_work_tasks` and `m_sleep_tasks` no longer describe the queues of the
source; see `SListOrd.AddLinks` for what the source does to the links. -/
structure Scheduler where
  m_sleep_tasks : List Nat := []
  m_work_tasks : List Nat := []
  m_irq_tasks : List Nat := []
  m_irq_event : Bool := false
  m_cur_task : Option Nat := none
  m_tick_count : Nat := 0
  m_initialized : Bool := false
  m_started : Bool := false
  m_pause_flg : Bool := false
  m_pause_cnt : Nat := 0
  m_pending_swc : Bool := false
  m_use_preemption : Bool := true
  m_relinked : Bool := false
  deriving DecidableEq, Repr

/-- The processor mode as `IPSR` shows it: thread mode, the SVC handler, or
another exception handler; for the latter the flag says whether its
priority is at or below the system-call ceiling
(`NVIC_GetPriority >= MAX_SYSCALL_INTERRUPT_PRIORITY`). -/
inductive ExecMode where
  | thread
  | svc
  | irq (sysCallPriority : Bool)
  deriving DecidableEq, Repr

/-- The part of the platform (`SystemBase`, macs_cortex_m.cpp) the kernel
reads and writes: the exception mode, the privilege bit of `CONTROL`, the
tick rate and the PendSV pending bit set by `System::SwitchContext`. -/
structure System where
  mode : ExecMode := ExecMode.thread
  priv : Bool := true
  m_tick_rate_hz : Nat := 1000
  pendsv : Bool := false
  deriving DecidableEq, Repr

/-- The whole kernel state: the scheduler singleton, the object heaps, the
platform, and the alarms raised so far (oldest first). -/
structure Kernel where
  sch : Scheduler := {}
  tasks : Nat → Task := fun _ => {}
  mutexes : Nat → Mutex := fun _ => {}
  semaphores : Nat → Semaphore := fun _ => {}
  events : Nat → Event := fun _ => {}
  sys : System := {}
  alarms : List ALARM_REASON := []

/-! ## Heap updates -/

/-- Write through a `Task *`. -/
def Kernel.setTask (k : Kernel) (t : Nat) (f : Task → Task) : Kernel :=
  { k with tasks := fun i => if i = t then f (k.tasks t) else k.tasks i }

/-- Write through a `Mutex *`. -/
def Kernel.setMutex (k : Kernel) (m : Nat) (f : Mutex → Mutex) : Kernel :=
  { k with mutexes := fun i => if i = m then f (k.mutexes m) else k.mutexes i }

/-- Write through a `Semaphore *`. -/
def Kernel.setSemaphore (k : Kernel) (s : Nat) (f : Semaphore → Semaphore) : Kernel :=
  { k with semaphores := fun i => if i = s then f (k.semaphores s) else k.semaphores i }

/-- Write through an `Event *`. -/
def Kernel.setEvent (k : Kernel) (e : Nat) (f : Event → Event) : Kernel :=
  { k with events := fun i => if i = e then f (k.events e) else k.events i }

/-- Write to the scheduler singleton. -/
def Kernel.setSch (k : Kernel) (f : Scheduler → Scheduler) : Kernel :=
  { k with sch := f k.sch }

/-- Read `SyncObject::m_blocked_task_list` of the object pointed to. -/
def Kernel.waiters (k : Kernel) : SyncRef → List Nat
  | SyncRef.mutex i => (k.mutexes i).m_blocked_task_list
  | SyncRef.semaphore i => (k.semaphores i).m_blocked_task_list
  | SyncRef.event i => (k.events i).m_blocked_task_list

/-- Write `SyncObject::m_blocked_task_list` of the object pointed to. -/
def Kernel.setWaiters (k : Kernel) (s : SyncRef) (l : List Nat) : Kernel :=
  match s with
  | SyncRef.mutex i => k.setMutex i (fun m => { m with m_blocked_task_list := l })
  | SyncRef.semaphore i => k.setSemaphore i (fun m => { m with m_blocked_task_list := l })
  | SyncRef.event i => k.setEvent i (fun m => { m with m_blocked_task_list := l })

/-! ## Intrusive lists (macs_list.hpp) -/

/-- `SList::Add`: link the element in front of the head. -/
def SList.Add (head : List Nat) (elm : Nat) : List Nat := elm :: head

/-- `SList::Del`: unlink the element if `Find` reaches it. -/
def SList.Del (head : List Nat) (elm : Nat) : List Nat := head.erase elm

/-- `SList::Fetch`: unlink and return the head (null for an empty list). -/
def SList.Fetch (head : List Nat) : Option Nat × List Nat := (head.head?, head.tail)

/-- `SListOrd::Add`: walk the list until `Preceeding(elm, *ptr)` holds and
link the element there (at the end when it never holds). -/
def SListOrd.Add (Preceeding : Nat → Nat → Bool) : List Nat → Nat → List Nat
  | [], elm => [elm]
  | x :: xs, elm =>
    if Preceeding elm x then elm :: x :: xs else x :: SListOrd.Add Preceeding xs elm

/-- `PriorPreceeding(a, b)`: `a->m_priority > b->m_priority`. -/
def PriorPreceeding (k : Kernel) (task_a task_b : Nat) : Bool :=
  decide ((k.tasks task_a).m_priority > (k.tasks task_b).m_priority)

/-- `WakeupPreceeding(a, b)`: `a->m_dream_ticks <= b->m_dream_ticks`. -/
def WakeupPreceeding (k : Kernel) (task_a task_b : Nat) : Bool :=
  decide ((k.tasks task_a).m_dream_ticks ≤ (k.tasks task_b).m_dream_ticks)

/-- `TaskSyncList::Add` on the waiter list of a sync object. -/
def TaskSyncList.Add (k : Kernel) (head : List Nat) (elm : Nat) : List Nat :=
  SListOrd.Add (PriorPreceeding k) head elm

/-- `TaskWorkList::Add` on the ready queue. -/
def TaskWorkList.Add (k : Kernel) (head : List Nat) (elm : Nat) : List Nat :=
  SListOrd.Add (PriorPreceeding k) head elm

/-- `TaskSleepList::Add` on the sleep queue. -/
def TaskSleepList.Add (k : Kernel) (head : List Nat) (elm : Nat) : List Nat :=
  SListOrd.Add (WakeupPreceeding k) head elm

/-! ## Platform (target/macs_platform.hpp, target/macs_cortex_m.cpp) -/

/-- `SystemBase::IsInInterrupt`: `IPSR != 0`. -/
def System.IsInInterrupt (k : Kernel) : Bool :=
  match k.sys.mode with
  | ExecMode.thread => false
  | ExecMode.svc => true
  | ExecMode.irq _ => true

/-- `SystemBase::IsInSysCall`: the current exception is SVCall. -/
def System.IsInSysCall (k : Kernel) : Bool :=
  match k.sys.mode with
  | ExecMode.thread => false
  | ExecMode.svc => true
  | ExecMode.irq _ => false

/-- `SystemBase::IsInPrivMode`: bit 0 of `CONTROL` is clear. -/
def System.IsInPrivMode (k : Kernel) : Bool := k.sys.priv

/-- `SystemBase::IsInPrivOrIrq`. -/
def System.IsInPrivOrIrq (k : Kernel) : Bool :=
  System.IsInPrivMode k || System.IsInInterrupt k

/-- `SystemBase::IsSysCallAllowed`: thread mode and the SVC handler may call
the kernel, another handler only when its priority allows it. -/
def System.IsSysCallAllowed (k : Kernel) : Bool :=
  match k.sys.mode with
  | ExecMode.thread => true
  | ExecMode.svc => true
  | ExecMode.irq ok => ok

/-- `SystemBase::GetTickRate`. -/
def System.GetTickRate (k : Kernel) : Nat := k.sys.m_tick_rate_hz

/-- `SystemBase::SwitchContext`: set the PendSV pending bit; the switch
itself runs later, in `Scheduler::SwitchContext`. -/
def System.SwitchContext (k : Kernel) : Kernel :=
  { k with sys := { k.sys with pendsv := true } }

/-- Modelled from the spec: `MACS_ALARM` is defined in macs_application.hpp,
which is not among the sources.  The reason is fed to the process-wide alarm
hook (spec section 6, diagnostic hooks); the model records the reason and
goes on, as the hook does when it returns `AA_CONTINUE`. -/
def MACS_ALARM (k : Kernel) (reason : ALARM_REASON) : Kernel :=
  { k with alarms := k.alarms ++ [reason] }

/-- The constructor of `CriticalSection` (macs_critical_section.hpp): an
alarm when entered outside privileged or handler mode.  Masking interrupts
is what makes each kernel function below one atomic step. -/
def CriticalSection (k : Kernel) : Kernel :=
  if System.IsInPrivOrIrq k then k else MACS_ALARM k ALARM_REASON.AR_NOT_IN_PRIVILEGED

/-- Modelled from the spec: `SvcExecPrivileged` and the SVC handler are
assembly that is not among the sources.  Spec section 4.G: the trap handler
calls the same implementation in privileged (handler) mode; afterwards the
caller goes on in its own mode. -/
def SvcExecPrivileged {α : Type} (f : Kernel → α × Kernel) (k : Kernel) : α × Kernel :=
  let r := f { k with sys := { k.sys with mode := ExecMode.svc } }
  (r.1, { r.2 with sys := { r.2.sys with mode := k.sys.mode } })

/-- `MsToTicks` (macs_common.cpp): the product is a 32-bit unsigned one. -/
def MsToTicks (k : Kernel) (ms : Nat) : Nat :=
  ((System.GetTickRate k * ms) % 2 ^ 32) / 1000

/-! ## Scheduler rooms (macs_scheduler.hpp, macs_scheduler.cpp) -/

/-- `TaskWorkRoom::Insert`: `TaskWorkList::Add`.  For a task that is in
neither queue the new list is the one the source builds
(`SListOrd_AddLinks_refines`); for a task that is still linked the call is
recorded in `m_relinked`. -/
def TaskWorkRoom.Insert (k : Kernel) (task : Nat) : Kernel :=
  k.setSch (fun s =>
    { s with
      m_work_tasks := TaskWorkList.Add k s.m_work_tasks task
      m_relinked :=
        s.m_relinked || decide (task ∈ s.m_work_tasks ∨ task ∈ s.m_sleep_tasks) })

/-- `TaskRoom::Remove` on the ready queue. -/
def TaskWorkRoom.Remove (k : Kernel) (task : Nat) : Kernel :=
  k.setSch (fun s => { s with m_work_tasks := SList.Del s.m_work_tasks task })

/-- `TaskWorkRoom::Fetch`. -/
def TaskWorkRoom.Fetch (k : Kernel) : Option Nat × Kernel :=
  ((SList.Fetch k.sch.m_work_tasks).1,
   k.setSch (fun s => { s with m_work_tasks := (SList.Fetch s.m_work_tasks).2 }))

/-- `TaskSleepRoom::Insert`: `TaskSleepList::Add`; a call for a task that is
still linked is recorded in `m_relinked`, as in `TaskWorkRoom.Insert`. -/
def TaskSleepRoom.Insert (k : Kernel) (task : Nat) : Kernel :=
  k.setSch (fun s =>
    { s with
      m_sleep_tasks := TaskSleepList.Add k s.m_sleep_tasks task
      m_relinked :=
        s.m_relinked || decide (task ∈ s.m_work_tasks ∨ task ∈ s.m_sleep_tasks) })

/-- `TaskRoom::Remove` on the sleep queue. -/
def TaskSleepRoom.Remove (k : Kernel) (task : Nat) : Kernel :=
  k.setSch (fun s => { s with m_sleep_tasks := SList.Del s.m_sleep_tasks task })

/-- `TaskSleepRoom::Fetch`: the head, only when its counter reached zero. -/
def TaskSleepRoom.Fetch (k : Kernel) : Option Nat × Kernel :=
  match k.sch.m_sleep_tasks with
  | [] => (none, k)
  | t :: rest =>
    if (k.tasks t).m_dream_ticks = 0 then
      (some t, k.setSch (fun s => { s with m_sleep_tasks := rest }))
    else (none, k)

/-- `TaskSleepRoom::Tick`: decrement every counter but the indefinite ones. -/
def TaskSleepRoom.Tick (k : Kernel) : Kernel :=
  k.sch.m_sleep_tasks.foldl
    (fun k t =>
      if (k.tasks t).m_dream_ticks ≠ ULONG_MAX then
        k.setTask t (fun x => { x with m_dream_ticks := (x.m_dream_ticks + 2 ^ 32 - 1) % 2 ^ 32 })
      else k)
    k

/-! ## Context-switch requests -/

/-- `Scheduler::TryContextSwitch`. -/
def Scheduler.TryContextSwitch (k : Kernel) : Kernel :=
  if k.sch.m_pause_flg = false ∧ k.sch.m_pause_cnt = 0 then System.SwitchContext k
  else k.setSch (fun s => { s with m_pending_swc := true })

/-- `Scheduler::IsContextSwitchRequired`. -/
def Scheduler.IsContextSwitchRequired (k : Kernel) : Bool :=
  if k.sch.m_pending_swc then true
  else
    match k.sch.m_cur_task with
    | none => true
    | some c =>
      if (k.tasks c).m_state ≠ Task.State.StateRunning then true
      else
        match k.sch.m_work_tasks with
        | [] => false
        | cand :: _ => decide ((k.tasks c).m_priority ≤ (k.tasks cand).m_priority)

/-- `Yield_Priv`. -/
def Yield_Priv (k : Kernel) : Kernel :=
  let k := CriticalSection k
  if Scheduler.IsContextSwitchRequired k then Scheduler.TryContextSwitch k else k

/-- `Scheduler::Yield`. -/
def Scheduler.Yield (k : Kernel) : Kernel :=
  if k.sch.m_started = false then k
  else if System.IsInPrivOrIrq k then Yield_Priv k
  else (SvcExecPrivileged (fun k => ((), Yield_Priv k)) k).2

/-- `Task::IsRunnable`. -/
def Task.IsRunnable (t : Task) : Bool :=
  decide (t.m_state = Task.State.StateRunning ∨ t.m_state = Task.State.StateReady)

/-- `Task::AddOwnedSync`: `OwnedSyncObjList::Add`. -/
def Task.AddOwnedSync (k : Kernel) (task : Nat) (sync_obj : Nat) : Kernel :=
  k.setTask task (fun t => { t with m_owned_obj_list := SList.Add t.m_owned_obj_list sync_obj })

/-- `Task::RemoveOwnedSync`: `OwnedSyncObjList::Del`. -/
def Task.RemoveOwnedSync (k : Kernel) (task : Nat) (sync_obj : Nat) : Kernel :=
  k.setTask task (fun t => { t with m_owned_obj_list := SList.Del t.m_owned_obj_list sync_obj })

/-- `Task::SetBlockSync`. -/
def Task.SetBlockSync (k : Kernel) (task : Nat) (sync_obj : SyncRef) : Kernel :=
  k.setTask task (fun t => { t with m_unblock_func := some sync_obj })

/-- `Task::DropBlockSync`. -/
def Task.DropBlockSync (k : Kernel) (task : Nat) : Kernel :=
  k.setTask task (fun t => { t with m_unblock_func := none })

/-! ## Priorities (macs_scheduler.cpp) -/

/-- `IntSetTaskPriority_Priv`, the body shared with `SetTaskPriority_Priv`
when `MACS_MUTEX_PRIORITY_INVERSION` is on. -/
def IntSetTaskPriority_Priv (k : Kernel) (task : Nat) (priority : Nat)
    (internal_usage : Bool) : Result × Kernel :=
  let k := CriticalSection k
  if (k.tasks task).m_state = Task.State.StateInactive then (Result.ResultErrorInvalidState, k)
  else if (k.tasks task).m_priority = priority then (Result.ResultOk, k)
  else
    let k := k.setTask task (fun t => { t with m_priority := priority })
    let k :=
      if (k.tasks task).m_state = Task.State.StateReady then
        TaskWorkRoom.Insert (TaskWorkRoom.Remove k task) task
      else k
    let k :=
      if internal_usage then k
      else
        (k.tasks task).m_owned_obj_list.foldl
          (fun k pobj => k.setMutex pobj (fun m => { m with m_owner_original_priority := priority }))
          k
    let k := if k.sch.m_use_preemption then Scheduler.Yield k else k
    (Result.ResultOk, k)

/-- `SetTaskPriority_Priv`. -/
def SetTaskPriority_Priv (k : Kernel) (task : Nat) (priority : Nat) : Result × Kernel :=
  IntSetTaskPriority_Priv k task priority false

/-- `_SetTaskPriority_Priv`: the bare assignment used by `Mutex::Unlock_Priv`. -/
def _SetTaskPriority_Priv (k : Kernel) (task : Nat) (priority : Nat) : Kernel :=
  let k := k.setTask task (fun t => { t with m_priority := priority })
  if k.sch.m_use_preemption then Scheduler.Yield k else k

/-! ## Unblock callbacks (macs_task.cpp, macs_mutex.cpp) -/

/-- The local `maxPriority` of `Mutex::UpdateOwnerPriority`: the recorded
original priority, or the front waiter's priority when that is greater. -/
def Mutex.maxPriority (k : Kernel) (m : Nat) : Nat :=
  match (k.mutexes m).m_blocked_task_list with
  | [] => (k.mutexes m).m_owner_original_priority
  | w :: _ =>
    if (k.tasks w).m_priority > (k.mutexes m).m_owner_original_priority then
      (k.tasks w).m_priority
    else (k.mutexes m).m_owner_original_priority

/-- `Mutex::UpdateOwnerPriority`.  A mutex without owner is left alone (the
source dereferences `m_owner` unconditionally). -/
def Mutex.UpdateOwnerPriority (k : Kernel) (m : Nat) : Kernel :=
  match (k.mutexes m).m_owner with
  | none => k
  | some o =>
    if (k.tasks o).m_priority ≠ Mutex.maxPriority k m then
      (IntSetTaskPriority_Priv k o (Mutex.maxPriority k m) true).2
    else k

/-- `SyncObject::OnUnblockTask`, inherited by `Semaphore` and `Event`. -/
def SyncObject.OnUnblockTask (k : Kernel) (s : SyncRef) (task : Nat)
    (reason : Task.UnblockReason) : Kernel :=
  if reason = Task.UnblockReason.UnblockReasonTimeout then
    Task.DropBlockSync (k.setWaiters s (SList.Del (k.waiters s) task)) task
  else k

/-- `Mutex::OnUnblockTask`. -/
def Mutex.OnUnblockTask (k : Kernel) (m : Nat) (task : Nat)
    (reason : Task.UnblockReason) : Kernel :=
  if reason = Task.UnblockReason.UnblockReasonTimeout then
    Mutex.UpdateOwnerPriority
      (k.setMutex m (fun x => { x with m_blocked_task_list := SList.Del x.m_blocked_task_list task }))
      m
  else k

/-- The virtual call `m_unblock_func->OnUnblockTask(task, reason)`. -/
def UnblockFunctor.OnUnblockTask (k : Kernel) (f : SyncRef) (task : Nat)
    (reason : Task.UnblockReason) : Kernel :=
  match f with
  | SyncRef.mutex m => Mutex.OnUnblockTask k m task reason
  | SyncRef.semaphore s => SyncObject.OnUnblockTask k (SyncRef.semaphore s) task reason
  | SyncRef.event e => SyncObject.OnUnblockTask k (SyncRef.event e) task reason

/-! ## Blocking and unblocking (macs_scheduler.cpp) -/

/-- `Scheduler::UnblockTaskInternal`. -/
def Scheduler.UnblockTaskInternal (k : Kernel) (task : Nat)
    (reason : Task.UnblockReason) : Bool × Kernel :=
  if (k.tasks task).m_state ≠ Task.State.StateBlocked then (false, k)
  else
    let k := k.setTask task
      (fun t => { t with m_unblock_reason := reason, m_state := Task.State.StateReady })
    let k := if some task ≠ k.sch.m_cur_task then TaskWorkRoom.Insert k task else k
    let k :=
      match (k.tasks task).m_unblock_func with
      | some f =>
        (UnblockFunctor.OnUnblockTask k f task reason).setTask task
          (fun t => { t with m_unblock_func := none })
      | none => k
    (true, k)

/-- `UnblockTask_Priv`.  Without a current task the priority comparison is
skipped (the source dereferences `m_cur_task`). -/
def UnblockTask_Priv (k : Kernel) (task : Nat) : Result × Kernel :=
  let k := CriticalSection k
  let k := TaskSleepRoom.Remove k task
  let r := Scheduler.UnblockTaskInternal k task Task.UnblockReason.UnblockReasonRequest
  if r.1 = false then (Result.ResultErrorInvalidState, r.2)
  else if r.2.sch.m_use_preemption = false then (Result.ResultOk, r.2)
  else
    match r.2.sch.m_cur_task with
    | none => (Result.ResultOk, r.2)
    | some c =>
      if (r.2.tasks c).m_priority < (r.2.tasks task).m_priority then
        (Result.ResultOk, Scheduler.TryContextSwitch r.2)
      else (Result.ResultOk, r.2)

/-- `Scheduler::UnblockTask`. -/
def Scheduler.UnblockTask (k : Kernel) (task : Option Nat) : Result × Kernel :=
  if k.sch.m_started = false then (Result.ResultErrorInvalidState, k)
  else if System.IsSysCallAllowed k = false then (Result.ResultErrorSysCallNotAllowed, k)
  else
    match task with
    | none => (Result.ResultErrorInvalidArgs, k)
    | some t =>
      if System.IsInPrivOrIrq k then UnblockTask_Priv k t
      else SvcExecPrivileged (fun k => UnblockTask_Priv k t) k

/-- `BlockCurrentTask_Priv`.  Without a current task the call is rejected
(the source dereferences `m_cur_task`). -/
def BlockCurrentTask_Priv (k : Kernel) (timeout_ms : Nat)
    (unblock_functor : Option SyncRef) : Result × Kernel :=
  if k.sch.m_started = false then (Result.ResultErrorInvalidState, k)
  else if System.IsInInterrupt k && !System.IsInSysCall k then
    (Result.ResultErrorInterruptNotSupported, k)
  else
    let k := CriticalSection k
    match k.sch.m_cur_task with
    | none => (Result.ResultErrorInvalidState, k)
    | some c =>
      if Task.IsRunnable (k.tasks c) = false then (Result.ResultErrorInvalidState, k)
      else if timeout_ms = 0 then
        (Result.ResultTimeout,
          match unblock_functor with
          | some f => UnblockFunctor.OnUnblockTask k f c Task.UnblockReason.UnblockReasonTimeout
          | none => k)
      else
        let k := k.setTask c (fun t =>
          { t with
            m_state := Task.State.StateBlocked
            m_unblock_reason := Task.UnblockReason.UnblockReasonNone
            m_unblock_func := unblock_functor
            m_dream_ticks :=
              if timeout_ms ≠ INFINITE_TIMEOUT then MsToTicks k timeout_ms else ULONG_MAX })
        let k := TaskSleepRoom.Insert k c
        (Result.ResultOk, Scheduler.TryContextSwitch k)

/-- `SyncObject::BlockCurTask`.  Without a current task the call is rejected
(the source dereferences the null task). -/
def SyncObject.BlockCurTask (k : Kernel) (s : SyncRef) (timeout_ms : Nat) : Result × Kernel :=
  match k.sch.m_cur_task with
  | none => (Result.ResultErrorInvalidState, k)
  | some c =>
    let k := k.setWaiters s (TaskSyncList.Add k (k.waiters s) c)
    let k := Task.SetBlockSync k c s
    BlockCurrentTask_Priv k timeout_ms (some s)

/-- `SyncObject::UnblockTask`.  With an empty waiter list (the source
dereferences the null task) the null task is passed on to
`Scheduler::UnblockTask`. -/
def SyncObject.UnblockTask (k : Kernel) (s : SyncRef) : Result × Kernel :=
  let f := SList.Fetch (k.waiters s)
  let k := k.setWaiters s f.2
  match f.1 with
  | none => Scheduler.UnblockTask k none
  | some task => Scheduler.UnblockTask (Task.DropBlockSync k task) (some task)

/-! ## Mutex (macs_mutex.cpp, macs_mutex.hpp) -/

/-- The loop of `Mutex::RemoveFromOwner` over the owner's remaining objects:
the running maximum of `inh_prior` and the front waiters' priorities. -/
def Mutex.inheritedPriority (k : Kernel) (owned : List Nat) (inh_prior : Nat) : Nat :=
  owned.foldl
    (fun inh pobj =>
      match (k.mutexes pobj).m_blocked_task_list with
      | [] => inh
      | w :: _ => if (k.tasks w).m_priority > inh then (k.tasks w).m_priority else inh)
    inh_prior

/-- `Mutex::RemoveFromOwner`: unlink the mutex from its owner's list and
return the priority the owner inherits from what it still owns.  A mutex
without owner is left alone (the source dereferences `m_owner`). -/
def Mutex.RemoveFromOwner (k : Kernel) (m : Nat) : Nat × Kernel :=
  match (k.mutexes m).m_owner with
  | none => ((k.mutexes m).m_owner_original_priority, k)
  | some o =>
    let k := Task.RemoveOwnedSync k o m
    (Mutex.inheritedPriority k (k.tasks o).m_owned_obj_list
        (k.mutexes m).m_owner_original_priority, k)

/-- `Mutex::UnblockTask`: hand the mutex to the front waiter.  With an empty
waiter list (the source dereferences the null owner) the null task is passed
on to `Scheduler::UnblockTask`. -/
def Mutex.UnblockTask (k : Kernel) (m : Nat) : Result × Kernel :=
  let f := SList.Fetch (k.mutexes m).m_blocked_task_list
  let k := k.setMutex m
    (fun x => { x with m_owner := f.1, m_blocked_task_list := f.2, m_lock_cnt := 1 })
  match f.1 with
  | none => Scheduler.UnblockTask k none
  | some o =>
    let k := Task.AddOwnedSync k o m
    let k := k.setMutex m (fun x => { x with m_owner_original_priority := (k.tasks o).m_priority })
    Scheduler.UnblockTask k (some o)

/-- `Mutex::BlockCurTask`. -/
def Mutex.BlockCurTask (k : Kernel) (m : Nat) (timeout_ms : Nat) : Result × Kernel :=
  let r := SyncObject.BlockCurTask k (SyncRef.mutex m) timeout_ms
  (r.1, Mutex.UpdateOwnerPriority r.2 m)

/-- `Mutex::Lock_Priv`. -/
def Mutex.Lock_Priv (k : Kernel) (mutex : Nat) (timeout_ms : Nat) : Result × Kernel :=
  let k := CriticalSection k
  if (k.mutexes mutex).m_owner = k.sch.m_cur_task then
    match k.sch.m_cur_task with
    | none => (Result.ResultErrorInvalidState, k)
    | some _ =>
      if (k.mutexes mutex).m_owner.isSome ∧ (k.mutexes mutex).m_recursive = false then
        (Result.ResultErrorInvalidState, MACS_ALARM k ALARM_REASON.AR_NESTED_MUTEX_LOCK)
      else if (k.mutexes mutex).m_lock_cnt = BYTE_MAX then
        (Result.ResultErrorInvalidState, MACS_ALARM k ALARM_REASON.AR_COUNTER_OVERFLOW)
      else
        (Result.ResultOk,
          k.setMutex mutex (fun x => { x with m_lock_cnt := (x.m_lock_cnt + 1) % 2 ^ 32 }))
  else
    match (k.mutexes mutex).m_owner, k.sch.m_cur_task with
    | none, some cur_task =>
      let orig :=
        match (k.tasks cur_task).m_owned_obj_list with
        | [] => (k.tasks cur_task).m_priority
        | pobj :: _ => (k.mutexes pobj).m_owner_original_priority
      let k := k.setMutex mutex
        (fun x => { x with m_owner := some cur_task, m_owner_original_priority := orig })
      let k := Task.AddOwnedSync k cur_task mutex
      let k := k.setMutex mutex (fun x => { x with m_lock_cnt := 1 })
      (Result.ResultOk,
        k.setTask cur_task
          (fun t => { t with m_unblock_reason := Task.UnblockReason.UnblockReasonNone }))
    | none, none => (Result.ResultErrorInvalidState, k)
    | some _, _ =>
      if timeout_ms = 0 then (Result.ResultTimeout, k)
      else Mutex.BlockCurTask k mutex timeout_ms

/-- The last statement of the public `Lock`/`Wait` wrappers:
`Task::GetCurrent()->m_unblock_reason == UnblockReasonTimeout ? ResultTimeout : ResultOk`. -/
def resultByUnblockReason (k : Kernel) : Result :=
  match k.sch.m_cur_task with
  | none => Result.ResultOk
  | some c =>
    if (k.tasks c).m_unblock_reason = Task.UnblockReason.UnblockReasonTimeout then
      Result.ResultTimeout
    else Result.ResultOk

/-- `Mutex::Lock`.  The field `m_unblock_reason` is read in the state in
which the privileged call returns, which is the state the caller goes on in
whenever the call did not suspend it. -/
def Mutex.Lock (k : Kernel) (mutex : Nat) (timeout_ms : Nat) : Result × Kernel :=
  if System.IsInInterrupt k then (Result.ResultErrorInterruptNotSupported, k)
  else
    let r :=
      if System.IsInPrivOrIrq k then Mutex.Lock_Priv k mutex timeout_ms
      else SvcExecPrivileged (fun k => Mutex.Lock_Priv k mutex timeout_ms) k
    if r.1 ≠ Result.ResultOk then r
    else (resultByUnblockReason r.2, r.2)

/-- `Mutex::Unlock_Priv`. -/
def Mutex.Unlock_Priv (k : Kernel) (mutex : Nat) : Result × Kernel :=
  let k := CriticalSection k
  match k.sch.m_cur_task with
  | none => (Result.ResultErrorInvalidState, k)
  | some cur_task =>
    if (k.mutexes mutex).m_owner ≠ some cur_task then (Result.ResultErrorInvalidState, k)
    else
      let k := k.setMutex mutex
        (fun x => { x with m_lock_cnt := (x.m_lock_cnt + 2 ^ 32 - 1) % 2 ^ 32 })
      if (k.mutexes mutex).m_lock_cnt > 0 then (Result.ResultOk, k)
      else
        let r := Mutex.RemoveFromOwner k mutex
        let k :=
          if (r.2.tasks cur_task).m_priority ≠ r.1 then _SetTaskPriority_Priv r.2 cur_task r.1
          else r.2
        if (k.mutexes mutex).m_blocked_task_list ≠ [] then Mutex.UnblockTask k mutex
        else (Result.ResultOk, k.setMutex mutex (fun x => { x with m_owner := none }))

/-- `Mutex::Unlock`. -/
def Mutex.Unlock (k : Kernel) (mutex : Nat) : Result × Kernel :=
  if System.IsInInterrupt k then (Result.ResultErrorInterruptNotSupported, k)
  else if System.IsInPrivOrIrq k then Mutex.Unlock_Priv k mutex
  else SvcExecPrivileged (fun k => Mutex.Unlock_Priv k mutex) k

/-! ## Semaphore (macs_semaphore.cpp, macs_semaphore.hpp) -/

/-- The constructor `Semaphore::Semaphore(start_count, max_count)`. -/
def Semaphore.new (start_count max_count : Nat) : Semaphore :=
  { m_blocked_task_list := []
    m_count := if start_count ≤ max_count then start_count else max_count
    m_max_count := max_count }

/-- `Semaphore::TryDecrement`. -/
def Semaphore.TryDecrement (k : Kernel) (s : Nat) : Bool × Kernel :=
  if (k.semaphores s).m_count ≠ 0 then
    (true, k.setSemaphore s (fun x => { x with m_count := x.m_count - 1 }))
  else (false, k)

/-- `Semaphore::Wait_Priv`.  Without a current task the write to
`m_unblock_reason` is skipped (the source dereferences the null task). -/
def Semaphore.Wait_Priv (k : Kernel) (semaphore : Nat) (timeout_ms : Nat) : Result × Kernel :=
  let k := CriticalSection k
  let r := Semaphore.TryDecrement k semaphore
  if r.1 then
    (Result.ResultOk,
      match r.2.sch.m_cur_task with
      | none => r.2
      | some c =>
        r.2.setTask c (fun t => { t with m_unblock_reason := Task.UnblockReason.UnblockReasonNone }))
  else if timeout_ms = 0 then (Result.ResultTimeout, r.2)
  else SyncObject.BlockCurTask r.2 (SyncRef.semaphore semaphore) timeout_ms

/-- `Semaphore::Signal_Priv`. -/
def Semaphore.Signal_Priv (k : Kernel) (semaphore : Nat) : Result × Kernel :=
  let k := CriticalSection k
  if (k.semaphores semaphore).m_count = (k.semaphores semaphore).m_max_count then
    (Result.ResultErrorInvalidState, k)
  else if (k.semaphores semaphore).m_blocked_task_list ≠ [] then
    SyncObject.UnblockTask k (SyncRef.semaphore semaphore)
  else
    (Result.ResultOk,
      k.setSemaphore semaphore (fun x => { x with m_count := (x.m_count + 1) % 2 ^ 32 }))

/-- `Semaphore::Wait` up to the privileged call and the final read of
`m_unblock_reason` in the state in which that call returns (see `Mutex.Lock`). -/
def Semaphore.Wait (k : Kernel) (semaphore : Nat) (timeout_ms : Nat) : Result × Kernel :=
  if k.sch.m_initialized = false ∨ k.sch.m_started = false then
    (Result.ResultErrorInvalidState, k)
  else if timeout_ms = 0 ∧ System.IsSysCallAllowed k = false then
    (Result.ResultErrorSysCallNotAllowed, k)
  else if timeout_ms ≠ 0 ∧ System.IsInInterrupt k = true then
    (Result.ResultErrorInterruptNotSupported, k)
  else
    let r :=
      if System.IsInPrivOrIrq k then Semaphore.Wait_Priv k semaphore timeout_ms
      else SvcExecPrivileged (fun k => Semaphore.Wait_Priv k semaphore timeout_ms) k
    if r.1 ≠ Result.ResultOk then r
    else (resultByUnblockReason r.2, r.2)

/-- `Semaphore::Signal`. -/
def Semaphore.Signal (k : Kernel) (semaphore : Nat) : Result × Kernel :=
  if k.sch.m_initialized = false ∨ k.sch.m_started = false then
    (Result.ResultErrorInvalidState, k)
  else if System.IsSysCallAllowed k = false then (Result.ResultErrorSysCallNotAllowed, k)
  else if System.IsInPrivOrIrq k then Semaphore.Signal_Priv k semaphore
  else SvcExecPrivileged (fun k => Semaphore.Signal_Priv k semaphore) k

/-! ## Tick handler and context switch (macs_scheduler.cpp) -/

/-- `TaskIrqRoom::ActivateTasks`. -/
def TaskIrqRoom.ActivateTasks (k : Kernel) : Kernel :=
  (k.sch.m_irq_tasks.foldl
    (fun k ptsk =>
      if (k.tasks ptsk).m_irq_up = true ∧ (k.tasks ptsk).m_state = Task.State.StateBlocked
          ∧ (k.tasks ptsk).m_unblock_func = none then
        let k := TaskSleepRoom.Remove k ptsk
        let k := (Scheduler.UnblockTaskInternal k ptsk Task.UnblockReason.UnblockReasonIrq).2
        k.setTask ptsk (fun t => { t with m_irq_up := false })
      else k)
    k).setSch (fun s => { s with m_irq_event := false })

/-- The loop of `Scheduler::SysTickHandler` that fetches the expired
sleepers; every round unlinks the head of the sleep queue, so the length of
the queue bounds the number of rounds. -/
def Scheduler.wakeExpired : Nat → Kernel → Kernel
  | 0, k => k
  | fuel + 1, k =>
    match TaskSleepRoom.Fetch k with
    | (none, _) => k
    | (some awake_task, k1) =>
      Scheduler.wakeExpired fuel
        (Scheduler.UnblockTaskInternal k1 awake_task Task.UnblockReason.UnblockReasonTimeout).2

/-- `Scheduler::SysTickHandler`. -/
def Scheduler.SysTickHandler (k : Kernel) : Bool × Kernel :=
  let k := CriticalSection k
  let k := k.setSch (fun s => { s with m_tick_count := (s.m_tick_count + 1) % 2 ^ 32 })
  if k.sch.m_started = false then (false, k)
  else
    let k := TaskSleepRoom.Tick k
    let k := Scheduler.wakeExpired k.sch.m_sleep_tasks.length k
    if k.sch.m_pause_flg = true ∨ k.sch.m_pause_cnt ≠ 0 then
      (false, k.setSch (fun s => { s with m_pending_swc := true }))
    else if k.sch.m_use_preemption = false then (false, k)
    else (Scheduler.IsContextSwitchRequired k, k)

/-- `Scheduler::SelectNextTask`.  With an empty ready queue there is no
current task afterwards (the source dereferences the null task). -/
def Scheduler.SelectNextTask (k : Kernel) : Kernel :=
  let k :=
    match k.sch.m_cur_task with
    | none => k
    | some c =>
      let k :=
        if (k.tasks c).m_state = Task.State.StateRunning then
          k.setTask c (fun t => { t with m_state := Task.State.StateReady })
        else k
      if (k.tasks c).m_state = Task.State.StateReady then TaskWorkRoom.Insert k c else k
  let f := TaskWorkRoom.Fetch k
  let k := f.2.setSch (fun s => { s with m_cur_task := f.1 })
  match f.1 with
  | none => k
  | some n => k.setTask n (fun t => { t with m_state := Task.State.StateRunning })

/-- `SystemBase::SetPrivMode`. -/
def System.SetPrivMode (k : Kernel) (is_on : Bool) : Kernel :=
  { k with sys := { k.sys with priv := is_on } }

/-- `Scheduler::SwitchContext`; the saved stack pointer is not part of the
model. -/
def Scheduler.SwitchContext (k : Kernel) : Kernel :=
  let k := CriticalSection k
  let k := k.setSch (fun s => { s with m_pending_swc := false })
  let k := if k.sch.m_irq_event then TaskIrqRoom.ActivateTasks k else k
  let k := Scheduler.SelectNextTask k
  match k.sch.m_cur_task with
  | none => k
  | some c => System.SetPrivMode k (decide ((k.tasks c).m_mode = Task.Mode.ModePrivileged))

/-- Run a handler in handler mode and return to the interrupted mode. -/
def inHandler (f : Kernel → Kernel) (k : Kernel) : Kernel :=
  let r := f { k with sys := { k.sys with mode := ExecMode.irq true } }
  { r with sys := { r.sys with mode := k.sys.mode } }

/-- The PendSV exception: taken in thread mode when the pending bit is set;
the bit is cleared on entry and `Scheduler::SwitchContext` runs. -/
def PendSV_Handler (k : Kernel) : Kernel :=
  if k.sys.pendsv then
    inHandler Scheduler.SwitchContext { k with sys := { k.sys with pendsv := false } }
  else k

/-- `SysTick_Handler` (macs_cortex_m.cpp). -/
def SysTick_Handler (k : Kernel) : Kernel :=
  inHandler
    (fun k =>
      let r := Scheduler.SysTickHandler k
      if r.1 then System.SwitchContext r.2 else r.2)
    k

/-- `Scheduler::BlockCurrentTask` up to the privileged call (what follows
it runs when the task is resumed). -/
def Scheduler.BlockCurrentTask (k : Kernel) (timeout_ms : Nat) : Result × Kernel :=
  if System.IsInPrivOrIrq k then BlockCurrentTask_Priv k timeout_ms none
  else SvcExecPrivileged (fun k => BlockCurrentTask_Priv k timeout_ms none) k

/-- `Scheduler::IsPriorityValid` with `PriorityMax = PriorityRealtime = 60`. -/
def Scheduler.IsPriorityValid (priority : Nat) : Bool := decide (priority ≤ 60)

/-- `Scheduler::SetTaskPriority`. -/
def Scheduler.SetTaskPriority (k : Kernel) (task : Option Nat) (priority : Nat) :
    Result × Kernel :=
  if k.sch.m_started = false then (Result.ResultErrorInvalidState, k)
  else if System.IsInInterrupt k then (Result.ResultErrorInterruptNotSupported, k)
  else
    match task with
    | none => (Result.ResultErrorInvalidArgs, k)
    | some t =>
      if Scheduler.IsPriorityValid priority = false then (Result.ResultErrorInvalidArgs, k)
      else if System.IsInPrivOrIrq k then SetTaskPriority_Priv k t priority
      else SvcExecPrivileged (fun k => SetTaskPriority_Priv k t priority) k

/-! ## Runs -/

/-- What can happen next: the current task calls the kernel, or the tick
interrupt fires. -/
inductive Op where
  | lock (mutex : Nat) (timeout_ms : Nat)
  | unlock (mutex : Nat)
  | delay (timeout_ms : Nat)
  | setPriority (task : Nat) (priority : Nat)
  | wait (semaphore : Nat) (timeout_ms : Nat)
  | signal (semaphore : Nat)
  | tick
  deriving DecidableEq, Repr

/-- One step of a run: the operation, then the pending context switch, which
the processor takes as soon as it is back in thread mode. -/
def step (k : Kernel) : Op → Kernel
  | Op.lock m t => PendSV_Handler (Mutex.Lock k m t).2
  | Op.unlock m => PendSV_Handler (Mutex.Unlock k m).2
  | Op.delay t => PendSV_Handler (Scheduler.BlockCurrentTask k t).2
  | Op.setPriority t p => PendSV_Handler (Scheduler.SetTaskPriority k (some t) p).2
  | Op.wait s t => PendSV_Handler (Semaphore.Wait k s t).2
  | Op.signal s => PendSV_Handler (Semaphore.Signal k s).2
  | Op.tick => PendSV_Handler (SysTick_Handler k)

/-- The state after a sequence of steps. -/
def run (k : Kernel) (ops : List Op) : Kernel := ops.foldl step k

/-! ## A concrete system

Four privileged tasks on a started, preemptive scheduler with a tick rate of
1000 Hz: task 0 is the idle task (priority 0, ready), task 2 (priority 10)
is running, task 1 (priority 20) sleeps in `Task::Delay` for one more tick
and task 3 (priority 50) for three more ticks.  Mutexes 0 and 1 are free and
non-recursive, mutex 2 is free and recursive; semaphore 0 was constructed as
`Semaphore(2, 3)` and semaphore 1 as `Semaphore(0, 1)`. -/

/-- The tasks of the concrete system. -/
def demoTasks : Nat → Task
  | 0 => { m_priority := 0, m_state := Task.State.StateReady, m_mode := Task.Mode.ModePrivileged }
  | 1 =>
    { m_priority := 20, m_state := Task.State.StateBlocked, m_mode := Task.Mode.ModePrivileged
      m_dream_ticks := 1 }
  | 2 => { m_priority := 10, m_state := Task.State.StateRunning, m_mode := Task.Mode.ModePrivileged }
  | 3 =>
    { m_priority := 50, m_state := Task.State.StateBlocked, m_mode := Task.Mode.ModePrivileged
      m_dream_ticks := 3 }
  | _ => {}

/-- The concrete system. -/
def demo : Kernel :=
  { sch :=
      { m_initialized := true, m_started := true, m_cur_task := some 2
        m_work_tasks := [0], m_sleep_tasks := [1, 3] }
    tasks := demoTasks
    mutexes := fun i => if i = 2 then { m_recursive := true } else {}
    semaphores := fun i => if i = 0 then Semaphore.new 2 3 else Semaphore.new 0 1
    sys := { priv := true } }

/-- The task that `Scheduler::UnblockTaskInternal` leaves behind when the
reason is `UnblockReasonRequest`. -/
def wokenByRequest (t : Task) : Task :=
  { t with
    m_unblock_reason := Task.UnblockReason.UnblockReasonRequest
    m_state := Task.State.StateReady
    m_unblock_func := none }

/-- A run of the concrete system after which task 1 is running and owns
mutex 0 while task 2, which owns mutex 1, is blocked on mutex 0: task 2
locks mutex 1, the tick wakes task 1, which locks mutex 0 and sleeps for two
ticks; task 2 blocks on mutex 0; two ticks later tasks 1 and 3 wake, task 3
sleeps again, and task 1 runs. -/
def transferOps : List Op :=
  [Op.lock 1 INFINITE_TIMEOUT, Op.tick, Op.lock 0 INFINITE_TIMEOUT, Op.delay 2,
   Op.lock 0 INFINITE_TIMEOUT, Op.tick, Op.tick, Op.delay INFINITE_TIMEOUT]

/-- The state after `n` successive calls of `Mutex::Lock_Priv` on the same
mutex. -/
def Mutex.lockTimes (mutex timeout_ms : Nat) (k : Kernel) : Nat → Kernel
  | 0 => k
  | n + 1 => (Mutex.Lock_Priv (Mutex.lockTimes mutex timeout_ms k n) mutex timeout_ms).2

/-- The state after `n` successive calls of `Mutex::Unlock_Priv` on the same
mutex. -/
def Mutex.unlockTimes (mutex : Nat) (k : Kernel) : Nat → Kernel
  | 0 => k
  | n + 1 => (Mutex.Unlock_Priv (Mutex.unlockTimes mutex k n) mutex).2

/-- A run of the concrete system after which task 2 is current again, still
owns the recursive mutex 2 with one lock, and has `UnblockReasonTimeout` as
its last unblock reason: task 2 locks mutex 2 and sleeps for one tick; the
tick wakes tasks 1 and 2, task 1 runs first and goes to sleep for good. -/
def relockOps : List Op :=
  [Op.lock 2 INFINITE_TIMEOUT, Op.delay 1, Op.tick, Op.delay INFINITE_TIMEOUT]

/-- A run of the concrete system, with no call of `SetTaskPriority`, that
ends when task 2 (added with priority 10) is about to release its last mutex.
Task 2 locks mutex 1; task 1 locks mutex 0 and sleeps; task 2 blocks on mutex
0; task 3 (priority 50) blocks on mutex 1, which raises task 2 to 50; task 1
unlocks mutex 0, which passes to task 2; task 2 unlocks mutex 1, which passes
to task 3 and takes task 2 back to 10; tasks 3 and 1 finish and sleep. -/
def inheritOps : List Op :=
  [Op.lock 1 INFINITE_TIMEOUT, Op.tick, Op.lock 0 INFINITE_TIMEOUT, Op.delay 2,
   Op.lock 0 INFINITE_TIMEOUT, Op.tick, Op.tick, Op.lock 1 INFINITE_TIMEOUT, Op.unlock 0,
   Op.unlock 1, Op.unlock 1, Op.delay INFINITE_TIMEOUT, Op.delay INFINITE_TIMEOUT]

/-- A run of the concrete system after which task 2 owns mutex 1 and task 1
waits for it, and task 2 has raised the priority of task 1 to 60. -/
def raiseWaiterOps : List Op :=
  [Op.lock 1 INFINITE_TIMEOUT, Op.tick, Op.lock 1 INFINITE_TIMEOUT, Op.setPriority 1 60]

/-- A run of the concrete system after which task 2 owns mutexes 0 and 1
and task 1 waits for mutex 0. -/
def twoOwnedOps : List Op :=
  [Op.lock 0 INFINITE_TIMEOUT, Op.lock 1 INFINITE_TIMEOUT, Op.tick, Op.lock 0 INFINITE_TIMEOUT]

/-- The priority-inheritance bound as a state invariant: every task has
at least the priority of every task that waits on a mutex in its owned list. -/
def PriorityInheritanceInv (k : Kernel) : Prop :=
  ∀ t m w, m ∈ (k.tasks t).m_owned_obj_list → w ∈ (k.mutexes m).m_blocked_task_list →
    (k.tasks w).m_priority ≤ (k.tasks t).m_priority

/-- A waiter list in non-increasing order of the current priorities. -/
def waitersOrdered (k : Kernel) (l : List Nat) : Prop :=
  l.Pairwise (fun a b => (k.tasks b).m_priority ≤ (k.tasks a).m_priority)

/-- A run of the concrete system after which the idle task 0, raised to
priority 10 by task 2, is running and task 2 (priority 10) is the front of the
ready queue. -/
def equalPriorityOps : List Op := [Op.setPriority 0 10]

/-! ## Event (macs_event.cpp, macs_event.hpp) -/

/-- The loop of `Event::Raise_Priv`: while the event holds waiters, unblock
the front one, and stop after the first unless the event is a broadcast one.
Every round unlinks the front waiter, so the length of the waiter list bounds
the number of rounds. -/
def Event.raiseLoop : Nat → Kernel → Nat → Kernel
  | 0, k, _ => k
  | fuel + 1, k, event =>
    if (k.events event).m_blocked_task_list ≠ [] then
      let k := (SyncObject.UnblockTask k (SyncRef.event event)).2
      if (k.events event).m_broadcast = false then k else Event.raiseLoop fuel k event
    else k

/-- `Event::Raise_Priv`. -/
def Event.Raise_Priv (k : Kernel) (event : Nat) : Result × Kernel :=
  let k := CriticalSection k
  (Result.ResultOk, Event.raiseLoop (k.events event).m_blocked_task_list.length k event)

/-- `Event::Wait_Priv`. -/
def Event.Wait_Priv (k : Kernel) (event : Nat) (timeout_ms : Nat) : Result × Kernel :=
  let k := CriticalSection k
  if timeout_ms = 0 then (Result.ResultTimeout, k)
  else SyncObject.BlockCurTask k (SyncRef.event event) timeout_ms

/-- `Event::Raise`. -/
def Event.Raise (k : Kernel) (event : Nat) : Result × Kernel :=
  if k.sch.m_initialized = false ∨ k.sch.m_started = false then
    (Result.ResultErrorInvalidState, k)
  else if System.IsSysCallAllowed k = false then (Result.ResultErrorSysCallNotAllowed, k)
  else if System.IsInPrivOrIrq k then Event.Raise_Priv k event
  else SvcExecPrivileged (fun k => Event.Raise_Priv k event) k

/-- `Event::Wait` up to the privileged call and the final read of
`m_unblock_reason` in the state in which that call returns (see `Mutex.Lock`). -/
def Event.Wait (k : Kernel) (event : Nat) (timeout_ms : Nat) : Result × Kernel :=
  if k.sch.m_initialized = false ∨ k.sch.m_started = false then
    (Result.ResultErrorInvalidState, k)
  else if System.IsInInterrupt k then (Result.ResultErrorInterruptNotSupported, k)
  else
    let r :=
      if System.IsInPrivOrIrq k then Event.Wait_Priv k event timeout_ms
      else SvcExecPrivileged (fun k => Event.Wait_Priv k event timeout_ms) k
    if r.1 ≠ Result.ResultOk then r
    else (resultByUnblockReason r.2, r.2)

/-! ## Projections used by the frame lemmas -/

/-- The scheduler fields that only `Initialize`, `Start`, `Pause` and the
tick handler write: tick counter, initialized, started, pause flag, pause
counter, preemption. -/
def Scheduler.control (s : Scheduler) : Nat × Bool × Bool × Bool × Nat × Bool :=
  (s.m_tick_count, s.m_initialized, s.m_started, s.m_pause_flg, s.m_pause_cnt,
    s.m_use_preemption)

/-- The counter and the maximum of a semaphore. -/
def Kernel.semCounts (k : Kernel) (s : Nat) : Nat × Nat :=
  ((k.semaphores s).m_count, (k.semaphores s).m_max_count)

/-! ## Pause (macs_scheduler.cpp) -/

/-- `Scheduler::Pause`. -/
def Scheduler.Pause (k : Kernel) (set_on : Bool) : Result × Kernel :=
  if k.sch.m_started = false then (Result.ResultErrorInvalidState, k)
  else if set_on = false then
    if k.sch.m_pause_cnt = 0 then
      (Result.ResultErrorInvalidState, MACS_ALARM k ALARM_REASON.AR_SCHED_NOT_ON_PAUSE)
    else
      let k := k.setSch (fun s => { s with m_pause_cnt := (s.m_pause_cnt + 2 ^ 32 - 1) % 2 ^ 32 })
      let k :=
        if k.sch.m_pause_cnt = 0 then
          if k.sch.m_pending_swc then Scheduler.Yield k else k
        else k
      (Result.ResultOk, k)
  else
    let k := k.setSch (fun s => { s with m_pause_flg := true })
    let k := k.setSch (fun s => { s with m_pause_cnt := (s.m_pause_cnt + 1) % 2 ^ 32 })
    let k := if k.sch.m_pause_cnt = 0 then MACS_ALARM k ALARM_REASON.AR_COUNTER_OVERFLOW else k
    let k := k.setSch (fun s => { s with m_pause_flg := false })
    (Result.ResultOk, k)

/-- The state after a sequence of `Pause` calls, first call first. -/
def Scheduler.pauseRun (k : Kernel) : List Bool → Kernel
  | [] => k
  | set_on :: rest => Scheduler.pauseRun (Scheduler.Pause k set_on).2 rest

/-- The number of `Pause(false)` calls of the sequence that return
`ResultOk`. -/
def Scheduler.pauseReleases (k : Kernel) : List Bool → Nat
  | [] => 0
  | set_on :: rest =>
    (if set_on = false ∧ (Scheduler.Pause k set_on).1 = Result.ResultOk then 1 else 0)
      + Scheduler.pauseReleases (Scheduler.Pause k set_on).2 rest

/-! ## Runs of semaphore operations -/

/-- What can happen to the semaphores: a task waits or signals, a blocked
task is woken by timeout, the tick interrupt fires, the pending context
switch is taken. -/
inductive SemOp where
  | wait (semaphore : Nat) (timeout_ms : Nat)
  | signal (semaphore : Nat)
  | timeout (task : Nat)
  | tick
  | switch
  deriving DecidableEq, Repr

/-- One step of a run of semaphore operations. -/
def semStep (k : Kernel) : SemOp → Kernel
  | SemOp.wait s t => (Semaphore.Wait_Priv k s t).2
  | SemOp.signal s => (Semaphore.Signal_Priv k s).2
  | SemOp.timeout w =>
    (Scheduler.UnblockTaskInternal k w Task.UnblockReason.UnblockReasonTimeout).2
  | SemOp.tick => SysTick_Handler k
  | SemOp.switch => PendSV_Handler k

/-- The state after a sequence of semaphore operations. -/
def semRun (k : Kernel) (ops : List SemOp) : Kernel := ops.foldl semStep k

/-! ## A concrete system with waiters on an event -/

/-- The concrete system with every event constructed as `Event(false)`. -/
def demoUnicast : Kernel :=
  { demo with events := fun _ => { m_broadcast := false } }

/-- From a concrete system, the state in which tasks 3, 1 and 2 (priorities
50, 20, 10) wait on event 0, in this order, and the idle task runs: task 2
waits on the event; the tick wakes task 1, which waits on the event; two ticks
later task 3 wakes and waits on the event. -/
def eventWaiters (k0 : Kernel) : Kernel :=
  let k := PendSV_Handler (Event.Wait k0 0 INFINITE_TIMEOUT).2
  let k := step k Op.tick
  let k := PendSV_Handler (Event.Wait k 0 INFINITE_TIMEOUT).2
  let k := run k [Op.tick, Op.tick]
  PendSV_Handler (Event.Wait k 0 INFINITE_TIMEOUT).2

/-! ## Ticks and the sleep queue -/

/-- The state after `n` calls of `Scheduler::SysTickHandler`. -/
def Scheduler.ticks (k : Kernel) : Nat → Kernel
  | 0 => k
  | n + 1 => (Scheduler.SysTickHandler (Scheduler.ticks k n)).2

/-- The fields of a task that the sleep queue is about: state, remaining
ticks, reason of the last unblocking. -/
def Task.timing (t : Task) : Task.State × Nat × Task.UnblockReason :=
  (t.m_state, t.m_dream_ticks, t.m_unblock_reason)

/-- A list of tasks in non-decreasing order of their remaining ticks. -/
def sleepOrdered (k : Kernel) (l : List Nat) : Prop :=
  l.Pairwise (fun a b => (k.tasks a).m_dream_ticks ≤ (k.tasks b).m_dream_ticks)

/-- The sleep queue as `TaskSleepRoom::Insert` and `TaskSleepRoom::Tick`
assert it: in wake-up order, without repetition, every task in it blocked
with a non-zero 32-bit tick count. -/
def SleepQueueInv (k : Kernel) : Prop :=
  sleepOrdered k k.sch.m_sleep_tasks ∧ k.sch.m_sleep_tasks.Nodup
  ∧ ∀ t, t ∈ k.sch.m_sleep_tasks →
      (k.tasks t).m_state = Task.State.StateBlocked ∧ (k.tasks t).m_dream_ticks ≠ 0
      ∧ (k.tasks t).m_dream_ticks ≤ ULONG_MAX

/-- A concrete system in which nobody sleeps: task 3 (priority 50) runs,
tasks 1 (priority 20), 2 (priority 10) and the idle task 0 are ready. -/
def demoAwake : Kernel :=
  { sch :=
      { m_initialized := true, m_started := true, m_cur_task := some 3
        m_work_tasks := [1, 2, 0] }
    tasks := fun i =>
      match i with
      | 0 => { m_priority := 0, m_state := Task.State.StateReady, m_mode := Task.Mode.ModePrivileged }
      | 1 => { m_priority := 20, m_state := Task.State.StateReady, m_mode := Task.Mode.ModePrivileged }
      | 2 => { m_priority := 10, m_state := Task.State.StateReady, m_mode := Task.Mode.ModePrivileged }
      | 3 =>
        { m_priority := 50, m_state := Task.State.StateRunning
          m_mode := Task.Mode.ModePrivileged }
      | _ => {}
    sys := { priv := true } }

/-- Tasks 3, 1 and 2 of `demoAwake` call `Delay` with 100, 50 and 75
milliseconds, in this order, within one tick. -/
def threeDelays : List Op := [Op.delay 100, Op.delay 50, Op.delay 75]

/-! ## Message queue (macs_message_queue.hpp) -/

/-- The fields of `MessageQueue<T>`.  The two member semaphores live in the
semaphore heap at the indices `m_sem_read` and `m_sem_write`; the array is the
function from slot index to element, and the two pointers are slot indices
(offsets from `m_memory`). -/
structure MessageQueue (T : Type) where
  m_len : Nat
  m_sem_read : Nat
  m_sem_write : Nat
  m_memory : Nat → T
  m_head_ptr : Nat
  m_tail_ptr : Nat

/-- The constructor `MessageQueue(max_size, mem)`: `m_len(max_size + 1)`,
`m_sem_read(0, max_size)`, `m_sem_write(max_size, max_size)`, both pointers at
the start of the array. -/
def MessageQueue.new {T : Type} (k : Kernel) (sem_read sem_write : Nat) (max_size : Nat)
    (mem : Nat → T) : Kernel × MessageQueue T :=
  ((k.setSemaphore sem_read (fun _ => Semaphore.new 0 max_size)).setSemaphore sem_write
      (fun _ => Semaphore.new max_size max_size),
    { m_len := (max_size + 1) % 2 ^ 32
      m_sem_read := sem_read
      m_sem_write := sem_write
      m_memory := mem
      m_head_ptr := 0
      m_tail_ptr := 0 })

/-- `MessageQueue::Count`: `diff = m_tail_ptr - m_head_ptr`, and
`diff >= 0 ? diff : m_len + diff`. -/
def MessageQueue.Count {T : Type} (q : MessageQueue T) : Nat :=
  let diff : Int := (q.m_tail_ptr : Int) - (q.m_head_ptr : Int)
  if diff ≥ 0 then diff.toNat else ((q.m_len : Int) + diff).toNat

/-- `MessageQueue::GetMaxSize`. -/
def MessageQueue.GetMaxSize {T : Type} (q : MessageQueue T) : Nat := q.m_len - 1

/-- `MessageQueue::ACTION`. -/
inductive MessageQueue.ACTION where
  | QA_PUSH_FRONT
  | QA_PUSH_BACK
  | QA_POP
  | QA_PEEK
  deriving DecidableEq, Repr

/-- The `switch (action)` of `MessageQueue::ProcessMessage`: the queue and
the caller's `message` variable afterwards. -/
def MessageQueue.act {T : Type} (q : MessageQueue T) (action : MessageQueue.ACTION)
    (message : T) : MessageQueue T × T :=
  match action with
  | MessageQueue.ACTION.QA_PUSH_FRONT =>
    let head := if q.m_head_ptr = 0 then q.m_len else q.m_head_ptr
    let head := head - 1
    ({ q with
        m_head_ptr := head
        m_memory := fun i => if i = head then message else q.m_memory i }, message)
  | MessageQueue.ACTION.QA_PUSH_BACK =>
    let tail := q.m_tail_ptr + 1
    ({ q with
        m_memory := fun i => if i = q.m_tail_ptr then message else q.m_memory i
        m_tail_ptr := if tail = q.m_len then 0 else tail }, message)
  | MessageQueue.ACTION.QA_POP =>
    let head := q.m_head_ptr + 1
    ({ q with m_head_ptr := if head = q.m_len then 0 else head }, q.m_memory q.m_head_ptr)
  | MessageQueue.ACTION.QA_PEEK => (q, q.m_memory q.m_head_ptr)

/-- `MessageQueue::ProcessMessage`.  What follows the call of `Wait` is taken
in the state in which that call returns, which is the state the caller goes on
in whenever the call did not suspend it (see `Mutex.Lock`). -/
def MessageQueue.ProcessMessage {T : Type} (k : Kernel) (q : MessageQueue T)
    (wait_sem sig_sem : Nat) (message : T) (action : MessageQueue.ACTION)
    (timeout_ms : Nat) : Result × Kernel × MessageQueue T × T :=
  if k.sch.m_initialized = false ∨ k.sch.m_started = false then
    (Result.ResultErrorInvalidState, k, q, message)
  else if timeout_ms = 0 ∧ System.IsSysCallAllowed k = false then
    (Result.ResultErrorSysCallNotAllowed, k, q, message)
  else if timeout_ms ≠ 0 ∧ System.IsInInterrupt k = true then
    (Result.ResultErrorInterruptNotSupported, k, q, message)
  else
    let r := Semaphore.Wait k wait_sem (if System.IsInInterrupt k then 0 else timeout_ms)
    if r.1 ≠ Result.ResultOk then (r.1, r.2, q, message)
    else
      let k := (Scheduler.Pause r.2 true).2
      let a := MessageQueue.act q action message
      let k := (Scheduler.Pause k false).2
      let s := Semaphore.Signal k sig_sem
      (s.1, s.2, a.1, a.2)

/-- `MessageQueue::Push`. -/
def MessageQueue.Push {T : Type} (k : Kernel) (q : MessageQueue T) (message : T)
    (timeout_ms : Nat) : Result × Kernel × MessageQueue T × T :=
  MessageQueue.ProcessMessage k q q.m_sem_write q.m_sem_read message
    MessageQueue.ACTION.QA_PUSH_BACK timeout_ms

/-- `MessageQueue::PushFront`. -/
def MessageQueue.PushFront {T : Type} (k : Kernel) (q : MessageQueue T) (message : T)
    (timeout_ms : Nat) : Result × Kernel × MessageQueue T × T :=
  MessageQueue.ProcessMessage k q q.m_sem_write q.m_sem_read message
    MessageQueue.ACTION.QA_PUSH_FRONT timeout_ms

/-- `MessageQueue::Pop`; `message` is the caller's variable. -/
def MessageQueue.Pop {T : Type} (k : Kernel) (q : MessageQueue T) (message : T)
    (timeout_ms : Nat) : Result × Kernel × MessageQueue T × T :=
  MessageQueue.ProcessMessage k q q.m_sem_read q.m_sem_write message
    MessageQueue.ACTION.QA_POP timeout_ms

/-- `MessageQueue::Peek`; `message` is the caller's variable. -/
def MessageQueue.Peek {T : Type} (k : Kernel) (q : MessageQueue T) (message : T)
    (timeout_ms : Nat) : Result × Kernel × MessageQueue T × T :=
  MessageQueue.ProcessMessage k q q.m_sem_read q.m_sem_read message
    MessageQueue.ACTION.QA_PEEK timeout_ms

/-! ### Runs of queue operations and the abstract queue -/

/-- A call of one of the four queue operations; for `pop` and `peek` the
value is what the caller's variable held before. -/
inductive QOp (T : Type) where
  | push (message : T) (timeout_ms : Nat)
  | pushFront (message : T) (timeout_ms : Nat)
  | pop (message : T) (timeout_ms : Nat)
  | peek (message : T) (timeout_ms : Nat)

/-- The timeout of a call. -/
def QOp.timeout {T : Type} : QOp T → Nat
  | QOp.push _ t => t
  | QOp.pushFront _ t => t
  | QOp.pop _ t => t
  | QOp.peek _ t => t

/-- The semaphore a call waits on: `m_sem_write` for the producers,
`m_sem_read` for the consumers. -/
def MessageQueue.waitSem {T : Type} (q : MessageQueue T) : QOp T → Nat
  | QOp.push _ _ => q.m_sem_write
  | QOp.pushFront _ _ => q.m_sem_write
  | QOp.pop _ _ => q.m_sem_read
  | QOp.peek _ _ => q.m_sem_read

/-- The call as the code runs it. -/
def MessageQueue.call {T : Type} (k : Kernel) (q : MessageQueue T) :
    QOp T → Result × Kernel × MessageQueue T × T
  | QOp.push x t => MessageQueue.Push k q x t
  | QOp.pushFront x t => MessageQueue.PushFront k q x t
  | QOp.pop x t => MessageQueue.Pop k q x t
  | QOp.peek x t => MessageQueue.Peek k q x t

/-- The state after a sequence of calls, and the result code and `message`
variable of each call, first call first. -/
def MessageQueue.run {T : Type} (k : Kernel) (q : MessageQueue T) :
    List (QOp T) → Kernel × MessageQueue T × List (Result × T)
  | [] => (k, q, [])
  | op :: rest =>
    let r := MessageQueue.call k q op
    let s := MessageQueue.run r.2.1 r.2.2.1 rest
    (s.1, s.2.1, (r.1, r.2.2.2) :: s.2.2)

/-- A call that does not suspend its caller: the timeout is zero, or the
call is made outside interrupt handlers and the counter of the semaphore it
waits on is not zero (it passes its wait). -/
def MessageQueue.passes {T : Type} (k : Kernel) (q : MessageQueue T) (op : QOp T) : Prop :=
  op.timeout = 0
  ∨ (System.IsInInterrupt k = false ∧ 0 < (k.semaphores (q.waitSem op)).m_count)

/-- Every call of the sequence, at its turn, does not suspend its caller. -/
def MessageQueue.allPass {T : Type} (k : Kernel) (q : MessageQueue T) : List (QOp T) → Prop
  | [] => True
  | op :: rest =>
    MessageQueue.passes k q op
    ∧ MessageQueue.allPass (MessageQueue.call k q op).2.1 (MessageQueue.call k q op).2.2.1 rest

/-- The messages in the queue, front first: `Count()` elements of the array
from the head pointer on, wrapping at the end of the array. -/
def MessageQueue.contents {T : Type} (q : MessageQueue T) : List T :=
  (List.range q.Count).map
    (fun i => q.m_memory
      (if q.m_head_ptr + i < q.m_len then q.m_head_ptr + i else q.m_head_ptr + i - q.m_len))

/-- The abstract bounded double-ended queue of the specification (section
4.F.4): with room, `push` appends at the back and `pushFront` inserts at the
front; on a non-empty queue `pop` removes and returns the front element and
`peek` returns it and leaves the queue alone; a call that finds no room or no
message and does not wait returns `Timeout` and changes nothing.  The result
is the result code, the caller's `message` variable and the queue. -/
def dequeStep {T : Type} (N : Nat) (l : List T) : QOp T → Result × T × List T
  | QOp.push x _ =>
    if l.length < N then (Result.ResultOk, x, l ++ [x]) else (Result.ResultTimeout, x, l)
  | QOp.pushFront x _ =>
    if l.length < N then (Result.ResultOk, x, x :: l) else (Result.ResultTimeout, x, l)
  | QOp.pop x _ =>
    match l with
    | [] => (Result.ResultTimeout, x, [])
    | a :: rest => (Result.ResultOk, a, rest)
  | QOp.peek x _ =>
    match l with
    | [] => (Result.ResultTimeout, x, [])
    | a :: rest => (Result.ResultOk, a, a :: rest)

/-- The abstract queue after a sequence of calls, and the result code and
`message` variable of each call. -/
def dequeRun {T : Type} (N : Nat) (l : List T) : List (QOp T) → List T × List (Result × T)
  | [] => (l, [])
  | op :: rest =>
    let r := dequeStep N l op
    let s := dequeRun N r.2.2 rest
    (s.1, (r.1, r.2.1) :: s.2)

/-- The queue state between calls: array of `N + 1` slots, both pointers
inside it, the read semaphore counting the messages and the write semaphore
the free slots, both with maximum `N` and nobody waiting. -/
def MessageQueue.Inv {T : Type} (k : Kernel) (q : MessageQueue T) (N : Nat) : Prop :=
  q.m_len = N + 1 ∧ q.m_head_ptr < q.m_len ∧ q.m_tail_ptr < q.m_len
  ∧ q.m_sem_read ≠ q.m_sem_write
  ∧ q.Count ≤ N
  ∧ (k.semaphores q.m_sem_read).m_count = q.Count
  ∧ (k.semaphores q.m_sem_write).m_count = N - q.Count
  ∧ (k.semaphores q.m_sem_read).m_max_count = N
  ∧ (k.semaphores q.m_sem_write).m_max_count = N
  ∧ (k.semaphores q.m_sem_read).m_blocked_task_list = []
  ∧ (k.semaphores q.m_sem_write).m_blocked_task_list = []

/-- What a queue operation needs of the kernel state to stay as it is across
a call that writes scheduler fields only: the semaphores, the initialized and
started flags, and the execution mode. -/
def Kernel.sameSync (k K : Kernel) : Prop :=
  K.semaphores = k.semaphores ∧ K.sch.m_initialized = k.sch.m_initialized
  ∧ K.sch.m_started = k.sch.m_started ∧ K.sys.mode = k.sys.mode

/-- A queue of capacity two with cells holding numbers, built in the state
`demo` with its semaphores in slots 0 and 1. -/
def demoQueue : Kernel × MessageQueue Nat := MessageQueue.new demo 0 1 2 (fun _ => 0)

/-- Producer and consumer calls that take the pointers of `demoQueue` once
around the three-slot array. -/
def wrapOps : List (QOp Nat) :=
  [QOp.push 1 5, QOp.pop 0 5, QOp.push 2 5, QOp.push 3 5, QOp.peek 0 5, QOp.pop 0 5,
    QOp.push 4 5, QOp.pop 0 5, QOp.pop 0 5]

/-- Two pushes that fill `demoQueue`. -/
def fillOps : List (QOp Nat) := [QOp.push 1 0, QOp.push 2 0]

/-- A round-robin group: the current task, `Running`, heads the list; the
ready queue holds the rest of the list, `Ready` and of the priority of the
current task, in front of tasks of lower priority; no task occurs twice in the
list and no interrupt-task activation is pending. -/
def roundRobin (k : Kernel) : List Nat → List Nat → Prop
  | [], _ => False
  | x :: m, lower =>
    k.sch.m_cur_task = some x ∧ k.sch.m_work_tasks = m ++ lower ∧ (x :: m).Nodup
    ∧ k.sch.m_irq_event = false
    ∧ (k.tasks x).m_state = Task.State.StateRunning
    ∧ (∀ y ∈ m, (k.tasks y).m_state = Task.State.StateReady
        ∧ (k.tasks y).m_priority = (k.tasks x).m_priority)
    ∧ (∀ z ∈ lower, (k.tasks z).m_priority < (k.tasks x).m_priority)

/-- A system of three privileged tasks of priority 10 and the idle task 0:
task 2 is running, tasks 1 and 3 are ready in this order. -/
def demoPeers : Kernel :=
  { sch :=
      { m_initialized := true, m_started := true, m_cur_task := some 2
        m_work_tasks := [1, 3, 0] }
    tasks := fun i =>
      if i = 0 then
        { m_priority := 0, m_state := Task.State.StateReady, m_mode := Task.Mode.ModePrivileged }
      else if i = 2 then
        { m_priority := 10, m_state := Task.State.StateRunning
          m_mode := Task.Mode.ModePrivileged }
      else if i = 1 ∨ i = 3 then
        { m_priority := 10, m_state := Task.State.StateReady, m_mode := Task.Mode.ModePrivileged }
      else {}
    sys := { priv := true } }

/-! ## Adding and deleting tasks (macs_scheduler.cpp, macs_task.cpp, macs_mutex.cpp) -/

/-- `AddTask_Priv`. -/
def AddTask_Priv (k : Kernel) (task : Nat) : Result × Kernel :=
  let k := CriticalSection k
  let k := TaskWorkRoom.Insert k task
  let k := if k.sch.m_use_preemption then Scheduler.Yield k else k
  (Result.ResultOk, k)

/-- `Scheduler::AddTask(Task *, priority, mode, stack_size)`; the stack is
not part of the model, and `MACS_PROFILING_ENABLED` is off. -/
def Scheduler.AddTask (k : Kernel) (task : Option Nat) (priority : Nat) (mode : Task.Mode) :
    Result × Kernel :=
  if System.IsInInterrupt k && !System.IsInSysCall k then
    (Result.ResultErrorInterruptNotSupported, k)
  else
    match task with
    | none => (Result.ResultErrorInvalidArgs, k)
    | some t =>
      if Scheduler.IsPriorityValid priority = false then (Result.ResultErrorInvalidArgs, k)
      else if (k.tasks t).m_state ≠ Task.State.StateInactive then
        (Result.ResultErrorInvalidState, k)
      else
        let k := k.setTask t (fun x =>
          { x with m_priority := priority, m_state := Task.State.StateReady, m_mode := mode })
        if System.IsInPrivOrIrq k then AddTask_Priv k t
        else SvcExecPrivileged (fun k => AddTask_Priv k t) k

/-- `SyncObject::OnDeleteTask`, inherited by `Semaphore` and `Event`. -/
def SyncObject.OnDeleteTask (k : Kernel) (s : SyncRef) (task : Nat) : Kernel :=
  k.setWaiters s (SList.Del (k.waiters s) task)

/-- `Mutex::UnlockInternal`.  A mutex without owner keeps the priorities as
they are (the source dereferences `m_owner`). -/
def Mutex.UnlockInternal (k : Kernel) (m : Nat) : Result × Kernel :=
  let r := Mutex.RemoveFromOwner k m
  let k :=
    match (r.2.mutexes m).m_owner with
    | none => r.2
    | some o =>
      if (r.2.tasks o).m_priority ≠ r.1 then (IntSetTaskPriority_Priv r.2 o r.1 true).2
      else r.2
  if (k.mutexes m).m_blocked_task_list ≠ [] then Mutex.UnblockTask k m
  else (Result.ResultOk, k.setMutex m (fun x => { x with m_owner := none }))

/-- `Mutex::OnDeleteTask`. -/
def Mutex.OnDeleteTask (k : Kernel) (m : Nat) (task : Nat) : Kernel :=
  match (k.mutexes m).m_owner with
  | none => k
  | some o =>
    if task ≠ o then
      Mutex.UpdateOwnerPriority (SyncObject.OnDeleteTask k (SyncRef.mutex m) task) m
    else
      (Mutex.UnlockInternal k m).2.setMutex m (fun x => { x with m_lock_cnt := 0 })

/-- The virtual call `m_unblock_func->OnDeleteTask(task)`. -/
def UnblockFunctor.OnDeleteTask (k : Kernel) (f : SyncRef) (task : Nat) : Kernel :=
  match f with
  | SyncRef.mutex m => Mutex.OnDeleteTask k m task
  | SyncRef.semaphore s => SyncObject.OnDeleteTask k (SyncRef.semaphore s) task
  | SyncRef.event e => SyncObject.OnDeleteTask k (SyncRef.event e) task

/-- The loop `while ( m_owned_obj_list ) m_owned_obj_list->OnDeleteTask(this)`
of `Task::DetachFromSync`.  Every round in which the head of the list is owned
by the task unlinks that head, so the length of the list bounds the rounds;
when a round leaves the list as it is the source does not leave the loop, and
the model stops with the list unchanged once the rounds are used up. -/
def Task.detachOwned (task : Nat) : Nat → Kernel → Kernel
  | 0, k => k
  | fuel + 1, k =>
    match (k.tasks task).m_owned_obj_list with
    | [] => k
    | m :: _ => Task.detachOwned task fuel (Mutex.OnDeleteTask k m task)

/-- `Task::DetachFromSync`. -/
def Task.DetachFromSync (k : Kernel) (task : Nat) : Kernel :=
  let k :=
    match (k.tasks task).m_unblock_func with
    | some f =>
      (UnblockFunctor.OnDeleteTask k f task).setTask task
        (fun t => { t with m_unblock_func := none })
    | none => k
  Task.detachOwned task (k.tasks task).m_owned_obj_list.length k

/-- `TaskIrqRoom::Del`. -/
def TaskIrqRoom.Del (k : Kernel) (task : Nat) : Kernel :=
  k.setSch (fun s => { s with m_irq_tasks := SList.Del s.m_irq_tasks task })

/-- `SystemBase::InternalSwitchContext`. -/
def System.InternalSwitchContext (k : Kernel) : Kernel := Scheduler.TryContextSwitch k

/-- `DeleteTask_Priv`; freeing the task object (`del_mem`) is not part of the
model. -/
def DeleteTask_Priv (k : Kernel) (task : Nat) : Result × Kernel :=
  let k := CriticalSection k
  if (k.tasks task).m_state = Task.State.StateInactive then (Result.ResultErrorInvalidState, k)
  else
    let is_suicide : Bool := decide (some task = k.sch.m_cur_task)
    let k :=
      if is_suicide = false then
        let k := TaskSleepRoom.Remove k task
        if Task.IsRunnable (k.tasks task) then TaskWorkRoom.Remove k task else k
      else k
    let k := Task.DetachFromSync k task
    let k := TaskIrqRoom.Del k task
    let k := k.setTask task (fun t => { t with m_state := Task.State.StateInactive })
    let k :=
      if is_suicide then
        System.InternalSwitchContext (k.setSch (fun s => { s with m_cur_task := none }))
      else k
    (Result.ResultOk, k)

/-- `Scheduler::DeleteTask`. -/
def Scheduler.DeleteTask (k : Kernel) (task : Option Nat) : Result × Kernel :=
  if System.IsInInterrupt k then (Result.ResultErrorInterruptNotSupported, k)
  else
    match task with
    | none => (Result.ResultErrorInvalidArgs, k)
    | some t =>
      if k.sch.m_started then SvcExecPrivileged (fun k => DeleteTask_Priv k t) k
      else DeleteTask_Priv k t

/-- A run of the concrete system after which task 3 (priority 50) is
running, and task 2, which owns mutex 0 and is ready, has the priority 20 of
task 1, which waits for mutex 0: task 2 locks mutex 0, the tick wakes task 1,
which blocks on mutex 0, and two ticks later task 3 wakes and preempts. -/
def boostedOps : List Op :=
  [Op.lock 0 INFINITE_TIMEOUT, Op.tick, Op.lock 0 INFINITE_TIMEOUT, Op.tick, Op.tick]

/-- A run of the concrete system after which task 1 waits for mutex 0, owned
by task 2, with one tick of its timeout left: task 2 locks mutex 0, the tick
wakes task 1, which calls `Lock` with a timeout of two ticks on mutex 0 and
blocks; one more tick passes. -/
def timedLockOps : List Op :=
  [Op.lock 0 INFINITE_TIMEOUT, Op.tick, Op.lock 0 2, Op.tick]

/-- A run of the concrete system after which tasks 1 and 2 wait on
semaphore 1 in this order and task 2, the second waiter, has the greater
priority: task 2 (priority 10) waits, the tick wakes task 1 (priority 20),
which waits too; two ticks later task 3 wakes and raises the priority of task
2 to 60 with `SetTaskPriority`. -/
def unsortedOps : List Op :=
  [Op.wait 1 INFINITE_TIMEOUT, Op.tick, Op.wait 1 INFINITE_TIMEOUT, Op.tick, Op.tick,
    Op.setPriority 2 60]

/-- A run of the concrete system after which tasks 1 and 2 (priorities 20
and 10) wait on semaphore 1 in this order and task 3 runs. -/
def waitingOps : List Op :=
  [Op.wait 1 INFINITE_TIMEOUT, Op.tick, Op.wait 1 INFINITE_TIMEOUT, Op.tick, Op.tick]

/-! ## Only the current task is `Running` -/

/-- The current task and, for every task, whether it is `Running`: what the
context switch writes and no other kernel operation sets. -/
def Kernel.running (k : Kernel) : Option Nat × (Nat → Bool) :=
  (k.sch.m_cur_task, fun t => decide ((k.tasks t).m_state = Task.State.StateRunning))

/-- Only the current task can be `Running`. -/
def RunningInv (k : Kernel) : Prop :=
  ∀ t, (k.tasks t).m_state = Task.State.StateRunning → k.sch.m_cur_task = some t

/-- Exactly one task is `Running`, and it is the current task. -/
def ExactlyOneRunning (k : Kernel) : Prop :=
  ∃ c, k.sch.m_cur_task = some c
    ∧ ∀ t, (k.tasks t).m_state = Task.State.StateRunning ↔ t = c

/-! ## Stack check (target/macs_platform.hpp, target/macs_cortex_m.cpp, macs_common.cpp) -/

/-- The results of the stack check, `StackPtr::CHECK_RES`. -/
inductive StackPtr.CHECK_RES where
  | SP_OK
  | SP_OVERFLOW
  | SP_UNDERFLOW
  | SP_CORRUPTED
  deriving DecidableEq, Repr

/-- The marker of the top of the stack, `StackPtr::TOP_MARKER`. -/
def StackPtr.TOP_MARKER : Nat := 0xA52E3FC1

/-- `StackPtr::Check`.  A `uint32_t *` is the index of the word it points to
and `mem` is the memory, word by word.  `int rest = m_sp - marg.m_sp` is the
signed difference of the two pointers in words; in `rest > len` the operand
`len` is a `size_t`, so `rest` is converted to unsigned (taken modulo
`2 ^ 32`) before the comparison; `rest < 0` compares the signed value. -/
def StackPtr.Check (mem : Nat → Nat) (m_sp marg len : Nat) : StackPtr.CHECK_RES :=
  if mem marg ≠ StackPtr.TOP_MARKER then StackPtr.CHECK_RES.SP_CORRUPTED
  else
    let rest : Int := (m_sp : Int) - (marg : Int)
    if (rest % 2 ^ 32).toNat > len then StackPtr.CHECK_RES.SP_UNDERFLOW
    else if rest < 0 then StackPtr.CHECK_RES.SP_OVERFLOW
    else StackPtr.CHECK_RES.SP_OK

/-- The answers of the alarm hook, `ALARM_ACTION` of macs_common.hpp. -/
inductive ALARM_ACTION where
  | AA_CONTINUE
  | AA_RESTART_TASK
  | AA_KILL_TASK
  | AA_CRASH
  deriving DecidableEq, Repr

/-- The fields of `class TaskStack` the check reads: the length in words,
the margin and the saved top of the stack (both word indices). -/
structure TaskStack where
  m_len : Nat := 0
  m_margin : Nat := 0
  m_top : Nat := 0
  deriving DecidableEq, Repr

/-- Modelled from the spec: the value of `MACS_ALARM(reason)`, defined in
macs_application.hpp, which is not among the sources.  Spec section 6,
diagnostic hooks: a single process-wide `on_alarm(reason) -> action`
callback; the reason is recorded as in `MACS_ALARM` above and the answer of
the callback is the value. -/
def MACS_ALARM_action (on_alarm : ALARM_REASON → ALARM_ACTION) (k : Kernel)
    (reason : ALARM_REASON) : ALARM_ACTION × Kernel :=
  (on_alarm reason, MACS_ALARM k reason)

/-- `TaskStack::Check` (macs_common.cpp) on the stack `stk`. -/
def TaskStack.Check (on_alarm : ALARM_REASON → ALARM_ACTION) (mem : Nat → Nat)
    (stk : TaskStack) (k : Kernel) : Bool × Kernel :=
  match StackPtr.Check mem stk.m_top stk.m_margin stk.m_len with
  | StackPtr.CHECK_RES.SP_UNDERFLOW =>
    let r := MACS_ALARM_action on_alarm k ALARM_REASON.AR_STACK_UNDERFLOW
    if r.1 = ALARM_ACTION.AA_KILL_TASK then (false, r.2) else (true, r.2)
  | StackPtr.CHECK_RES.SP_OVERFLOW =>
    (true, (MACS_ALARM_action on_alarm k ALARM_REASON.AR_STACK_OVERFLOW).2)
  | StackPtr.CHECK_RES.SP_CORRUPTED =>
    (true, (MACS_ALARM_action on_alarm k ALARM_REASON.AR_STACK_CORRUPTED).2)
  | StackPtr.CHECK_RES.SP_OK => (true, k)

/-- `Scheduler::SwitchContext(new_sp)` as built with `MACS_DEBUG = 1`, the
build in which the stack of the outgoing task is checked: `stack_of` gives the
stack of every task and `new_sp` the stack pointer to save.  When the check
fails the current task is forgotten before the next one is selected.  The
`_ASSERT`s of that build, whose only effect is an alarm, are not part of the
model. -/
def Scheduler.SwitchContextChecked (on_alarm : ALARM_REASON → ALARM_ACTION)
    (mem : Nat → Nat) (stack_of : Nat → TaskStack) (k : Kernel) (new_sp : Nat) : Kernel :=
  let k := CriticalSection k
  let k := k.setSch (fun s => { s with m_pending_swc := false })
  let k :=
    match k.sch.m_cur_task with
    | none => k
    | some c =>
      let r := TaskStack.Check on_alarm mem { stack_of c with m_top := new_sp } k
      if r.1 = false then r.2.setSch (fun s => { s with m_cur_task := none }) else r.2
  let k := if k.sch.m_irq_event then TaskIrqRoom.ActivateTasks k else k
  let k := Scheduler.SelectNextTask k
  match k.sch.m_cur_task with
  | none => k
  | some c => System.SetPrivMode k (decide ((k.tasks c).m_mode = Task.Mode.ModePrivileged))

/-- A task that the scheduler has forgotten: it is not the current task and
not in the ready queue, and its state still says `Running`. -/
def Dropped (k : Kernel) (c : Nat) : Prop :=
  k.sch.m_cur_task ≠ some c ∧ c ∉ k.sch.m_work_tasks
  ∧ (k.tasks c).m_state = Task.State.StateRunning

/-- The state after a sequence of checked context switches; the list holds
the stack pointer saved at each switch. -/
def Scheduler.switchesChecked (on_alarm : ALARM_REASON → ALARM_ACTION)
    (mem : Nat → Nat) (stack_of : Nat → TaskStack) (k : Kernel) : List Nat → Kernel
  | [] => k
  | new_sp :: rest =>
    Scheduler.switchesChecked on_alarm mem stack_of
      (Scheduler.SwitchContextChecked on_alarm mem stack_of k new_sp) rest

/-- The stacks of the concrete system: task `i` has 64 words above the
margin at word `1000 * i + 100`. -/
def demoStacks (i : Nat) : TaskStack :=
  { m_len := 64, m_margin := 1000 * i + 100, m_top := 1000 * i + 164 }

/-- An alarm hook that answers `AA_KILL_TASK` to every alarm. -/
def killAlways : ALARM_REASON → ALARM_ACTION := fun _ => ALARM_ACTION.AA_KILL_TASK

/-- An alarm hook that answers `AA_KILL_TASK` to `AR_STACK_OVERFLOW` and
`AA_CONTINUE` to every other alarm. -/
def killOnOverflow : ALARM_REASON → ALARM_ACTION := fun reason =>
  if reason = ALARM_REASON.AR_STACK_OVERFLOW then ALARM_ACTION.AA_KILL_TASK
  else ALARM_ACTION.AA_CONTINUE

/-! ## Ownership of mutexes -/

/-- Who owns what: the owner of every mutex and the owned-object list of
every task. -/
def Kernel.ownership (k : Kernel) : (Nat → Option Nat) × (Nat → List Nat) :=
  (fun m => (k.mutexes m).m_owner, fun t => (k.tasks t).m_owned_obj_list)

/-- Owned-list consistency: a mutex is in the owned list of a task exactly
when that task is its owner, and no owned list holds a mutex twice. -/
def OwnedInv (k : Kernel) : Prop :=
  (∀ t m, m ∈ (k.tasks t).m_owned_obj_list ↔ (k.mutexes m).m_owner = some t)
  ∧ ∀ t, (k.tasks t).m_owned_obj_list.Nodup

/-- The state between `Mutex::RemoveFromOwner` and the assignment of the next
owner: the mutex `m` is in no owned list, whatever its owner field says, and
the other mutexes are consistent. -/
def Released (k : Kernel) (m : Nat) : Prop :=
  (∀ t x, x ∈ (k.tasks t).m_owned_obj_list ↔ (x ≠ m ∧ (k.mutexes x).m_owner = some t))
  ∧ ∀ t, (k.tasks t).m_owned_obj_list.Nodup

/-- What can happen to the ownership of mutexes: the current task locks or
unlocks a mutex, a blocked task is woken by timeout, a task is deleted, the
tick interrupt fires, the pending context switch is taken. -/
inductive OwnOp where
  | lock (mutex : Nat) (timeout_ms : Nat)
  | unlock (mutex : Nat)
  | timeout (task : Nat)
  | delete (task : Nat)
  | tick
  | switch
  deriving DecidableEq, Repr

/-- One step of a run of such operations. -/
def ownStep (k : Kernel) : OwnOp → Kernel
  | OwnOp.lock m t => (Mutex.Lock_Priv k m t).2
  | OwnOp.unlock m => (Mutex.Unlock_Priv k m).2
  | OwnOp.timeout w =>
    (Scheduler.UnblockTaskInternal k w Task.UnblockReason.UnblockReasonTimeout).2
  | OwnOp.delete t => (DeleteTask_Priv k t).2
  | OwnOp.tick => SysTick_Handler k
  | OwnOp.switch => PendSV_Handler k

/-- The state after a sequence of such operations. -/
def ownRun (k : Kernel) (ops : List OwnOp) : Kernel := ops.foldl ownStep k

/-- A run of the concrete system with a transfer of ownership and the
deletion of an owner: task 2 locks mutexes 0 and 1; the tick wakes task 1,
which blocks on mutex 0; task 2 unlocks mutex 0, which passes to task 1; task
1 deletes task 2, which frees mutex 1. -/
def ownOps : List OwnOp :=
  [OwnOp.lock 0 INFINITE_TIMEOUT, OwnOp.lock 1 INFINITE_TIMEOUT, OwnOp.tick, OwnOp.switch,
    OwnOp.lock 0 INFINITE_TIMEOUT, OwnOp.switch, OwnOp.unlock 0, OwnOp.switch, OwnOp.delete 2]

/-! ## Waiters and unblock functors -/

/-- The concrete system after task 2 has blocked in `Semaphore::Wait` on
semaphore 1 and the idle task, which runs then, has called
`Scheduler::UnblockTask` for task 2. -/
def staleWaiter : Kernel :=
  (Scheduler.UnblockTask (run demo [Op.wait 1 INFINITE_TIMEOUT]) (some 2)).2

/-! ## Adding an IRQ task (macs_scheduler.cpp) -/

/-- `AddTaskIrq_Priv`: `TaskIrqRoom::Add`. -/
def AddTaskIrq_Priv (k : Kernel) (task : Nat) : Result × Kernel :=
  let k := CriticalSection k
  (Result.ResultOk, k.setSch (fun s => { s with m_irq_tasks := SList.Add s.m_irq_tasks task }))

/-- `Scheduler::AddTask(TaskIrq *, irq_num, priority, mode, stack_size)`; the
stack is not part of the model, and `MACS_PROFILING_ENABLED` is off. -/
def Scheduler.AddTaskIrq (k : Kernel) (task : Option Nat) (irq_num : Int) (priority : Nat)
    (mode : Task.Mode) : Result × Kernel :=
  if System.IsInInterrupt k && !System.IsInSysCall k then
    (Result.ResultErrorInterruptNotSupported, k)
  else
    match task with
    | none => (Result.ResultErrorInvalidArgs, k)
    | some t =>
      if Scheduler.IsPriorityValid priority = false then (Result.ResultErrorInvalidArgs, k)
      else if (k.tasks t).m_state ≠ Task.State.StateInactive then
        (Result.ResultErrorInvalidState, k)
      else
        let k := k.setTask t (fun x =>
          { x with
            m_irq_num := irq_num
            m_priority := priority
            m_state := Task.State.StateBlocked
            m_mode := mode })
        if System.IsInPrivOrIrq k then AddTaskIrq_Priv k t
        else SvcExecPrivileged (fun k => AddTaskIrq_Priv k t) k

/-! ## Initialize, Start and the idle task (macs_scheduler.cpp) -/

/-- `Scheduler::Initialize` with the default build options.  `idle` is the
index of the task object that `new IdleTask()` constructs; `init_ok` is the
result of `System::InitScheduler()`, which depends on the clock set-up of the
board. -/
def Scheduler.Initialize (k : Kernel) (idle : Nat) (init_ok : Bool) : Result × Kernel :=
  if System.IsInInterrupt k then (Result.ResultErrorInterruptNotSupported, k)
  else if k.sch.m_initialized then (Result.ResultErrorInvalidState, k)
  else
    let k := k.setSch (fun s => { s with m_tick_count := 0 })
    if init_ok = false then (Result.ResultErrorInvalidState, k)
    else
      let k := k.setTask idle (fun _ => {})
      let k := (Scheduler.AddTask k (some idle) 0 Task.Mode.ModePrivileged).2
      (Result.ResultOk, k.setSch (fun s => { s with m_initialized := true }))

/-- `Scheduler::Start` up to the first dispatch.  `msp` is the value of
`System::IsInMspMode()` (the stack pointers are not part of the model);
`System::FirstSwitchToTask` enters the selected task in its mode. -/
def Scheduler.Start (k : Kernel) (use_preemption : Bool) (msp : Bool) : Result × Kernel :=
  if System.IsInInterrupt k then (Result.ResultErrorInterruptNotSupported, k)
  else if k.sch.m_initialized = false ∨ k.sch.m_started = true then
    (Result.ResultErrorInvalidState, k)
  else if System.IsInPrivMode k = false ∨ msp = false then (Result.ResultErrorInvalidState, k)
  else
    let k := k.setSch (fun s => { s with m_use_preemption := use_preemption })
    let k := Scheduler.SelectNextTask k
    let k := k.setSch (fun s => { s with m_started := true })
    match k.sch.m_cur_task with
    | none => (Result.ResultOk, k)
    | some c =>
      (Result.ResultOk,
        System.SetPrivMode k (decide ((k.tasks c).m_mode = Task.Mode.ModePrivileged)))

/-- The idle task is available in the lists of the model: it is in the list
of the ready queue, or it is the current task and runnable (and so goes back
to the ready queue at the next selection). -/
def IdleAvailable (k : Kernel) (idle : Nat) : Prop :=
  idle ∈ k.sch.m_work_tasks
  ∨ (k.sch.m_cur_task = some idle ∧ Task.IsRunnable (k.tasks idle) = true)

/-- The step from `k` to `K` takes nothing from the task `i`: if it was in
the ready queue it still is, if it was the current task it still is, and if it
was runnable it still is. -/
def Keeps (i : Nat) (k K : Kernel) : Prop :=
  (i ∈ k.sch.m_work_tasks → i ∈ K.sch.m_work_tasks)
  ∧ (k.sch.m_cur_task = some i → K.sch.m_cur_task = some i)
  ∧ (Task.IsRunnable (k.tasks i) = true → Task.IsRunnable (K.tasks i) = true)

/-- The operations of the kernel: the calls a task or an interrupt handler
can make, the tick interrupt, and the pending context switch. -/
inductive KOp where
  | lock (mutex : Nat) (timeout_ms : Nat)
  | unlock (mutex : Nat)
  | delay (timeout_ms : Nat)
  | setPriority (task : Nat) (priority : Nat)
  | semWait (semaphore : Nat) (timeout_ms : Nat)
  | semSignal (semaphore : Nat)
  | evWait (event : Nat) (timeout_ms : Nat)
  | evRaise (event : Nat)
  | unblock (task : Nat)
  | add (task : Nat) (priority : Nat) (mode : Task.Mode)
  | delete (task : Nat)
  | tick
  | switch
  deriving DecidableEq, Repr

/-- One kernel operation. -/
def kStep (k : Kernel) : KOp → Kernel
  | KOp.lock m t => (Mutex.Lock_Priv k m t).2
  | KOp.unlock m => (Mutex.Unlock_Priv k m).2
  | KOp.delay t => (BlockCurrentTask_Priv k t none).2
  | KOp.setPriority t p => (SetTaskPriority_Priv k t p).2
  | KOp.semWait s t => (Semaphore.Wait_Priv k s t).2
  | KOp.semSignal s => (Semaphore.Signal_Priv k s).2
  | KOp.evWait e t => (Event.Wait_Priv k e t).2
  | KOp.evRaise e => (Event.Raise_Priv k e).2
  | KOp.unblock t => (UnblockTask_Priv k t).2
  | KOp.add t p mode => (Scheduler.AddTask k (some t) p mode).2
  | KOp.delete t => (DeleteTask_Priv k t).2
  | KOp.tick => SysTick_Handler k
  | KOp.switch => PendSV_Handler k

/-- The state after a sequence of kernel operations. -/
def kRun (k : Kernel) (ops : List KOp) : Kernel := ops.foldl kStep k

/-- The operation leaves the task `idle` alone: a call that can block its
caller is not made while `idle` is the current task, and `idle` is not the
task deleted. -/
def KOp.spares (idle : Nat) (k : Kernel) : KOp → Prop
  | KOp.lock _ _ => k.sch.m_cur_task ≠ some idle
  | KOp.delay _ => k.sch.m_cur_task ≠ some idle
  | KOp.semWait _ _ => k.sch.m_cur_task ≠ some idle
  | KOp.evWait _ _ => k.sch.m_cur_task ≠ some idle
  | KOp.delete t => t ≠ idle
  | _ => True

/-- Every operation of the sequence, at its turn, leaves the task `idle`
alone. -/
def sparesAll (idle : Nat) (k : Kernel) : List KOp → Prop
  | [] => True
  | op :: rest => op.spares idle k ∧ sparesAll idle (kStep k op) rest

/-- The state after `Scheduler::Initialize` and `Scheduler::Start` on the
kernel as constructed, with the idle task at index 0. -/
def booted : Kernel :=
  (Scheduler.Start (Scheduler.Initialize ({} : Kernel) 0 true).2 true true).2

/-- A run of the booted system: a task is added and runs, locks a mutex,
sleeps for a tick, wakes and deletes itself. -/
def bootOps : List KOp :=
  [KOp.add 1 30 Task.Mode.ModePrivileged, KOp.switch, KOp.lock 0 INFINITE_TIMEOUT,
    KOp.delay 1, KOp.switch, KOp.tick, KOp.switch, KOp.delete 1, KOp.switch]

/-- A run of the concrete system after which task 2 (added with priority 10)
owns mutexes 0 and 1 and has the priority 50 of task 3, which waits for mutex
1; task 2 sleeps and task 1 (priority 20) is running: task 2 locks both
mutexes; the tick wakes task 1, which sleeps for five ticks; two ticks later
task 3 wakes and blocks on mutex 1; task 2 sleeps for ten ticks; three ticks
later task 1 wakes. -/
def raisedOwnerOps : List Op :=
  [Op.lock 0 INFINITE_TIMEOUT, Op.lock 1 INFINITE_TIMEOUT, Op.tick, Op.delay 5, Op.tick, Op.tick,
    Op.lock 1 INFINITE_TIMEOUT, Op.delay 10, Op.tick, Op.tick, Op.tick]

/-! ## Interrupt tasks (macs_scheduler.cpp) -/

/-- `TaskIrqRoom::ProceedIrq` with `MACS_IRQ_FAST_SWITCH = 1`. -/
def TaskIrqRoom.ProceedIrq (k : Kernel) (irq_num : Int) : Kernel :=
  let k := k.sch.m_irq_tasks.foldl
    (fun k ptsk =>
      if (k.tasks ptsk).m_irq_num = irq_num then
        let k :=
          if (k.tasks ptsk).m_state = Task.State.StateBlocked
              ∧ (k.tasks ptsk).m_unblock_func = none then
            k.setSch (fun s => { s with m_irq_event := true })
          else k
        k.setTask ptsk (fun t => { t with m_irq_up := true })
      else k)
    k
  if k.sch.m_irq_event = true ∧ k.sch.m_started = true then
    Scheduler.Yield (k.setSch (fun s => { s with m_pending_swc := true }))
  else k

/-- `Scheduler::ProceedIrq`. -/
def Scheduler.ProceedIrq (k : Kernel) (irq_num : Int) : Kernel :=
  TaskIrqRoom.ProceedIrq k irq_num

/-- The test of `TaskIrqRoom::ActivateTasks`: the interrupt is pending, the
task is blocked, and it has no unblock functor. -/
@[reducible]
def Task.toActivate (t : Task) : Prop :=
  t.m_irq_up = true ∧ t.m_state = Task.State.StateBlocked ∧ t.m_unblock_func = none

/-- The task as `TaskIrqRoom::ActivateTasks` leaves it: ready, unblocked by
the interrupt, the pending flag cleared. -/
def Task.activated (t : Task) : Task :=
  { t with
    m_unblock_reason := Task.UnblockReason.UnblockReasonIrq
    m_state := Task.State.StateReady
    m_irq_up := false }

/-- The concrete system with an interrupt task, task 4 (priority 40,
interrupt 7), added by `Scheduler::AddTask(TaskIrq *, ...)`. -/
def irqDemo : Kernel :=
  (Scheduler.AddTaskIrq demo (some 4) 7 40 Task.Mode.ModePrivileged).2

/-- From `irqDemo`: interrupt 7 fires and the context switch activates task
4, which runs and blocks itself to wait for the next interrupt; before the
pending context switch is taken interrupt 7 fires again. -/
def irqCurrent : Kernel :=
  TaskIrqRoom.ProceedIrq
    (BlockCurrentTask_Priv (PendSV_Handler (TaskIrqRoom.ProceedIrq irqDemo 7))
      INFINITE_TIMEOUT none).2 7

/-! ## The system-call table (macs_common.hpp, macs_scheduler.cpp) -/

/-- The selectors of `enum EPrivilegedMethods` (macs_common.hpp); the list is
not under a preprocessor condition. -/
inductive EPrivilegedMethods
  | EPM_Read_Cpu_Tick
  | EPM_BlockCurrentTask_Priv
  | EPM_AddTask_Priv
  | EPM_AddTaskIrq_Priv
  | EPM_Yield_Priv
  | EPM_DeleteTask_Priv
  | EPM_UnblockTask_Priv
  | EPM_SetTaskPriority_Priv
  | EPM_Event_Raise_Priv
  | EPM_Event_Wait_Priv
  | EPM_Mutex_Lock_Priv
  | EPM_Mutex_Unlock_Priv
  | EPM_Semaphore_Wait_Priv
  | EPM_Semaphore_Signal_Priv
  | EPM_SpiTransferCore_Initialize_Priv
  | EPM_Spi_PowerControl_Priv
  deriving DecidableEq, Repr

/-- The value of an enumerator: its position in the enumeration. -/
def EPrivilegedMethods.toNat : EPrivilegedMethods → Nat
  | .EPM_Read_Cpu_Tick => 0
  | .EPM_BlockCurrentTask_Priv => 1
  | .EPM_AddTask_Priv => 2
  | .EPM_AddTaskIrq_Priv => 3
  | .EPM_Yield_Priv => 4
  | .EPM_DeleteTask_Priv => 5
  | .EPM_UnblockTask_Priv => 6
  | .EPM_SetTaskPriority_Priv => 7
  | .EPM_Event_Raise_Priv => 8
  | .EPM_Event_Wait_Priv => 9
  | .EPM_Mutex_Lock_Priv => 10
  | .EPM_Mutex_Unlock_Priv => 11
  | .EPM_Semaphore_Wait_Priv => 12
  | .EPM_Semaphore_Signal_Priv => 13
  | .EPM_SpiTransferCore_Initialize_Priv => 14
  | .EPM_Spi_PowerControl_Priv => 15

/-- The last enumerator `EPM_Count`: "the index of a method must be
`0 <= index < EPM_Count`". -/
def EPM_Count : Nat := 16

/-- A word of the table `svcMethods`: the count, or the address of a
privileged implementation. -/
inductive SvcWord
  | count (n : Nat)
  | Read_Cpu_Tick_Priv
  | BlockCurrentTask_Priv
  | AddTask_Priv
  | AddTaskIrq_Priv
  | Yield_Priv
  | DeleteTask_Priv
  | UnblockTask_Priv
  | SetTaskPriority_Priv
  | Event_Raise_Priv
  | Event_Wait_Priv
  | Mutex_Lock_Priv
  | Mutex_Unlock_Priv
  | Semaphore_Wait_Priv
  | Semaphore_Signal_Priv
  | Spi_Initialize_Priv
  | Spi_PowerControl
  deriving DecidableEq, Repr

/-- The table `svcMethods` (macs_scheduler.cpp); the last two words are
compiled under `#if MACS_SHARED_MEM_SPI`. -/
def svcMethods (MACS_SHARED_MEM_SPI : Bool) : List SvcWord :=
  [ SvcWord.count EPM_Count,
    SvcWord.Read_Cpu_Tick_Priv,
    SvcWord.BlockCurrentTask_Priv,
    SvcWord.AddTask_Priv,
    SvcWord.AddTaskIrq_Priv,
    SvcWord.Yield_Priv,
    SvcWord.DeleteTask_Priv,
    SvcWord.UnblockTask_Priv,
    SvcWord.SetTaskPriority_Priv,
    SvcWord.Event_Raise_Priv,
    SvcWord.Event_Wait_Priv,
    SvcWord.Mutex_Lock_Priv,
    SvcWord.Mutex_Unlock_Priv,
    SvcWord.Semaphore_Wait_Priv,
    SvcWord.Semaphore_Signal_Priv ]
  ++ (if MACS_SHARED_MEM_SPI then [SvcWord.Spi_Initialize_Priv, SvcWord.Spi_PowerControl]
      else [])

/-- The implementation a selector names. -/
def EPrivilegedMethods.impl : EPrivilegedMethods → SvcWord
  | .EPM_Read_Cpu_Tick => SvcWord.Read_Cpu_Tick_Priv
  | .EPM_BlockCurrentTask_Priv => SvcWord.BlockCurrentTask_Priv
  | .EPM_AddTask_Priv => SvcWord.AddTask_Priv
  | .EPM_AddTaskIrq_Priv => SvcWord.AddTaskIrq_Priv
  | .EPM_Yield_Priv => SvcWord.Yield_Priv
  | .EPM_DeleteTask_Priv => SvcWord.DeleteTask_Priv
  | .EPM_UnblockTask_Priv => SvcWord.UnblockTask_Priv
  | .EPM_SetTaskPriority_Priv => SvcWord.SetTaskPriority_Priv
  | .EPM_Event_Raise_Priv => SvcWord.Event_Raise_Priv
  | .EPM_Event_Wait_Priv => SvcWord.Event_Wait_Priv
  | .EPM_Mutex_Lock_Priv => SvcWord.Mutex_Lock_Priv
  | .EPM_Mutex_Unlock_Priv => SvcWord.Mutex_Unlock_Priv
  | .EPM_Semaphore_Wait_Priv => SvcWord.Semaphore_Wait_Priv
  | .EPM_Semaphore_Signal_Priv => SvcWord.Semaphore_Signal_Priv
  | .EPM_SpiTransferCore_Initialize_Priv => SvcWord.Spi_Initialize_Priv
  | .EPM_Spi_PowerControl_Priv => SvcWord.Spi_PowerControl

/-! ## A mutex inherited from a deleted owner -/

/-- The concrete system after the run `boostedOps` and the deletion of task
2, the owner of mutex 0, by the running task 3: mutex 0 passes to its waiter,
task 1. -/
def inherited : Kernel :=
  PendSV_Handler (Scheduler.DeleteTask (run demo boostedOps) (some 2)).2

/-- The new owner at work: task 3 goes to sleep in `Task::Delay` and task 1
runs. -/
def inheritedRunning : Kernel := run inherited [Op.delay 5]

/-! ## Short timeouts -/

/-- The concrete system with a tick rate of 100 Hz. -/
def demoSlow : Kernel := { demo with sys := { demo.sys with m_tick_rate_hz := 100 } }

/-- A timeout of 5 ms at 100 Hz: the running task 2 calls `Task::Delay(5)`. -/
def shortDelay : Kernel := run demoSlow [Op.delay 5]

/-- Five ticks after the short delay. -/
def shortDelayLater : Kernel := run shortDelay [Op.tick, Op.tick, Op.tick, Op.tick, Op.tick]

/-! ## The loop of `Task::DetachFromSync` -/

/-- What the loop `while ( m_owned_obj_list ) ...` relies on: the owned list
of the task holds no mutex twice, every mutex in it has the task as its owner,
and the task is not among the waiters of a mutex it owns. -/
def OwnsAll (k : Kernel) (task : Nat) : Prop :=
  (k.tasks task).m_owned_obj_list.Nodup
  ∧ ∀ m ∈ (k.tasks task).m_owned_obj_list,
      (k.mutexes m).m_owner = some task ∧ task ∉ (k.mutexes m).m_blocked_task_list

/-- From `k` to `K` the owned list of the task is the same, and so are the
owner and the waiter list of every mutex other than `m`. -/
def Steady (task m : Nat) (k K : Kernel) : Prop :=
  (K.tasks task).m_owned_obj_list = (k.tasks task).m_owned_obj_list
  ∧ ∀ x, x ≠ m → (K.mutexes x).m_owner = (k.mutexes x).m_owner
      ∧ (K.mutexes x).m_blocked_task_list = (k.mutexes x).m_blocked_task_list

/-- A run of the concrete system after which task 2 is running and owns the
mutexes 1 and 0, and task 1 waits for mutex 0. -/
def ownerOps : List Op :=
  [Op.lock 0 INFINITE_TIMEOUT, Op.lock 1 INFINITE_TIMEOUT, Op.tick, Op.lock 0 INFINITE_TIMEOUT]

/-! ## Sorting (lib/macs_utils.hpp)

An iterator is an index into the memory `mem : Nat → α`; the range
`[begin, end_)` holds the elements `mem begin`, ..., `mem (end_ - 1)`.  On the
target `int` is as wide as the difference of two iterators, so the lengths are
exact; a loop gets as many rounds as its range is long, plus one, and returns
`none` should it need more. -/

/-- `utils::Swap` on two places of the memory. -/
def utils.Swap {α : Type} (mem : Nat → α) (value1 value2 : Nat) : Nat → α :=
  let t := mem value1
  let mem1 : Nat → α := fun i => if i = value1 then mem value2 else mem i
  fun i => if i = value2 then t else mem1 i

/-- The loop `while (n > 0)` of `utils::LowerBound`. -/
def utils.LowerBound.loop {α : Type} (less : α → α → Bool) (mem : Nat → α) (value : α) :
    Nat → Nat → Nat → Option Nat
  | 0, _, _ => none
  | fuel + 1, begin, n =>
    if n > 0 then
      let half := n / 2
      let middle := begin + half
      if less (mem middle) value then
        utils.LowerBound.loop less mem value fuel (middle + 1) (n - (half + 1))
      else
        utils.LowerBound.loop less mem value fuel begin half
    else some begin

/-- `utils::LowerBound`. -/
def utils.LowerBound {α : Type} (less : α → α → Bool) (mem : Nat → α) (begin end_ : Nat)
    (value : α) : Option Nat :=
  utils.LowerBound.loop less mem value (end_ - begin + 1) begin (end_ - begin)

/-- The loop `while (n > 0)` of `utils::UpperBound`. -/
def utils.UpperBound.loop {α : Type} (less : α → α → Bool) (mem : Nat → α) (value : α) :
    Nat → Nat → Nat → Option Nat
  | 0, _, _ => none
  | fuel + 1, begin, n =>
    if n > 0 then
      let half := n / 2
      let middle := begin + half
      if less value (mem middle) then
        utils.UpperBound.loop less mem value fuel begin half
      else
        utils.UpperBound.loop less mem value fuel (middle + 1) (n - (half + 1))
    else some begin

/-- `utils::UpperBound`. -/
def utils.UpperBound {α : Type} (less : α → α → Bool) (mem : Nat → α) (begin end_ : Nat)
    (value : α) : Option Nat :=
  utils.UpperBound.loop less mem value (end_ - begin + 1) begin (end_ - begin)

/-- The loop `while (begin < end) Swap(*begin++, *end--)` of `utils::Reverse`;
`end_` is the iterator after `--end`. -/
def utils.Reverse.loop {α : Type} : Nat → (Nat → α) → Nat → Nat → Option (Nat → α)
  | 0, _, _, _ => none
  | fuel + 1, mem, begin, end_ =>
    if begin < end_ then
      utils.Reverse.loop fuel (utils.Swap mem begin end_) (begin + 1) (end_ - 1)
    else some mem

/-- `utils::Reverse`.  For an empty range at index 0 the iterator `--end`
lies before the memory and the loop is not entered; so it is with `0 - 1 = 0`
here. -/
def utils.Reverse {α : Type} (mem : Nat → α) (begin end_ : Nat) : Option (Nat → α) :=
  utils.Reverse.loop (end_ - begin + 1) mem begin (end_ - 1)

/-- `utils::Rotate`. -/
def utils.Rotate {α : Type} (mem : Nat → α) (begin middle end_ : Nat) : Option (Nat → α) :=
  (utils.Reverse mem begin middle).bind fun mem =>
  (utils.Reverse mem middle end_).bind fun mem =>
  utils.Reverse mem begin end_

/-- The recursion of `utils::Merge`, for `begin ≤ pivot ≤ end_` as in every
call; a call gets one round less than its caller. -/
def utils.Merge.go {α : Type} (less : α → α → Bool) :
    Nat → (Nat → α) → Nat → Nat → Nat → Option (Nat → α)
  | 0, _, _, _, _ => none
  | fuel + 1, mem, begin, pivot, end_ =>
    let len1 := pivot - begin
    let len2 := end_ - pivot
    if len1 = 0 ∨ len2 = 0 then some mem
    else if len1 + len2 = 2 then
      if less (mem (begin + 1)) (mem begin) then some (utils.Swap mem begin (begin + 1))
      else some mem
    else
      let cuts : Option (Nat × Nat × Nat) :=
        if len1 > len2 then
          let len1Half := len1 / 2
          let firstCut := begin + len1Half
          (utils.LowerBound less mem pivot end_ (mem firstCut)).map
            fun secondCut => (firstCut, secondCut, secondCut - pivot)
        else
          let len2Half := len2 / 2
          let secondCut := pivot + len2Half
          (utils.UpperBound less mem begin pivot (mem secondCut)).map
            fun firstCut => (firstCut, secondCut, len2Half)
      cuts.bind fun c =>
        let firstCut := c.1
        let secondCut := c.2.1
        let len2Half := c.2.2
        (utils.Rotate mem firstCut pivot secondCut).bind fun mem =>
          let newPivot := firstCut + len2Half
          (utils.Merge.go less fuel mem begin firstCut newPivot).bind fun mem =>
            utils.Merge.go less fuel mem newPivot secondCut end_

/-- `utils::Merge`. -/
def utils.Merge {α : Type} (less : α → α → Bool) (mem : Nat → α) (begin pivot end_ : Nat) :
    Option (Nat → α) :=
  utils.Merge.go less (end_ - begin + 1) mem begin pivot end_

/-- The recursion of `utils::StableSort`; a call gets one round less than its
caller. -/
def utils.StableSort.go {α : Type} (less : α → α → Bool) :
    Nat → (Nat → α) → Nat → Nat → Option (Nat → α)
  | 0, _, _, _ => none
  | fuel + 1, mem, begin, end_ =>
    if begin = end_ then some mem
    else
      let span := end_ - begin
      if span < 2 then some mem
      else
        let middle := begin + span / 2
        (utils.StableSort.go less fuel mem begin middle).bind fun mem =>
          (utils.StableSort.go less fuel mem middle end_).bind fun mem =>
            utils.Merge less mem begin middle end_

/-- `utils::StableSort`. -/
def utils.StableSort {α : Type} (less : α → α → Bool) (mem : Nat → α) (begin end_ : Nat) :
    Option (Nat → α) :=
  utils.StableSort.go less (end_ - begin + 1) mem begin end_

/-- The elements of the range `[b, e)`, in order. -/
def utils.view {α : Type} (mem : Nat → α) (b e : Nat) : List α :=
  (List.range (e - b)).map (fun i => mem (b + i))

/-- A comparator that is a strict weak order: irreflexive, transitive, and
with a transitive incomparability. -/
def utils.StrictWeakOrder {α : Type} (less : α → α → Bool) : Prop :=
  (∀ a, less a a = false)
  ∧ (∀ a b c, less a b = true → less b c = true → less a c = true)
  ∧ (∀ a b c, less a b = false → less b a = false → less b c = false → less c b = false →
      less a c = false ∧ less c a = false)

/-- Equivalent under `less`: neither is less than the other. -/
def utils.equivalent {α : Type} (less : α → α → Bool) (a b : α) : Bool :=
  !less a b && !less b a

/-- Sorted: no element is less than one that stands before it. -/
def utils.Sorted {α : Type} (less : α → α → Bool) (l : List α) : Prop :=
  l.Pairwise (fun a b => less b a = false)

/-- A memory with the words 3, 1, 2, 1, 3, 0 at the indices 0 to 5; the
comparator below looks at the tens only. -/
def utils.sample : Nat → Nat
  | 0 => 31 | 1 => 10 | 2 => 22 | 3 => 17 | 4 => 35 | 5 => 4 | _ => 0

/-- Compare by tens. -/
def utils.lessTens (a b : Nat) : Bool := decide (a / 10 < b / 10)

/-- A memory that is sorted by tens: the words 0, 5, 10, 15, ... -/
def utils.sampleSorted (i : Nat) : Nat := i * 5


/-- `M` is a stable sorted arrangement of `L`: sorted, a permutation of `L`,
and with the elements equivalent to any `x` in the order they have in `L`. -/
def utils.StableSortOf {α : Type} (less : α → α → Bool) (L M : List α) : Prop :=
  utils.Sorted less M ∧ M.Perm L
    ∧ ∀ x, M.filter (utils.equivalent less x) = L.filter (utils.equivalent less x)

/-- The waiters that a wake-up links into the ready queue: all but the
current task (`Scheduler::UnblockTaskInternal` inserts
`if ( task != m_cur_task )`). -/
def waitersToQueue (k : Kernel) (ws : List Nat) : List Nat :=
  ws.filter (fun w => decide (k.sch.m_cur_task ≠ some w))

/-- The concrete system right after the running task 2 has called
`Event::Wait` on event 0: it is blocked and still the current task, the
context switch is pending. -/
def waitingCurrent : Kernel := (Event.Wait demo 0 INFINITE_TIMEOUT).2

/-- An interrupt handler calls `Event::Raise` on event 0 before the pending
context switch is taken. -/
def raisedBeforeSwitch : Kernel := inHandler (fun k => (Event.Raise k 0).2) waitingCurrent

/-! ## The intrusive lists as links (macs_list.hpp) -/

/-- The intrusive list as the source holds it: the head pointer and the link
field `Next(elm)` of every element; `none` is the null pointer. -/
structure SList.Links where
  head : Option Nat
  next : Nat → Option Nat

/-- A `T ** ptr` into the list: the address of the head pointer or of the
link field of an element. -/
inductive SList.Ptr where
  | head
  | next (elm : Nat)
  deriving DecidableEq, Repr

/-- Read `* ptr`. -/
def SList.Links.get (l : SList.Links) : SList.Ptr → Option Nat
  | SList.Ptr.head => l.head
  | SList.Ptr.next x => l.next x

/-- Write `* ptr`. -/
def SList.Links.set (l : SList.Links) (ptr : SList.Ptr) (v : Option Nat) : SList.Links :=
  match ptr with
  | SList.Ptr.head => { l with head := v }
  | SList.Ptr.next x => { l with next := fun i => if i = x then v else l.next i }

/-- `SList::Add(* ptr, elm)` in the default build, where the assertions are
empty: `Next(elm) = head; head = elm;` with `head` the reference `* ptr`. -/
def SList.AddLinks (l : SList.Links) (ptr : SList.Ptr) (elm : Nat) : SList.Links :=
  (l.set (SList.Ptr.next elm) (l.get ptr)).set ptr (some elm)

/-- The loop of `SListOrd::Add`, from `ptr`: the place at which it stops, at
a null pointer or at the first element that `elm` is to precede; `none` when
it has not stopped after `fuel` elements. -/
def SListOrd.walk (Preceeding : Nat → Nat → Bool) (l : SList.Links) (elm : Nat) :
    Nat → SList.Ptr → Option SList.Ptr
  | 0, _ => none
  | fuel + 1, ptr =>
    match l.get ptr with
    | none => some ptr
    | some x =>
      if Preceeding elm x then some ptr
      else SListOrd.walk Preceeding l elm fuel (SList.Ptr.next x)

/-- `SListOrd::Add` on the links: the walk from `& head`, then `SList::Add`
at the place where it stopped; `none` when the walk has not stopped after
`fuel` elements. -/
def SListOrd.AddLinks (Preceeding : Nat → Nat → Bool) (fuel : Nat) (l : SList.Links)
    (elm : Nat) : Option SList.Links :=
  (SListOrd.walk Preceeding l elm fuel SList.Ptr.head).map (fun ptr => SList.AddLinks l ptr elm)

/-- `SList::Fetch` on the links in the default build: `head = Next(head)`, the
link field of the fetched element is left as it is. -/
def SList.FetchLinks (l : SList.Links) : Option Nat × SList.Links :=
  match l.head with
  | none => (none, l)
  | some h => (some h, { l with head := l.next h })

/-- The links from the pointer `p` run through exactly the elements of the
list and end with the null pointer. -/
def SList.holds (next : Nat → Option Nat) : Option Nat → List Nat → Bool
  | p, [] => decide (p = none)
  | p, x :: xs => decide (p = some x) && SList.holds next (next x) xs

/-- The elements met from the pointer `p` on, at most `fuel` of them: the walk
of `SList::Qty`. -/
def SList.reach (next : Nat → Option Nat) : Nat → Option Nat → List Nat
  | 0, _ => []
  | _ + 1, none => []
  | fuel + 1, some x => x :: SList.reach next fuel (next x)

/-- The successor of `i` in a list. -/
def SList.nextIn : List Nat → Nat → Option Nat
  | x :: y :: rest, i => if i = x then some y else SList.nextIn (y :: rest) i
  | _, _ => none

/-- The ready queue and the sleep queue as the source holds them: the two
head pointers `m_work_tasks.m_task_list` and `m_sleep_tasks.m_task_list`, and
the one link field `m_next_sched_task` of every task. -/
structure TaskRooms where
  work : Option Nat
  sleep : Option Nat
  next : Nat → Option Nat

/-- The links of the ready queue. -/
def TaskRooms.workLinks (r : TaskRooms) : SList.Links := { head := r.work, next := r.next }

/-- The links of the sleep queue. -/
def TaskRooms.sleepLinks (r : TaskRooms) : SList.Links := { head := r.sleep, next := r.next }

/-- The links that hold the two queues of a state in which no task was linked
while it was linked. -/
def TaskRooms.ofKernel (k : Kernel) : TaskRooms :=
  { work := k.sch.m_work_tasks.head?
    sleep := k.sch.m_sleep_tasks.head?
    next := fun i =>
      match SList.nextIn k.sch.m_work_tasks i with
      | some y => some y
      | none => SList.nextIn k.sch.m_sleep_tasks i }

/-- `TaskWorkRoom::Insert` on the links. -/
def TaskWorkRoom.InsertLinks (fuel : Nat) (k : Kernel) (r : TaskRooms) (task : Nat) :
    Option TaskRooms :=
  (SListOrd.AddLinks (PriorPreceeding k) fuel r.workLinks task).map
    (fun l => { r with work := l.head, next := l.next })

/-- `TaskSleepRoom::Insert` on the links. -/
def TaskSleepRoom.InsertLinks (fuel : Nat) (k : Kernel) (r : TaskRooms) (task : Nat) :
    Option TaskRooms :=
  (SListOrd.AddLinks (WakeupPreceeding k) fuel r.sleepLinks task).map
    (fun l => { r with sleep := l.head, next := l.next })

/-- `TaskWorkRoom::Fetch` on the links. -/
def TaskWorkRoom.FetchLinks (r : TaskRooms) : Option Nat × TaskRooms :=
  ((SList.FetchLinks r.workLinks).1,
    { r with
      work := (SList.FetchLinks r.workLinks).2.head
      next := (SList.FetchLinks r.workLinks).2.next })

/-- `Scheduler::SelectNextTask` with the ready queue on the links `r`: the
statements of the source with `m_work_tasks.Insert` and `m_work_tasks.Fetch`
on the links; the lists of `k` are not read.  The current task is `none`
afterwards when `Fetch` returned the null pointer (the source then writes
through it).  `none`: the walk of `Insert` has not stopped after `fuel`
elements. -/
def Scheduler.SelectNextTaskLinks (fuel : Nat) (k : Kernel) (r : TaskRooms) :
    Option (Kernel × TaskRooms) :=
  let k :=
    match k.sch.m_cur_task with
    | none => k
    | some c =>
      if (k.tasks c).m_state = Task.State.StateRunning then
        k.setTask c (fun t => { t with m_state := Task.State.StateReady })
      else k
  let inserted :=
    match k.sch.m_cur_task with
    | none => some r
    | some c =>
      if (k.tasks c).m_state = Task.State.StateReady then TaskWorkRoom.InsertLinks fuel k r c
      else some r
  inserted.map (fun r =>
    let f := TaskWorkRoom.FetchLinks r
    let k := k.setSch (fun s => { s with m_cur_task := f.1 })
    (match f.1 with
      | none => k
      | some n => k.setTask n (fun t => { t with m_state := Task.State.StateRunning }),
     f.2))

/-! ## A run that links the current task twice -/

/-- The booted system after `Scheduler::AddTask` of task 1 with priority 30
and the context switch that follows: task 1 runs and the idle task 0 is alone
in the ready queue. -/
def bootedTask : Kernel := kRun booted [KOp.add 1 30 Task.Mode.ModePrivileged, KOp.switch]

/-- The system after the running task 1 has paused the scheduler, called
`Task::Delay(50)`, been unblocked by `Scheduler::UnblockTask` and changed its
own priority to 31 by `Scheduler::SetTaskPriority`: it still runs, because the
scheduler is paused, and `IntSetTaskPriority_Priv`, finding it `Ready`, has
put it into the ready queue. -/
def queuedCurrent : Kernel :=
  (Scheduler.SetTaskPriority
    (Scheduler.UnblockTask
      (Scheduler.BlockCurrentTask (Scheduler.Pause bootedTask true).2 50).2 (some 1)).2
    (some 1) 31).2

/-- Task 1 calls `Task::Delay(50)` again, still in the pause. -/
def queuedSleeper : Kernel := (Scheduler.BlockCurrentTask queuedCurrent 50).2

/-- Task 1 ends the pause; the pending context switch is taken. -/
def queuedResumed : Kernel := PendSV_Handler (Scheduler.Pause queuedSleeper false).2

/-- Task 1, selected again, calls `Task::Delay(50)`; the context switch is
pending. -/
def queuedBlocked : Kernel := (Scheduler.BlockCurrentTask queuedResumed 50).2

/-- The links after the second `Task::Delay(50)` of task 1:
`m_sleep_tasks.Insert` on the links of `queuedCurrent`. -/
def queuedSleeperRooms : Option TaskRooms :=
  TaskSleepRoom.InsertLinks 8 queuedSleeper (TaskRooms.ofKernel queuedCurrent) 1

/-- The state and the links after the context switch that follows the end of
the pause: `Scheduler::SelectNextTask` on the links. -/
def queuedResumedLinks : Option (Kernel × TaskRooms) :=
  queuedSleeperRooms.bind
    (fun r => Scheduler.SelectNextTaskLinks 8 (Scheduler.Pause queuedSleeper false).2 r)

/-- The links after the third `Task::Delay(50)` of task 1. -/
def queuedBlockedRooms : Option TaskRooms :=
  queuedResumedLinks.bind (fun x => TaskSleepRoom.InsertLinks 8 queuedBlocked x.2 1)

/-- The state and the links after `Scheduler::SelectNextTask` in the context
switch that follows the third `Task::Delay(50)`. -/
def queuedSelected : Option (Kernel × TaskRooms) :=
  queuedBlockedRooms.bind (fun r => Scheduler.SelectNextTaskLinks 8 queuedBlocked r)

/-! # Theorems -/

/-! ## Frame lemmas -/

@[simp]
theorem CriticalSection_sch (k : Kernel) : (CriticalSection k).sch = k.sch := by
  unfold CriticalSection MACS_ALARM; split <;> rfl

@[simp]
theorem CriticalSection_tasks (k : Kernel) : (CriticalSection k).tasks = k.tasks := by
  unfold CriticalSection MACS_ALARM; split <;> rfl

@[simp]
theorem CriticalSection_mutexes (k : Kernel) :
    (CriticalSection k).mutexes = k.mutexes := by
  unfold CriticalSection MACS_ALARM; split <;> rfl

@[simp]
theorem CriticalSection_semaphores (k : Kernel) :
    (CriticalSection k).semaphores = k.semaphores := by
  unfold CriticalSection MACS_ALARM; split <;> rfl

@[simp]
theorem CriticalSection_events (k : Kernel) : (CriticalSection k).events = k.events := by
  unfold CriticalSection MACS_ALARM; split <;> rfl

@[simp]
theorem CriticalSection_sys (k : Kernel) : (CriticalSection k).sys = k.sys := by
  unfold CriticalSection MACS_ALARM; split <;> rfl

theorem CriticalSection_priv (k : Kernel) (h : System.IsInPrivOrIrq k = true) :
    CriticalSection k = k := by
  unfold CriticalSection; simp [h]

open Task.State Task.UnblockReason

/-! ## Projections of the heap updates -/

theorem Kernel.ext_fields {a b : Kernel} (h1 : a.sch = b.sch) (h2 : a.tasks = b.tasks)
    (h3 : a.mutexes = b.mutexes) (h4 : a.semaphores = b.semaphores) (h5 : a.events = b.events)
    (h6 : a.sys = b.sys) (h7 : a.alarms = b.alarms) : a = b := by
  cases a; cases b; simp_all

section projections
variable (k : Kernel) (t : Nat)

@[simp]
theorem setTask_sch (f : Task → Task) : (k.setTask t f).sch = k.sch := rfl
@[simp]
theorem setTask_mutexes (f : Task → Task) : (k.setTask t f).mutexes = k.mutexes := rfl
@[simp]
theorem setTask_semaphores (f : Task → Task) :
    (k.setTask t f).semaphores = k.semaphores := rfl
@[simp]
theorem setTask_events (f : Task → Task) : (k.setTask t f).events = k.events := rfl
@[simp]
theorem setTask_sys (f : Task → Task) : (k.setTask t f).sys = k.sys := rfl
@[simp]
theorem setTask_alarms (f : Task → Task) : (k.setTask t f).alarms = k.alarms := rfl
@[simp]
theorem setTask_tasks (f : Task → Task) (i : Nat) :
    (k.setTask t f).tasks i = if i = t then f (k.tasks t) else k.tasks i := rfl

@[simp]
theorem setMutex_sch (f : Mutex → Mutex) : (k.setMutex t f).sch = k.sch := rfl
@[simp]
theorem setMutex_tasks (f : Mutex → Mutex) : (k.setMutex t f).tasks = k.tasks := rfl
@[simp]
theorem setMutex_semaphores (f : Mutex → Mutex) :
    (k.setMutex t f).semaphores = k.semaphores := rfl
@[simp]
theorem setMutex_events (f : Mutex → Mutex) : (k.setMutex t f).events = k.events := rfl
@[simp]
theorem setMutex_sys (f : Mutex → Mutex) : (k.setMutex t f).sys = k.sys := rfl
@[simp]
theorem setMutex_alarms (f : Mutex → Mutex) : (k.setMutex t f).alarms = k.alarms := rfl
@[simp]
theorem setMutex_mutexes (f : Mutex → Mutex) (i : Nat) :
    (k.setMutex t f).mutexes i = if i = t then f (k.mutexes t) else k.mutexes i := rfl

@[simp]
theorem setSemaphore_sch (f : Semaphore → Semaphore) :
    (k.setSemaphore t f).sch = k.sch := rfl
@[simp]
theorem setSemaphore_tasks (f : Semaphore → Semaphore) :
    (k.setSemaphore t f).tasks = k.tasks := rfl
@[simp]
theorem setSemaphore_mutexes (f : Semaphore → Semaphore) :
    (k.setSemaphore t f).mutexes = k.mutexes := rfl
@[simp]
theorem setSemaphore_events (f : Semaphore → Semaphore) :
    (k.setSemaphore t f).events = k.events := rfl
@[simp]
theorem setSemaphore_sys (f : Semaphore → Semaphore) :
    (k.setSemaphore t f).sys = k.sys := rfl
@[simp]
theorem setSemaphore_alarms (f : Semaphore → Semaphore) :
    (k.setSemaphore t f).alarms = k.alarms := rfl
@[simp]
theorem setSemaphore_semaphores (f : Semaphore → Semaphore) (i : Nat) :
    (k.setSemaphore t f).semaphores i = if i = t then f (k.semaphores t) else k.semaphores i :=
  rfl

@[simp]
theorem setEvent_sch (f : Event → Event) : (k.setEvent t f).sch = k.sch := rfl
@[simp]
theorem setEvent_tasks (f : Event → Event) : (k.setEvent t f).tasks = k.tasks := rfl
@[simp]
theorem setEvent_mutexes (f : Event → Event) : (k.setEvent t f).mutexes = k.mutexes := rfl
@[simp]
theorem setEvent_semaphores (f : Event → Event) :
    (k.setEvent t f).semaphores = k.semaphores := rfl
@[simp]
theorem setEvent_sys (f : Event → Event) : (k.setEvent t f).sys = k.sys := rfl
@[simp]
theorem setEvent_alarms (f : Event → Event) : (k.setEvent t f).alarms = k.alarms := rfl
@[simp]
theorem setEvent_events (f : Event → Event) (i : Nat) :
    (k.setEvent t f).events i = if i = t then f (k.events t) else k.events i := rfl

@[simp]
theorem setSch_sch (f : Scheduler → Scheduler) : (k.setSch f).sch = f k.sch := rfl
@[simp]
theorem setSch_tasks (f : Scheduler → Scheduler) : (k.setSch f).tasks = k.tasks := rfl
@[simp]
theorem setSch_mutexes (f : Scheduler → Scheduler) :
    (k.setSch f).mutexes = k.mutexes := rfl
@[simp]
theorem setSch_semaphores (f : Scheduler → Scheduler) :
    (k.setSch f).semaphores = k.semaphores := rfl
@[simp]
theorem setSch_events (f : Scheduler → Scheduler) : (k.setSch f).events = k.events := rfl
@[simp]
theorem setSch_sys (f : Scheduler → Scheduler) : (k.setSch f).sys = k.sys := rfl
@[simp]
theorem setSch_alarms (f : Scheduler → Scheduler) : (k.setSch f).alarms = k.alarms := rfl

end projections

theorem mem_SListOrd_Add (P : Nat → Nat → Bool) (l : List Nat) (e x : Nat) :
    x ∈ SListOrd.Add P l e ↔ x = e ∨ x ∈ l := by
  induction l with
  | nil => simp [SListOrd.Add]
  | cons y ys ih =>
    unfold SListOrd.Add
    split
    · simp
    · simp [ih]; tauto

theorem OnUnblockTask_request (k : Kernel) (f : SyncRef) (t : Nat) :
    UnblockFunctor.OnUnblockTask k f t UnblockReasonRequest = k := by
  cases f <;> simp [UnblockFunctor.OnUnblockTask, Mutex.OnUnblockTask, SyncObject.OnUnblockTask]

theorem UnblockTaskInternal_request (k : Kernel) (t : Nat)
    (hb : (k.tasks t).m_state = StateBlocked) :
    (Scheduler.UnblockTaskInternal k t UnblockReasonRequest).1 = true
    ∧ (Scheduler.UnblockTaskInternal k t UnblockReasonRequest).2.tasks
        = (fun i => if i = t then wokenByRequest (k.tasks t) else k.tasks i)
    ∧ (Scheduler.UnblockTaskInternal k t UnblockReasonRequest).2.mutexes = k.mutexes
    ∧ (Scheduler.UnblockTaskInternal k t UnblockReasonRequest).2.semaphores = k.semaphores
    ∧ (Scheduler.UnblockTaskInternal k t UnblockReasonRequest).2.events = k.events
    ∧ (Scheduler.UnblockTaskInternal k t UnblockReasonRequest).2.sys = k.sys
    ∧ (Scheduler.UnblockTaskInternal k t UnblockReasonRequest).2.alarms = k.alarms
    ∧ (Scheduler.UnblockTaskInternal k t UnblockReasonRequest).2.sch.m_sleep_tasks
        = k.sch.m_sleep_tasks
    ∧ (Scheduler.UnblockTaskInternal k t UnblockReasonRequest).2.sch.m_cur_task
        = k.sch.m_cur_task
    ∧ (Scheduler.UnblockTaskInternal k t UnblockReasonRequest).2.sch.m_started
        = k.sch.m_started
    ∧ (Scheduler.UnblockTaskInternal k t UnblockReasonRequest).2.sch.m_use_preemption
        = k.sch.m_use_preemption
    ∧ (k.sch.m_cur_task ≠ some t →
        t ∈ (Scheduler.UnblockTaskInternal k t UnblockReasonRequest).2.sch.m_work_tasks) := by
  unfold Scheduler.UnblockTaskInternal
  simp only [hb, ne_eq, not_true_eq_false, if_false, setTask_sch]
  have key : ∀ k2 : Kernel, k2.tasks = (k.setTask t
      (fun t => { t with m_unblock_reason := UnblockReasonRequest, m_state := StateReady })).tasks →
      (match (k2.tasks t).m_unblock_func with
        | some f => (UnblockFunctor.OnUnblockTask k2 f t UnblockReasonRequest).setTask t
            (fun t => { t with m_unblock_func := none })
        | none => k2).tasks = (fun i => if i = t then wokenByRequest (k.tasks t) else k.tasks i)
      ∧ (match (k2.tasks t).m_unblock_func with
        | some f => (UnblockFunctor.OnUnblockTask k2 f t UnblockReasonRequest).setTask t
            (fun t => { t with m_unblock_func := none })
        | none => k2).sch = k2.sch
      ∧ (match (k2.tasks t).m_unblock_func with
        | some f => (UnblockFunctor.OnUnblockTask k2 f t UnblockReasonRequest).setTask t
            (fun t => { t with m_unblock_func := none })
        | none => k2).mutexes = k2.mutexes
      ∧ (match (k2.tasks t).m_unblock_func with
        | some f => (UnblockFunctor.OnUnblockTask k2 f t UnblockReasonRequest).setTask t
            (fun t => { t with m_unblock_func := none })
        | none => k2).semaphores = k2.semaphores
      ∧ (match (k2.tasks t).m_unblock_func with
        | some f => (UnblockFunctor.OnUnblockTask k2 f t UnblockReasonRequest).setTask t
            (fun t => { t with m_unblock_func := none })
        | none => k2).events = k2.events
      ∧ (match (k2.tasks t).m_unblock_func with
        | some f => (UnblockFunctor.OnUnblockTask k2 f t UnblockReasonRequest).setTask t
            (fun t => { t with m_unblock_func := none })
        | none => k2).sys = k2.sys
      ∧ (match (k2.tasks t).m_unblock_func with
        | some f => (UnblockFunctor.OnUnblockTask k2 f t UnblockReasonRequest).setTask t
            (fun t => { t with m_unblock_func := none })
        | none => k2).alarms = k2.alarms := by
    intro k2 h2
    have h2t : k2.tasks t = { k.tasks t with
        m_unblock_reason := UnblockReasonRequest, m_state := StateReady } := by
      rw [h2]; simp
    rcases hf : (k2.tasks t).m_unblock_func with _ | f
    · refine ⟨?_, rfl, rfl, rfl, rfl, rfl, rfl⟩
      funext i
      by_cases hi : i = t
      · subst hi
        rw [h2t] at hf
        simp [wokenByRequest, h2t]
        simpa using hf
      · simp [hi, h2]
    · simp only [OnUnblockTask_request]
      refine ⟨?_, rfl, rfl, rfl, rfl, rfl, rfl⟩
      funext i
      by_cases hi : i = t
      · subst hi
        simp [wokenByRequest, h2t]
      · simp [hi, h2]
  by_cases hc : some t = k.sch.m_cur_task
  · simp only [hc, not_true_eq_false, if_false]
    obtain ⟨a1, a2, a3, a4, a5, a6, a7⟩ := key _ rfl
    simp only [a1, a2, a3, a4, a5, a6, a7]
    simp [hc.symm]
  · simp only [hc, not_false_eq_true, if_true]
    obtain ⟨a1, a2, a3, a4, a5, a6, a7⟩ := key (TaskWorkRoom.Insert (k.setTask t
      (fun t => { t with m_unblock_reason := UnblockReasonRequest, m_state := StateReady })) t) rfl
    simp only [a1, a2, a3, a4, a5, a6, a7]
    simp [TaskWorkRoom.Insert, TaskWorkList.Add, mem_SListOrd_Add]

@[simp]
theorem TryContextSwitch_tasks (k : Kernel) :
    (Scheduler.TryContextSwitch k).tasks = k.tasks := by
  unfold Scheduler.TryContextSwitch System.SwitchContext; split <;> rfl

@[simp]
theorem TryContextSwitch_mutexes (k : Kernel) :
    (Scheduler.TryContextSwitch k).mutexes = k.mutexes := by
  unfold Scheduler.TryContextSwitch System.SwitchContext; split <;> rfl

@[simp]
theorem TryContextSwitch_semaphores (k : Kernel) :
    (Scheduler.TryContextSwitch k).semaphores = k.semaphores := by
  unfold Scheduler.TryContextSwitch System.SwitchContext; split <;> rfl

@[simp]
theorem TryContextSwitch_events (k : Kernel) :
    (Scheduler.TryContextSwitch k).events = k.events := by
  unfold Scheduler.TryContextSwitch System.SwitchContext; split <;> rfl

@[simp]
theorem TryContextSwitch_alarms (k : Kernel) :
    (Scheduler.TryContextSwitch k).alarms = k.alarms := by
  unfold Scheduler.TryContextSwitch System.SwitchContext; split <;> rfl

@[simp]
theorem TryContextSwitch_sleep (k : Kernel) :
    (Scheduler.TryContextSwitch k).sch.m_sleep_tasks = k.sch.m_sleep_tasks := by
  unfold Scheduler.TryContextSwitch System.SwitchContext; split <;> rfl

@[simp]
theorem TryContextSwitch_work (k : Kernel) :
    (Scheduler.TryContextSwitch k).sch.m_work_tasks = k.sch.m_work_tasks := by
  unfold Scheduler.TryContextSwitch System.SwitchContext; split <;> rfl

@[simp]
theorem TryContextSwitch_cur (k : Kernel) :
    (Scheduler.TryContextSwitch k).sch.m_cur_task = k.sch.m_cur_task := by
  unfold Scheduler.TryContextSwitch System.SwitchContext; split <;> rfl

@[simp]
theorem TryContextSwitch_started (k : Kernel) :
    (Scheduler.TryContextSwitch k).sch.m_started = k.sch.m_started := by
  unfold Scheduler.TryContextSwitch System.SwitchContext; split <;> rfl

@[simp]
theorem TryContextSwitch_use_preemption (k : Kernel) :
    (Scheduler.TryContextSwitch k).sch.m_use_preemption = k.sch.m_use_preemption := by
  unfold Scheduler.TryContextSwitch System.SwitchContext; split <;> rfl

@[simp]
theorem TryContextSwitch_mode (k : Kernel) :
    (Scheduler.TryContextSwitch k).sys.mode = k.sys.mode := by
  unfold Scheduler.TryContextSwitch System.SwitchContext; split <;> rfl

@[simp]
theorem TryContextSwitch_priv (k : Kernel) :
    (Scheduler.TryContextSwitch k).sys.priv = k.sys.priv := by
  unfold Scheduler.TryContextSwitch System.SwitchContext; split <;> rfl

/-- What `UnblockTask_Priv` does to a blocked task. -/
theorem UnblockTask_Priv_blocked (k : Kernel) (t : Nat)
    (hb : (k.tasks t).m_state = StateBlocked) :
    (UnblockTask_Priv k t).1 = Result.ResultOk
    ∧ (UnblockTask_Priv k t).2.tasks
        = (fun i => if i = t then wokenByRequest (k.tasks t) else k.tasks i)
    ∧ (UnblockTask_Priv k t).2.mutexes = k.mutexes
    ∧ (UnblockTask_Priv k t).2.semaphores = k.semaphores
    ∧ (UnblockTask_Priv k t).2.events = k.events
    ∧ (UnblockTask_Priv k t).2.sch.m_sleep_tasks = SList.Del k.sch.m_sleep_tasks t
    ∧ (UnblockTask_Priv k t).2.sch.m_cur_task = k.sch.m_cur_task
    ∧ (UnblockTask_Priv k t).2.sys.mode = k.sys.mode
    ∧ (k.sch.m_cur_task ≠ some t → t ∈ (UnblockTask_Priv k t).2.sch.m_work_tasks) := by
  have hb2 : ((TaskSleepRoom.Remove (CriticalSection k) t).tasks t).m_state = StateBlocked := by
    simpa [TaskSleepRoom.Remove] using hb
  obtain ⟨a1, a2, a3, a4, a5, a6, a7, a8, a9, a10, a11, a12⟩ :=
    UnblockTaskInternal_request (TaskSleepRoom.Remove (CriticalSection k) t) t hb2
  have hcur : (TaskSleepRoom.Remove (CriticalSection k) t).sch.m_cur_task = k.sch.m_cur_task := by
    simp [TaskSleepRoom.Remove]
  unfold UnblockTask_Priv
  simp only [a1]
  by_cases hp : (Scheduler.UnblockTaskInternal (TaskSleepRoom.Remove (CriticalSection k) t) t
      UnblockReasonRequest).2.sch.m_use_preemption = false
  · simp only [hp, if_true, Bool.true_eq_false, if_false]
    refine ⟨trivial, ?_, ?_, ?_, ?_, ?_, ?_, ?_, ?_⟩
    · rw [a2]; simp [TaskSleepRoom.Remove]
    · rw [a3]; simp [TaskSleepRoom.Remove]
    · rw [a4]; simp [TaskSleepRoom.Remove]
    · rw [a5]; simp [TaskSleepRoom.Remove]
    · rw [a8]; simp [TaskSleepRoom.Remove]
    · rw [a9]; simp [TaskSleepRoom.Remove]
    · rw [a6]; simp [TaskSleepRoom.Remove]
    · intro h; exact a12 (by rw [hcur]; exact h)
  · simp only [hp, if_false, Bool.true_eq_false]
    rcases hc : (Scheduler.UnblockTaskInternal (TaskSleepRoom.Remove (CriticalSection k) t) t
      UnblockReasonRequest).2.sch.m_cur_task with _ | c
    · simp only []
      refine ⟨trivial, ?_, ?_, ?_, ?_, ?_, ?_, ?_, ?_⟩
      · rw [a2]; simp [TaskSleepRoom.Remove]
      · rw [a3]; simp [TaskSleepRoom.Remove]
      · rw [a4]; simp [TaskSleepRoom.Remove]
      · rw [a5]; simp [TaskSleepRoom.Remove]
      · rw [a8]; simp [TaskSleepRoom.Remove]
      · rw [← hcur, ← a9, hc]
      · rw [a6]; simp [TaskSleepRoom.Remove]
      · intro h; exact a12 (by rw [hcur]; exact h)
    · simp only []
      split
      · refine ⟨rfl, ?_, ?_, ?_, ?_, ?_, ?_, ?_, ?_⟩
        · simp only [TryContextSwitch_tasks]; rw [a2]; simp [TaskSleepRoom.Remove]
        · simp only [TryContextSwitch_mutexes]; rw [a3]; simp [TaskSleepRoom.Remove]
        · simp only [TryContextSwitch_semaphores]; rw [a4]; simp [TaskSleepRoom.Remove]
        · simp only [TryContextSwitch_events]; rw [a5]; simp [TaskSleepRoom.Remove]
        · simp only [TryContextSwitch_sleep]; rw [a8]; simp [TaskSleepRoom.Remove]
        · simp only [TryContextSwitch_cur]; rw [← hcur, ← a9, hc]
        · simp only [TryContextSwitch_mode]; rw [a6]; simp [TaskSleepRoom.Remove]
        · intro h
          simp only [TryContextSwitch_work]
          exact a12 (by rw [hcur]; exact h)
      · refine ⟨rfl, ?_, ?_, ?_, ?_, ?_, ?_, ?_, ?_⟩
        · rw [a2]; simp [TaskSleepRoom.Remove]
        · rw [a3]; simp [TaskSleepRoom.Remove]
        · rw [a4]; simp [TaskSleepRoom.Remove]
        · rw [a5]; simp [TaskSleepRoom.Remove]
        · rw [a8]; simp [TaskSleepRoom.Remove]
        · rw [← hcur, ← a9, hc]
        · rw [a6]; simp [TaskSleepRoom.Remove]
        · intro h; exact a12 (by rw [hcur]; exact h)

/-- What `Scheduler::UnblockTask` does to a blocked task on a started
scheduler when kernel calls are allowed. -/
theorem Scheduler_UnblockTask_blocked (k : Kernel) (t : Nat)
    (hs : k.sch.m_started = true) (ha : System.IsSysCallAllowed k = true)
    (hb : (k.tasks t).m_state = StateBlocked) :
    (Scheduler.UnblockTask k (some t)).1 = Result.ResultOk
    ∧ (Scheduler.UnblockTask k (some t)).2.tasks
        = (fun i => if i = t then wokenByRequest (k.tasks t) else k.tasks i)
    ∧ (Scheduler.UnblockTask k (some t)).2.mutexes = k.mutexes
    ∧ (Scheduler.UnblockTask k (some t)).2.semaphores = k.semaphores
    ∧ (Scheduler.UnblockTask k (some t)).2.events = k.events
    ∧ (Scheduler.UnblockTask k (some t)).2.sch.m_sleep_tasks = SList.Del k.sch.m_sleep_tasks t
    ∧ (Scheduler.UnblockTask k (some t)).2.sch.m_cur_task = k.sch.m_cur_task
    ∧ (k.sch.m_cur_task ≠ some t →
        t ∈ (Scheduler.UnblockTask k (some t)).2.sch.m_work_tasks) := by
  unfold Scheduler.UnblockTask
  simp only [hs, ha, Bool.true_eq_false, if_false]
  split
  · obtain ⟨a1, a2, a3, a4, a5, a6, a7, _, a9⟩ := UnblockTask_Priv_blocked k t hb
    exact ⟨a1, a2, a3, a4, a5, a6, a7, a9⟩
  · obtain ⟨a1, a2, a3, a4, a5, a6, a7, _, a9⟩ :=
      UnblockTask_Priv_blocked { k with sys := { k.sys with mode := ExecMode.svc } } t hb
    exact ⟨a1, a2, a3, a4, a5, a6, a7, a9⟩

/-- C8. A non-blocking probe `Lock_Priv(M, 0)` of a mutex owned by a task
other than the current one returns `ResultTimeout` and changes nothing: the
mutexes (owner, lock count, original priority, waiter list), the tasks
(priority, state) and the scheduler (ready and sleep queue) are as before;
entered in privileged or handler mode the whole state is as before. -/
theorem Lock_Priv_probe_contended (k : Kernel) (m o : Nat)
    (hown : (k.mutexes m).m_owner = some o)
    (hcur : k.sch.m_cur_task ≠ some o) :
    (Mutex.Lock_Priv k m 0).1 = Result.ResultTimeout
    ∧ (Mutex.Lock_Priv k m 0).2.mutexes = k.mutexes
    ∧ (Mutex.Lock_Priv k m 0).2.tasks = k.tasks
    ∧ (Mutex.Lock_Priv k m 0).2.sch = k.sch
    ∧ (Mutex.Lock_Priv k m 0).2.semaphores = k.semaphores
    ∧ (Mutex.Lock_Priv k m 0).2.events = k.events
    ∧ (Mutex.Lock_Priv k m 0).2.sys = k.sys
    ∧ (System.IsInPrivOrIrq k = true → (Mutex.Lock_Priv k m 0).2 = k) := by
  have h1 : ¬ (some o = k.sch.m_cur_task) := fun h => hcur h.symm
  refine ⟨?_, ?_, ?_, ?_, ?_, ?_, ?_, ?_⟩ <;>
    first
    | (simp [Mutex.Lock_Priv, hown, h1]; done)
    | (intro hp; simp [Mutex.Lock_Priv, hown, h1, CriticalSection_priv k hp])

/-- C10. The non-blocking paths of `Semaphore::Wait_Priv`.  With
`count > 0` the count drops by exactly one, `ResultOk` is returned, and the
waiter list, every task state and the scheduler queues stay as they are.
With `count == 0` and `timeout_ms == 0` it returns `ResultTimeout` and the
semaphores, the tasks and the scheduler stay as they are. -/
theorem Wait_Priv_nonblocking (k : Kernel) (s timeout_ms : Nat) :
    ((k.semaphores s).m_count > 0 →
      (Semaphore.Wait_Priv k s timeout_ms).1 = Result.ResultOk
      ∧ ((Semaphore.Wait_Priv k s timeout_ms).2.semaphores s).m_count = (k.semaphores s).m_count - 1
      ∧ ((Semaphore.Wait_Priv k s timeout_ms).2.semaphores s).m_blocked_task_list
          = (k.semaphores s).m_blocked_task_list
      ∧ (∀ t, ((Semaphore.Wait_Priv k s timeout_ms).2.tasks t).m_state = (k.tasks t).m_state)
      ∧ (Semaphore.Wait_Priv k s timeout_ms).2.sch = k.sch)
    ∧ ((k.semaphores s).m_count = 0 →
      (Semaphore.Wait_Priv k s 0).1 = Result.ResultTimeout
      ∧ (Semaphore.Wait_Priv k s 0).2.semaphores = k.semaphores
      ∧ (Semaphore.Wait_Priv k s 0).2.tasks = k.tasks
      ∧ (Semaphore.Wait_Priv k s 0).2.sch = k.sch
      ∧ (Semaphore.Wait_Priv k s 0).2.mutexes = k.mutexes
      ∧ (Semaphore.Wait_Priv k s 0).2.events = k.events
      ∧ (Semaphore.Wait_Priv k s 0).2.sys = k.sys) := by
  constructor
  · intro h
    have h0 : (k.semaphores s).m_count ≠ 0 := Nat.pos_iff_ne_zero.mp h
    rcases hc : k.sch.m_cur_task with _ | c
    · simp [Semaphore.Wait_Priv, Semaphore.TryDecrement, h0, hc, Kernel.setSemaphore]
    · simp [Semaphore.Wait_Priv, Semaphore.TryDecrement, h0, hc, Kernel.setSemaphore,
        Kernel.setTask]
      intro t
      split <;> simp_all
  · intro h
    simp [Semaphore.Wait_Priv, Semaphore.TryDecrement, h]

/-- C7. A nested lock of a non-recursive mutex by its owner raises
`AR_NESTED_MUTEX_LOCK`, returns `ResultErrorInvalidState` and changes
nothing but the alarm record: the mutexes (owner, lock count, waiter list),
the tasks (state, owned list) and the scheduler are as before. -/
theorem Lock_Priv_nested_nonrecursive (k : Kernel) (m timeout_ms c : Nat)
    (hcur : k.sch.m_cur_task = some c)
    (hown : (k.mutexes m).m_owner = some c)
    (hrec : (k.mutexes m).m_recursive = false) :
    (Mutex.Lock_Priv k m timeout_ms).1 = Result.ResultErrorInvalidState
    ∧ (Mutex.Lock_Priv k m timeout_ms).2.alarms
        = (CriticalSection k).alarms ++ [ALARM_REASON.AR_NESTED_MUTEX_LOCK]
    ∧ (Mutex.Lock_Priv k m timeout_ms).2.mutexes = k.mutexes
    ∧ (Mutex.Lock_Priv k m timeout_ms).2.tasks = k.tasks
    ∧ (Mutex.Lock_Priv k m timeout_ms).2.sch = k.sch
    ∧ (Mutex.Lock_Priv k m timeout_ms).2.semaphores = k.semaphores
    ∧ (Mutex.Lock_Priv k m timeout_ms).2.events = k.events
    ∧ (Mutex.Lock_Priv k m timeout_ms).2.sys = k.sys := by
  simp [Mutex.Lock_Priv, hcur, hown, hrec, MACS_ALARM]

/-- Witness for C7: task 2 of the concrete system has locked mutex 1 and
locks it again. -/
theorem Lock_Priv_nested_nonrecursive_witness :
    (run demo [Op.lock 1 INFINITE_TIMEOUT]).sch.m_cur_task = some 2
    ∧ ((run demo [Op.lock 1 INFINITE_TIMEOUT]).mutexes 1).m_owner = some 2
    ∧ ((run demo [Op.lock 1 INFINITE_TIMEOUT]).mutexes 1).m_recursive = false
    ∧ (Mutex.Lock_Priv (run demo [Op.lock 1 INFINITE_TIMEOUT]) 1 5).1
        = Result.ResultErrorInvalidState :=
  ⟨by decide, by decide, by decide,
    (Lock_Priv_nested_nonrecursive (run demo [Op.lock 1 INFINITE_TIMEOUT]) 1 5 2
      (by decide) (by decide) (by decide)).1⟩

/-- Witness for C8: task 2 holds mutex 1, the tick makes task 1 current, and
task 1 probes the mutex. -/
theorem Lock_Priv_probe_contended_witness :
    ((run demo [Op.lock 1 INFINITE_TIMEOUT, Op.tick]).mutexes 1).m_owner = some 2
    ∧ (run demo [Op.lock 1 INFINITE_TIMEOUT, Op.tick]).sch.m_cur_task ≠ some 2
    ∧ (Mutex.Lock_Priv (run demo [Op.lock 1 INFINITE_TIMEOUT, Op.tick]) 1 0).1
        = Result.ResultTimeout :=
  ⟨by decide, by decide,
    (Lock_Priv_probe_contended (run demo [Op.lock 1 INFINITE_TIMEOUT, Op.tick]) 1 2
      (by decide) (by decide)).1⟩

/-- Witness for C10: semaphore 0 of the concrete system holds two tokens,
semaphore 1 none. -/
theorem Wait_Priv_nonblocking_witness :
    ((demo.semaphores 0).m_count > 0
      ∧ (Semaphore.Wait_Priv demo 0 7).1 = Result.ResultOk
      ∧ ((Semaphore.Wait_Priv demo 0 7).2.semaphores 0).m_count = (demo.semaphores 0).m_count - 1)
    ∧ ((demo.semaphores 1).m_count = 0
      ∧ (Semaphore.Wait_Priv demo 1 0).1 = Result.ResultTimeout) :=
  ⟨⟨by decide, ((Wait_Priv_nonblocking demo 0 7).1 (by decide)).1,
      ((Wait_Priv_nonblocking demo 0 7).1 (by decide)).2.1⟩,
    ⟨by decide, ((Wait_Priv_nonblocking demo 1 0).2 (by decide)).1⟩⟩

theorem Yield_Priv_frame (k : Kernel) :
    (Yield_Priv k).tasks = k.tasks ∧ (Yield_Priv k).mutexes = k.mutexes
    ∧ (Yield_Priv k).semaphores = k.semaphores ∧ (Yield_Priv k).events = k.events
    ∧ (Yield_Priv k).sch.m_sleep_tasks = k.sch.m_sleep_tasks
    ∧ (Yield_Priv k).sch.m_work_tasks = k.sch.m_work_tasks
    ∧ (Yield_Priv k).sch.m_cur_task = k.sch.m_cur_task
    ∧ (Yield_Priv k).sch.m_started = k.sch.m_started
    ∧ (Yield_Priv k).sch.m_use_preemption = k.sch.m_use_preemption
    ∧ (Yield_Priv k).sys.mode = k.sys.mode
    ∧ (Yield_Priv k).sys.priv = k.sys.priv := by
  unfold Yield_Priv
  simp only []
  split <;> simp

theorem Yield_frame (k : Kernel) :
    (Scheduler.Yield k).tasks = k.tasks ∧ (Scheduler.Yield k).mutexes = k.mutexes
    ∧ (Scheduler.Yield k).semaphores = k.semaphores ∧ (Scheduler.Yield k).events = k.events
    ∧ (Scheduler.Yield k).sch.m_sleep_tasks = k.sch.m_sleep_tasks
    ∧ (Scheduler.Yield k).sch.m_work_tasks = k.sch.m_work_tasks
    ∧ (Scheduler.Yield k).sch.m_cur_task = k.sch.m_cur_task
    ∧ (Scheduler.Yield k).sch.m_started = k.sch.m_started
    ∧ (Scheduler.Yield k).sch.m_use_preemption = k.sch.m_use_preemption
    ∧ (Scheduler.Yield k).sys.mode = k.sys.mode
    ∧ (Scheduler.Yield k).sys.priv = k.sys.priv := by
  unfold Scheduler.Yield
  split
  · simp
  · split
    · exact Yield_Priv_frame k
    · obtain ⟨a1, a2, a3, a4, a5, a6, a7, a8, a9, _, a11⟩ :=
        Yield_Priv_frame { k with sys := { k.sys with mode := ExecMode.svc } }
      exact ⟨a1, a2, a3, a4, a5, a6, a7, a8, a9, rfl, a11⟩

@[simp]
theorem Yield_tasks (k : Kernel) : (Scheduler.Yield k).tasks = k.tasks := (Yield_frame k).1

@[simp]
theorem Yield_mutexes (k : Kernel) : (Scheduler.Yield k).mutexes = k.mutexes :=
  (Yield_frame k).2.1

@[simp]
theorem Yield_semaphores (k : Kernel) : (Scheduler.Yield k).semaphores = k.semaphores :=
  (Yield_frame k).2.2.1

@[simp]
theorem Yield_events (k : Kernel) : (Scheduler.Yield k).events = k.events :=
  (Yield_frame k).2.2.2.1

@[simp]
theorem Yield_sleep (k : Kernel) :
    (Scheduler.Yield k).sch.m_sleep_tasks = k.sch.m_sleep_tasks := (Yield_frame k).2.2.2.2.1

@[simp]
theorem Yield_work (k : Kernel) :
    (Scheduler.Yield k).sch.m_work_tasks = k.sch.m_work_tasks := (Yield_frame k).2.2.2.2.2.1

@[simp]
theorem Yield_cur (k : Kernel) :
    (Scheduler.Yield k).sch.m_cur_task = k.sch.m_cur_task := (Yield_frame k).2.2.2.2.2.2.1

@[simp]
theorem Yield_started (k : Kernel) :
    (Scheduler.Yield k).sch.m_started = k.sch.m_started := (Yield_frame k).2.2.2.2.2.2.2.1

@[simp]
theorem Yield_use_preemption (k : Kernel) :
    (Scheduler.Yield k).sch.m_use_preemption = k.sch.m_use_preemption :=
  (Yield_frame k).2.2.2.2.2.2.2.2.1

@[simp]
theorem Yield_mode (k : Kernel) : (Scheduler.Yield k).sys.mode = k.sys.mode :=
  (Yield_frame k).2.2.2.2.2.2.2.2.2.1

@[simp]
theorem Yield_priv (k : Kernel) : (Scheduler.Yield k).sys.priv = k.sys.priv :=
  (Yield_frame k).2.2.2.2.2.2.2.2.2.2

/-- The state `_SetTaskPriority_Priv` produces, field by field. -/
theorem SetTaskPriority_bare_frame (k : Kernel) (t p : Nat) :
    (_SetTaskPriority_Priv k t p).tasks
        = (fun i => if i = t then { k.tasks t with m_priority := p } else k.tasks i)
    ∧ (_SetTaskPriority_Priv k t p).mutexes = k.mutexes
    ∧ (_SetTaskPriority_Priv k t p).semaphores = k.semaphores
    ∧ (_SetTaskPriority_Priv k t p).events = k.events
    ∧ (_SetTaskPriority_Priv k t p).sch.m_sleep_tasks = k.sch.m_sleep_tasks
    ∧ (_SetTaskPriority_Priv k t p).sch.m_work_tasks = k.sch.m_work_tasks
    ∧ (_SetTaskPriority_Priv k t p).sch.m_cur_task = k.sch.m_cur_task
    ∧ (_SetTaskPriority_Priv k t p).sch.m_started = k.sch.m_started
    ∧ (_SetTaskPriority_Priv k t p).sys.mode = k.sys.mode := by
  unfold _SetTaskPriority_Priv
  simp only []
  split
  · simp; funext i; rfl
  · simp; funext i; rfl

/-- What `Mutex::UnblockTask` does when the front waiter is blocked, on a
started scheduler that accepts kernel calls. -/
theorem Mutex_UnblockTask_blocked (k : Kernel) (m w : Nat) (ws : List Nat)
    (hw : (k.mutexes m).m_blocked_task_list = w :: ws)
    (hs : k.sch.m_started = true) (ha : System.IsSysCallAllowed k = true)
    (hb : (k.tasks w).m_state = StateBlocked) :
    (Mutex.UnblockTask k m).1 = Result.ResultOk
    ∧ (Mutex.UnblockTask k m).2.mutexes
        = (fun i => if i = m then
            { k.mutexes m with
              m_owner := some w, m_blocked_task_list := ws, m_lock_cnt := 1
              m_owner_original_priority := (k.tasks w).m_priority }
          else k.mutexes i)
    ∧ (Mutex.UnblockTask k m).2.tasks
        = (fun i => if i = w then
            wokenByRequest { k.tasks w with m_owned_obj_list := m :: (k.tasks w).m_owned_obj_list }
          else k.tasks i)
    ∧ (Mutex.UnblockTask k m).2.semaphores = k.semaphores
    ∧ (Mutex.UnblockTask k m).2.events = k.events
    ∧ (Mutex.UnblockTask k m).2.sch.m_sleep_tasks = SList.Del k.sch.m_sleep_tasks w
    ∧ (Mutex.UnblockTask k m).2.sch.m_cur_task = k.sch.m_cur_task
    ∧ (k.sch.m_cur_task ≠ some w → w ∈ (Mutex.UnblockTask k m).2.sch.m_work_tasks) := by
  have heq : Mutex.UnblockTask k m
      = Scheduler.UnblockTask
          ((Task.AddOwnedSync (k.setMutex m (fun x =>
              { x with m_owner := some w, m_blocked_task_list := ws, m_lock_cnt := 1 })) w m).setMutex m
            (fun x => { x with m_owner_original_priority := (k.tasks w).m_priority }))
          (some w) := by
    simp [Mutex.UnblockTask, SList.Fetch, hw, Task.AddOwnedSync, SList.Add]
  rw [heq]
  obtain ⟨a1, a2, a3, a4, a5, a6, a7, a8⟩ := Scheduler_UnblockTask_blocked
    ((Task.AddOwnedSync (k.setMutex m (fun x =>
        { x with m_owner := some w, m_blocked_task_list := ws, m_lock_cnt := 1 })) w m).setMutex m
      (fun x => { x with m_owner_original_priority := (k.tasks w).m_priority })) w
    (by simpa [Task.AddOwnedSync] using hs)
    (by simpa [Task.AddOwnedSync, System.IsSysCallAllowed] using ha)
    (by simpa [Task.AddOwnedSync] using hb)
  refine ⟨a1, ?_, ?_, ?_, ?_, ?_, ?_, ?_⟩
  · rw [a3]; funext i
    by_cases hi : i = m
    · subst hi; simp [Task.AddOwnedSync]
    · simp [hi, Task.AddOwnedSync]
  · rw [a2]; funext i
    by_cases hi : i = w
    · subst hi; simp [Task.AddOwnedSync, SList.Add]
    · simp [hi, Task.AddOwnedSync]
  · rw [a4]; simp [Task.AddOwnedSync]
  · rw [a5]; simp [Task.AddOwnedSync]
  · rw [a6]; simp [Task.AddOwnedSync]
  · rw [a7]; simp [Task.AddOwnedSync]
  · intro hc; exact a8 (by simpa [Task.AddOwnedSync] using hc)

/-- The inherited priority depends on the waiter lists and the task
priorities only. -/
theorem inheritedPriority_congr (k1 k2 : Kernel) (l : List Nat) (i : Nat)
    (hm : ∀ p, (k1.mutexes p).m_blocked_task_list = (k2.mutexes p).m_blocked_task_list)
    (ht : ∀ w, (k1.tasks w).m_priority = (k2.tasks w).m_priority) :
    Mutex.inheritedPriority k1 l i = Mutex.inheritedPriority k2 l i := by
  unfold Mutex.inheritedPriority
  induction l generalizing i with
  | nil => rfl
  | cons p ps ih =>
    simp only [List.foldl_cons, hm, ht]

/-- The state in which `Mutex::Unlock_Priv` reaches its last branch when the
owner gives up its only lock: the lock count is zero, the mutex is unlinked
from the owner, whose priority may have been reset; nothing else moved. -/
theorem Unlock_Priv_final (k : Kernel) (m o : Nat)
    (hcur : k.sch.m_cur_task = some o)
    (hown : (k.mutexes m).m_owner = some o)
    (hcnt : (k.mutexes m).m_lock_cnt = 1) :
    ∃ K : Kernel,
      Mutex.Unlock_Priv k m
        = (if (k.mutexes m).m_blocked_task_list ≠ [] then Mutex.UnblockTask K m
           else (Result.ResultOk, K.setMutex m (fun x => { x with m_owner := none })))
      ∧ K.mutexes = (fun i => if i = m then { k.mutexes m with m_lock_cnt := 0 } else k.mutexes i)
      ∧ (∀ i, i ≠ o → K.tasks i = k.tasks i)
      ∧ (K.tasks o).m_owned_obj_list = SList.Del (k.tasks o).m_owned_obj_list m
      ∧ (K.tasks o).m_state = (k.tasks o).m_state
      ∧ K.semaphores = k.semaphores
      ∧ K.events = k.events
      ∧ K.sch.m_sleep_tasks = k.sch.m_sleep_tasks
      ∧ K.sch.m_work_tasks = k.sch.m_work_tasks
      ∧ K.sch.m_cur_task = k.sch.m_cur_task
      ∧ K.sch.m_started = k.sch.m_started
      ∧ K.sys.mode = k.sys.mode
      ∧ (K.tasks o).m_priority
          = Mutex.inheritedPriority k (SList.Del (k.tasks o).m_owned_obj_list m)
              (k.mutexes m).m_owner_original_priority := by
  let k1 := (CriticalSection k).setMutex m
    (fun x => { x with m_lock_cnt := (x.m_lock_cnt + 2 ^ 32 - 1) % 2 ^ 32 })
  have hm1 : k1.mutexes = (fun i => if i = m then { k.mutexes m with m_lock_cnt := 0 }
      else k.mutexes i) := by
    funext i
    by_cases hi : i = m
    · subst hi; simp [k1, hcnt]
    · simp [k1, hi]
  let k2 := Task.RemoveOwnedSync k1 o m
  let inh := Mutex.inheritedPriority k2 (k2.tasks o).m_owned_obj_list
    (k2.mutexes m).m_owner_original_priority
  let K := if (k2.tasks o).m_priority ≠ inh then _SetTaskPriority_Priv k2 o inh else k2
  have hK : (K = _SetTaskPriority_Priv k2 o inh) ∨ K = k2 := by
    by_cases h : (k2.tasks o).m_priority ≠ inh
    · left; exact if_pos h
    · right; exact if_neg h
  have hKm : K.mutexes = k1.mutexes := by
    rcases hK with h | h
    · rw [h, (SetTaskPriority_bare_frame k2 o inh).2.1]; rfl
    · rw [h]; rfl
  have hlock : (k1.mutexes m).m_lock_cnt = 0 := by rw [hm1]; simp
  have hown1 : (k1.mutexes m).m_owner = some o := by rw [hm1]; simpa using hown
  have hinh : inh = Mutex.inheritedPriority k (SList.Del (k.tasks o).m_owned_obj_list m)
      (k.mutexes m).m_owner_original_priority := by
    have h1 : (k2.tasks o).m_owned_obj_list = SList.Del (k.tasks o).m_owned_obj_list m := by
      simp [k2, Task.RemoveOwnedSync, k1]
    have h2 : (k2.mutexes m).m_owner_original_priority
        = (k.mutexes m).m_owner_original_priority := by
      show (k1.mutexes m).m_owner_original_priority = _
      rw [hm1]; simp
    show Mutex.inheritedPriority k2 (k2.tasks o).m_owned_obj_list
      (k2.mutexes m).m_owner_original_priority = _
    rw [h1, h2]
    apply inheritedPriority_congr
    · intro p
      show (k1.mutexes p).m_blocked_task_list = _
      rw [hm1]
      by_cases hp : p = m
      · subst hp; simp
      · simp [hp]
    · intro w
      by_cases hw : w = o
      · subst hw; simp [k2, Task.RemoveOwnedSync, k1]
      · simp [k2, Task.RemoveOwnedSync, k1, hw]
  refine ⟨K, ?_, ?_, ?_, ?_, ?_, ?_, ?_, ?_, ?_, ?_, ?_, ?_, ?_⟩
  rotate_left 12
  · rw [← hinh]
    by_cases h : (k2.tasks o).m_priority ≠ inh
    · have hKe : K = _SetTaskPriority_Priv k2 o inh := if_pos h
      rw [hKe, (SetTaskPriority_bare_frame k2 o inh).1]; simp
    · have hKe : K = k2 := if_neg h
      rw [hKe]; exact not_not.mp h
  · have hw : (K.mutexes m).m_blocked_task_list = (k.mutexes m).m_blocked_task_list := by
      rw [hKm, hm1]; simp
    unfold Mutex.Unlock_Priv
    simp only [CriticalSection_sch, hcur, CriticalSection_mutexes, hown, ne_eq,
      not_true_eq_false, if_false]
    have h0 : ¬ ((((CriticalSection k).setMutex m
        (fun x => { x with m_lock_cnt := (x.m_lock_cnt + 2 ^ 32 - 1) % 2 ^ 32 })).mutexes m).m_lock_cnt
          > 0) := by
      show ¬ ((k1.mutexes m).m_lock_cnt > 0)
      rw [hlock]; exact Nat.lt_irrefl 0
    simp only [h0, if_false]
    have hr : Mutex.RemoveFromOwner k1 m = (inh, k2) := by
      unfold Mutex.RemoveFromOwner
      rw [hown1]
    show (if ((if ((Mutex.RemoveFromOwner k1 m).2.tasks o).m_priority ≠ (Mutex.RemoveFromOwner k1 m).1
              then _SetTaskPriority_Priv (Mutex.RemoveFromOwner k1 m).2 o (Mutex.RemoveFromOwner k1 m).1
              else (Mutex.RemoveFromOwner k1 m).2).mutexes m).m_blocked_task_list ≠ []
          then _ else _) = _
    rw [hr]
    show (if (K.mutexes m).m_blocked_task_list ≠ [] then Mutex.UnblockTask K m
          else (Result.ResultOk, K.setMutex m (fun x => { x with m_owner := none }))) = _
    rw [hw]
  · rw [hKm, hm1]
  · intro i hi
    rcases hK with h | h
    · rw [h, (SetTaskPriority_bare_frame k2 o inh).1]; simp [hi, k2, Task.RemoveOwnedSync, k1]
    · rw [h]; simp [hi, k2, Task.RemoveOwnedSync, k1]
  · rcases hK with h | h
    · rw [h, (SetTaskPriority_bare_frame k2 o inh).1]; simp [k2, Task.RemoveOwnedSync, k1]
    · rw [h]; simp [k2, Task.RemoveOwnedSync, k1]
  · rcases hK with h | h
    · rw [h, (SetTaskPriority_bare_frame k2 o inh).1]; simp [k2, Task.RemoveOwnedSync, k1]
    · rw [h]; simp [k2, Task.RemoveOwnedSync, k1]
  · rcases hK with h | h
    · rw [h, (SetTaskPriority_bare_frame k2 o inh).2.2.1]; simp [k2, Task.RemoveOwnedSync, k1]
    · rw [h]; simp [k2, Task.RemoveOwnedSync, k1]
  · rcases hK with h | h
    · rw [h, (SetTaskPriority_bare_frame k2 o inh).2.2.2.1]; simp [k2, Task.RemoveOwnedSync, k1]
    · rw [h]; simp [k2, Task.RemoveOwnedSync, k1]
  · rcases hK with h | h
    · rw [h, (SetTaskPriority_bare_frame k2 o inh).2.2.2.2.1]; simp [k2, Task.RemoveOwnedSync, k1]
    · rw [h]; simp [k2, Task.RemoveOwnedSync, k1]
  · rcases hK with h | h
    · rw [h, (SetTaskPriority_bare_frame k2 o inh).2.2.2.2.2.1]; simp [k2, Task.RemoveOwnedSync, k1]
    · rw [h]; simp [k2, Task.RemoveOwnedSync, k1]
  · rcases hK with h | h
    · rw [h, (SetTaskPriority_bare_frame k2 o inh).2.2.2.2.2.2.1]
      simp [k2, Task.RemoveOwnedSync, k1]
    · rw [h]; simp [k2, Task.RemoveOwnedSync, k1]
  · rcases hK with h | h
    · rw [h, (SetTaskPriority_bare_frame k2 o inh).2.2.2.2.2.2.2.1]
      simp [k2, Task.RemoveOwnedSync, k1]
    · rw [h]; simp [k2, Task.RemoveOwnedSync, k1]
  · rcases hK with h | h
    · rw [h, (SetTaskPriority_bare_frame k2 o inh).2.2.2.2.2.2.2.2]
      simp [k2, Task.RemoveOwnedSync, k1]
    · rw [h]; simp [k2, Task.RemoveOwnedSync, k1]

/-- The state `IntSetTaskPriority_Priv` produces for an internal call
(`internal_usage = true`), field by field. -/
theorem IntSetTaskPriority_internal (k : Kernel) (t p : Nat) :
    (IntSetTaskPriority_Priv k t p true).2.tasks
        = (fun i => if i = t ∧ (k.tasks t).m_state ≠ StateInactive then
            { k.tasks t with m_priority := p } else k.tasks i)
    ∧ (IntSetTaskPriority_Priv k t p true).2.mutexes = k.mutexes
    ∧ (IntSetTaskPriority_Priv k t p true).2.semaphores = k.semaphores
    ∧ (IntSetTaskPriority_Priv k t p true).2.events = k.events
    ∧ (IntSetTaskPriority_Priv k t p true).2.sch.m_sleep_tasks = k.sch.m_sleep_tasks
    ∧ (IntSetTaskPriority_Priv k t p true).2.sch.m_cur_task = k.sch.m_cur_task
    ∧ (IntSetTaskPriority_Priv k t p true).2.sch.m_started = k.sch.m_started
    ∧ (IntSetTaskPriority_Priv k t p true).2.sys.mode = k.sys.mode := by
  unfold IntSetTaskPriority_Priv
  simp only [CriticalSection_tasks]
  by_cases h1 : (k.tasks t).m_state = StateInactive
  · simp only [h1, if_true, ne_eq, not_true_eq_false, and_false, if_false]
    simp
  · simp only [h1, if_false, ne_eq, not_false_eq_true, and_true]
    by_cases h2 : (k.tasks t).m_priority = p
    · simp only [h2, if_true]
      refine ⟨?_, by simp, by simp, by simp, by simp, by simp, by simp, by simp⟩
      funext i
      by_cases hi : i = t
      · subst hi; simp [← h2]
      · simp [hi]
    · simp only [h2, if_false, Bool.true_eq_false, if_true]
      have hb : ∀ ka : Kernel,
          (if (ka.tasks t).m_state = StateReady then
              TaskWorkRoom.Insert (TaskWorkRoom.Remove ka t) t else ka).tasks = ka.tasks
          ∧ (if (ka.tasks t).m_state = StateReady then
              TaskWorkRoom.Insert (TaskWorkRoom.Remove ka t) t else ka).mutexes = ka.mutexes
          ∧ (if (ka.tasks t).m_state = StateReady then
              TaskWorkRoom.Insert (TaskWorkRoom.Remove ka t) t else ka).semaphores = ka.semaphores
          ∧ (if (ka.tasks t).m_state = StateReady then
              TaskWorkRoom.Insert (TaskWorkRoom.Remove ka t) t else ka).events = ka.events
          ∧ (if (ka.tasks t).m_state = StateReady then
              TaskWorkRoom.Insert (TaskWorkRoom.Remove ka t) t else ka).sch.m_sleep_tasks
              = ka.sch.m_sleep_tasks
          ∧ (if (ka.tasks t).m_state = StateReady then
              TaskWorkRoom.Insert (TaskWorkRoom.Remove ka t) t else ka).sch.m_cur_task
              = ka.sch.m_cur_task
          ∧ (if (ka.tasks t).m_state = StateReady then
              TaskWorkRoom.Insert (TaskWorkRoom.Remove ka t) t else ka).sch.m_started
              = ka.sch.m_started
          ∧ (if (ka.tasks t).m_state = StateReady then
              TaskWorkRoom.Insert (TaskWorkRoom.Remove ka t) t else ka).sys.mode = ka.sys.mode := by
        intro ka
        split <;> simp [TaskWorkRoom.Insert, TaskWorkRoom.Remove]
      obtain ⟨b1, b2, b3, b4, b5, b6, b7, b8⟩ := hb ((CriticalSection k).setTask t
        (fun t => { t with m_priority := p }))
      have hy : ∀ kb : Kernel,
          (if kb.sch.m_use_preemption = true then Scheduler.Yield kb else kb).tasks = kb.tasks
          ∧ (if kb.sch.m_use_preemption = true then Scheduler.Yield kb else kb).mutexes = kb.mutexes
          ∧ (if kb.sch.m_use_preemption = true then Scheduler.Yield kb else kb).semaphores
              = kb.semaphores
          ∧ (if kb.sch.m_use_preemption = true then Scheduler.Yield kb else kb).events = kb.events
          ∧ (if kb.sch.m_use_preemption = true then Scheduler.Yield kb else kb).sch.m_sleep_tasks
              = kb.sch.m_sleep_tasks
          ∧ (if kb.sch.m_use_preemption = true then Scheduler.Yield kb else kb).sch.m_cur_task
              = kb.sch.m_cur_task
          ∧ (if kb.sch.m_use_preemption = true then Scheduler.Yield kb else kb).sch.m_started
              = kb.sch.m_started
          ∧ (if kb.sch.m_use_preemption = true then Scheduler.Yield kb else kb).sys.mode
              = kb.sys.mode := by
        intro kb
        split <;> simp
      obtain ⟨c1, c2, c3, c4, c5, c6, c7, c8⟩ := hy
        (if (((CriticalSection k).setTask t (fun t => { t with m_priority := p })).tasks t).m_state
            = StateReady then
          TaskWorkRoom.Insert (TaskWorkRoom.Remove ((CriticalSection k).setTask t
            (fun t => { t with m_priority := p })) t) t
         else (CriticalSection k).setTask t (fun t => { t with m_priority := p }))
      refine ⟨?_, ?_, ?_, ?_, ?_, ?_, ?_, ?_⟩
      · rw [c1, b1]; funext i; simp
      · rw [c2, b2]; simp
      · rw [c3, b3]; simp
      · rw [c4, b4]; simp
      · rw [c5, b5]; simp
      · rw [c6, b6]; simp
      · rw [c7, b7]; simp
      · rw [c8, b8]; simp

/-- After `BlockCurrentTask_Priv` blocks the running current task. -/
theorem BlockCurrentTask_Priv_blocks (k : Kernel) (c timeout_ms : Nat) (f : Option SyncRef)
    (hs : k.sch.m_started = true)
    (hmode : (System.IsInInterrupt k && !System.IsInSysCall k) = false)
    (hcur : k.sch.m_cur_task = some c)
    (hrun : (k.tasks c).m_state = StateRunning)
    (ht : timeout_ms ≠ 0) :
    (BlockCurrentTask_Priv k timeout_ms f).1 = Result.ResultOk
    ∧ (BlockCurrentTask_Priv k timeout_ms f).2.tasks
        = (fun i => if i = c then
            { k.tasks c with
              m_state := StateBlocked
              m_unblock_reason := UnblockReasonNone
              m_unblock_func := f
              m_dream_ticks :=
                if timeout_ms ≠ INFINITE_TIMEOUT then MsToTicks k timeout_ms else ULONG_MAX }
          else k.tasks i)
    ∧ (BlockCurrentTask_Priv k timeout_ms f).2.mutexes = k.mutexes
    ∧ (BlockCurrentTask_Priv k timeout_ms f).2.semaphores = k.semaphores
    ∧ (BlockCurrentTask_Priv k timeout_ms f).2.events = k.events
    ∧ (BlockCurrentTask_Priv k timeout_ms f).2.sch.m_cur_task = k.sch.m_cur_task
    ∧ (BlockCurrentTask_Priv k timeout_ms f).2.sch.m_started = k.sch.m_started
    ∧ (BlockCurrentTask_Priv k timeout_ms f).2.sch.m_work_tasks = k.sch.m_work_tasks
    ∧ (BlockCurrentTask_Priv k timeout_ms f).2.sys.mode = k.sys.mode
    ∧ c ∈ (BlockCurrentTask_Priv k timeout_ms f).2.sch.m_sleep_tasks := by
  have hr : Task.IsRunnable (k.tasks c) = true := by simp [Task.IsRunnable, hrun]
  unfold BlockCurrentTask_Priv
  simp only [hs, hmode, Bool.true_eq_false, Bool.false_eq_true, if_false, CriticalSection_sch, hcur,
    CriticalSection_tasks, hr, ht]
  refine ⟨trivial, ?_, by simp [TaskSleepRoom.Insert], by simp [TaskSleepRoom.Insert],
    by simp [TaskSleepRoom.Insert], by simp [TaskSleepRoom.Insert, hcur],
    by simp [TaskSleepRoom.Insert, hs], by simp [TaskSleepRoom.Insert],
    by simp [TaskSleepRoom.Insert], ?_⟩
  · simp only [TryContextSwitch_tasks, TaskSleepRoom.Insert, setSch_tasks]
    funext i
    simp [MsToTicks, System.GetTickRate]
  · simp [TaskSleepRoom.Insert, TaskSleepList.Add, mem_SListOrd_Add]

/-- The priority order looks at the tasks only. -/
theorem PriorPreceeding_congr (k1 k2 : Kernel) (h : k1.tasks = k2.tasks) :
    PriorPreceeding k1 = PriorPreceeding k2 := by
  funext a b
  simp [PriorPreceeding, h]

/-- The state `Mutex::UpdateOwnerPriority` produces, field by field. -/
theorem UpdateOwnerPriority_frame (k : Kernel) (m o : Nat)
    (hown : (k.mutexes m).m_owner = some o) :
    (Mutex.UpdateOwnerPriority k m).tasks
        = (fun i => if i = o ∧ (k.tasks o).m_state ≠ StateInactive then
            { k.tasks o with m_priority := Mutex.maxPriority k m } else k.tasks i)
    ∧ (Mutex.UpdateOwnerPriority k m).mutexes = k.mutexes
    ∧ (Mutex.UpdateOwnerPriority k m).semaphores = k.semaphores
    ∧ (Mutex.UpdateOwnerPriority k m).events = k.events
    ∧ (Mutex.UpdateOwnerPriority k m).sch.m_sleep_tasks = k.sch.m_sleep_tasks
    ∧ (Mutex.UpdateOwnerPriority k m).sch.m_cur_task = k.sch.m_cur_task
    ∧ (Mutex.UpdateOwnerPriority k m).sch.m_started = k.sch.m_started
    ∧ (Mutex.UpdateOwnerPriority k m).sys.mode = k.sys.mode := by
  unfold Mutex.UpdateOwnerPriority
  rw [hown]
  simp only []
  by_cases h : (k.tasks o).m_priority ≠ Mutex.maxPriority k m
  · rw [if_pos h]
    exact IntSetTaskPriority_internal k o (Mutex.maxPriority k m)
  · rw [if_neg h]
    refine ⟨?_, rfl, rfl, rfl, rfl, rfl, rfl, rfl⟩
    have h' : (k.tasks o).m_priority = Mutex.maxPriority k m := not_not.mp h
    funext i
    by_cases hi : i = o ∧ (k.tasks o).m_state ≠ StateInactive
    · rw [if_pos hi, hi.1, ← h']
    · rw [if_neg hi]

/-- The blocking path of `Mutex::Lock_Priv`: the mutex is owned by another
task, the timeout is not zero, and the running current task can block.  The
caller joins the waiter list and blocks; then the owner's priority is set
from the mutex alone. -/
theorem Lock_Priv_blocking (k : Kernel) (x o h timeout_ms : Nat)
    (hown : (k.mutexes x).m_owner = some o)
    (hcur : k.sch.m_cur_task = some h)
    (hne : h ≠ o)
    (ht : timeout_ms ≠ 0)
    (hs : k.sch.m_started = true)
    (hmode : (System.IsInInterrupt k && !System.IsInSysCall k) = false)
    (hrun : (k.tasks h).m_state = StateRunning) :
    ∃ K : Kernel,
      Mutex.Lock_Priv k x timeout_ms = (Result.ResultOk, Mutex.UpdateOwnerPriority K x)
      ∧ K.mutexes = (fun i => if i = x then
            { k.mutexes x with
              m_blocked_task_list := TaskSyncList.Add k (k.mutexes x).m_blocked_task_list h }
          else k.mutexes i)
      ∧ K.tasks = (fun i => if i = h then
            { k.tasks h with
              m_state := StateBlocked
              m_unblock_reason := UnblockReasonNone
              m_unblock_func := some (SyncRef.mutex x)
              m_dream_ticks :=
                if timeout_ms ≠ INFINITE_TIMEOUT then MsToTicks k timeout_ms else ULONG_MAX }
          else k.tasks i)
      ∧ K.sch.m_cur_task = k.sch.m_cur_task
      ∧ K.sch.m_work_tasks = k.sch.m_work_tasks
      ∧ h ∈ K.sch.m_sleep_tasks := by
  let k1 := Task.SetBlockSync ((CriticalSection k).setWaiters (SyncRef.mutex x)
    (TaskSyncList.Add (CriticalSection k) ((CriticalSection k).waiters (SyncRef.mutex x)) h)) h
    (SyncRef.mutex x)
  have hs1 : k1.sch.m_started = true := by simpa [k1, Task.SetBlockSync, Kernel.setWaiters] using hs
  have hmode1 : (System.IsInInterrupt k1 && !System.IsInSysCall k1) = false := by
    simpa [k1, Task.SetBlockSync, Kernel.setWaiters, System.IsInInterrupt, System.IsInSysCall]
      using hmode
  have hcur1 : k1.sch.m_cur_task = some h := by
    simpa [k1, Task.SetBlockSync, Kernel.setWaiters] using hcur
  have hrun1 : (k1.tasks h).m_state = StateRunning := by
    simpa [k1, Task.SetBlockSync, Kernel.setWaiters] using hrun
  obtain ⟨a1, a2, a3, _, _, a6, _, a8, _, a10⟩ :=
    BlockCurrentTask_Priv_blocks k1 h timeout_ms (some (SyncRef.mutex x)) hs1 hmode1 hcur1 hrun1 ht
  refine ⟨(BlockCurrentTask_Priv k1 timeout_ms (some (SyncRef.mutex x))).2, ?_, ?_, ?_, ?_, ?_, ?_⟩
  · have hno : ¬ (some o = some h) := fun e => hne (Option.some.inj e).symm
    unfold Mutex.Lock_Priv
    simp only [CriticalSection_mutexes, CriticalSection_sch, hown, hcur, hno, if_false, ht,
      Mutex.BlockCurTask, SyncObject.BlockCurTask]
    rw [show (BlockCurrentTask_Priv (Task.SetBlockSync ((CriticalSection k).setWaiters
        (SyncRef.mutex x) (TaskSyncList.Add (CriticalSection k)
          ((CriticalSection k).waiters (SyncRef.mutex x)) h)) h (SyncRef.mutex x)) timeout_ms
        (some (SyncRef.mutex x))) = BlockCurrentTask_Priv k1 timeout_ms (some (SyncRef.mutex x))
        from rfl, a1]
  · rw [a3]
    funext i
    by_cases hi : i = x
    · subst hi
      simp [k1, Task.SetBlockSync, Kernel.setWaiters, Kernel.waiters, TaskSyncList.Add,
        PriorPreceeding_congr (CriticalSection k) k (CriticalSection_tasks k)]
    · simp [k1, Task.SetBlockSync, Kernel.setWaiters, hi]
  · rw [a2]
    funext i
    by_cases hi : i = h
    · subst hi
      simp [k1, Task.SetBlockSync, Kernel.setWaiters, MsToTicks, System.GetTickRate]
    · simp [k1, Task.SetBlockSync, Kernel.setWaiters, hi]
  · rw [a6]; simp [k1, Task.SetBlockSync, Kernel.setWaiters]
  · rw [a8]; simp [k1, Task.SetBlockSync, Kernel.setWaiters]
  · exact a10

/-- `Scheduler::UnblockTask` never writes to a mutex. -/
theorem Scheduler_UnblockTask_mutexes (k : Kernel) (t : Option Nat) :
    (Scheduler.UnblockTask k t).2.mutexes = k.mutexes := by
  have hi : ∀ (k : Kernel) (t : Nat),
      (Scheduler.UnblockTaskInternal k t UnblockReasonRequest).2.mutexes = k.mutexes := by
    intro k t
    by_cases hb : (k.tasks t).m_state = StateBlocked
    · exact (UnblockTaskInternal_request k t hb).2.2.1
    · simp [Scheduler.UnblockTaskInternal, hb]
  have hp : ∀ (k : Kernel) (t : Nat), (UnblockTask_Priv k t).2.mutexes = k.mutexes := by
    intro k t
    unfold UnblockTask_Priv
    simp only []
    split
    · rw [hi]; simp [TaskSleepRoom.Remove]
    · split
      · rw [hi]; simp [TaskSleepRoom.Remove]
      · split
        · rw [hi]; simp [TaskSleepRoom.Remove]
        · split
          · simp only [TryContextSwitch_mutexes]; rw [hi]; simp [TaskSleepRoom.Remove]
          · rw [hi]; simp [TaskSleepRoom.Remove]
  unfold Scheduler.UnblockTask
  split
  · rfl
  · split
    · rfl
    · cases t with
      | none => rfl
      | some t =>
        simp only []
        split
        · exact hp k t
        · exact hp _ t

/-- The owner `Mutex::UnblockTask` leaves behind is the head of the waiter
list, whatever the scheduler says about the unblocking. -/
theorem Mutex_UnblockTask_owner (k : Kernel) (m : Nat) :
    ((Mutex.UnblockTask k m).2.mutexes m).m_owner = (k.mutexes m).m_blocked_task_list.head? := by
  unfold Mutex.UnblockTask
  simp only [SList.Fetch]
  cases h : (k.mutexes m).m_blocked_task_list.head? with
  | none => simp [Scheduler_UnblockTask_mutexes]
  | some w => simp [Scheduler_UnblockTask_mutexes, Task.AddOwnedSync]

/-- Locking a free mutex. -/
theorem Lock_Priv_free (k : Kernel) (m a timeout_ms : Nat)
    (hcur : k.sch.m_cur_task = some a)
    (hfree : (k.mutexes m).m_owner = none) :
    (Mutex.Lock_Priv k m timeout_ms).1 = Result.ResultOk
    ∧ (Mutex.Lock_Priv k m timeout_ms).2.sch = k.sch
    ∧ ((Mutex.Lock_Priv k m timeout_ms).2.mutexes m).m_owner = some a
    ∧ ((Mutex.Lock_Priv k m timeout_ms).2.mutexes m).m_lock_cnt = 1
    ∧ ((Mutex.Lock_Priv k m timeout_ms).2.mutexes m).m_recursive = (k.mutexes m).m_recursive
    ∧ ((Mutex.Lock_Priv k m timeout_ms).2.mutexes m).m_blocked_task_list
        = (k.mutexes m).m_blocked_task_list
    ∧ ((Mutex.Lock_Priv k m timeout_ms).2.tasks a).m_owned_obj_list
        = m :: (k.tasks a).m_owned_obj_list := by
  have hno : ¬ ((none : Option Nat) = some a) := by simp
  unfold Mutex.Lock_Priv
  simp only [CriticalSection_mutexes, CriticalSection_sch, hfree, hcur, hno, if_false]
  simp [Task.AddOwnedSync, SList.Add]

/-- Locking a recursive mutex again. -/
theorem Lock_Priv_again (k : Kernel) (m a timeout_ms : Nat)
    (hcur : k.sch.m_cur_task = some a)
    (hown : (k.mutexes m).m_owner = some a)
    (hrec : (k.mutexes m).m_recursive = true)
    (hcnt : (k.mutexes m).m_lock_cnt < 255) :
    Mutex.Lock_Priv k m timeout_ms
      = (Result.ResultOk, (CriticalSection k).setMutex m
          (fun x => { x with m_lock_cnt := x.m_lock_cnt + 1 })) := by
  have h1 : (k.mutexes m).m_lock_cnt ≠ 255 := Nat.ne_of_lt hcnt
  have h2 : ((k.mutexes m).m_lock_cnt + 1) % 4294967296 = (k.mutexes m).m_lock_cnt + 1 :=
    Nat.mod_eq_of_lt (by omega)
  unfold Mutex.Lock_Priv
  simp only [CriticalSection_mutexes, CriticalSection_sch, hown, hcur, if_true, hrec,
    Bool.true_eq_false, and_false, if_false, BYTE_MAX, h1]
  congr 1
  apply Kernel.ext_fields <;> simp
  funext i
  by_cases hi : i = m
  · subst hi; simp [h2]
  · simp [hi]

/-- Giving up one of several locks. -/
theorem Unlock_Priv_nested (k : Kernel) (m a : Nat)
    (hcur : k.sch.m_cur_task = some a)
    (hown : (k.mutexes m).m_owner = some a)
    (h2 : 2 ≤ (k.mutexes m).m_lock_cnt)
    (h32 : (k.mutexes m).m_lock_cnt < 2 ^ 32) :
    Mutex.Unlock_Priv k m
      = (Result.ResultOk, (CriticalSection k).setMutex m
          (fun x => { x with m_lock_cnt := x.m_lock_cnt - 1 })) := by
  let k1 := (CriticalSection k).setMutex m
    (fun x => { x with m_lock_cnt := (x.m_lock_cnt + 2 ^ 32 - 1) % 2 ^ 32 })
  have hc1 : (k1.mutexes m).m_lock_cnt = (k.mutexes m).m_lock_cnt - 1 := by
    simp [k1]
    omega
  have hk1 : k1 = (CriticalSection k).setMutex m
      (fun x => { x with m_lock_cnt := x.m_lock_cnt - 1 }) := by
    refine Kernel.ext_fields (by simp [k1]) (by simp [k1]) ?_ (by simp [k1]) (by simp [k1])
      (by simp [k1]) (by simp [k1])
    funext i
    by_cases hi : i = m
    · subst hi
      have := hc1
      simp [k1] at this ⊢
      exact this
    · simp [k1, hi]
  have hpos : (k1.mutexes m).m_lock_cnt > 0 := by rw [hc1]; omega
  unfold Mutex.Unlock_Priv
  simp only [CriticalSection_sch, hcur, CriticalSection_mutexes, hown, ne_eq, not_true_eq_false,
    if_false]
  show (if (k1.mutexes m).m_lock_cnt > 0 then (Result.ResultOk, k1) else _) = _
  rw [if_pos hpos, hk1]

/-- The state after `j` more locks of a recursive mutex the current task
has just locked for the first time, for `1 ≤ j ≤ 255`. -/
theorem lockTimes_state (k : Kernel) (m a timeout_ms : Nat)
    (hcur : k.sch.m_cur_task = some a)
    (hfree : (k.mutexes m).m_owner = none)
    (hrec : (k.mutexes m).m_recursive = true) :
    ∀ j, 1 ≤ j → j ≤ 255 →
      (Mutex.lockTimes m timeout_ms k j).sch.m_cur_task = some a
      ∧ ((Mutex.lockTimes m timeout_ms k j).mutexes m).m_owner = some a
      ∧ ((Mutex.lockTimes m timeout_ms k j).mutexes m).m_lock_cnt = j
      ∧ ((Mutex.lockTimes m timeout_ms k j).mutexes m).m_recursive = true
      ∧ ((Mutex.lockTimes m timeout_ms k j).mutexes m).m_blocked_task_list
          = (k.mutexes m).m_blocked_task_list
      ∧ ((Mutex.lockTimes m timeout_ms k j).tasks a).m_owned_obj_list
          = m :: (k.tasks a).m_owned_obj_list := by
  intro j
  induction j with
  | zero => intro h; exact absurd h (by decide)
  | succ j ih =>
    intro _ hj
    by_cases hj0 : j = 0
    · subst hj0
      obtain ⟨_, b2, b3, b4, b5, b6, b7⟩ := Lock_Priv_free k m a timeout_ms hcur hfree
      refine ⟨?_, b3, b4, ?_, b6, b7⟩
      · show (Mutex.Lock_Priv k m timeout_ms).2.sch.m_cur_task = some a
        rw [b2]; exact hcur
      · show ((Mutex.Lock_Priv k m timeout_ms).2.mutexes m).m_recursive = true
        rw [b5]; exact hrec
    · obtain ⟨c1, c2, c3, c4, c5, c6⟩ := ih (Nat.pos_of_ne_zero hj0) (by omega)
      have hlt : ((Mutex.lockTimes m timeout_ms k j).mutexes m).m_lock_cnt < 255 := by
        rw [c3]; omega
      have he := Lock_Priv_again (Mutex.lockTimes m timeout_ms k j) m a timeout_ms c1 c2 c4 hlt
      show (Mutex.Lock_Priv (Mutex.lockTimes m timeout_ms k j) m timeout_ms).2.sch.m_cur_task = _
        ∧ ((Mutex.Lock_Priv (Mutex.lockTimes m timeout_ms k j) m timeout_ms).2.mutexes m).m_owner = _
        ∧ ((Mutex.Lock_Priv (Mutex.lockTimes m timeout_ms k j) m timeout_ms).2.mutexes m).m_lock_cnt
            = _
        ∧ ((Mutex.Lock_Priv (Mutex.lockTimes m timeout_ms k j) m timeout_ms).2.mutexes m).m_recursive
            = _
        ∧ ((Mutex.Lock_Priv (Mutex.lockTimes m timeout_ms k j) m
            timeout_ms).2.mutexes m).m_blocked_task_list = _
        ∧ ((Mutex.Lock_Priv (Mutex.lockTimes m timeout_ms k j) m
            timeout_ms).2.tasks a).m_owned_obj_list = _
      rw [he]
      simp [c1, c2, c3, c4, c5, c6]

/-- The unlocks of a mutex the current task has locked `n` times
(`1 ≤ n ≤ 255`): after `j ≤ n - 1` of them the task still owns the mutex,
with `n - j` locks left and the waiter list untouched. -/
theorem unlockTimes_state (k : Kernel) (m a n : Nat)
    (hcur : k.sch.m_cur_task = some a)
    (hown : (k.mutexes m).m_owner = some a)
    (hcnt : (k.mutexes m).m_lock_cnt = n)
    (hn : n ≤ 255) :
    ∀ j, j + 1 ≤ n →
      (Mutex.unlockTimes m k j).sch.m_cur_task = some a
      ∧ ((Mutex.unlockTimes m k j).mutexes m).m_owner = some a
      ∧ ((Mutex.unlockTimes m k j).mutexes m).m_lock_cnt = n - j
      ∧ ((Mutex.unlockTimes m k j).mutexes m).m_blocked_task_list
          = (k.mutexes m).m_blocked_task_list := by
  intro j
  induction j with
  | zero => intro _; exact ⟨hcur, hown, by simpa using hcnt, rfl⟩
  | succ j ih =>
    intro hj
    obtain ⟨c1, c2, c3, c4⟩ := ih (by omega)
    have he := Unlock_Priv_nested (Mutex.unlockTimes m k j) m a c1 c2 (by rw [c3]; omega)
      (by rw [c3]; omega)
    show (Mutex.Unlock_Priv (Mutex.unlockTimes m k j) m).2.sch.m_cur_task = _
      ∧ ((Mutex.Unlock_Priv (Mutex.unlockTimes m k j) m).2.mutexes m).m_owner = _
      ∧ ((Mutex.Unlock_Priv (Mutex.unlockTimes m k j) m).2.mutexes m).m_lock_cnt = _
      ∧ ((Mutex.Unlock_Priv (Mutex.unlockTimes m k j) m).2.mutexes m).m_blocked_task_list = _
    rw [he]
    simp [c1, c2, c3, c4]
    omega

/-- The unlocks of a mutex the current task has locked `n` times
(`1 ≤ n ≤ 255`), in any state: each of the first `n - 1` returns `ResultOk`
and leaves the task the owner; after the `n`-th the owner is the front of the
waiter list, or null when the list is empty. -/
theorem unlockTimes_release (k : Kernel) (m a n : Nat)
    (hcur : k.sch.m_cur_task = some a)
    (hown : (k.mutexes m).m_owner = some a)
    (hcnt : (k.mutexes m).m_lock_cnt = n)
    (h1 : 1 ≤ n) (hn : n ≤ 255) :
    (∀ j, j + 1 < n → (Mutex.Unlock_Priv (Mutex.unlockTimes m k j) m).1 = Result.ResultOk)
    ∧ (∀ j, j + 1 ≤ n → ((Mutex.unlockTimes m k j).mutexes m).m_owner = some a)
    ∧ ((Mutex.unlockTimes m k n).mutexes m).m_owner = (k.mutexes m).m_blocked_task_list.head? := by
  have hst := unlockTimes_state k m a n hcur hown hcnt hn
  refine ⟨?_, ?_, ?_⟩
  · intro j hj
    obtain ⟨c1, c2, c3, _⟩ := hst j (by omega)
    rw [Unlock_Priv_nested (Mutex.unlockTimes m k j) m a c1 c2 (by rw [c3]; omega)
      (by rw [c3]; omega)]
  · intro j hj
    exact (hst j hj).2.1
  · obtain ⟨j, rfl⟩ : ∃ j, n = j + 1 := ⟨n - 1, by omega⟩
    obtain ⟨c1, c2, c3, c4⟩ := hst j (Nat.le_refl _)
    obtain ⟨K, hK, hKm, _⟩ := Unlock_Priv_final (Mutex.unlockTimes m k j) m a c1 c2
      (by rw [c3]; omega)
    show ((Mutex.Unlock_Priv (Mutex.unlockTimes m k j) m).2.mutexes m).m_owner = _
    rw [hK, c4]
    have hKw : (K.mutexes m).m_blocked_task_list = (k.mutexes m).m_blocked_task_list := by
      rw [hKm]; simp [c4]
    by_cases hw : (k.mutexes m).m_blocked_task_list = []
    · rw [if_neg (by simp [hw])]
      simp [hw]
    · rw [if_pos hw, Mutex_UnblockTask_owner, hKw]

/-- C5. Recursive mutex counting.  For `1 ≤ n ≤ 255`, when the current task
`a` locks a free recursive mutex `n` times, every `Lock_Priv` returns
`ResultOk`, the lock count is `n`, `a` is the owner and its owned list holds
the mutex exactly once.  Each of the first `n - 1` calls of `Unlock_Priv`
returns `ResultOk` and leaves `a` the owner; after the `n`-th the owner is
the front waiter, or null when there is none. -/
theorem recursive_lock_counting (k : Kernel) (m a timeout_ms n : Nat)
    (hcur : k.sch.m_cur_task = some a)
    (hfree : (k.mutexes m).m_owner = none)
    (hrec : (k.mutexes m).m_recursive = true)
    (hnot : m ∉ (k.tasks a).m_owned_obj_list)
    (h1 : 1 ≤ n) (hn : n ≤ 255) :
    (∀ j, j < n →
      (Mutex.Lock_Priv (Mutex.lockTimes m timeout_ms k j) m timeout_ms).1 = Result.ResultOk)
    ∧ ((Mutex.lockTimes m timeout_ms k n).mutexes m).m_lock_cnt = n
    ∧ ((Mutex.lockTimes m timeout_ms k n).mutexes m).m_owner = some a
    ∧ ((Mutex.lockTimes m timeout_ms k n).tasks a).m_owned_obj_list.count m = 1
    ∧ (∀ j, j + 1 < n →
        (Mutex.Unlock_Priv (Mutex.unlockTimes m (Mutex.lockTimes m timeout_ms k n) j) m).1
          = Result.ResultOk)
    ∧ (∀ j, j + 1 ≤ n →
        ((Mutex.unlockTimes m (Mutex.lockTimes m timeout_ms k n) j).mutexes m).m_owner = some a)
    ∧ ((Mutex.unlockTimes m (Mutex.lockTimes m timeout_ms k n) n).mutexes m).m_owner
        = (k.mutexes m).m_blocked_task_list.head? := by
  have hst := lockTimes_state k m a timeout_ms hcur hfree hrec
  obtain ⟨c1, c2, c3, _, c5, c6⟩ := hst n h1 hn
  obtain ⟨u1, u2, u3⟩ := unlockTimes_release (Mutex.lockTimes m timeout_ms k n) m a n c1 c2 c3 h1 hn
  refine ⟨?_, c3, c2, ?_, u1, u2, ?_⟩
  · intro j hj
    by_cases hj0 : j = 0
    · subst hj0
      exact (Lock_Priv_free k m a timeout_ms hcur hfree).1
    · obtain ⟨d1, d2, d3, d4, _, _⟩ := hst j (Nat.pos_of_ne_zero hj0) (by omega)
      rw [Lock_Priv_again (Mutex.lockTimes m timeout_ms k j) m a timeout_ms d1 d2 d4
        (by rw [d3]; omega)]
  · rw [c6, List.count_cons_self, List.count_eq_zero_of_not_mem hnot]
  · rw [u3, c5]

/-- Witness for C5: task 2 of the concrete system locks the free recursive
mutex 2 three times. -/
theorem recursive_lock_counting_witness :
    demo.sch.m_cur_task = some 2
    ∧ (demo.mutexes 2).m_owner = none
    ∧ (demo.mutexes 2).m_recursive = true
    ∧ ((Mutex.lockTimes 2 INFINITE_TIMEOUT demo 3).mutexes 2).m_lock_cnt = 3
    ∧ ((Mutex.unlockTimes 2 (Mutex.lockTimes 2 INFINITE_TIMEOUT demo 3) 2).mutexes 2).m_owner
        = some 2
    ∧ ((Mutex.unlockTimes 2 (Mutex.lockTimes 2 INFINITE_TIMEOUT demo 3) 3).mutexes 2).m_owner
        = none :=
  ⟨by decide, by decide, by decide,
    (recursive_lock_counting demo 2 2 INFINITE_TIMEOUT 3 (by decide) (by decide) (by decide)
      (by decide) (by decide) (by decide)).2.1,
    (recursive_lock_counting demo 2 2 INFINITE_TIMEOUT 3 (by decide) (by decide) (by decide)
      (by decide) (by decide) (by decide)).2.2.2.2.2.1 2 (by decide),
    (recursive_lock_counting demo 2 2 INFINITE_TIMEOUT 3 (by decide) (by decide) (by decide)
      (by decide) (by decide) (by decide)).2.2.2.2.2.2⟩


/-! ## Lock followed by unlock -/

/-- What the free path of `Mutex::Lock_Priv` records as the owner's original
priority, and that it leaves the caller's priority alone. -/
theorem Lock_Priv_free_record (k : Kernel) (m a timeout_ms : Nat)
    (hcur : k.sch.m_cur_task = some a)
    (hfree : (k.mutexes m).m_owner = none) :
    ((Mutex.Lock_Priv k m timeout_ms).2.mutexes m).m_owner_original_priority
        = (match (k.tasks a).m_owned_obj_list with
          | [] => (k.tasks a).m_priority
          | pobj :: _ => (k.mutexes pobj).m_owner_original_priority)
    ∧ ((Mutex.Lock_Priv k m timeout_ms).2.tasks a).m_priority = (k.tasks a).m_priority := by
  have hno : ¬ ((none : Option Nat) = some a) := by simp
  unfold Mutex.Lock_Priv
  simp only [CriticalSection_mutexes, CriticalSection_sch, hfree, hcur, hno, if_false]
  simp [Task.AddOwnedSync, SList.Add]

/-- A task that owns no mutex locks a free mutex without waiters and unlocks
it again: the mutex is free again, the task owns nothing, and its priority
is what it was before the lock. -/
theorem Lock_Unlock_roundtrip (k : Kernel) (m a timeout_ms : Nat)
    (hcur : k.sch.m_cur_task = some a)
    (hfree : (k.mutexes m).m_owner = none)
    (hnow : (k.mutexes m).m_blocked_task_list = [])
    (hnone : (k.tasks a).m_owned_obj_list = []) :
    (Mutex.Lock_Priv k m timeout_ms).1 = Result.ResultOk
    ∧ (Mutex.Unlock_Priv (Mutex.Lock_Priv k m timeout_ms).2 m).1 = Result.ResultOk
    ∧ ((Mutex.Unlock_Priv (Mutex.Lock_Priv k m timeout_ms).2 m).2.mutexes m).m_owner = none
    ∧ ((Mutex.Unlock_Priv (Mutex.Lock_Priv k m timeout_ms).2 m).2.tasks a).m_owned_obj_list = []
    ∧ ((Mutex.Unlock_Priv (Mutex.Lock_Priv k m timeout_ms).2 m).2.tasks a).m_priority
        = (k.tasks a).m_priority := by
  obtain ⟨b1, b2, b3, b4, _, b6, b7⟩ := Lock_Priv_free k m a timeout_ms hcur hfree
  obtain ⟨r1, r2⟩ := Lock_Priv_free_record k m a timeout_ms hcur hfree
  rw [hnone] at r1 b7
  rw [hnow] at b6
  have hcur1 : (Mutex.Lock_Priv k m timeout_ms).2.sch.m_cur_task = some a := by rw [b2]; exact hcur
  obtain ⟨K, hK, hKm, _, hKo, _, _, _, _, _, _, _, _, hKp⟩ :=
    Unlock_Priv_final (Mutex.Lock_Priv k m timeout_ms).2 m a hcur1 b3 b4
  have hne : ¬ (((Mutex.Lock_Priv k m timeout_ms).2.mutexes m).m_blocked_task_list ≠ []) := by
    simp [b6]
  rw [hK, if_neg hne]
  refine ⟨b1, rfl, by simp, ?_, ?_⟩
  · show (K.tasks a).m_owned_obj_list = []
    rw [hKo, b7]; simp [SList.Del]
  · show (K.tasks a).m_priority = _
    rw [hKp, b7, r1]
    simp [SList.Del, Mutex.inheritedPriority]

/-! ## Runs of the concrete system -/

/-- C6 (the code at the failing input).  Task 2 owns the recursive mutex 2
with one lock, is the current task in thread mode, and its last unblock
reason is `Timeout` from an earlier `Delay`.  `Mutex::Lock` takes the second
lock (the lock count becomes 2) and yet returns `ResultTimeout`. -/
theorem Lock_recursive_after_timed_out_delay :
    (run demo relockOps).sch.m_cur_task = some 2
    ∧ System.IsInInterrupt (run demo relockOps) = false
    ∧ ((run demo relockOps).mutexes 2).m_owner = some 2
    ∧ ((run demo relockOps).mutexes 2).m_recursive = true
    ∧ ((run demo relockOps).mutexes 2).m_lock_cnt = 1
    ∧ ((run demo relockOps).tasks 2).m_unblock_reason = UnblockReasonTimeout
    ∧ (Mutex.Lock (run demo relockOps) 2 INFINITE_TIMEOUT).1 = Result.ResultTimeout
    ∧ ((Mutex.Lock (run demo relockOps) 2 INFINITE_TIMEOUT).2.mutexes 2).m_lock_cnt = 2 := by
  decide

/-- C2 (the code at the failing input).  In the run `inheritOps`, which
calls `SetTaskPriority` nowhere, task 2 was added with priority 10; its last
`Unlock_Priv` (of mutex 0) returns `ResultOk`, leaves mutex 0 free and task 2
without any owned mutex, and sets the priority of task 2 to 50. -/
theorem Unlock_Priv_leaves_inherited_priority :
    (demo.tasks 2).m_priority = 10
    ∧ (run demo inheritOps).sch.m_cur_task = some 2
    ∧ ((run demo inheritOps).tasks 2).m_priority = 10
    ∧ ((run demo inheritOps).tasks 2).m_owned_obj_list = [0]
    ∧ ((run demo inheritOps).mutexes 0).m_blocked_task_list = []
    ∧ (run demo inheritOps).alarms = []
    ∧ (Mutex.Unlock_Priv (run demo inheritOps) 0).1 = Result.ResultOk
    ∧ ((Mutex.Unlock_Priv (run demo inheritOps) 0).2.mutexes 0).m_owner = none
    ∧ ((Mutex.Unlock_Priv (run demo inheritOps) 0).2.tasks 2).m_owned_obj_list = []
    ∧ ((Mutex.Unlock_Priv (run demo inheritOps) 0).2.tasks 2).m_priority = 50 := by
  decide

/-- Ordered insertion keeps a waiter list in non-increasing priority order. -/
theorem SListOrd_Add_ordered (k : Kernel) (l : List Nat) (e : Nat)
    (h : waitersOrdered k l) :
    waitersOrdered k (SListOrd.Add (PriorPreceeding k) l e) := by
  unfold waitersOrdered at h ⊢
  induction l with
  | nil => simp [SListOrd.Add]
  | cons x xs ih =>
    rw [List.pairwise_cons] at h
    unfold SListOrd.Add
    by_cases hp : PriorPreceeding k e x = true
    · rw [if_pos hp]
      have hlt : (k.tasks x).m_priority < (k.tasks e).m_priority := by
        simpa [PriorPreceeding] using hp
      rw [List.pairwise_cons]
      refine ⟨?_, List.pairwise_cons.mpr h⟩
      intro y hy
      rcases List.mem_cons.mp hy with hy | hy
      · rw [hy]; exact Nat.le_of_lt hlt
      · exact Nat.le_trans (h.1 y hy) (Nat.le_of_lt hlt)
    · rw [if_neg hp]
      have hle : (k.tasks e).m_priority ≤ (k.tasks x).m_priority := by
        simpa [PriorPreceeding] using hp
      rw [List.pairwise_cons]
      refine ⟨?_, ih h.2⟩
      intro y hy
      rcases (mem_SListOrd_Add _ xs e y).mp hy with hy | hy
      · rw [hy]; exact hle
      · exact h.1 y hy

/-- The order of a waiter list depends on the priorities only. -/
theorem waitersOrdered_congr (k1 k2 : Kernel) (l : List Nat)
    (h : ∀ i, (k1.tasks i).m_priority = (k2.tasks i).m_priority) :
    waitersOrdered k1 l ↔ waitersOrdered k2 l := by
  unfold waitersOrdered
  simp only [h]

/-- What `Mutex::UpdateOwnerPriority` establishes for its mutex: the owner,
if not inactive, ends with at least the recorded original priority and at
least the priority of the front waiter, hence of every waiter when the
waiter list is in priority order. -/
theorem UpdateOwnerPriority_bound (k : Kernel) (m o : Nat)
    (hown : (k.mutexes m).m_owner = some o)
    (hact : (k.tasks o).m_state ≠ StateInactive) :
    (Mutex.UpdateOwnerPriority k m).mutexes = k.mutexes
    ∧ (∀ i, i ≠ o → (Mutex.UpdateOwnerPriority k m).tasks i = k.tasks i)
    ∧ ((Mutex.UpdateOwnerPriority k m).tasks o).m_priority = Mutex.maxPriority k m
    ∧ (k.mutexes m).m_owner_original_priority
        ≤ ((Mutex.UpdateOwnerPriority k m).tasks o).m_priority
    ∧ (∀ w, (k.mutexes m).m_blocked_task_list.head? = some w →
        ((Mutex.UpdateOwnerPriority k m).tasks w).m_priority
          ≤ ((Mutex.UpdateOwnerPriority k m).tasks o).m_priority)
    ∧ (waitersOrdered k (k.mutexes m).m_blocked_task_list →
        ∀ w, w ∈ (k.mutexes m).m_blocked_task_list →
          ((Mutex.UpdateOwnerPriority k m).tasks w).m_priority
            ≤ ((Mutex.UpdateOwnerPriority k m).tasks o).m_priority) := by
  obtain ⟨b1, b2, _⟩ := UpdateOwnerPriority_frame k m o hown
  have ho : ((Mutex.UpdateOwnerPriority k m).tasks o).m_priority = Mutex.maxPriority k m := by
    rw [b1]; simp [hact]
  have hother : ∀ i, i ≠ o → (Mutex.UpdateOwnerPriority k m).tasks i = k.tasks i := by
    intro i hi; rw [b1]; simp [hi]
  have hmax1 : (k.mutexes m).m_owner_original_priority ≤ Mutex.maxPriority k m := by
    unfold Mutex.maxPriority
    split
    · exact Nat.le_refl _
    · split
      · rename_i h; exact Nat.le_of_lt h
      · exact Nat.le_refl _
  have hmax2 : ∀ w ws, (k.mutexes m).m_blocked_task_list = w :: ws →
      (k.tasks w).m_priority ≤ Mutex.maxPriority k m := by
    intro w ws hw
    unfold Mutex.maxPriority
    rw [hw]
    simp only []
    split
    · exact Nat.le_refl _
    · rename_i h; exact Nat.le_of_not_lt h
  have hw' : ∀ w w0 ws, (k.mutexes m).m_blocked_task_list = w0 :: ws →
      (k.tasks w).m_priority ≤ (k.tasks w0).m_priority →
      ((Mutex.UpdateOwnerPriority k m).tasks w).m_priority
        ≤ ((Mutex.UpdateOwnerPriority k m).tasks o).m_priority := by
    intro w w0 ws hl hle
    by_cases hwo : w = o
    · rw [hwo]
    · rw [hother w hwo, ho]
      exact Nat.le_trans hle (hmax2 w0 ws hl)
  refine ⟨b2, hother, ho, ?_, ?_, ?_⟩
  · rw [ho]; exact hmax1
  · intro w hw
    cases hl : (k.mutexes m).m_blocked_task_list with
    | nil => rw [hl] at hw; simp at hw
    | cons w0 ws =>
      rw [hl] at hw
      simp only [List.head?_cons, Option.some.injEq] at hw
      subst hw
      exact hw' w0 w0 ws hl (Nat.le_refl _)
  · intro hord w hw
    cases hl : (k.mutexes m).m_blocked_task_list with
    | nil => rw [hl] at hw; simp at hw
    | cons w0 ws =>
      rw [hl] at hw hord
      apply hw' w w0 ws hl
      rcases List.mem_cons.mp hw with h | h
      · rw [h]
      · exact (List.pairwise_cons.mp hord).1 w h

/-! ## The bound `Unlock_Priv` establishes -/

/-- The inherited priority is at least the starting value and at least the
priority of the front waiter of every mutex in the list. -/
theorem inheritedPriority_ge (k : Kernel) (l : List Nat) (i : Nat) :
    i ≤ Mutex.inheritedPriority k l i
    ∧ ∀ p, p ∈ l → ∀ v vs, (k.mutexes p).m_blocked_task_list = v :: vs →
        (k.tasks v).m_priority ≤ Mutex.inheritedPriority k l i := by
  unfold Mutex.inheritedPriority
  induction l generalizing i with
  | nil => simp
  | cons q qs ih =>
    simp only [List.foldl_cons]
    have hstep : i ≤ (match (k.mutexes q).m_blocked_task_list with
        | [] => i
        | w :: _ => if (k.tasks w).m_priority > i then (k.tasks w).m_priority else i) := by
      split
      · exact Nat.le_refl _
      · split
        · rename_i h; exact Nat.le_of_lt h
        · exact Nat.le_refl _
    obtain ⟨ih1, ih2⟩ := ih (match (k.mutexes q).m_blocked_task_list with
        | [] => i
        | w :: _ => if (k.tasks w).m_priority > i then (k.tasks w).m_priority else i)
    refine ⟨Nat.le_trans hstep ih1, ?_⟩
    intro p hp v vs hv
    rcases List.mem_cons.mp hp with hpq | hpq
    · subst hpq
      refine Nat.le_trans ?_ ih1
      rw [hv]
      simp only []
      split
      · exact Nat.le_refl _
      · rename_i h; exact Nat.le_of_not_lt h
    · exact ih2 p hpq v vs hv

/-- `Scheduler::UnblockTask` changes neither a priority nor an owned list. -/
theorem Scheduler_UnblockTask_tasks (k : Kernel) (t : Option Nat) (i : Nat) :
    ((Scheduler.UnblockTask k t).2.tasks i).m_priority = (k.tasks i).m_priority
    ∧ ((Scheduler.UnblockTask k t).2.tasks i).m_owned_obj_list = (k.tasks i).m_owned_obj_list := by
  have hi : ∀ (k : Kernel) (t : Nat),
      ((Scheduler.UnblockTaskInternal k t UnblockReasonRequest).2.tasks i).m_priority
          = (k.tasks i).m_priority
      ∧ ((Scheduler.UnblockTaskInternal k t UnblockReasonRequest).2.tasks i).m_owned_obj_list
          = (k.tasks i).m_owned_obj_list := by
    intro k t
    by_cases hb : (k.tasks t).m_state = StateBlocked
    · rw [(UnblockTaskInternal_request k t hb).2.1]
      by_cases hit : i = t
      · subst hit; simp [wokenByRequest]
      · simp [hit]
    · simp [Scheduler.UnblockTaskInternal, hb]
  have hp : ∀ (k : Kernel) (t : Nat),
      ((UnblockTask_Priv k t).2.tasks i).m_priority = (k.tasks i).m_priority
      ∧ ((UnblockTask_Priv k t).2.tasks i).m_owned_obj_list = (k.tasks i).m_owned_obj_list := by
    intro k t
    have h0 := hi (TaskSleepRoom.Remove (CriticalSection k) t) t
    have h1 : (TaskSleepRoom.Remove (CriticalSection k) t).tasks = k.tasks := by
      simp [TaskSleepRoom.Remove]
    rw [h1] at h0
    unfold UnblockTask_Priv
    simp only []
    split
    · exact h0
    · split
      · exact h0
      · split
        · exact h0
        · split
          · simpa only [TryContextSwitch_tasks] using h0
          · exact h0
  unfold Scheduler.UnblockTask
  split
  · exact ⟨rfl, rfl⟩
  · split
    · exact ⟨rfl, rfl⟩
    · cases t with
      | none => exact ⟨rfl, rfl⟩
      | some t =>
        simp only []
        split
        · exact hp k t
        · exact hp _ t

/-- After the owner gives up its only lock on a mutex, it has at least the
priority of the front waiter of every mutex it still owns. -/
theorem Unlock_Priv_bound (k : Kernel) (m o : Nat)
    (hcur : k.sch.m_cur_task = some o)
    (hown : (k.mutexes m).m_owner = some o)
    (hcnt : (k.mutexes m).m_lock_cnt = 1)
    (hnd : (k.tasks o).m_owned_obj_list.Nodup)
    (how : o ∉ (k.mutexes m).m_blocked_task_list) :
    ((Mutex.Unlock_Priv k m).2.tasks o).m_owned_obj_list
        = SList.Del (k.tasks o).m_owned_obj_list m
    ∧ ∀ p, p ∈ ((Mutex.Unlock_Priv k m).2.tasks o).m_owned_obj_list →
        ∀ v, ((Mutex.Unlock_Priv k m).2.mutexes p).m_blocked_task_list.head? = some v →
          ((Mutex.Unlock_Priv k m).2.tasks v).m_priority
            ≤ ((Mutex.Unlock_Priv k m).2.tasks o).m_priority := by
  obtain ⟨K, hK, hKm, hKt, hKo, _, _, _, _, _, _, _, _, hKp⟩ :=
    Unlock_Priv_final k m o hcur hown hcnt
  obtain ⟨_, hge⟩ := inheritedPriority_ge k (SList.Del (k.tasks o).m_owned_obj_list m)
    (k.mutexes m).m_owner_original_priority
  have hKprio : ∀ v, v ≠ o → (K.tasks v).m_priority = (k.tasks v).m_priority := by
    intro v hv; rw [hKt v hv]
  have hKw : ∀ p, p ≠ m → (K.mutexes p).m_blocked_task_list
      = (k.mutexes p).m_blocked_task_list := by
    intro p hp; rw [hKm]; simp [hp]
  have hfin : ∀ R : Kernel,
      (∀ i, (R.tasks i).m_priority = (K.tasks i).m_priority) →
      (R.tasks o).m_owned_obj_list = (K.tasks o).m_owned_obj_list →
      (∀ p, p ≠ m → (R.mutexes p).m_blocked_task_list = (K.mutexes p).m_blocked_task_list) →
      (R.tasks o).m_owned_obj_list = SList.Del (k.tasks o).m_owned_obj_list m
      ∧ ∀ p, p ∈ (R.tasks o).m_owned_obj_list →
        ∀ v, (R.mutexes p).m_blocked_task_list.head? = some v →
          (R.tasks v).m_priority ≤ (R.tasks o).m_priority := by
    intro R hRp hRo hRw
    refine ⟨by rw [hRo, hKo], ?_⟩
    intro p hp v hv
    rw [hRo, hKo] at hp
    have hpm : p ≠ m := fun e => by
      rw [e] at hp
      exact (List.Nodup.mem_erase_iff hnd).mp hp |>.1 rfl
    rw [hRw p hpm, hKw p hpm] at hv
    rw [hRp v, hRp o, hKp]
    cases hl : (k.mutexes p).m_blocked_task_list with
    | nil => rw [hl] at hv; simp at hv
    | cons v0 vs =>
      rw [hl] at hv
      simp only [List.head?_cons, Option.some.injEq] at hv
      subst hv
      by_cases hvo : v0 = o
      · rw [hvo, hKp]
      · rw [hKprio v0 hvo]
        exact hge p hp v0 vs hl
  rw [hK]
  by_cases hw : (k.mutexes m).m_blocked_task_list = []
  · rw [if_neg (by simp [hw])]
    exact hfin _ (fun i => rfl) rfl (fun p hp => by simp [hp])
  · rw [if_pos hw]
    cases hl : (K.mutexes m).m_blocked_task_list with
    | nil =>
      have : (k.mutexes m).m_blocked_task_list = [] := by
        have h := hl; rw [hKm] at h; simpa using h
      exact absurd this hw
    | cons w ws =>
      have hwo : o ≠ w := by
        intro e
        apply how
        have h := hl; rw [hKm] at h
        have h2 : (k.mutexes m).m_blocked_task_list = w :: ws := by simpa using h
        rw [h2, e]; exact List.mem_cons_self _ _
      have heq : Mutex.UnblockTask K m
          = Scheduler.UnblockTask
              ((Task.AddOwnedSync (K.setMutex m (fun x =>
                  { x with m_owner := some w, m_blocked_task_list := ws, m_lock_cnt := 1 })) w
                  m).setMutex m
                (fun x => { x with m_owner_original_priority := (K.tasks w).m_priority }))
              (some w) := by
        simp [Mutex.UnblockTask, SList.Fetch, hl, Task.AddOwnedSync, SList.Add]
      rw [heq]
      apply hfin
      · intro i
        rw [(Scheduler_UnblockTask_tasks _ _ i).1]
        by_cases hi : i = w
        · subst hi; simp [Task.AddOwnedSync]
        · simp [Task.AddOwnedSync, hi]
      · rw [(Scheduler_UnblockTask_tasks _ _ o).2]
        simp [Task.AddOwnedSync, hwo]
      · intro p hp
        rw [Scheduler_UnblockTask_mutexes]
        simp [Task.AddOwnedSync, hp]

/-- `UnblockTaskInternal` with reason `Timeout` on a task that waits for a
mutex: the task becomes ready, leaves the waiter list, and
`UpdateOwnerPriority` runs for that mutex. -/
theorem UnblockTaskInternal_timeout_mutex (k : Kernel) (w m : Nat)
    (hb : (k.tasks w).m_state = StateBlocked)
    (hf : (k.tasks w).m_unblock_func = some (SyncRef.mutex m)) :
    ∃ K : Kernel,
      (Scheduler.UnblockTaskInternal k w UnblockReasonTimeout).2
        = (Mutex.UpdateOwnerPriority K m).setTask w (fun t => { t with m_unblock_func := none })
      ∧ K.mutexes = (fun i => if i = m then
            { k.mutexes m with
              m_blocked_task_list := SList.Del (k.mutexes m).m_blocked_task_list w }
          else k.mutexes i)
      ∧ K.tasks = (fun i => if i = w then
            { k.tasks w with m_unblock_reason := UnblockReasonTimeout, m_state := StateReady }
          else k.tasks i) := by
  let k1 := k.setTask w
    (fun t => { t with m_unblock_reason := UnblockReasonTimeout, m_state := StateReady })
  let k2 := if some w ≠ k1.sch.m_cur_task then TaskWorkRoom.Insert k1 w else k1
  have h2t : k2.tasks = k1.tasks := by
    by_cases h : some w ≠ k1.sch.m_cur_task
    · simp only [k2, if_pos h]; rfl
    · simp only [k2, if_neg h]
  have h2m : k2.mutexes = k.mutexes := by
    by_cases h : some w ≠ k1.sch.m_cur_task
    · simp only [k2, if_pos h]; rfl
    · simp only [k2, if_neg h]; rfl
  have h2f : (k2.tasks w).m_unblock_func = some (SyncRef.mutex m) := by
    rw [h2t]; simpa [k1] using hf
  refine ⟨k2.setMutex m
    (fun x => { x with m_blocked_task_list := SList.Del x.m_blocked_task_list w }), ?_, ?_, ?_⟩
  · unfold Scheduler.UnblockTaskInternal
    simp only [hb, ne_eq, not_true_eq_false, if_false]
    show (match (k2.tasks w).m_unblock_func with
      | some f => (UnblockFunctor.OnUnblockTask k2 f w UnblockReasonTimeout).setTask w
          (fun t => { t with m_unblock_func := none })
      | none => k2) = _
    rw [h2f]
    simp only [UnblockFunctor.OnUnblockTask, Mutex.OnUnblockTask, if_true]
  · funext i
    by_cases hi : i = m
    · subst hi; simp [h2m]
    · simp [hi, h2m]
  · show k2.tasks = _
    rw [h2t]
    funext i
    simp [k1]

/-- Where `SListOrd::Add` links the element: after the elements it does not
precede, in front of the first one it precedes. -/
theorem SListOrd_Add_split (P : Nat → Nat → Bool) (l : List Nat) (e : Nat) :
    ∃ l1 l2, l = l1 ++ l2 ∧ SListOrd.Add P l e = l1 ++ e :: l2
      ∧ (∀ x, x ∈ l1 → P e x = false) ∧ (∀ x, l2.head? = some x → P e x = true) := by
  induction l with
  | nil => exact ⟨[], [], rfl, rfl, by simp, by simp⟩
  | cons x xs ih =>
    unfold SListOrd.Add
    by_cases hp : P e x = true
    · rw [if_pos hp]
      exact ⟨[], x :: xs, rfl, rfl, by simp, by simp [hp]⟩
    · rw [if_neg hp]
      obtain ⟨l1, l2, h1, h2, h3, h4⟩ := ih
      refine ⟨x :: l1, l2, by rw [h1]; rfl, by rw [h2]; rfl, ?_, h4⟩
      intro y hy
      rcases List.mem_cons.mp hy with hy | hy
      · rw [hy]; simpa using hp
      · exact h3 y hy

/-- C16.  `SListOrd::Add` with `PriorPreceeding` (the ready queue,
`TaskWorkList`, and the waiter lists, `TaskSyncList`) on a list in
non-increasing priority order: the result is in non-increasing priority order,
is a permutation of the old elements plus the new task, keeps the old elements
in their order, and the new task stands after every element of priority
greater than or equal to its own and in front of every element of smaller
priority. -/
theorem SListOrd_Add_PriorPreceeding (k : Kernel) (l : List Nat) (e : Nat)
    (hs : waitersOrdered k l) :
    TaskWorkList.Add k l e = SListOrd.Add (PriorPreceeding k) l e
    ∧ TaskSyncList.Add k l e = SListOrd.Add (PriorPreceeding k) l e
    ∧ waitersOrdered k (SListOrd.Add (PriorPreceeding k) l e)
    ∧ (SListOrd.Add (PriorPreceeding k) l e).Perm (e :: l)
    ∧ l.Sublist (SListOrd.Add (PriorPreceeding k) l e)
    ∧ ∃ l1 l2, l = l1 ++ l2 ∧ SListOrd.Add (PriorPreceeding k) l e = l1 ++ e :: l2
        ∧ (∀ x, x ∈ l1 → (k.tasks e).m_priority ≤ (k.tasks x).m_priority)
        ∧ (∀ x, x ∈ l2 → (k.tasks x).m_priority < (k.tasks e).m_priority) := by
  obtain ⟨l1, l2, h1, h2, h3, h4⟩ := SListOrd_Add_split (PriorPreceeding k) l e
  refine ⟨rfl, rfl, SListOrd_Add_ordered k l e hs, ?_, ?_, l1, l2, h1, h2, ?_, ?_⟩
  · rw [h2, h1]
    exact List.perm_middle
  · rw [h2, h1]
    exact List.Sublist.append (List.Sublist.refl l1) (List.sublist_cons_self e l2)
  · intro x hx
    have := h3 x hx
    simpa [PriorPreceeding] using this
  · intro x hx
    cases l2 with
    | nil => simp at hx
    | cons y ys =>
      have hy : (k.tasks y).m_priority < (k.tasks e).m_priority := by
        have := h4 y rfl
        simpa [PriorPreceeding] using this
      rcases List.mem_cons.mp hx with hx | hx
      · rw [hx]; exact hy
      · have hord : waitersOrdered k (l1 ++ y :: ys) := h1 ▸ hs
        unfold waitersOrdered at hord
        have h5 := (List.pairwise_append.mp hord).2.1
        have h6 := (List.pairwise_cons.mp h5).1 x hx
        exact Nat.lt_of_le_of_lt h6 hy

/-- Witness for C16: task 2 (priority 10) added to the list of tasks 3, 1, 0
(priorities 50, 20, 0) of the concrete system goes between tasks 1 and 0. -/
theorem SListOrd_Add_PriorPreceeding_witness :
    waitersOrdered demo [3, 1, 0]
    ∧ SListOrd.Add (PriorPreceeding demo) [3, 1, 0] 2 = [3, 1, 2, 0]
    ∧ waitersOrdered demo (SListOrd.Add (PriorPreceeding demo) [3, 1, 0] 2) :=
  ⟨by unfold waitersOrdered; decide, by decide,
    (SListOrd_Add_PriorPreceeding demo [3, 1, 0] 2 (by unfold waitersOrdered; decide)).2.2.1⟩

/-! ## The preemption decision -/

/-- The comparator reads priorities only. -/
theorem PriorPreceeding_congr_priority (k1 k2 : Kernel)
    (h : ∀ i, (k1.tasks i).m_priority = (k2.tasks i).m_priority) :
    PriorPreceeding k1 = PriorPreceeding k2 := by
  funext a b
  simp [PriorPreceeding, h]

/-- The scheduler fields after `UnblockTaskInternal` with reason `Request`
on a blocked task: the task is linked into the ready queue unless it is the
current task. -/
theorem UnblockTaskInternal_request_sch (k : Kernel) (t : Nat)
    (hb : (k.tasks t).m_state = StateBlocked) :
    (Scheduler.UnblockTaskInternal k t UnblockReasonRequest).2.sch
      = if some t ≠ k.sch.m_cur_task then
          { k.sch with
            m_work_tasks := SListOrd.Add (PriorPreceeding k) k.sch.m_work_tasks t
            m_relinked :=
              k.sch.m_relinked || decide (t ∈ k.sch.m_work_tasks ∨ t ∈ k.sch.m_sleep_tasks) }
        else k.sch := by
  have hpp : PriorPreceeding (k.setTask t
      (fun t => { t with m_unblock_reason := UnblockReasonRequest, m_state := StateReady }))
      = PriorPreceeding k := by
    apply PriorPreceeding_congr_priority
    intro i
    by_cases hi : i = t
    · subst hi; simp
    · simp [hi]
  unfold Scheduler.UnblockTaskInternal
  simp only [hb, ne_eq, not_true_eq_false, if_false, setTask_sch]
  split <;> split <;>
    simp [OnUnblockTask_request, TaskWorkRoom.Insert, TaskWorkList.Add, hpp, *]

/-- C19 (counterexample).  In the state after `equalPriorityOps` task 0 is
the running current task, no switch is pending, and the front of the ready
queue, task 2, has the priority of task 0; `IsContextSwitchRequired` returns
true there, so it does not return false in every such state. -/
theorem IsContextSwitchRequired_true_on_equal_priority :
    ¬ (∀ (k : Kernel) (c f : Nat) (rest : List Nat),
        k.sch.m_cur_task = some c → (k.tasks c).m_state = StateRunning →
        k.sch.m_pending_swc = false → k.sch.m_work_tasks = f :: rest →
        (k.tasks f).m_priority = (k.tasks c).m_priority →
        Scheduler.IsContextSwitchRequired k = false) := by
  intro h
  have h1 := h (run demo equalPriorityOps) 0 2 [] (by decide) (by decide) (by decide)
    (by decide) (by decide)
  revert h1
  decide

/-- C19 (amended).  With a running current task `c` and no switch pending,
`IsContextSwitchRequired` returns false exactly when the ready queue is empty
or its front has a priority strictly smaller than the priority of `c`; on
equal priorities it returns true.  Waking a blocked task `t` of a priority not
greater than the priority of `c` by `UnblockTask_Priv` requests no switch:
the PendSV bit and the pending-switch flag stay as they were. -/
theorem IsContextSwitchRequired_decision :
    (∀ (k : Kernel) (c : Nat),
      k.sch.m_cur_task = some c → (k.tasks c).m_state = StateRunning →
      k.sch.m_pending_swc = false →
      (Scheduler.IsContextSwitchRequired k = false ↔
        (k.sch.m_work_tasks = [] ∨ ∃ f rest, k.sch.m_work_tasks = f :: rest
          ∧ (k.tasks f).m_priority < (k.tasks c).m_priority))
      ∧ (∀ f rest, k.sch.m_work_tasks = f :: rest →
          (k.tasks f).m_priority = (k.tasks c).m_priority →
          Scheduler.IsContextSwitchRequired k = true))
    ∧ (∀ (k : Kernel) (c t : Nat),
      k.sch.m_cur_task = some c → (k.tasks t).m_state = StateBlocked → t ≠ c →
      (k.tasks t).m_priority ≤ (k.tasks c).m_priority →
      (UnblockTask_Priv k t).1 = Result.ResultOk
      ∧ ((UnblockTask_Priv k t).2.tasks t).m_state = StateReady
      ∧ (UnblockTask_Priv k t).2.sys.pendsv = k.sys.pendsv
      ∧ (UnblockTask_Priv k t).2.sch.m_pending_swc = k.sch.m_pending_swc) := by
  constructor
  · intro k c hcur hrun hp
    constructor
    · cases hw : k.sch.m_work_tasks with
      | nil => simp [Scheduler.IsContextSwitchRequired, hcur, hrun, hp, hw]
      | cons f rest =>
        simp [Scheduler.IsContextSwitchRequired, hcur, hrun, hp, hw]
    · intro f rest hw he
      simp [Scheduler.IsContextSwitchRequired, hcur, hrun, hp, hw, he]
  · intro k c t hcur hb htc hle
    have hb1 : ((TaskSleepRoom.Remove (CriticalSection k) t).tasks t).m_state = StateBlocked := by
      simpa [TaskSleepRoom.Remove] using hb
    obtain ⟨a1, a2, _, _, _, a6, _, _, a9, _, _, _⟩ :=
      UnblockTaskInternal_request (TaskSleepRoom.Remove (CriticalSection k) t) t hb1
    have a12 := UnblockTaskInternal_request_sch (TaskSleepRoom.Remove (CriticalSection k) t) t hb1
    have hcur1 : (TaskSleepRoom.Remove (CriticalSection k) t).sch.m_cur_task = some c := by
      simpa [TaskSleepRoom.Remove] using hcur
    have hne : some t ≠ (TaskSleepRoom.Remove (CriticalSection k) t).sch.m_cur_task := by
      rw [hcur1]; simpa using htc
    rw [if_pos hne] at a12
    have hnlt : ¬ ((Scheduler.UnblockTaskInternal (TaskSleepRoom.Remove (CriticalSection k) t) t
          UnblockReasonRequest).2.tasks c).m_priority
        < ((Scheduler.UnblockTaskInternal (TaskSleepRoom.Remove (CriticalSection k) t) t
          UnblockReasonRequest).2.tasks t).m_priority := by
      rw [a2]
      have hct : c ≠ t := fun e => htc e.symm
      simp [hct, wokenByRequest, TaskSleepRoom.Remove]
      exact hle
    have hres : UnblockTask_Priv k t = (Result.ResultOk,
        (Scheduler.UnblockTaskInternal (TaskSleepRoom.Remove (CriticalSection k) t) t
          UnblockReasonRequest).2) := by
      unfold UnblockTask_Priv
      simp only []
      rw [if_neg (by simp [a1])]
      split
      · rfl
      · rw [a9, hcur1]
        simp only []
        rw [if_neg hnlt]
    rw [hres]
    refine ⟨rfl, ?_, ?_, ?_⟩
    · show ((Scheduler.UnblockTaskInternal _ t UnblockReasonRequest).2.tasks t).m_state = _
      rw [a2]; simp [wokenByRequest]
    · show (Scheduler.UnblockTaskInternal _ t UnblockReasonRequest).2.sys.pendsv = _
      rw [a6]; simp [TaskSleepRoom.Remove]
    · show (Scheduler.UnblockTaskInternal _ t UnblockReasonRequest).2.sch.m_pending_swc = _
      rw [a12]; simp [TaskSleepRoom.Remove]

/-- Witness for C19 (amended): after `equalPriorityOps` the front of the
ready queue has the priority of the running task and a switch is required;
after task 2 went to sleep and the tick woke task 1, waking task 2 (priority
10) under the running task 1 (priority 20) requests no switch. -/
theorem IsContextSwitchRequired_decision_witness :
    Scheduler.IsContextSwitchRequired (run demo equalPriorityOps) = true
    ∧ (UnblockTask_Priv (run demo [Op.delay 5, Op.tick]) 2).2.sys.pendsv
        = (run demo [Op.delay 5, Op.tick]).sys.pendsv :=
  ⟨(IsContextSwitchRequired_decision.1 (run demo equalPriorityOps) 0 (by decide) (by decide)
      (by decide)).2 2 [] (by decide) (by decide),
    (IsContextSwitchRequired_decision.2 (run demo [Op.delay 5, Op.tick]) 1 2 (by decide)
      (by decide) (by decide) (by decide)).2.2.1⟩

/-! ## Frame lemmas for the scheduler's control fields -/

@[simp]
theorem setWaiters_sch (k : Kernel) (s : SyncRef) (l : List Nat) :
    (k.setWaiters s l).sch = k.sch := by
  cases s <;> rfl

@[simp]
theorem setWaiters_tasks (k : Kernel) (s : SyncRef) (l : List Nat) :
    (k.setWaiters s l).tasks = k.tasks := by
  cases s <;> rfl

@[simp]
theorem setWaiters_sys (k : Kernel) (s : SyncRef) (l : List Nat) :
    (k.setWaiters s l).sys = k.sys := by
  cases s <;> rfl

@[simp]
theorem setWaiters_alarms (k : Kernel) (s : SyncRef) (l : List Nat) :
    (k.setWaiters s l).alarms = k.alarms := by
  cases s <;> rfl

@[simp]
theorem TaskWorkRoom_Insert_control (k : Kernel) (t : Nat) :
    (TaskWorkRoom.Insert k t).sch.control = k.sch.control := rfl

@[simp]
theorem TaskWorkRoom_Remove_control (k : Kernel) (t : Nat) :
    (TaskWorkRoom.Remove k t).sch.control = k.sch.control := rfl

@[simp]
theorem TaskSleepRoom_Insert_control (k : Kernel) (t : Nat) :
    (TaskSleepRoom.Insert k t).sch.control = k.sch.control := rfl

@[simp]
theorem TaskSleepRoom_Remove_control (k : Kernel) (t : Nat) :
    (TaskSleepRoom.Remove k t).sch.control = k.sch.control := rfl

@[simp]
theorem TryContextSwitch_control (k : Kernel) :
    (Scheduler.TryContextSwitch k).sch.control = k.sch.control := by
  unfold Scheduler.TryContextSwitch
  split <;> rfl

@[simp]
theorem Yield_Priv_control (k : Kernel) : (Yield_Priv k).sch.control = k.sch.control := by
  unfold Yield_Priv
  simp only []
  split <;> simp

@[simp]
theorem Yield_control (k : Kernel) : (Scheduler.Yield k).sch.control = k.sch.control := by
  unfold Scheduler.Yield
  split
  · rfl
  · split
    · exact Yield_Priv_control k
    · show (Yield_Priv { k with sys := { k.sys with mode := ExecMode.svc } }).sch.control = _
      rw [Yield_Priv_control]

@[simp]
theorem IntSetTaskPriority_control (k : Kernel) (t p : Nat) (b : Bool) :
    (IntSetTaskPriority_Priv k t p b).2.sch.control = k.sch.control := by
  have hf : ∀ (l : List Nat) (ka : Kernel),
      (l.foldl (fun k pobj => k.setMutex pobj
        (fun m => { m with m_owner_original_priority := p })) ka).sch = ka.sch := by
    intro l
    induction l with
    | nil => intro ka; rfl
    | cons x xs ih => intro ka; simp only [List.foldl_cons]; rw [ih]; simp
  unfold IntSetTaskPriority_Priv
  simp only []
  split
  · simp
  · split
    · simp
    · split <;> split <;> split <;> simp [hf]

@[simp]
theorem UpdateOwnerPriority_control (k : Kernel) (m : Nat) :
    (Mutex.UpdateOwnerPriority k m).sch.control = k.sch.control := by
  unfold Mutex.UpdateOwnerPriority
  split
  · rfl
  · split
    · simp
    · rfl

@[simp]
theorem OnUnblockTask_control (k : Kernel) (f : SyncRef) (t : Nat) (r : Task.UnblockReason) :
    (UnblockFunctor.OnUnblockTask k f t r).sch.control = k.sch.control := by
  cases f <;>
    simp only [UnblockFunctor.OnUnblockTask, Mutex.OnUnblockTask, SyncObject.OnUnblockTask,
      Task.DropBlockSync] <;>
    split <;> simp

@[simp]
theorem UnblockTaskInternal_control (k : Kernel) (t : Nat) (r : Task.UnblockReason) :
    (Scheduler.UnblockTaskInternal k t r).2.sch.control = k.sch.control := by
  unfold Scheduler.UnblockTaskInternal
  simp only []
  split
  · rfl
  · split <;> split <;> simp

theorem TaskSleepRoom_Tick_frame (k : Kernel) :
    (TaskSleepRoom.Tick k).sch = k.sch ∧ (TaskSleepRoom.Tick k).mutexes = k.mutexes
    ∧ (TaskSleepRoom.Tick k).semaphores = k.semaphores
    ∧ (TaskSleepRoom.Tick k).events = k.events ∧ (TaskSleepRoom.Tick k).sys = k.sys
    ∧ (TaskSleepRoom.Tick k).alarms = k.alarms := by
  have hf : ∀ (l : List Nat) (ka : Kernel),
      (l.foldl (fun k t =>
        if (k.tasks t).m_dream_ticks ≠ ULONG_MAX then
          k.setTask t (fun x => { x with m_dream_ticks := (x.m_dream_ticks + 2 ^ 32 - 1) % 2 ^ 32 })
        else k) ka).sch = ka.sch
      ∧ (l.foldl (fun k t =>
        if (k.tasks t).m_dream_ticks ≠ ULONG_MAX then
          k.setTask t (fun x => { x with m_dream_ticks := (x.m_dream_ticks + 2 ^ 32 - 1) % 2 ^ 32 })
        else k) ka).mutexes = ka.mutexes
      ∧ (l.foldl (fun k t =>
        if (k.tasks t).m_dream_ticks ≠ ULONG_MAX then
          k.setTask t (fun x => { x with m_dream_ticks := (x.m_dream_ticks + 2 ^ 32 - 1) % 2 ^ 32 })
        else k) ka).semaphores = ka.semaphores
      ∧ (l.foldl (fun k t =>
        if (k.tasks t).m_dream_ticks ≠ ULONG_MAX then
          k.setTask t (fun x => { x with m_dream_ticks := (x.m_dream_ticks + 2 ^ 32 - 1) % 2 ^ 32 })
        else k) ka).events = ka.events
      ∧ (l.foldl (fun k t =>
        if (k.tasks t).m_dream_ticks ≠ ULONG_MAX then
          k.setTask t (fun x => { x with m_dream_ticks := (x.m_dream_ticks + 2 ^ 32 - 1) % 2 ^ 32 })
        else k) ka).sys = ka.sys
      ∧ (l.foldl (fun k t =>
        if (k.tasks t).m_dream_ticks ≠ ULONG_MAX then
          k.setTask t (fun x => { x with m_dream_ticks := (x.m_dream_ticks + 2 ^ 32 - 1) % 2 ^ 32 })
        else k) ka).alarms = ka.alarms := by
    intro l
    induction l with
    | nil => intro ka; exact ⟨rfl, rfl, rfl, rfl, rfl, rfl⟩
    | cons x xs ih =>
      intro ka
      simp only [List.foldl_cons]
      obtain ⟨a1, a2, a3, a4, a5, a6⟩ := ih (if (ka.tasks x).m_dream_ticks ≠ ULONG_MAX then
          ka.setTask x (fun x => { x with m_dream_ticks := (x.m_dream_ticks + 2 ^ 32 - 1) % 2 ^ 32 })
        else ka)
      rw [a1, a2, a3, a4, a5, a6]
      split <;> simp
  exact hf k.sch.m_sleep_tasks k

@[simp]
theorem TaskSleepRoom_Tick_sch (k : Kernel) : (TaskSleepRoom.Tick k).sch = k.sch :=
  (TaskSleepRoom_Tick_frame k).1

@[simp]
theorem TaskSleepRoom_Fetch_control (k : Kernel) :
    (TaskSleepRoom.Fetch k).2.sch.control = k.sch.control := by
  unfold TaskSleepRoom.Fetch
  split
  · rfl
  · split <;> rfl

@[simp]
theorem wakeExpired_control (fuel : Nat) (k : Kernel) :
    (Scheduler.wakeExpired fuel k).sch.control = k.sch.control := by
  induction fuel generalizing k with
  | zero => rfl
  | succ n ih =>
    unfold Scheduler.wakeExpired
    split
    · rfl
    · rename_i t k1 hf
      rw [ih, UnblockTaskInternal_control]
      have := TaskSleepRoom_Fetch_control k
      rw [hf] at this
      exact this

/-! ## The tick handler -/

/-- When `IsContextSwitchRequired` answers yes. -/
theorem IsContextSwitchRequired_iff (k : Kernel) :
    Scheduler.IsContextSwitchRequired k = true ↔
      (k.sch.m_pending_swc = true ∨ k.sch.m_cur_task = none
        ∨ (∃ c, k.sch.m_cur_task = some c ∧ (k.tasks c).m_state ≠ StateRunning)
        ∨ (∃ c f rest, k.sch.m_cur_task = some c ∧ k.sch.m_work_tasks = f :: rest
            ∧ (k.tasks c).m_priority ≤ (k.tasks f).m_priority)) := by
  unfold Scheduler.IsContextSwitchRequired
  by_cases hp : k.sch.m_pending_swc = true
  · simp [hp]
  · cases hc : k.sch.m_cur_task with
    | none => simp [hp]
    | some c =>
      by_cases hr : (k.tasks c).m_state = StateRunning
      · cases hw : k.sch.m_work_tasks with
        | nil => simp [hp, hr]
        | cons f rest => simp [hp, hr]
      · simp [hp, hr]

/-- The state in which the tick handler takes its decision: tick counter
incremented, sleep counters decremented, expired sleepers made ready. -/
theorem SysTickHandler_started (k : Kernel) (hs : k.sch.m_started = true) :
    ∃ K : Kernel,
      K = Scheduler.wakeExpired k.sch.m_sleep_tasks.length
            (TaskSleepRoom.Tick ((CriticalSection k).setSch
              (fun s => { s with m_tick_count := (s.m_tick_count + 1) % 2 ^ 32 })))
      ∧ K.sch.control = ((k.sch.m_tick_count + 1) % 2 ^ 32, k.sch.m_initialized, true,
          k.sch.m_pause_flg, k.sch.m_pause_cnt, k.sch.m_use_preemption)
      ∧ Scheduler.SysTickHandler k
        = if K.sch.m_pause_flg = true ∨ K.sch.m_pause_cnt ≠ 0 then
            (false, K.setSch (fun s => { s with m_pending_swc := true }))
          else if K.sch.m_use_preemption = false then (false, K)
          else (Scheduler.IsContextSwitchRequired K, K) := by
  refine ⟨_, rfl, ?_, ?_⟩
  · rw [wakeExpired_control, TaskSleepRoom_Tick_sch]
    simp [Scheduler.control, hs]
  · unfold Scheduler.SysTickHandler
    simp [hs]
/-- C18.  The decision of `Scheduler::SysTickHandler`.  Started, not paused,
preemption enabled: the tick counter is incremented (modulo 2^32), and the
handler returns true exactly when, in the state it leaves (after the expired
sleepers were made ready), the pending-switch flag is set, or there is no
current task, or the current task is not Running, or the ready queue is not
empty and its front has a priority greater than or equal to the current
task's.  Not started: it returns false and increments the tick counter.
Paused (on a started scheduler): it returns false, sets the pending-switch
flag and increments the tick counter.  Preemption disabled: it returns false
and increments the tick counter. -/
theorem SysTickHandler_decision :
    (∀ k : Kernel, k.sch.m_started = true → k.sch.m_pause_flg = false →
      k.sch.m_pause_cnt = 0 → k.sch.m_use_preemption = true →
      (Scheduler.SysTickHandler k).2.sch.m_tick_count = (k.sch.m_tick_count + 1) % 2 ^ 32
      ∧ ((Scheduler.SysTickHandler k).1 = true ↔
          ((Scheduler.SysTickHandler k).2.sch.m_pending_swc = true
          ∨ (Scheduler.SysTickHandler k).2.sch.m_cur_task = none
          ∨ (∃ c, (Scheduler.SysTickHandler k).2.sch.m_cur_task = some c
              ∧ ((Scheduler.SysTickHandler k).2.tasks c).m_state ≠ StateRunning)
          ∨ (∃ c f rest, (Scheduler.SysTickHandler k).2.sch.m_cur_task = some c
              ∧ (Scheduler.SysTickHandler k).2.sch.m_work_tasks = f :: rest
              ∧ ((Scheduler.SysTickHandler k).2.tasks c).m_priority
                  ≤ ((Scheduler.SysTickHandler k).2.tasks f).m_priority))))
    ∧ (∀ k : Kernel, k.sch.m_started = false →
      (Scheduler.SysTickHandler k).1 = false
      ∧ (Scheduler.SysTickHandler k).2.sch.m_tick_count = (k.sch.m_tick_count + 1) % 2 ^ 32
      ∧ (Scheduler.SysTickHandler k).2.sch.m_pending_swc = k.sch.m_pending_swc)
    ∧ (∀ k : Kernel, k.sch.m_started = true →
      (k.sch.m_pause_flg = true ∨ k.sch.m_pause_cnt ≠ 0) →
      (Scheduler.SysTickHandler k).1 = false
      ∧ (Scheduler.SysTickHandler k).2.sch.m_pending_swc = true
      ∧ (Scheduler.SysTickHandler k).2.sch.m_tick_count = (k.sch.m_tick_count + 1) % 2 ^ 32)
    ∧ (∀ k : Kernel, k.sch.m_use_preemption = false →
      (Scheduler.SysTickHandler k).1 = false
      ∧ (Scheduler.SysTickHandler k).2.sch.m_tick_count
          = (k.sch.m_tick_count + 1) % 2 ^ 32) := by
  have hns : ∀ k : Kernel, k.sch.m_started = false →
      (Scheduler.SysTickHandler k).1 = false
      ∧ (Scheduler.SysTickHandler k).2.sch.m_tick_count = (k.sch.m_tick_count + 1) % 2 ^ 32
      ∧ (Scheduler.SysTickHandler k).2.sch.m_pending_swc = k.sch.m_pending_swc := by
    intro k hs
    unfold Scheduler.SysTickHandler
    simp [hs]
  refine ⟨?_, hns, ?_, ?_⟩
  · intro k hs hf hc hp
    obtain ⟨K, _, hK, hr⟩ := SysTickHandler_started k hs
    simp only [Scheduler.control, Prod.mk.injEq] at hK
    obtain ⟨c1, _, _, c4, c5, c6⟩ := hK
    rw [hf] at c4
    rw [hc] at c5
    rw [hp] at c6
    rw [hr]
    simp only [c4, c5, c6, Bool.false_eq_true, ne_eq, not_true_eq_false, or_self, if_false,
      Bool.true_eq_false]
    exact ⟨c1, IsContextSwitchRequired_iff K⟩
  · intro k hs hpause
    obtain ⟨K, _, hK, hr⟩ := SysTickHandler_started k hs
    simp only [Scheduler.control, Prod.mk.injEq] at hK
    obtain ⟨c1, _, _, c4, c5, _⟩ := hK
    rw [hr, c4, c5, if_pos hpause]
    exact ⟨rfl, rfl, c1⟩
  · intro k hp
    by_cases hs : k.sch.m_started = true
    · obtain ⟨K, _, hK, hr⟩ := SysTickHandler_started k hs
      simp only [Scheduler.control, Prod.mk.injEq] at hK
      obtain ⟨c1, _, _, _, _, c6⟩ := hK
      rw [hp] at c6
      rw [hr]
      split
      · exact ⟨rfl, c1⟩
      · exact ⟨rfl, c1⟩
    · have hs2 : k.sch.m_started = false := by simpa using hs
      exact ⟨(hns k hs2).1, (hns k hs2).2.1⟩

/-- Witness for C18: in the concrete system the tick wakes task 1, whose
priority 20 exceeds the priority 10 of the running task 2, and the handler
returns true. -/
theorem SysTickHandler_decision_witness :
    (Scheduler.SysTickHandler demo).2.sch.m_work_tasks = [1, 0]
    ∧ ((Scheduler.SysTickHandler demo).1 = true ↔
        ((Scheduler.SysTickHandler demo).2.sch.m_pending_swc = true
        ∨ (Scheduler.SysTickHandler demo).2.sch.m_cur_task = none
        ∨ (∃ c, (Scheduler.SysTickHandler demo).2.sch.m_cur_task = some c
            ∧ ((Scheduler.SysTickHandler demo).2.tasks c).m_state ≠ StateRunning)
        ∨ (∃ c f rest, (Scheduler.SysTickHandler demo).2.sch.m_cur_task = some c
            ∧ (Scheduler.SysTickHandler demo).2.sch.m_work_tasks = f :: rest
            ∧ ((Scheduler.SysTickHandler demo).2.tasks c).m_priority
                ≤ ((Scheduler.SysTickHandler demo).2.tasks f).m_priority))) :=
  ⟨by decide,
    (SysTickHandler_decision.1 demo (by decide) (by decide) (by decide) (by decide)).2⟩

/-! ## Event -/

/-- C13.  `Event::Raise_Priv` on an event without waiters returns Ok and
leaves the state as the critical section finds it (the whole state when
entered in privileged or handler mode); `Event::Wait_Priv` with a zero timeout
returns `ResultTimeout` and leaves the state likewise, also right after a
`Raise_Priv` on the same event. -/
theorem Event_non_sticky (k : Kernel) (e : Nat) :
    ((k.events e).m_blocked_task_list = [] →
      (Event.Raise_Priv k e).1 = Result.ResultOk
      ∧ (Event.Raise_Priv k e).2 = CriticalSection k
      ∧ (Event.Raise_Priv k e).2.events = k.events
      ∧ (Event.Raise_Priv k e).2.tasks = k.tasks
      ∧ (Event.Raise_Priv k e).2.sch = k.sch
      ∧ (System.IsInPrivOrIrq k = true → (Event.Raise_Priv k e).2 = k))
    ∧ ((Event.Wait_Priv k e 0).1 = Result.ResultTimeout
      ∧ (Event.Wait_Priv k e 0).2 = CriticalSection k
      ∧ (Event.Wait_Priv k e 0).2.events = k.events
      ∧ (Event.Wait_Priv k e 0).2.tasks = k.tasks
      ∧ (Event.Wait_Priv k e 0).2.sch = k.sch
      ∧ (System.IsInPrivOrIrq k = true → (Event.Wait_Priv k e 0).2 = k))
    ∧ ((Event.Wait_Priv (Event.Raise_Priv k e).2 e 0).1 = Result.ResultTimeout
      ∧ ((k.events e).m_blocked_task_list = [] → System.IsInPrivOrIrq k = true →
          (Event.Wait_Priv (Event.Raise_Priv k e).2 e 0).2 = k)) := by
  have hw : ∀ k : Kernel, Event.Wait_Priv k e 0 = (Result.ResultTimeout, CriticalSection k) := by
    intro k
    simp [Event.Wait_Priv]
  have hr : (k.events e).m_blocked_task_list = [] →
      Event.Raise_Priv k e = (Result.ResultOk, CriticalSection k) := by
    intro h
    have h1 : ((CriticalSection k).events e).m_blocked_task_list = [] := by simpa using h
    unfold Event.Raise_Priv
    simp only [h1, List.length_nil]
    rfl
  refine ⟨?_, ?_, ?_⟩
  · intro h
    rw [hr h]
    exact ⟨rfl, rfl, by simp, by simp, by simp, fun hp => CriticalSection_priv k hp⟩
  · rw [hw]
    exact ⟨rfl, rfl, by simp, by simp, by simp, fun hp => CriticalSection_priv k hp⟩
  · rw [hw]
    refine ⟨rfl, ?_⟩
    intro h hp
    rw [hr h]
    show CriticalSection (CriticalSection k) = k
    rw [CriticalSection_priv k hp, CriticalSection_priv k hp]

/-- Witness for C13: event 0 of the concrete system has no waiters. -/
theorem Event_non_sticky_witness :
    (Event.Raise_Priv demo 0).2 = demo
    ∧ (Event.Wait_Priv (Event.Raise_Priv demo 0).2 0 0).2 = demo :=
  ⟨(Event_non_sticky demo 0).1 (by decide) |>.2.2.2.2.2 (by decide),
    (Event_non_sticky demo 0).2.2.2 (by decide) (by decide)⟩

/-! ## Pause -/

/-- `Pause(true)` on a started scheduler whose counter is below its maximum:
the counter goes up by one, the flag ends cleared, nothing else changes. -/
theorem Pause_on (k : Kernel) (hs : k.sch.m_started = true)
    (hc : k.sch.m_pause_cnt + 1 < 2 ^ 32) :
    Scheduler.Pause k true
      = (Result.ResultOk, k.setSch (fun s =>
          { s with m_pause_cnt := s.m_pause_cnt + 1, m_pause_flg := false })) := by
  have h1 : (k.sch.m_pause_cnt + 1) % 4294967296 = k.sch.m_pause_cnt + 1 :=
    Nat.mod_eq_of_lt (by simpa using hc)
  have h2 : k.sch.m_pause_cnt + 1 ≠ 0 := by omega
  simp [Scheduler.Pause, hs, Kernel.setSch, h1, h2]

/-- `Pause(false)` on a started scheduler whose counter is not zero: the
counter goes down by one, and when it reaches zero with a switch pending,
`Yield` runs. -/
theorem Pause_off (k : Kernel) (hs : k.sch.m_started = true)
    (hc : 0 < k.sch.m_pause_cnt) (hlt : k.sch.m_pause_cnt < 2 ^ 32) :
    Scheduler.Pause k false
      = (Result.ResultOk,
          if k.sch.m_pause_cnt = 1 ∧ k.sch.m_pending_swc = true then
            Scheduler.Yield (k.setSch (fun s => { s with m_pause_cnt := s.m_pause_cnt - 1 }))
          else k.setSch (fun s => { s with m_pause_cnt := s.m_pause_cnt - 1 })) := by
  have h1 : (k.sch.m_pause_cnt + 4294967295) % 4294967296 = k.sch.m_pause_cnt - 1 := by
    have : k.sch.m_pause_cnt < 4294967296 := by simpa using hlt
    omega
  have h0 : k.sch.m_pause_cnt ≠ 0 := by omega
  by_cases h3 : k.sch.m_pause_cnt = 1
  · by_cases h4 : k.sch.m_pending_swc = true
    · simp [Scheduler.Pause, hs, Kernel.setSch, h3, h4]
    · simp [Scheduler.Pause, hs, Kernel.setSch, h3, h4]
  · have h5 : k.sch.m_pause_cnt - 1 ≠ 0 := by omega
    simp [Scheduler.Pause, hs, Kernel.setSch, h0, h1, h3, h5]

theorem Pause_started (k : Kernel) (b : Bool) :
    (Scheduler.Pause k b).2.sch.m_started = k.sch.m_started := by
  by_cases hs : k.sch.m_started = true
  · cases b
    · by_cases h0 : k.sch.m_pause_cnt = 0
      · simp [Scheduler.Pause, hs, h0, MACS_ALARM]
      · simp only [Scheduler.Pause, hs, h0, Bool.true_eq_false, if_false, if_true]
        split
        · split
          · simp [hs]
          · simp [hs]
        · simp [hs]
    · simp only [Scheduler.Pause, hs, Bool.true_eq_false, if_false]
      split <;> simp [MACS_ALARM, hs]
  · simp [Scheduler.Pause, hs]

theorem pauseRun_append (k : Kernel) (a b : List Bool) :
    Scheduler.pauseRun k (a ++ b) = Scheduler.pauseRun (Scheduler.pauseRun k a) b := by
  induction a generalizing k with
  | nil => rfl
  | cons x xs ih => exact ih _

/-- Nested `Pause(true)` calls only count. -/
theorem pauseRun_on (n : Nat) (k : Kernel) (hs : k.sch.m_started = true)
    (hc : k.sch.m_pause_cnt + (n + 1) < 2 ^ 32) :
    Scheduler.pauseRun k (List.replicate (n + 1) true)
      = k.setSch (fun s =>
          { s with m_pause_cnt := s.m_pause_cnt + (n + 1), m_pause_flg := false }) := by
  induction n generalizing k with
  | zero =>
    show Scheduler.pauseRun (Scheduler.Pause k true).2 [] = _
    rw [Pause_on k hs (by omega)]
    rfl
  | succ m ih =>
    show Scheduler.pauseRun (Scheduler.Pause k true).2 (List.replicate (m + 1) true) = _
    rw [Pause_on k hs (by omega)]
    rw [ih _ (by simpa using hs) (by simp [Kernel.setSch]; omega)]
    simp only [Kernel.setSch]
    congr 2
    omega

/-- `Pause(false)` calls short of the last one only count down. -/
theorem pauseRun_off (j : Nat) (k : Kernel) (hs : k.sch.m_started = true)
    (hj : j < k.sch.m_pause_cnt) (hlt : k.sch.m_pause_cnt < 2 ^ 32) :
    Scheduler.pauseRun k (List.replicate j false)
      = k.setSch (fun s => { s with m_pause_cnt := s.m_pause_cnt - j })
    ∧ Scheduler.pauseReleases k (List.replicate j false) = j := by
  induction j generalizing k with
  | zero => exact ⟨rfl, rfl⟩
  | succ m ih =>
    have hp := Pause_off k hs (by omega) hlt
    have hne : ¬ (k.sch.m_pause_cnt = 1 ∧ k.sch.m_pending_swc = true) := by
      intro h; omega
    rw [if_neg hne] at hp
    obtain ⟨i1, i2⟩ := ih (k.setSch (fun s => { s with m_pause_cnt := s.m_pause_cnt - 1 }))
      (by simpa using hs) (by simp [Kernel.setSch]; omega) (by simp [Kernel.setSch]; omega)
    constructor
    · show Scheduler.pauseRun (Scheduler.Pause k false).2 (List.replicate m false) = _
      rw [hp, i1]
      simp only [Kernel.setSch]
      congr 2
      omega
    · show (if false = false ∧ (Scheduler.Pause k false).1 = Result.ResultOk then 1 else 0)
        + Scheduler.pauseReleases (Scheduler.Pause k false).2 (List.replicate m false) = m + 1
      rw [hp, i2]
      simp
      omega

/-- The counter is the number of pauses taken minus the number released. -/
theorem pauseRun_balance (bs : List Bool) (k : Kernel) (hs : k.sch.m_started = true)
    (hc : k.sch.m_pause_cnt + bs.count true < 2 ^ 32) :
    (Scheduler.pauseRun k bs).sch.m_pause_cnt + Scheduler.pauseReleases k bs
      = k.sch.m_pause_cnt + bs.count true := by
  induction bs generalizing k with
  | nil => rfl
  | cons b rest ih =>
    have hst := Pause_started k b
    rw [hs] at hst
    cases b with
    | true =>
      have hc1 : k.sch.m_pause_cnt + (rest.count true + 1) < 2 ^ 32 := by
        simpa [List.count_cons] using hc
      have hp := Pause_on k hs (by omega)
      have hi := ih (Scheduler.Pause k true).2 hst (by rw [hp]; simp [Kernel.setSch]; omega)
      show (Scheduler.pauseRun (Scheduler.Pause k true).2 rest).sch.m_pause_cnt
        + ((if true = false ∧ (Scheduler.Pause k true).1 = Result.ResultOk then 1 else 0)
          + Scheduler.pauseReleases (Scheduler.Pause k true).2 rest) = _
      rw [List.count_cons]
      have hcnt : (Scheduler.Pause k true).2.sch.m_pause_cnt = k.sch.m_pause_cnt + 1 := by
        rw [hp]; rfl
      rw [hcnt] at hi
      simp
      omega
    | false =>
      have hc1 : k.sch.m_pause_cnt + rest.count true < 2 ^ 32 := by
        simpa [List.count_cons] using hc
      show (Scheduler.pauseRun (Scheduler.Pause k false).2 rest).sch.m_pause_cnt
        + ((if false = false ∧ (Scheduler.Pause k false).1 = Result.ResultOk then 1 else 0)
          + Scheduler.pauseReleases (Scheduler.Pause k false).2 rest) = _
      rw [List.count_cons]
      by_cases h0 : k.sch.m_pause_cnt = 0
      · have hp : Scheduler.Pause k false = (Result.ResultErrorInvalidState,
            MACS_ALARM k ALARM_REASON.AR_SCHED_NOT_ON_PAUSE) := by
          simp [Scheduler.Pause, hs, h0]
        have hi := ih (Scheduler.Pause k false).2 hst (by rw [hp]; simpa [MACS_ALARM] using hc1)
        rw [hp] at hi ⊢
        simp [MACS_ALARM] at hi ⊢
        omega
      · have hp := Pause_off k hs (by omega) (by omega)
        have hcnt : (Scheduler.Pause k false).2.sch.m_pause_cnt = k.sch.m_pause_cnt - 1 := by
          rw [hp]
          show (if _ then _ else _ : Kernel).sch.m_pause_cnt = _
          split
          · have h := Yield_control (k.setSch (fun s =>
              { s with m_pause_cnt := s.m_pause_cnt - 1 }))
            simp only [Scheduler.control, Prod.mk.injEq] at h
            exact h.2.2.2.2.1
          · rfl
        have hi := ih (Scheduler.Pause k false).2 hst (by rw [hcnt]; omega)
        have h1 : (Scheduler.Pause k false).1 = Result.ResultOk := by rw [hp]
        rw [hcnt] at hi
        rw [h1]
        simp
        omega

/-- The `Pause(true)` call that finds the counter at its maximum wraps it to
zero and raises `AR_COUNTER_OVERFLOW`. -/
theorem Pause_on_wraps (k : Kernel) (hs : k.sch.m_started = true)
    (hc : k.sch.m_pause_cnt = 2 ^ 32 - 1) :
    (Scheduler.Pause k true).1 = Result.ResultOk
    ∧ (Scheduler.Pause k true).2.sch.m_pause_cnt = 0
    ∧ (Scheduler.Pause k true).2.alarms = k.alarms ++ [ALARM_REASON.AR_COUNTER_OVERFLOW] := by
  have h : k.sch.m_pause_cnt = 4294967295 := by simpa using hc
  simp [Scheduler.Pause, hs, Kernel.setSch, h, MACS_ALARM]

/-- C20.  `Scheduler::Pause` on a started scheduler whose counter starts at
zero, for fewer than 2^32 calls of `Pause(true)` (the counter is a 32-bit
one).  (1) After any sequence of calls the counter plus the number of
`Pause(false)` calls that returned Ok is the number of `Pause(true)` calls.
(2) `Pause(false)` with the counter at zero raises `AR_SCHED_NOT_ON_PAUSE`,
returns `ResultErrorInvalidState` and leaves the scheduler, the counter
included, as it was.  (3) After `n + 1` nested `Pause(true)` calls, `j ≤ n`
calls of `Pause(false)` all return Ok and only count down: the state is the
initial one with the counter at `n + 1 - j` (not zero); the last
`Pause(false)` returns Ok, brings the counter to zero, and runs `Yield` exactly
when the pending-switch flag is set.  (4) Before the scheduler is started
`Pause` returns `ResultErrorInvalidState` and changes nothing. -/
theorem Pause_counted :
    (∀ (k : Kernel) (bs : List Bool), k.sch.m_started = true → k.sch.m_pause_cnt = 0 →
      bs.count true < 2 ^ 32 →
      (Scheduler.pauseRun k bs).sch.m_pause_cnt + Scheduler.pauseReleases k bs
        = bs.count true)
    ∧ (∀ k : Kernel, k.sch.m_started = true → k.sch.m_pause_cnt = 0 →
      (Scheduler.Pause k false).1 = Result.ResultErrorInvalidState
      ∧ (Scheduler.Pause k false).2.alarms
          = k.alarms ++ [ALARM_REASON.AR_SCHED_NOT_ON_PAUSE]
      ∧ (Scheduler.Pause k false).2.sch = k.sch
      ∧ (Scheduler.Pause k false).2.sch.m_pause_cnt = 0
      ∧ (Scheduler.Pause k false).2.tasks = k.tasks
      ∧ (Scheduler.Pause k false).2.sys = k.sys)
    ∧ (∀ (k : Kernel) (n j : Nat), k.sch.m_started = true → k.sch.m_pause_cnt = 0 →
      n + 1 < 2 ^ 32 → j ≤ n →
      Scheduler.pauseRun k (List.replicate (n + 1) true ++ List.replicate j false)
        = k.setSch (fun s => { s with m_pause_cnt := n + 1 - j, m_pause_flg := false })
      ∧ Scheduler.pauseReleases (Scheduler.pauseRun k (List.replicate (n + 1) true))
          (List.replicate j false) = j
      ∧ (Scheduler.Pause
          (Scheduler.pauseRun k (List.replicate (n + 1) true ++ List.replicate n false)) false).1
          = Result.ResultOk
      ∧ (Scheduler.Pause
          (Scheduler.pauseRun k (List.replicate (n + 1) true ++ List.replicate n false)) false).2
          = (if k.sch.m_pending_swc = true then
              Scheduler.Yield
                (k.setSch (fun s => { s with m_pause_cnt := 0, m_pause_flg := false }))
            else k.setSch (fun s => { s with m_pause_cnt := 0, m_pause_flg := false }))
      ∧ (Scheduler.Pause
          (Scheduler.pauseRun k (List.replicate (n + 1) true ++ List.replicate n false))
            false).2.sch.m_pause_cnt = 0)
    ∧ (∀ (k : Kernel) (b : Bool), k.sch.m_started = false →
      Scheduler.Pause k b = (Result.ResultErrorInvalidState, k)) := by
  refine ⟨?_, ?_, ?_, ?_⟩
  · intro k bs hs h0 hc
    have h := pauseRun_balance bs k hs (by rw [h0]; omega)
    rw [h0] at h
    omega
  · intro k hs h0
    have hp : Scheduler.Pause k false = (Result.ResultErrorInvalidState,
        MACS_ALARM k ALARM_REASON.AR_SCHED_NOT_ON_PAUSE) := by
      simp [Scheduler.Pause, hs, h0]
    rw [hp]
    exact ⟨rfl, rfl, rfl, h0, rfl, rfl⟩
  · intro k n j hs h0 hn hj
    have hnest : ∀ i, i ≤ n →
        Scheduler.pauseRun k (List.replicate (n + 1) true ++ List.replicate i false)
          = k.setSch (fun s => { s with m_pause_cnt := n + 1 - i, m_pause_flg := false })
        ∧ Scheduler.pauseReleases (Scheduler.pauseRun k (List.replicate (n + 1) true))
            (List.replicate i false) = i := by
      intro i hi
      rw [pauseRun_append, pauseRun_on n k hs (by rw [h0]; omega)]
      obtain ⟨o1, o2⟩ := pauseRun_off i
        (k.setSch (fun s => { s with m_pause_cnt := s.m_pause_cnt + (n + 1), m_pause_flg := false }))
        (by simpa using hs) (by simp [Kernel.setSch]; omega) (by simp [Kernel.setSch]; omega)
      refine ⟨?_, o2⟩
      rw [o1]
      simp only [Kernel.setSch]
      congr 2
      omega
    obtain ⟨n1, n2⟩ := hnest j hj
    obtain ⟨m1, _⟩ := hnest n (Nat.le_refl n)
    have hlast := Pause_off
      (k.setSch (fun s => { s with m_pause_cnt := n + 1 - n, m_pause_flg := false }))
      (by simpa using hs) (by simp [Kernel.setSch]) (by simp [Kernel.setSch])
    have hone : ((k.setSch (fun s =>
        { s with m_pause_cnt := n + 1 - n, m_pause_flg := false })).sch.m_pause_cnt = 1
        ∧ (k.setSch (fun s =>
        { s with m_pause_cnt := n + 1 - n, m_pause_flg := false })).sch.m_pending_swc = true)
        ↔ k.sch.m_pending_swc = true := by
      simp [Kernel.setSch]
    have hst : (k.setSch (fun s =>
        { s with m_pause_cnt := n + 1 - n, m_pause_flg := false })).setSch
          (fun s => { s with m_pause_cnt := s.m_pause_cnt - 1 })
        = k.setSch (fun s => { s with m_pause_cnt := 0, m_pause_flg := false }) := by
      simp [Kernel.setSch]
    rw [m1, hlast, hst]
    simp only [hone]
    refine ⟨n1, n2, ?_, ?_, ?_⟩
    · first | rfl | trivial
    · first | rfl | trivial
    split
    · have h := Yield_control
        (k.setSch (fun s => { s with m_pause_cnt := 0, m_pause_flg := false }))
      simp only [Scheduler.control, Prod.mk.injEq] at h
      exact h.2.2.2.2.1
    · rfl
  · intro k b hs
    simp [Scheduler.Pause, hs]

/-- Witness for C20: three nested pauses in the concrete system, two
releases, then the last one. -/
theorem Pause_counted_witness :
    (Scheduler.pauseRun demo [true, true, true, false, false]).sch.m_pause_cnt = 1
    ∧ (Scheduler.Pause (Scheduler.pauseRun demo [true, true, true, false, false])
        false).2.sch.m_pause_cnt = 0
    ∧ (Scheduler.pauseRun demo [true, false, false, true]).sch.m_pause_cnt
        + Scheduler.pauseReleases demo [true, false, false, true] = 2 :=
  ⟨by
      have h := (Pause_counted.2.2.1 demo 2 2 (by decide) (by decide) (by decide)
        (by decide)).1
      exact congrArg (fun x : Kernel => x.sch.m_pause_cnt) h,
    (Pause_counted.2.2.1 demo 2 2 (by decide) (by decide) (by decide) (by decide)).2.2.2.2,
    Pause_counted.1 demo [true, false, false, true] (by decide) (by decide) (by decide)⟩

/-! ## Frame lemmas for the semaphore counters -/

theorem semCounts_of_semaphores {a b : Kernel} (h : a.semaphores = b.semaphores) :
    a.semCounts = b.semCounts := by
  funext s
  simp [Kernel.semCounts, h]

@[simp]
theorem setWaiters_semCounts (k : Kernel) (r : SyncRef) (l : List Nat) :
    (k.setWaiters r l).semCounts = k.semCounts := by
  cases r with
  | mutex i => rfl
  | event i => rfl
  | semaphore i =>
    funext s
    by_cases hs : s = i
    · subst hs; simp [Kernel.semCounts, Kernel.setWaiters]
    · simp [Kernel.semCounts, Kernel.setWaiters, hs]

@[simp]
theorem setTask_semCounts (k : Kernel) (t : Nat) (f : Task → Task) :
    (k.setTask t f).semCounts = k.semCounts := rfl

@[simp]
theorem setMutex_semCounts (k : Kernel) (t : Nat) (f : Mutex → Mutex) :
    (k.setMutex t f).semCounts = k.semCounts := rfl

@[simp]
theorem setSch_semCounts (k : Kernel) (f : Scheduler → Scheduler) :
    (k.setSch f).semCounts = k.semCounts := rfl

@[simp]
theorem CriticalSection_semCounts (k : Kernel) :
    (CriticalSection k).semCounts = k.semCounts :=
  semCounts_of_semaphores (CriticalSection_semaphores k)

@[simp]
theorem TryContextSwitch_semCounts (k : Kernel) :
    (Scheduler.TryContextSwitch k).semCounts = k.semCounts :=
  semCounts_of_semaphores (TryContextSwitch_semaphores k)

@[simp]
theorem Yield_semCounts (k : Kernel) : (Scheduler.Yield k).semCounts = k.semCounts :=
  semCounts_of_semaphores (Yield_semaphores k)

@[simp]
theorem UpdateOwnerPriority_semCounts (k : Kernel) (m : Nat) :
    (Mutex.UpdateOwnerPriority k m).semCounts = k.semCounts := by
  unfold Mutex.UpdateOwnerPriority
  split
  · rfl
  · split
    · exact semCounts_of_semaphores (IntSetTaskPriority_internal k _ _).2.2.1
    · rfl

@[simp]
theorem OnUnblockTask_semCounts (k : Kernel) (f : SyncRef) (t : Nat)
    (r : Task.UnblockReason) :
    (UnblockFunctor.OnUnblockTask k f t r).semCounts = k.semCounts := by
  cases f <;>
    simp only [UnblockFunctor.OnUnblockTask, Mutex.OnUnblockTask, SyncObject.OnUnblockTask,
      Task.DropBlockSync] <;>
    split <;> simp

@[simp]
theorem TaskWorkRoom_Insert_semCounts (k : Kernel) (t : Nat) :
    (TaskWorkRoom.Insert k t).semCounts = k.semCounts := rfl

@[simp]
theorem TaskSleepRoom_Insert_semCounts (k : Kernel) (t : Nat) :
    (TaskSleepRoom.Insert k t).semCounts = k.semCounts := rfl

@[simp]
theorem TaskSleepRoom_Remove_semCounts (k : Kernel) (t : Nat) :
    (TaskSleepRoom.Remove k t).semCounts = k.semCounts := rfl

@[simp]
theorem UnblockTaskInternal_semCounts (k : Kernel) (t : Nat) (r : Task.UnblockReason) :
    (Scheduler.UnblockTaskInternal k t r).2.semCounts = k.semCounts := by
  unfold Scheduler.UnblockTaskInternal
  simp only []
  split
  · rfl
  · split <;> split <;> simp

@[simp]
theorem TaskSleepRoom_Tick_semCounts (k : Kernel) :
    (TaskSleepRoom.Tick k).semCounts = k.semCounts :=
  semCounts_of_semaphores (TaskSleepRoom_Tick_frame k).2.2.1

@[simp]
theorem TaskSleepRoom_Fetch_semCounts (k : Kernel) :
    (TaskSleepRoom.Fetch k).2.semCounts = k.semCounts := by
  unfold TaskSleepRoom.Fetch
  split
  · rfl
  · split <;> rfl

@[simp]
theorem wakeExpired_semCounts (fuel : Nat) (k : Kernel) :
    (Scheduler.wakeExpired fuel k).semCounts = k.semCounts := by
  induction fuel generalizing k with
  | zero => rfl
  | succ n ih =>
    unfold Scheduler.wakeExpired
    split
    · rfl
    · rename_i t k1 hf
      rw [ih, UnblockTaskInternal_semCounts]
      have := TaskSleepRoom_Fetch_semCounts k
      rw [hf] at this
      exact this

@[simp]
theorem SysTickHandler_semCounts (k : Kernel) :
    (Scheduler.SysTickHandler k).2.semCounts = k.semCounts := by
  unfold Scheduler.SysTickHandler
  simp only []
  split
  · simp
  · split
    · simp
    · split <;> simp

@[simp]
theorem SysTick_Handler_semCounts (k : Kernel) :
    (SysTick_Handler k).semCounts = k.semCounts := by
  unfold SysTick_Handler inHandler
  simp only []
  split
  · show (System.SwitchContext (Scheduler.SysTickHandler _).2).semCounts = _
    show (Scheduler.SysTickHandler _).2.semCounts = _
    rw [SysTickHandler_semCounts]
    rfl
  · show (Scheduler.SysTickHandler _).2.semCounts = _
    rw [SysTickHandler_semCounts]
    rfl

@[simp]
theorem ActivateTasks_semCounts (k : Kernel) :
    (TaskIrqRoom.ActivateTasks k).semCounts = k.semCounts := by
  have hf : ∀ (l : List Nat) (ka : Kernel),
      (l.foldl (fun k ptsk =>
        if (k.tasks ptsk).m_irq_up = true ∧ (k.tasks ptsk).m_state = Task.State.StateBlocked
            ∧ (k.tasks ptsk).m_unblock_func = none then
          let k := TaskSleepRoom.Remove k ptsk
          let k := (Scheduler.UnblockTaskInternal k ptsk Task.UnblockReason.UnblockReasonIrq).2
          k.setTask ptsk (fun t => { t with m_irq_up := false })
        else k) ka).semCounts = ka.semCounts := by
    intro l
    induction l with
    | nil => intro ka; rfl
    | cons x xs ih =>
      intro ka
      simp only [List.foldl_cons]
      rw [ih]
      split <;> simp
  unfold TaskIrqRoom.ActivateTasks
  rw [setSch_semCounts]
  exact hf _ _

@[simp]
theorem SelectNextTask_semCounts (k : Kernel) :
    (Scheduler.SelectNextTask k).semCounts = k.semCounts := by
  unfold Scheduler.SelectNextTask TaskWorkRoom.Fetch
  simp only []
  split <;> split <;> (try split) <;> (try split) <;> simp

@[simp]
theorem SwitchContext_semCounts (k : Kernel) :
    (Scheduler.SwitchContext k).semCounts = k.semCounts := by
  have h : ∀ K : Kernel,
      (match K.sch.m_cur_task with
        | none => K
        | some c =>
          System.SetPrivMode K (decide ((K.tasks c).m_mode = Task.Mode.ModePrivileged))).semCounts
        = K.semCounts := by
    intro K
    split <;> rfl
  unfold Scheduler.SwitchContext
  simp only []
  rw [h, SelectNextTask_semCounts]
  split <;> simp

@[simp]
theorem PendSV_Handler_semCounts (k : Kernel) :
    (PendSV_Handler k).semCounts = k.semCounts := by
  unfold PendSV_Handler inHandler
  split
  · show (Scheduler.SwitchContext _).semCounts = _
    rw [SwitchContext_semCounts]
    rfl
  · rfl

@[simp]
theorem UnblockTask_Priv_semCounts (k : Kernel) (t : Nat) :
    (UnblockTask_Priv k t).2.semCounts = k.semCounts := by
  unfold UnblockTask_Priv
  simp only []
  split
  · simp
  · split
    · simp
    · split
      · simp
      · split <;> simp

@[simp]
theorem Scheduler_UnblockTask_semCounts (k : Kernel) (t : Option Nat) :
    (Scheduler.UnblockTask k t).2.semCounts = k.semCounts := by
  unfold Scheduler.UnblockTask
  split
  · rfl
  · split
    · rfl
    · cases t with
      | none => rfl
      | some t =>
        simp only []
        split
        · simp
        · show (UnblockTask_Priv _ t).2.semCounts = _
          rw [UnblockTask_Priv_semCounts]
          rfl

@[simp]
theorem BlockCurrentTask_Priv_semCounts (k : Kernel) (timeout_ms : Nat) (f : Option SyncRef) :
    (BlockCurrentTask_Priv k timeout_ms f).2.semCounts = k.semCounts := by
  unfold BlockCurrentTask_Priv
  simp only []
  split
  · rfl
  · split
    · rfl
    · split
      · simp
      · split
        · simp
        · split
          · cases f <;> simp
          · simp

@[simp]
theorem SyncObject_BlockCurTask_semCounts (k : Kernel) (s : SyncRef) (timeout_ms : Nat) :
    (SyncObject.BlockCurTask k s timeout_ms).2.semCounts = k.semCounts := by
  unfold SyncObject.BlockCurTask Task.SetBlockSync
  split
  · rfl
  · simp

@[simp]
theorem SyncObject_UnblockTask_semCounts (k : Kernel) (s : SyncRef) :
    (SyncObject.UnblockTask k s).2.semCounts = k.semCounts := by
  unfold SyncObject.UnblockTask Task.DropBlockSync
  simp only []
  split <;> simp

/-! ## The semaphore bound -/

/-- The counters after `Semaphore::Wait_Priv`: one less for the semaphore
when its counter was not zero, everything else as before. -/
theorem Wait_Priv_semCounts (k : Kernel) (i t : Nat) :
    (Semaphore.Wait_Priv k i t).2.semCounts
      = if (k.semaphores i).m_count ≠ 0 then
          (fun s => if s = i then ((k.semaphores i).m_count - 1, (k.semaphores i).m_max_count)
            else k.semCounts s)
        else k.semCounts := by
  by_cases hc : (k.semaphores i).m_count ≠ 0
  · rw [if_pos hc]
    have hc1 : ((CriticalSection k).semaphores i).m_count ≠ 0 := by simpa using hc
    funext s
    unfold Semaphore.Wait_Priv Semaphore.TryDecrement
    simp only [hc1, ne_eq, not_false_eq_true, if_true]
    by_cases hs : s = i
    · subst hs
      split <;> simp [Kernel.semCounts]
    · split <;> simp [Kernel.semCounts, hs]
  · rw [if_neg hc]
    have hc1 : ¬ ((CriticalSection k).semaphores i).m_count ≠ 0 := by simpa using hc
    unfold Semaphore.Wait_Priv Semaphore.TryDecrement
    simp only [hc1, if_false, Bool.false_eq_true]
    split
    · simp
    · simp

/-- The counters after `Semaphore::Signal_Priv`: one more (modulo 2^32) for
the semaphore when its counter is not at the maximum and nobody waits,
everything else as before. -/
theorem Signal_Priv_semCounts (k : Kernel) (i : Nat) :
    (Semaphore.Signal_Priv k i).2.semCounts
      = if (k.semaphores i).m_count = (k.semaphores i).m_max_count
            ∨ (k.semaphores i).m_blocked_task_list ≠ [] then k.semCounts
        else
          (fun s => if s = i then
              (((k.semaphores i).m_count + 1) % 2 ^ 32, (k.semaphores i).m_max_count)
            else k.semCounts s) := by
  unfold Semaphore.Signal_Priv
  simp only [CriticalSection_semaphores]
  by_cases h1 : (k.semaphores i).m_count = (k.semaphores i).m_max_count
  · simp [h1]
  · by_cases h2 : (k.semaphores i).m_blocked_task_list ≠ []
    · simp only [h1, h2, if_false, ne_eq, not_false_eq_true, if_true, or_true]
      simp
    · simp only [h1, h2, if_false, or_self]
      funext s
      by_cases hs : s = i
      · subst hs; simp [Kernel.semCounts]
      · simp [Kernel.semCounts, hs]

/-- `Semaphore::Wait_Priv` and `Semaphore::Signal_Priv` keep every counter
within its maximum and never change a maximum. -/
theorem Semaphore_ops_bound (k : Kernel)
    (h : ∀ s, (k.semaphores s).m_count ≤ (k.semaphores s).m_max_count) (i : Nat) :
    (∀ t s, ((Semaphore.Wait_Priv k i t).2.semaphores s).m_count
        ≤ ((Semaphore.Wait_Priv k i t).2.semaphores s).m_max_count
      ∧ ((Semaphore.Wait_Priv k i t).2.semaphores s).m_max_count
        = (k.semaphores s).m_max_count)
    ∧ (∀ s, ((Semaphore.Signal_Priv k i).2.semaphores s).m_count
        ≤ ((Semaphore.Signal_Priv k i).2.semaphores s).m_max_count
      ∧ ((Semaphore.Signal_Priv k i).2.semaphores s).m_max_count
        = (k.semaphores s).m_max_count) := by
  constructor
  · intro t s
    have hw := congrFun (Wait_Priv_semCounts k i t) s
    by_cases hc : (k.semaphores i).m_count ≠ 0
    · rw [if_pos hc] at hw
      by_cases hs : s = i
      · subst hs
        simp only [Kernel.semCounts, if_true, Prod.mk.injEq] at hw
        rw [hw.1, hw.2]
        exact ⟨Nat.le_trans (Nat.sub_le _ _) (h s), rfl⟩
      · simp only [Kernel.semCounts, hs, if_false, Prod.mk.injEq] at hw
        rw [hw.1, hw.2]
        exact ⟨h s, rfl⟩
    · rw [if_neg hc] at hw
      simp only [Kernel.semCounts, Prod.mk.injEq] at hw
      rw [hw.1, hw.2]
      exact ⟨h s, rfl⟩
  · intro s
    have hw := congrFun (Signal_Priv_semCounts k i) s
    by_cases hc : (k.semaphores i).m_count = (k.semaphores i).m_max_count
        ∨ (k.semaphores i).m_blocked_task_list ≠ []
    · rw [if_pos hc] at hw
      simp only [Kernel.semCounts, Prod.mk.injEq] at hw
      rw [hw.1, hw.2]
      exact ⟨h s, rfl⟩
    · rw [if_neg hc] at hw
      by_cases hs : s = i
      · subst hs
        simp only [Kernel.semCounts, if_true, Prod.mk.injEq] at hw
        rw [hw.1, hw.2]
        refine ⟨?_, rfl⟩
        have h1 := h s
        have h2 : (k.semaphores s).m_count ≠ (k.semaphores s).m_max_count := fun e => hc (Or.inl e)
        exact Nat.le_trans (Nat.mod_le _ _) (by omega)
      · simp only [Kernel.semCounts, hs, if_false, Prod.mk.injEq] at hw
        rw [hw.1, hw.2]
        exact ⟨h s, rfl⟩

/-- C11.  The constructor sets the counter to the smaller of `start_count`
and `max_count`; and if every counter is within its maximum, then after any
sequence of `Wait_Priv`, `Signal_Priv`, wake-ups by timeout, ticks and context
switches every counter is within its (unchanged) maximum. -/
theorem Semaphore_bound :
    (∀ start_count max_count : Nat,
      (Semaphore.new start_count max_count).m_count = min start_count max_count
      ∧ (Semaphore.new start_count max_count).m_max_count = max_count
      ∧ (Semaphore.new start_count max_count).m_blocked_task_list = []
      ∧ (Semaphore.new start_count max_count).m_count
          ≤ (Semaphore.new start_count max_count).m_max_count)
    ∧ (∀ (k : Kernel) (ops : List SemOp),
      (∀ s, (k.semaphores s).m_count ≤ (k.semaphores s).m_max_count) →
      ∀ s, 0 ≤ ((semRun k ops).semaphores s).m_count
        ∧ ((semRun k ops).semaphores s).m_count ≤ ((semRun k ops).semaphores s).m_max_count
        ∧ ((semRun k ops).semaphores s).m_max_count = (k.semaphores s).m_max_count) := by
  constructor
  · intro a b
    unfold Semaphore.new
    by_cases h : a ≤ b
    · simp [h]
    · simp [h]
      omega
  · intro k ops
    induction ops generalizing k with
    | nil => intro h s; exact ⟨Nat.zero_le _, h s, rfl⟩
    | cons op rest ih =>
      intro h s
      have hmax : ∀ K : Kernel, K.semCounts = k.semCounts →
          ∀ s, (K.semaphores s).m_count ≤ (K.semaphores s).m_max_count
            ∧ (K.semaphores s).m_max_count = (k.semaphores s).m_max_count := by
        intro K hK s
        have := congrFun hK s
        simp only [Kernel.semCounts, Prod.mk.injEq] at this
        rw [this.1, this.2]
        exact ⟨h s, rfl⟩
      have hstep : ∀ s, ((semStep k op).semaphores s).m_count
            ≤ ((semStep k op).semaphores s).m_max_count
          ∧ ((semStep k op).semaphores s).m_max_count = (k.semaphores s).m_max_count := by
        cases op with
        | wait i t => exact (Semaphore_ops_bound k h i).1 t
        | signal i => exact (Semaphore_ops_bound k h i).2
        | timeout w => exact hmax _ (UnblockTaskInternal_semCounts k w _)
        | tick => exact hmax _ (SysTick_Handler_semCounts k)
        | switch => exact hmax _ (PendSV_Handler_semCounts k)
      obtain ⟨i1, i2, i3⟩ := ih (semStep k op) (fun s => (hstep s).1) s
      refine ⟨i1, i2, ?_⟩
      show ((semRun (semStep k op) rest).semaphores s).m_max_count = _
      rw [i3, (hstep s).2]

/-- Witness for C11: semaphore 0 of the concrete system, constructed as
`Semaphore(2, 3)`, after two signals, a tick, a context switch, a third
signal and a wait. -/
theorem Semaphore_bound_witness :
    (Semaphore.new 5 3).m_count = 3
    ∧ ((semRun demo [SemOp.signal 0, SemOp.signal 0, SemOp.tick, SemOp.switch, SemOp.signal 0,
        SemOp.wait 0 0]).semaphores 0).m_count
      ≤ ((semRun demo [SemOp.signal 0, SemOp.signal 0, SemOp.tick, SemOp.switch, SemOp.signal 0,
        SemOp.wait 0 0]).semaphores 0).m_max_count :=
  ⟨(Semaphore_bound.1 5 3).1,
    (Semaphore_bound.2 demo [SemOp.signal 0, SemOp.signal 0, SemOp.tick, SemOp.switch,
      SemOp.signal 0, SemOp.wait 0 0]
      (by intro s; by_cases hs : s = 0 <;> simp [demo, Semaphore.new, hs]) 0).2.1⟩

/-! ## Broadcast raise -/

@[simp]
theorem UnblockTask_Priv_control (k : Kernel) (t : Nat) :
    (UnblockTask_Priv k t).2.sch.control = k.sch.control := by
  unfold UnblockTask_Priv
  simp only []
  split
  · simp
  · split
    · simp
    · split
      · simp
      · split <;> simp

@[simp]
theorem Scheduler_UnblockTask_control (k : Kernel) (t : Option Nat) :
    (Scheduler.UnblockTask k t).2.sch.control = k.sch.control := by
  unfold Scheduler.UnblockTask
  split
  · rfl
  · split
    · rfl
    · cases t with
      | none => rfl
      | some t =>
        simp only []
        split
        · simp
        · show (UnblockTask_Priv _ t).2.sch.control = _
          rw [UnblockTask_Priv_control]

/-- The ready queue after `UnblockTask_Priv` woke a blocked task other than
the current one. -/
theorem UnblockTask_Priv_work (k : Kernel) (t : Nat)
    (hb : (k.tasks t).m_state = StateBlocked) (hc : k.sch.m_cur_task ≠ some t) :
    (UnblockTask_Priv k t).2.sch.m_work_tasks
      = SListOrd.Add (PriorPreceeding k) k.sch.m_work_tasks t := by
  have hb1 : ((TaskSleepRoom.Remove (CriticalSection k) t).tasks t).m_state = StateBlocked := by
    simpa [TaskSleepRoom.Remove] using hb
  have a1 := (UnblockTaskInternal_request (TaskSleepRoom.Remove (CriticalSection k) t) t hb1).1
  have a12 := UnblockTaskInternal_request_sch (TaskSleepRoom.Remove (CriticalSection k) t) t hb1
  have hne : some t ≠ (TaskSleepRoom.Remove (CriticalSection k) t).sch.m_cur_task := by
    intro e
    apply hc
    rw [e]
    simp [TaskSleepRoom.Remove]
  rw [if_pos hne] at a12
  have hpp : PriorPreceeding (TaskSleepRoom.Remove (CriticalSection k) t) = PriorPreceeding k :=
    PriorPreceeding_congr _ _ (by simp [TaskSleepRoom.Remove])
  have hw : (Scheduler.UnblockTaskInternal (TaskSleepRoom.Remove (CriticalSection k) t) t
      UnblockReasonRequest).2.sch.m_work_tasks
      = SListOrd.Add (PriorPreceeding k) k.sch.m_work_tasks t := by
    rw [a12, hpp]
    simp [TaskSleepRoom.Remove]
  unfold UnblockTask_Priv
  simp only []
  rw [if_neg (by simp [a1])]
  split
  · exact hw
  · split
    · exact hw
    · split
      · rw [TryContextSwitch_work]; exact hw
      · exact hw

/-- The ready queue after `Scheduler::UnblockTask` woke a blocked task other
than the current one. -/
theorem Scheduler_UnblockTask_work (k : Kernel) (t : Nat)
    (hs : k.sch.m_started = true) (ha : System.IsSysCallAllowed k = true)
    (hb : (k.tasks t).m_state = StateBlocked) (hc : k.sch.m_cur_task ≠ some t) :
    (Scheduler.UnblockTask k (some t)).2.sch.m_work_tasks
      = SListOrd.Add (PriorPreceeding k) k.sch.m_work_tasks t
    ∧ (Scheduler.UnblockTask k (some t)).2.sys.mode = k.sys.mode := by
  unfold Scheduler.UnblockTask
  simp only [hs, ha, Bool.true_eq_false, if_false]
  split
  · exact ⟨UnblockTask_Priv_work k t hb hc, (UnblockTask_Priv_blocked k t hb).2.2.2.2.2.2.2.1⟩
  · refine ⟨?_, rfl⟩
    have h := UnblockTask_Priv_work { k with sys := { k.sys with mode := ExecMode.svc } } t hb hc
    have hpp : PriorPreceeding { k with sys := { k.sys with mode := ExecMode.svc } }
        = PriorPreceeding k := PriorPreceeding_congr _ _ rfl
    rw [hpp] at h
    exact h

/-- `SListOrd::Add` walks past a prefix none of whose elements the new
element precedes. -/
theorem SListOrd_Add_skip (P : Nat → Nat → Bool) (p l : List Nat) (e : Nat)
    (h : ∀ x, x ∈ p → P e x = false) :
    SListOrd.Add P (p ++ l) e = p ++ SListOrd.Add P l e := by
  induction p with
  | nil => rfl
  | cons x xs ih =>
    have hx : P e x = false := h x (List.mem_cons_self _ _)
    have hstep : SListOrd.Add P (x :: (xs ++ l)) e = x :: SListOrd.Add P (xs ++ l) e := by
      simp [SListOrd.Add, hx]
    show SListOrd.Add P (x :: (xs ++ l)) e = x :: (xs ++ SListOrd.Add P l e)
    rw [hstep, ih (fun y hy => h y (List.mem_cons_of_mem _ hy))]

theorem foldl_SListOrd_Add_skip (P : Nat → Nat → Bool) (p : List Nat) (es l : List Nat)
    (h : ∀ e, e ∈ es → ∀ x, x ∈ p → P e x = false) :
    es.foldl (SListOrd.Add P) (p ++ l) = p ++ es.foldl (SListOrd.Add P) l := by
  induction es generalizing l with
  | nil => rfl
  | cons e rest ih =>
    simp only [List.foldl_cons]
    rw [SListOrd_Add_skip P p l e (h e (List.mem_cons_self _ _))]
    exact ih _ (fun e2 he2 => h e2 (List.mem_cons_of_mem _ he2))

/-- Elements added one after the other in non-increasing priority order end
up in that order. -/
theorem foldl_SListOrd_Add_sublist (k : Kernel) (ws work : List Nat)
    (hord : waitersOrdered k ws) :
    ws.Sublist (ws.foldl (SListOrd.Add (PriorPreceeding k)) work) := by
  induction ws generalizing work with
  | nil => exact List.nil_sublist _
  | cons w rest ih =>
    unfold waitersOrdered at hord
    rw [List.pairwise_cons] at hord
    obtain ⟨l1, l2, _, h2, h3, _⟩ := SListOrd_Add_split (PriorPreceeding k) work w
    simp only [List.foldl_cons]
    rw [h2]
    have hpre : ∀ e, e ∈ rest → ∀ x, x ∈ l1 ++ [w] → PriorPreceeding k e x = false := by
      intro e he x hx
      have hew : (k.tasks e).m_priority ≤ (k.tasks w).m_priority := hord.1 e he
      rcases List.mem_append.mp hx with hx | hx
      · have := h3 x hx
        simp only [PriorPreceeding, decide_eq_false_iff_not, not_lt, gt_iff_lt] at this ⊢
        omega
      · simp only [List.mem_singleton] at hx
        subst hx
        simpa [PriorPreceeding] using hew
    have hre : l1 ++ w :: l2 = (l1 ++ [w]) ++ l2 := by simp
    rw [hre, foldl_SListOrd_Add_skip _ _ _ _ hpre]
    have hi := ih l2 hord.2
    have : (w :: rest).Sublist (w :: List.foldl (SListOrd.Add (PriorPreceeding k)) l2 rest) :=
      List.Sublist.cons₂ w hi
    simpa using this.trans (List.sublist_append_right l1 _)

theorem foldl_SListOrd_Add_perm (P : Nat → Nat → Bool) (ws work : List Nat) :
    (ws.foldl (SListOrd.Add P) work).Perm (work ++ ws)
    ∧ work.Sublist (ws.foldl (SListOrd.Add P) work) := by
  induction ws generalizing work with
  | nil => simp
  | cons w rest ih =>
    obtain ⟨l1, l2, h1, h2, _, _⟩ := SListOrd_Add_split P work w
    simp only [List.foldl_cons]
    obtain ⟨i1, i2⟩ := ih (SListOrd.Add P work w)
    constructor
    · refine i1.trans ?_
      rw [h2, h1]
      simp only [List.append_assoc, List.cons_append]
      refine List.Perm.append_left l1 ?_
      have : (w :: (l2 ++ rest)).Perm (l2 ++ w :: rest) := List.perm_middle.symm
      exact this
    · refine List.Sublist.trans ?_ i2
      rw [h2, h1]
      exact List.Sublist.append (List.Sublist.refl l1) (List.sublist_cons_self w l2)

theorem foldl_erase_subset (ws l : List Nat) (x : Nat)
    (h : x ∈ ws.foldl SList.Del l) : x ∈ l := by
  induction ws generalizing l with
  | nil => exact h
  | cons w rest ih =>
    simp only [List.foldl_cons] at h
    exact List.mem_of_mem_erase (ih _ h)

theorem foldl_erase_not_mem (ws l : List Nat) (hl : l.Nodup) (x : Nat) (hx : x ∈ ws) :
    x ∉ ws.foldl SList.Del l := by
  induction ws generalizing l with
  | nil => simp at hx
  | cons w rest ih =>
    simp only [List.foldl_cons]
    by_cases hxw : x = w
    · intro hmem
      have := foldl_erase_subset rest _ x hmem
      rw [hxw] at this
      exact (List.Nodup.not_mem_erase hl) this
    · rcases List.mem_cons.mp hx with hx | hx
      · exact absurd hx hxw
      · exact ih (SList.Del l w) (List.Nodup.erase w hl) hx

theorem IsSysCallAllowed_congr {a b : Kernel} (h : a.sys.mode = b.sys.mode) :
    System.IsSysCallAllowed a = System.IsSysCallAllowed b := by
  unfold System.IsSysCallAllowed
  rw [h]

/-- One round of the loop of `Event::Raise_Priv`: the front waiter, blocked
and not the current task, leaves the waiter list and the sleep queue and is
linked into the ready queue. -/
theorem Event_UnblockTask_step (k : Kernel) (e w : Nat) (rest : List Nat)
    (hs : k.sch.m_started = true) (ha : System.IsSysCallAllowed k = true)
    (hw : (k.events e).m_blocked_task_list = w :: rest)
    (hb : (k.tasks w).m_state = StateBlocked) (hc : k.sch.m_cur_task ≠ some w) :
    (SyncObject.UnblockTask k (SyncRef.event e)).1 = Result.ResultOk
    ∧ (SyncObject.UnblockTask k (SyncRef.event e)).2.events
        = (fun i => if i = e then { k.events e with m_blocked_task_list := rest }
            else k.events i)
    ∧ (SyncObject.UnblockTask k (SyncRef.event e)).2.tasks
        = (fun i => if i = w then wokenByRequest (k.tasks w) else k.tasks i)
    ∧ (SyncObject.UnblockTask k (SyncRef.event e)).2.sch.m_sleep_tasks
        = SList.Del k.sch.m_sleep_tasks w
    ∧ (SyncObject.UnblockTask k (SyncRef.event e)).2.sch.m_work_tasks
        = SListOrd.Add (PriorPreceeding k) k.sch.m_work_tasks w
    ∧ (SyncObject.UnblockTask k (SyncRef.event e)).2.sch.m_cur_task = k.sch.m_cur_task
    ∧ (SyncObject.UnblockTask k (SyncRef.event e)).2.sch.control = k.sch.control
    ∧ (SyncObject.UnblockTask k (SyncRef.event e)).2.sys.mode = k.sys.mode := by
  have heq : SyncObject.UnblockTask k (SyncRef.event e)
      = Scheduler.UnblockTask
          (Task.DropBlockSync
            (k.setEvent e (fun m => { m with m_blocked_task_list := rest })) w) (some w) := by
    simp [SyncObject.UnblockTask, Kernel.waiters, hw, SList.Fetch, Kernel.setWaiters]
  have hs0 : (Task.DropBlockSync
      (k.setEvent e (fun m => { m with m_blocked_task_list := rest })) w).sch.m_started
        = true := by
    simpa [Task.DropBlockSync] using hs
  have ha0 : System.IsSysCallAllowed (Task.DropBlockSync
      (k.setEvent e (fun m => { m with m_blocked_task_list := rest })) w) = true := by
    rw [← ha]
    exact IsSysCallAllowed_congr (by simp [Task.DropBlockSync])
  have hb0 : ((Task.DropBlockSync
      (k.setEvent e (fun m => { m with m_blocked_task_list := rest })) w).tasks w).m_state
        = StateBlocked := by
    simpa [Task.DropBlockSync] using hb
  have hc0 : (Task.DropBlockSync
      (k.setEvent e (fun m => { m with m_blocked_task_list := rest })) w).sch.m_cur_task
        ≠ some w := by
    simpa [Task.DropBlockSync] using hc
  obtain ⟨a1, a2, _, _, a5, a6, a7, _⟩ := Scheduler_UnblockTask_blocked _ w hs0 ha0 hb0
  obtain ⟨b1, b2⟩ := Scheduler_UnblockTask_work _ w hs0 ha0 hb0 hc0
  have hpp : PriorPreceeding (Task.DropBlockSync
      (k.setEvent e (fun m => { m with m_blocked_task_list := rest })) w)
        = PriorPreceeding k := by
    apply PriorPreceeding_congr_priority
    intro i
    by_cases hi : i = w
    · subst hi; simp [Task.DropBlockSync]
    · simp [Task.DropBlockSync, hi]
  rw [heq]
  refine ⟨a1, ?_, ?_, ?_, ?_, ?_, ?_, ?_⟩
  · rw [a5]
    funext i
    by_cases hi : i = e
    · subst hi; simp [Task.DropBlockSync]
    · simp [Task.DropBlockSync, hi]
  · rw [a2]
    funext i
    by_cases hi : i = w
    · subst hi; simp [Task.DropBlockSync, wokenByRequest]
    · simp [Task.DropBlockSync, hi]
  · rw [a6]; simp [Task.DropBlockSync]
  · rw [b1, hpp]; simp [Task.DropBlockSync]
  · rw [a7]; simp [Task.DropBlockSync]
  · rw [Scheduler_UnblockTask_control]; simp [Task.DropBlockSync]
  · rw [b2]; simp [Task.DropBlockSync]

/-- The loop of `Event::Raise_Priv` on a broadcast event, with enough fuel:
every waiter is unlinked from the waiter list and the sleep queue and linked
into the ready queue, the front one first. -/
theorem raiseLoop_broadcast (ws : List Nat) :
    ∀ (k : Kernel) (e n : Nat), ws.length ≤ n →
      k.sch.m_started = true → System.IsSysCallAllowed k = true →
      (k.events e).m_blocked_task_list = ws → (k.events e).m_broadcast = true →
      (∀ w, w ∈ ws → (k.tasks w).m_state = StateBlocked) → ws.Nodup →
      (∀ w, w ∈ ws → k.sch.m_cur_task ≠ some w) →
      ((Event.raiseLoop n k e).events e).m_blocked_task_list = []
      ∧ (Event.raiseLoop n k e).tasks
          = (fun i => if i ∈ ws then wokenByRequest (k.tasks i) else k.tasks i)
      ∧ (Event.raiseLoop n k e).sch.m_sleep_tasks = ws.foldl SList.Del k.sch.m_sleep_tasks
      ∧ (Event.raiseLoop n k e).sch.m_work_tasks
          = ws.foldl (SListOrd.Add (PriorPreceeding k)) k.sch.m_work_tasks
      ∧ (Event.raiseLoop n k e).sch.m_cur_task = k.sch.m_cur_task := by
  induction ws with
  | nil =>
    intro k e n _ _ _ hw _ _ _ _
    have hR : Event.raiseLoop n k e = k := by
      cases n with
      | zero => rfl
      | succ m => simp [Event.raiseLoop, hw]
    rw [hR]
    exact ⟨hw, by funext i; simp, rfl, rfl, rfl⟩
  | cons w rest ih =>
    intro k e n hn hs ha hw hbc hb hnd hc
    cases n with
    | zero => simp at hn
    | succ m =>
      have hwb := hb w (List.mem_cons_self _ _)
      have hwc := hc w (List.mem_cons_self _ _)
      obtain ⟨_, s2, s3, s4, s5, s6, s7, s8⟩ := Event_UnblockTask_step k e w rest hs ha hw hwb hwc
      rw [List.nodup_cons] at hnd
      have hKb : ((SyncObject.UnblockTask k (SyncRef.event e)).2.events e).m_broadcast = true := by
        rw [s2]; simpa using hbc
      have hR : Event.raiseLoop (m + 1) k e
          = Event.raiseLoop m (SyncObject.UnblockTask k (SyncRef.event e)).2 e := by
        simp [Event.raiseLoop, hw, hKb]
      have hKs : (SyncObject.UnblockTask k (SyncRef.event e)).2.sch.m_started = true := by
        have := s7
        simp only [Scheduler.control, Prod.mk.injEq] at this
        rw [this.2.2.1]; exact hs
      have hKa : System.IsSysCallAllowed (SyncObject.UnblockTask k (SyncRef.event e)).2 = true := by
        rw [IsSysCallAllowed_congr s8]; exact ha
      have hKw : ((SyncObject.UnblockTask k (SyncRef.event e)).2.events e).m_blocked_task_list
          = rest := by
        rw [s2]; simp
      have hKt : ∀ i, i ∈ rest →
          (SyncObject.UnblockTask k (SyncRef.event e)).2.tasks i = k.tasks i := by
        intro i hi
        rw [s3]
        have : i ≠ w := fun e1 => hnd.1 (e1 ▸ hi)
        simp [this]
      have hpp : PriorPreceeding (SyncObject.UnblockTask k (SyncRef.event e)).2
          = PriorPreceeding k := by
        apply PriorPreceeding_congr_priority
        intro i
        rw [s3]
        by_cases hi : i = w
        · subst hi; simp [wokenByRequest]
        · simp [hi]
      obtain ⟨r1, r2, r3, r4, r5⟩ := ih (SyncObject.UnblockTask k (SyncRef.event e)).2 e m
        (by simpa using hn) hKs hKa hKw hKb
        (fun i hi => by rw [hKt i hi]; exact hb i (List.mem_cons_of_mem _ hi)) hnd.2
        (fun i hi => by rw [s6]; exact hc i (List.mem_cons_of_mem _ hi))
      rw [hR]
      refine ⟨r1, ?_, ?_, ?_, ?_⟩
      · rw [r2]
        funext i
        by_cases hi : i ∈ rest
        · have hiw : i ≠ w := fun e1 => hnd.1 (e1 ▸ hi)
          simp [hi, hKt i hi]
        · by_cases hiw : i = w
          · subst hiw
            simp [hi, s3]
          · simp [hi, hiw, s3]
      · rw [r3, s4]; rfl
      · rw [r4, s5, hpp]; rfl
      · rw [r5, s6]

/-- `Event::Raise_Priv` on an event that is not a broadcast one wakes the
front waiter only. -/
theorem Raise_Priv_unicast_eq (k : Kernel) (e w : Nat) (rest : List Nat)
    (hs : k.sch.m_started = true) (ha : System.IsSysCallAllowed k = true)
    (hw : (k.events e).m_blocked_task_list = w :: rest)
    (hbc : (k.events e).m_broadcast = false)
    (hb : (k.tasks w).m_state = StateBlocked) (hc : k.sch.m_cur_task ≠ some w) :
    Event.Raise_Priv k e
      = (Result.ResultOk, (SyncObject.UnblockTask (CriticalSection k) (SyncRef.event e)).2) := by
  have hw1 : ((CriticalSection k).events e).m_blocked_task_list = w :: rest := by
    simpa using hw
  obtain ⟨_, s2, _⟩ := Event_UnblockTask_step (CriticalSection k) e w rest (by simpa using hs)
    (by rw [← ha]; exact IsSysCallAllowed_congr (by simp)) hw1 (by simpa using hb)
    (by simpa using hc)
  have hKb : ((SyncObject.UnblockTask (CriticalSection k) (SyncRef.event e)).2.events
      e).m_broadcast = false := by
    rw [s2]; simpa using hbc
  have hne : ((CriticalSection k).events e).m_blocked_task_list ≠ [] := by
    rw [hw1]; simp
  unfold Event.Raise_Priv
  simp only [hw1, List.length_cons]
  unfold Event.raiseLoop
  rw [if_pos hne]
  simp only []
  rw [if_pos hKb]

/-! ## Raising an event while a waiter is still the current task -/

/-- The ready queue after `UnblockTask_Priv` woke the current task: it is
not linked. -/
theorem UnblockTask_Priv_work_cur (k : Kernel) (t : Nat)
    (hb : (k.tasks t).m_state = StateBlocked) (hc : k.sch.m_cur_task = some t) :
    (UnblockTask_Priv k t).2.sch.m_work_tasks = k.sch.m_work_tasks := by
  have hb1 : ((TaskSleepRoom.Remove (CriticalSection k) t).tasks t).m_state = StateBlocked := by
    simpa [TaskSleepRoom.Remove] using hb
  have a1 := (UnblockTaskInternal_request (TaskSleepRoom.Remove (CriticalSection k) t) t hb1).1
  have a12 := UnblockTaskInternal_request_sch (TaskSleepRoom.Remove (CriticalSection k) t) t hb1
  have hne : ¬ some t ≠ (TaskSleepRoom.Remove (CriticalSection k) t).sch.m_cur_task := by
    simp [TaskSleepRoom.Remove, hc]
  rw [if_neg hne] at a12
  have hw : (Scheduler.UnblockTaskInternal (TaskSleepRoom.Remove (CriticalSection k) t) t
      UnblockReasonRequest).2.sch.m_work_tasks = k.sch.m_work_tasks := by
    rw [a12]
    simp [TaskSleepRoom.Remove]
  unfold UnblockTask_Priv
  simp only []
  rw [if_neg (by simp [a1])]
  split
  · exact hw
  · split
    · exact hw
    · split
      · rw [TryContextSwitch_work]; exact hw
      · exact hw

theorem Scheduler_UnblockTask_work_cur (k : Kernel) (t : Nat)
    (hs : k.sch.m_started = true) (ha : System.IsSysCallAllowed k = true)
    (hb : (k.tasks t).m_state = StateBlocked) (hc : k.sch.m_cur_task = some t) :
    (Scheduler.UnblockTask k (some t)).2.sch.m_work_tasks = k.sch.m_work_tasks
    ∧ (Scheduler.UnblockTask k (some t)).2.sys.mode = k.sys.mode := by
  unfold Scheduler.UnblockTask
  simp only [hs, ha, Bool.true_eq_false, if_false]
  split
  · exact ⟨UnblockTask_Priv_work_cur k t hb hc, (UnblockTask_Priv_blocked k t hb).2.2.2.2.2.2.2.1⟩
  · exact ⟨UnblockTask_Priv_work_cur { k with sys := { k.sys with mode := ExecMode.svc } } t hb hc,
      rfl⟩

/-- One round of the loop of `Event::Raise_Priv`, whoever the current task
is: the front waiter, blocked, leaves the waiter list and the sleep queue and
is linked into the ready queue unless it is the current task. -/
theorem Event_UnblockTask_round (k : Kernel) (e w : Nat) (rest : List Nat)
    (hs : k.sch.m_started = true) (ha : System.IsSysCallAllowed k = true)
    (hw : (k.events e).m_blocked_task_list = w :: rest)
    (hb : (k.tasks w).m_state = StateBlocked) :
    (SyncObject.UnblockTask k (SyncRef.event e)).1 = Result.ResultOk
    ∧ (SyncObject.UnblockTask k (SyncRef.event e)).2.events
        = (fun i => if i = e then { k.events e with m_blocked_task_list := rest }
            else k.events i)
    ∧ (SyncObject.UnblockTask k (SyncRef.event e)).2.tasks
        = (fun i => if i = w then wokenByRequest (k.tasks w) else k.tasks i)
    ∧ (SyncObject.UnblockTask k (SyncRef.event e)).2.sch.m_sleep_tasks
        = SList.Del k.sch.m_sleep_tasks w
    ∧ (SyncObject.UnblockTask k (SyncRef.event e)).2.sch.m_work_tasks
        = (if k.sch.m_cur_task = some w then k.sch.m_work_tasks
          else SListOrd.Add (PriorPreceeding k) k.sch.m_work_tasks w)
    ∧ (SyncObject.UnblockTask k (SyncRef.event e)).2.sch.m_cur_task = k.sch.m_cur_task
    ∧ (SyncObject.UnblockTask k (SyncRef.event e)).2.sch.control = k.sch.control
    ∧ (SyncObject.UnblockTask k (SyncRef.event e)).2.sys.mode = k.sys.mode := by
  by_cases hc : k.sch.m_cur_task = some w
  · have heq : SyncObject.UnblockTask k (SyncRef.event e)
        = Scheduler.UnblockTask
            (Task.DropBlockSync
              (k.setEvent e (fun m => { m with m_blocked_task_list := rest })) w) (some w) := by
      simp [SyncObject.UnblockTask, Kernel.waiters, hw, SList.Fetch, Kernel.setWaiters]
    have hs0 : (Task.DropBlockSync
        (k.setEvent e (fun m => { m with m_blocked_task_list := rest })) w).sch.m_started
          = true := by
      simpa [Task.DropBlockSync] using hs
    have ha0 : System.IsSysCallAllowed (Task.DropBlockSync
        (k.setEvent e (fun m => { m with m_blocked_task_list := rest })) w) = true := by
      rw [← ha]
      exact IsSysCallAllowed_congr (by simp [Task.DropBlockSync])
    have hb0 : ((Task.DropBlockSync
        (k.setEvent e (fun m => { m with m_blocked_task_list := rest })) w).tasks w).m_state
          = StateBlocked := by
      simpa [Task.DropBlockSync] using hb
    have hc0 : (Task.DropBlockSync
        (k.setEvent e (fun m => { m with m_blocked_task_list := rest })) w).sch.m_cur_task
          = some w := by
      simpa [Task.DropBlockSync] using hc
    obtain ⟨a1, a2, _, _, a5, a6, a7, _⟩ := Scheduler_UnblockTask_blocked _ w hs0 ha0 hb0
    obtain ⟨b1, b2⟩ := Scheduler_UnblockTask_work_cur _ w hs0 ha0 hb0 hc0
    rw [heq, if_pos hc]
    refine ⟨a1, ?_, ?_, ?_, ?_, ?_, ?_, ?_⟩
    · rw [a5]
      funext i
      by_cases hi : i = e
      · subst hi; simp [Task.DropBlockSync]
      · simp [Task.DropBlockSync, hi]
    · rw [a2]
      funext i
      by_cases hi : i = w
      · subst hi; simp [Task.DropBlockSync, wokenByRequest]
      · simp [Task.DropBlockSync, hi]
    · rw [a6]; simp [Task.DropBlockSync]
    · rw [b1]; simp [Task.DropBlockSync]
    · rw [a7]; simp [Task.DropBlockSync]
    · rw [Scheduler_UnblockTask_control]; simp [Task.DropBlockSync]
    · rw [b2]; simp [Task.DropBlockSync]
  · rw [if_neg hc]
    exact Event_UnblockTask_step k e w rest hs ha hw hb hc

theorem waitersToQueue_cons (k : Kernel) (w : Nat) (rest : List Nat) :
    waitersToQueue k (w :: rest)
      = if k.sch.m_cur_task = some w then waitersToQueue k rest
        else w :: waitersToQueue k rest := by
  unfold waitersToQueue
  by_cases hc : k.sch.m_cur_task = some w
  · simp [hc]
  · simp [hc]

theorem waitersToQueue_congr {k K : Kernel} (h : K.sch.m_cur_task = k.sch.m_cur_task)
    (ws : List Nat) : waitersToQueue K ws = waitersToQueue k ws := by
  unfold waitersToQueue
  rw [h]

/-- The loop of `Event::Raise_Priv` on a broadcast event, with enough fuel:
every waiter is unlinked from the waiter list and the sleep queue, and all but
the current task are linked into the ready queue, the front one first. -/
theorem raiseLoop_broadcast_all (ws : List Nat) :
    ∀ (k : Kernel) (e n : Nat), ws.length ≤ n →
      k.sch.m_started = true → System.IsSysCallAllowed k = true →
      (k.events e).m_blocked_task_list = ws → (k.events e).m_broadcast = true →
      (∀ w, w ∈ ws → (k.tasks w).m_state = StateBlocked) → ws.Nodup →
      ((Event.raiseLoop n k e).events e).m_blocked_task_list = []
      ∧ (Event.raiseLoop n k e).tasks
          = (fun i => if i ∈ ws then wokenByRequest (k.tasks i) else k.tasks i)
      ∧ (Event.raiseLoop n k e).sch.m_sleep_tasks = ws.foldl SList.Del k.sch.m_sleep_tasks
      ∧ (Event.raiseLoop n k e).sch.m_work_tasks
          = (waitersToQueue k ws).foldl (SListOrd.Add (PriorPreceeding k)) k.sch.m_work_tasks
      ∧ (Event.raiseLoop n k e).sch.m_cur_task = k.sch.m_cur_task := by
  induction ws with
  | nil =>
    intro k e n _ _ _ hw _ _ _
    have hR : Event.raiseLoop n k e = k := by
      cases n with
      | zero => rfl
      | succ m => simp [Event.raiseLoop, hw]
    rw [hR]
    exact ⟨hw, by funext i; simp, rfl, rfl, rfl⟩
  | cons w rest ih =>
    intro k e n hn hs ha hw hbc hb hnd
    cases n with
    | zero => simp at hn
    | succ m =>
      have hwb := hb w (List.mem_cons_self _ _)
      obtain ⟨_, s2, s3, s4, s5, s6, s7, s8⟩ := Event_UnblockTask_round k e w rest hs ha hw hwb
      rw [List.nodup_cons] at hnd
      have hKb : ((SyncObject.UnblockTask k (SyncRef.event e)).2.events e).m_broadcast = true := by
        rw [s2]; simpa using hbc
      have hR : Event.raiseLoop (m + 1) k e
          = Event.raiseLoop m (SyncObject.UnblockTask k (SyncRef.event e)).2 e := by
        simp [Event.raiseLoop, hw, hKb]
      have hKs : (SyncObject.UnblockTask k (SyncRef.event e)).2.sch.m_started = true := by
        have := s7
        simp only [Scheduler.control, Prod.mk.injEq] at this
        rw [this.2.2.1]; exact hs
      have hKa : System.IsSysCallAllowed (SyncObject.UnblockTask k (SyncRef.event e)).2 = true := by
        rw [IsSysCallAllowed_congr s8]; exact ha
      have hKw : ((SyncObject.UnblockTask k (SyncRef.event e)).2.events e).m_blocked_task_list
          = rest := by
        rw [s2]; simp
      have hKt : ∀ i, i ∈ rest →
          (SyncObject.UnblockTask k (SyncRef.event e)).2.tasks i = k.tasks i := by
        intro i hi
        rw [s3]
        have : i ≠ w := fun e1 => hnd.1 (e1 ▸ hi)
        simp [this]
      have hpp : PriorPreceeding (SyncObject.UnblockTask k (SyncRef.event e)).2
          = PriorPreceeding k := by
        apply PriorPreceeding_congr_priority
        intro i
        rw [s3]
        by_cases hi : i = w
        · subst hi; simp [wokenByRequest]
        · simp [hi]
      obtain ⟨r1, r2, r3, r4, r5⟩ := ih (SyncObject.UnblockTask k (SyncRef.event e)).2 e m
        (by simpa using hn) hKs hKa hKw hKb
        (fun i hi => by rw [hKt i hi]; exact hb i (List.mem_cons_of_mem _ hi)) hnd.2
      rw [hR]
      refine ⟨r1, ?_, ?_, ?_, ?_⟩
      · rw [r2]
        funext i
        by_cases hi : i ∈ rest
        · have hiw : i ≠ w := fun e1 => hnd.1 (e1 ▸ hi)
          simp [hi, hKt i hi]
        · by_cases hiw : i = w
          · subst hiw
            simp [hi, s3]
          · simp [hi, hiw, s3]
      · rw [r3, s4]; rfl
      · rw [r4, s5, hpp, waitersToQueue_congr s6, waitersToQueue_cons]
        by_cases hc : k.sch.m_cur_task = some w
        · rw [if_pos hc, if_pos hc]
        · rw [if_neg hc, if_neg hc]; rfl
      · rw [r5, s6]

/-- `Event::Raise_Priv` on an event that is not a broadcast one wakes the
front waiter only, whoever the current task is. -/
theorem Raise_Priv_unicast_round (k : Kernel) (e w : Nat) (rest : List Nat)
    (hs : k.sch.m_started = true) (ha : System.IsSysCallAllowed k = true)
    (hw : (k.events e).m_blocked_task_list = w :: rest)
    (hbc : (k.events e).m_broadcast = false)
    (hb : (k.tasks w).m_state = StateBlocked) :
    Event.Raise_Priv k e
      = (Result.ResultOk, (SyncObject.UnblockTask (CriticalSection k) (SyncRef.event e)).2) := by
  have hw1 : ((CriticalSection k).events e).m_blocked_task_list = w :: rest := by
    simpa using hw
  obtain ⟨_, s2, _⟩ := Event_UnblockTask_round (CriticalSection k) e w rest (by simpa using hs)
    (by rw [← ha]; exact IsSysCallAllowed_congr (by simp)) hw1 (by simpa using hb)
  have hKb : ((SyncObject.UnblockTask (CriticalSection k) (SyncRef.event e)).2.events
      e).m_broadcast = false := by
    rw [s2]; simpa using hbc
  have hne : ((CriticalSection k).events e).m_blocked_task_list ≠ [] := by
    rw [hw1]; simp
  unfold Event.Raise_Priv
  simp only [hw1, List.length_cons]
  unfold Event.raiseLoop
  rw [if_pos hne]
  simp only []
  rw [if_pos hKb]

theorem waitersToQueue_sublist (k : Kernel) (ws : List Nat) :
    (waitersToQueue k ws).Sublist ws := List.filter_sublist ws

theorem mem_waitersToQueue (k : Kernel) (ws : List Nat) (w : Nat) :
    w ∈ waitersToQueue k ws ↔ w ∈ ws ∧ k.sch.m_cur_task ≠ some w := by
  simp [waitersToQueue]

theorem waitersToQueue_eq_self (k : Kernel) (ws : List Nat)
    (hc : ∀ w, w ∈ ws → k.sch.m_cur_task ≠ some w) : waitersToQueue k ws = ws := by
  unfold waitersToQueue
  rw [List.filter_eq_self]
  intro w hw
  simpa using hc w hw

theorem IntSetTaskPriority_internal_timing (k : Kernel) (t p i : Nat) :
    ((IntSetTaskPriority_Priv k t p true).2.tasks i).timing = (k.tasks i).timing := by
  rw [(IntSetTaskPriority_internal k t p).1]
  show (if i = t ∧ (k.tasks t).m_state ≠ StateInactive then
      { k.tasks t with m_priority := p } else k.tasks i).timing = _
  by_cases h : i = t ∧ (k.tasks t).m_state ≠ StateInactive
  · rw [if_pos h]
    rw [h.1]
    rfl
  · rw [if_neg h]

theorem UpdateOwnerPriority_timing (k : Kernel) (m i : Nat) :
    ((Mutex.UpdateOwnerPriority k m).tasks i).timing = (k.tasks i).timing
    ∧ (Mutex.UpdateOwnerPriority k m).sch.m_sleep_tasks = k.sch.m_sleep_tasks := by
  unfold Mutex.UpdateOwnerPriority
  split
  · exact ⟨rfl, rfl⟩
  · split
    · exact ⟨IntSetTaskPriority_internal_timing k _ _ i,
        (IntSetTaskPriority_internal k _ _).2.2.2.2.1⟩
    · exact ⟨rfl, rfl⟩

theorem OnUnblockTask_timing (k : Kernel) (f : SyncRef) (t : Nat) (r : Task.UnblockReason)
    (i : Nat) :
    ((UnblockFunctor.OnUnblockTask k f t r).tasks i).timing = (k.tasks i).timing
    ∧ (UnblockFunctor.OnUnblockTask k f t r).sch.m_sleep_tasks = k.sch.m_sleep_tasks := by
  cases f with
  | mutex m =>
    simp only [UnblockFunctor.OnUnblockTask, Mutex.OnUnblockTask]
    split
    · obtain ⟨a1, a2⟩ := UpdateOwnerPriority_timing
        (k.setMutex m (fun x =>
          { x with m_blocked_task_list := SList.Del x.m_blocked_task_list t })) m i
      exact ⟨by rw [a1]; rfl, by rw [a2]; rfl⟩
    · exact ⟨rfl, rfl⟩
  | semaphore s =>
    simp only [UnblockFunctor.OnUnblockTask, SyncObject.OnUnblockTask, Task.DropBlockSync]
    split
    · refine ⟨?_, by simp⟩
      by_cases hi : i = t
      · subst hi; simp [Task.timing]
      · simp [hi]
    · exact ⟨rfl, rfl⟩
  | event s =>
    simp only [UnblockFunctor.OnUnblockTask, SyncObject.OnUnblockTask, Task.DropBlockSync]
    split
    · refine ⟨?_, by simp⟩
      by_cases hi : i = t
      · subst hi; simp [Task.timing]
      · simp [hi]
    · exact ⟨rfl, rfl⟩

/-- What `UnblockTaskInternal` does to states, tick counts and the sleep
queue: the task given, when blocked, becomes ready with the reason given;
nothing else changes. -/
theorem UnblockTaskInternal_timing (k : Kernel) (t : Nat) (r : Task.UnblockReason) :
    (Scheduler.UnblockTaskInternal k t r).2.sch.m_sleep_tasks = k.sch.m_sleep_tasks
    ∧ (∀ i, i ≠ t →
        ((Scheduler.UnblockTaskInternal k t r).2.tasks i).timing = (k.tasks i).timing)
    ∧ ((k.tasks t).m_state = StateBlocked →
        ((Scheduler.UnblockTaskInternal k t r).2.tasks t).timing
          = (StateReady, (k.tasks t).m_dream_ticks, r))
    ∧ ((k.tasks t).m_state ≠ StateBlocked →
        (Scheduler.UnblockTaskInternal k t r).2 = k) := by
  by_cases hb : (k.tasks t).m_state = StateBlocked
  · have key : ∀ K : Kernel, K.sch.m_sleep_tasks = k.sch.m_sleep_tasks →
        (∀ i, (K.tasks i).timing = if i = t then (StateReady, (k.tasks t).m_dream_ticks, r)
          else (k.tasks i).timing) →
        (match (K.tasks t).m_unblock_func with
          | some f => (UnblockFunctor.OnUnblockTask K f t r).setTask t
              (fun t => { t with m_unblock_func := none })
          | none => K).sch.m_sleep_tasks = k.sch.m_sleep_tasks
        ∧ ∀ i, ((match (K.tasks t).m_unblock_func with
          | some f => (UnblockFunctor.OnUnblockTask K f t r).setTask t
              (fun t => { t with m_unblock_func := none })
          | none => K).tasks i).timing
            = if i = t then (StateReady, (k.tasks t).m_dream_ticks, r)
              else (k.tasks i).timing := by
      intro K h1 h2
      split
      · rename_i f _
        refine ⟨by simp [(OnUnblockTask_timing K f t r 0).2, h1], ?_⟩
        intro i
        rw [← h2 i, ← (OnUnblockTask_timing K f t r i).1]
        by_cases hi : i = t
        · subst hi; simp [Task.timing]
        · simp [hi]
      · exact ⟨h1, h2⟩
    have hK : ∀ K : Kernel,
        K = (if some t ≠ (k.setTask t (fun t =>
              { t with m_unblock_reason := r, m_state := StateReady })).sch.m_cur_task then
            TaskWorkRoom.Insert (k.setTask t (fun t =>
              { t with m_unblock_reason := r, m_state := StateReady })) t
          else k.setTask t (fun t =>
              { t with m_unblock_reason := r, m_state := StateReady })) →
        K.sch.m_sleep_tasks = k.sch.m_sleep_tasks
        ∧ ∀ i, (K.tasks i).timing = if i = t then (StateReady, (k.tasks t).m_dream_ticks, r)
          else (k.tasks i).timing := by
      intro K hKe
      rw [hKe]
      split
      · refine ⟨by simp [TaskWorkRoom.Insert], ?_⟩
        intro i
        by_cases hi : i = t
        · subst hi; simp [TaskWorkRoom.Insert, Task.timing]
        · simp [TaskWorkRoom.Insert, hi]
      · refine ⟨by simp, ?_⟩
        intro i
        by_cases hi : i = t
        · subst hi; simp [Task.timing]
        · simp [hi]
    obtain ⟨k1, k2⟩ := hK _ rfl
    obtain ⟨r1, r2⟩ := key _ k1 k2
    have hU : (Scheduler.UnblockTaskInternal k t r).2
        = (match ((if some t ≠ (k.setTask t (fun t =>
                { t with m_unblock_reason := r, m_state := StateReady })).sch.m_cur_task then
              TaskWorkRoom.Insert (k.setTask t (fun t =>
                { t with m_unblock_reason := r, m_state := StateReady })) t
            else k.setTask t (fun t =>
                { t with m_unblock_reason := r, m_state := StateReady })).tasks
              t).m_unblock_func with
          | some f => (UnblockFunctor.OnUnblockTask (if some t ≠ (k.setTask t (fun t =>
                { t with m_unblock_reason := r, m_state := StateReady })).sch.m_cur_task then
              TaskWorkRoom.Insert (k.setTask t (fun t =>
                { t with m_unblock_reason := r, m_state := StateReady })) t
            else k.setTask t (fun t =>
                { t with m_unblock_reason := r, m_state := StateReady })) f t r).setTask t
              (fun t => { t with m_unblock_func := none })
          | none => (if some t ≠ (k.setTask t (fun t =>
                { t with m_unblock_reason := r, m_state := StateReady })).sch.m_cur_task then
              TaskWorkRoom.Insert (k.setTask t (fun t =>
                { t with m_unblock_reason := r, m_state := StateReady })) t
            else k.setTask t (fun t =>
                { t with m_unblock_reason := r, m_state := StateReady }))) := by
      unfold Scheduler.UnblockTaskInternal
      simp only [hb, ne_eq, not_true_eq_false, if_false]
    rw [hU]
    refine ⟨r1, ?_, ?_, ?_⟩
    · intro i hi
      rw [r2 i, if_neg hi]
    · intro _
      rw [r2 t, if_pos rfl]
    · intro h; exact absurd hb h
  · have hU : (Scheduler.UnblockTaskInternal k t r).2 = k := by
      unfold Scheduler.UnblockTaskInternal
      simp [hb]
    rw [hU]
    exact ⟨rfl, fun _ _ => rfl, fun h => absurd h hb, fun _ => rfl⟩

/-- `TaskSleepRoom::Tick` on a sleep queue without repetition: every task
in it whose count is not the indefinite one has its count decremented once. -/
theorem TaskSleepRoom_Tick_tasks (k : Kernel) (hnd : k.sch.m_sleep_tasks.Nodup) :
    (TaskSleepRoom.Tick k).tasks
      = (fun i => if i ∈ k.sch.m_sleep_tasks ∧ (k.tasks i).m_dream_ticks ≠ ULONG_MAX then
          { k.tasks i with m_dream_ticks := ((k.tasks i).m_dream_ticks + 2 ^ 32 - 1) % 2 ^ 32 }
        else k.tasks i) := by
  have hf : ∀ (l : List Nat) (ka : Kernel), l.Nodup →
      (l.foldl (fun k t =>
        if (k.tasks t).m_dream_ticks ≠ ULONG_MAX then
          k.setTask t (fun x => { x with m_dream_ticks := (x.m_dream_ticks + 2 ^ 32 - 1) % 2 ^ 32 })
        else k) ka).tasks
        = (fun i => if i ∈ l ∧ (ka.tasks i).m_dream_ticks ≠ ULONG_MAX then
            { ka.tasks i with
              m_dream_ticks := ((ka.tasks i).m_dream_ticks + 2 ^ 32 - 1) % 2 ^ 32 }
          else ka.tasks i) := by
    intro l
    induction l with
    | nil => intro ka _; funext i; simp
    | cons x xs ih =>
      intro ka hn
      rw [List.nodup_cons] at hn
      simp only [List.foldl_cons]
      rw [ih _ hn.2]
      funext i
      by_cases hix : i = x
      · subst hix
        have hnx : ¬ (i ∈ xs) := hn.1
        by_cases hd : (ka.tasks i).m_dream_ticks ≠ ULONG_MAX
        · simp [hnx, hd]
        · simp [hnx, hd]
      · by_cases hd : (ka.tasks x).m_dream_ticks ≠ ULONG_MAX
        · simp [hix, hd]
        · simp [hix, hd]
  exact hf k.sch.m_sleep_tasks k hnd

theorem sleepOrdered_congr (k1 k2 : Kernel) (l : List Nat)
    (h : ∀ i, (k1.tasks i).m_dream_ticks = (k2.tasks i).m_dream_ticks) :
    sleepOrdered k1 l ↔ sleepOrdered k2 l := by
  unfold sleepOrdered
  simp only [h]

/-- The loop of the tick handler on a sleep queue in wake-up order whose
tasks are blocked: the tasks with count zero leave the queue and become ready
with reason `Timeout`; nothing else changes in states, counts and the queue. -/
theorem wakeExpired_spec (l : List Nat) :
    ∀ (k : Kernel) (fuel : Nat), k.sch.m_sleep_tasks = l → l.length ≤ fuel → l.Nodup →
      sleepOrdered k l → (∀ t, t ∈ l → (k.tasks t).m_state = StateBlocked) →
      (Scheduler.wakeExpired fuel k).sch.m_sleep_tasks
          = l.filter (fun t => decide ((k.tasks t).m_dream_ticks ≠ 0))
      ∧ ∀ i, ((Scheduler.wakeExpired fuel k).tasks i).timing
          = if i ∈ l ∧ (k.tasks i).m_dream_ticks = 0 then
              (StateReady, 0, UnblockReasonTimeout)
            else (k.tasks i).timing := by
  induction l with
  | nil =>
    intro k fuel hl _ _ _ _
    have hR : Scheduler.wakeExpired fuel k = k := by
      cases fuel with
      | zero => rfl
      | succ f => simp [Scheduler.wakeExpired, TaskSleepRoom.Fetch, hl]
    rw [hR]
    exact ⟨by simp [hl], by intro i; simp⟩
  | cons x xs ih =>
    intro k fuel hl hlen hnd hord hb
    cases fuel with
    | zero => simp at hlen
    | succ f =>
      rw [List.nodup_cons] at hnd
      by_cases hx : (k.tasks x).m_dream_ticks = 0
      · have hF : TaskSleepRoom.Fetch k
            = (some x, k.setSch (fun s => { s with m_sleep_tasks := xs })) := by
          simp [TaskSleepRoom.Fetch, hl, hx]
        have hR : Scheduler.wakeExpired (f + 1) k
            = Scheduler.wakeExpired f (Scheduler.UnblockTaskInternal
                (k.setSch (fun s => { s with m_sleep_tasks := xs })) x
                UnblockReasonTimeout).2 := by
          show (match TaskSleepRoom.Fetch k with
            | (none, _) => k
            | (some awake_task, k1) =>
              Scheduler.wakeExpired f
                (Scheduler.UnblockTaskInternal k1 awake_task UnblockReasonTimeout).2) = _
          rw [hF]
        have hxb : ((k.setSch (fun s => { s with m_sleep_tasks := xs })).tasks x).m_state
            = StateBlocked := hb x (List.mem_cons_self _ _)
        obtain ⟨u1, u2, u3, _⟩ := UnblockTaskInternal_timing
          (k.setSch (fun s => { s with m_sleep_tasks := xs })) x UnblockReasonTimeout
        have u3 := u3 hxb
        have hdream : ∀ i, ((Scheduler.UnblockTaskInternal
            (k.setSch (fun s => { s with m_sleep_tasks := xs })) x
            UnblockReasonTimeout).2.tasks i).m_dream_ticks = (k.tasks i).m_dream_ticks := by
          intro i
          by_cases hi : i = x
          · subst hi
            have := u3
            simp only [Task.timing, Prod.mk.injEq] at this
            exact this.2.1
          · have := u2 i hi
            simp only [Task.timing, Prod.mk.injEq] at this
            exact this.2.1
        have hord2 : sleepOrdered (Scheduler.UnblockTaskInternal
            (k.setSch (fun s => { s with m_sleep_tasks := xs })) x
            UnblockReasonTimeout).2 xs := by
          rw [sleepOrdered_congr _ k xs hdream]
          unfold sleepOrdered at hord ⊢
          exact (List.pairwise_cons.mp hord).2
        obtain ⟨r1, r2⟩ := ih _ f (by rw [u1]; rfl) (by simpa using hlen) hnd.2 hord2
          (by
            intro t ht
            have hne : t ≠ x := fun e => hnd.1 (e ▸ ht)
            have := u2 t hne
            simp only [Task.timing, Prod.mk.injEq] at this
            rw [this.1]
            exact hb t (List.mem_cons_of_mem _ ht))
        rw [hR]
        constructor
        · rw [r1]
          simp only [hdream]
          rw [List.filter_cons]
          simp [hx]
        · intro i
          rw [r2 i]
          simp only [hdream]
          by_cases hi : i = x
          · subst hi
            have hnm : ¬ (i ∈ xs) := hnd.1
            simp only [hnm, false_and, if_false, List.mem_cons, true_or, hx, and_self, if_true]
            rw [u3]
            show (StateReady, (k.tasks i).m_dream_ticks, UnblockReasonTimeout) = _
            rw [hx]
          · simp only [List.mem_cons, hi, false_or]
            split
            · rfl
            · exact u2 i hi
      · have hF : TaskSleepRoom.Fetch k = (none, k) := by
          simp [TaskSleepRoom.Fetch, hl, hx]
        have hR : Scheduler.wakeExpired (f + 1) k = k := by
          show (match TaskSleepRoom.Fetch k with
            | (none, _) => k
            | (some awake_task, k1) =>
              Scheduler.wakeExpired f
                (Scheduler.UnblockTaskInternal k1 awake_task UnblockReasonTimeout).2) = _
          rw [hF]
        have hall : ∀ t, t ∈ x :: xs → (k.tasks t).m_dream_ticks ≠ 0 := by
          intro t ht
          rcases List.mem_cons.mp ht with ht | ht
          · rw [ht]; exact hx
          · unfold sleepOrdered at hord
            have := (List.pairwise_cons.mp hord).1 t ht
            omega
        rw [hR]
        constructor
        · rw [hl]
          symm
          rw [List.filter_eq_self]
          intro t ht
          simpa using hall t ht
        · intro i
          by_cases hi : i ∈ x :: xs
          · have := hall i hi
            simp [this]
          · simp [hi]

/-- One tick on a started scheduler whose sleep queue is well formed: the
queue stays well formed; a sleeper with one tick left becomes ready with
reason `Timeout` and leaves the queue; every other sleeper stays blocked in
the queue with its count decremented (the indefinite count stays). -/
theorem SysTickHandler_sleepers (k : Kernel) (hs : k.sch.m_started = true)
    (hinv : SleepQueueInv k) :
    SleepQueueInv (Scheduler.SysTickHandler k).2
    ∧ (Scheduler.SysTickHandler k).2.sch.m_started = true
    ∧ (∀ t, t ∈ k.sch.m_sleep_tasks → (k.tasks t).m_dream_ticks = 1 →
        ((Scheduler.SysTickHandler k).2.tasks t).m_state = StateReady
        ∧ ((Scheduler.SysTickHandler k).2.tasks t).m_unblock_reason = UnblockReasonTimeout
        ∧ t ∉ (Scheduler.SysTickHandler k).2.sch.m_sleep_tasks)
    ∧ (∀ t, t ∈ k.sch.m_sleep_tasks → (k.tasks t).m_dream_ticks ≠ 1 →
        t ∈ (Scheduler.SysTickHandler k).2.sch.m_sleep_tasks
        ∧ ((Scheduler.SysTickHandler k).2.tasks t).m_state = StateBlocked
        ∧ ((Scheduler.SysTickHandler k).2.tasks t).m_dream_ticks
            = if (k.tasks t).m_dream_ticks = ULONG_MAX then ULONG_MAX
              else (k.tasks t).m_dream_ticks - 1) := by
  obtain ⟨hord, hnd, hmem⟩ := hinv
  obtain ⟨K, hK, hKc, hr⟩ := SysTickHandler_started k hs
  -- the state after the counters were decremented
  have hT := TaskSleepRoom_Tick_tasks ((CriticalSection k).setSch
    (fun s => { s with m_tick_count := (s.m_tick_count + 1) % 2 ^ 32 })) (by simpa using hnd)
  simp only [setSch_tasks, setSch_sch, CriticalSection_tasks, CriticalSection_sch] at hT
  have hdec : ∀ t, t ∈ k.sch.m_sleep_tasks →
      ((TaskSleepRoom.Tick ((CriticalSection k).setSch
        (fun s => { s with m_tick_count := (s.m_tick_count + 1) % 2 ^ 32 }))).tasks t).timing
        = (StateBlocked,
            (if (k.tasks t).m_dream_ticks = ULONG_MAX then ULONG_MAX
              else (k.tasks t).m_dream_ticks - 1), (k.tasks t).m_unblock_reason) := by
    intro t ht
    obtain ⟨m1, m2, m3⟩ := hmem t ht
    rw [hT]
    by_cases hmax : (k.tasks t).m_dream_ticks = ULONG_MAX
    · simp [ht, hmax, Task.timing, m1]
    · have hlt : (k.tasks t).m_dream_ticks < 4294967296 := by
        have : (k.tasks t).m_dream_ticks ≤ 4294967295 := by simpa [ULONG_MAX] using m3
        omega
      have hmod : ((k.tasks t).m_dream_ticks + 4294967295) % 4294967296
          = (k.tasks t).m_dream_ticks - 1 := by omega
      simp [ht, hmax, Task.timing, m1, hmod]
  have hsl2 : (TaskSleepRoom.Tick ((CriticalSection k).setSch
      (fun s => { s with m_tick_count := (s.m_tick_count + 1) % 2 ^ 32 }))).sch.m_sleep_tasks
      = k.sch.m_sleep_tasks := by
    simp
  have hord2 : sleepOrdered (TaskSleepRoom.Tick ((CriticalSection k).setSch
      (fun s => { s with m_tick_count := (s.m_tick_count + 1) % 2 ^ 32 }))) k.sch.m_sleep_tasks := by
    unfold sleepOrdered at hord ⊢
    refine List.Pairwise.imp_of_mem ?_ hord
    intro a b ha hb hab
    have ha2 := hdec a ha
    have hb2 := hdec b hb
    simp only [Task.timing, Prod.mk.injEq] at ha2 hb2
    rw [ha2.2.1, hb2.2.1]
    have hbm := (hmem b hb).2.2
    have ham := (hmem a ha).2.2
    split <;> split <;> omega
  obtain ⟨w1, w2⟩ := wakeExpired_spec k.sch.m_sleep_tasks _ k.sch.m_sleep_tasks.length hsl2
    (Nat.le_refl _) hnd hord2
    (by
      intro t ht
      have := hdec t ht
      simp only [Task.timing, Prod.mk.injEq] at this
      exact this.1)
  rw [← hK] at w1 w2
  -- the handler leaves the tasks and the sleep queue of that state
  have hres : (Scheduler.SysTickHandler k).2.tasks = K.tasks
      ∧ (Scheduler.SysTickHandler k).2.sch.m_sleep_tasks = K.sch.m_sleep_tasks
      ∧ (Scheduler.SysTickHandler k).2.sch.m_started = K.sch.m_started := by
    rw [hr]
    split
    · exact ⟨rfl, rfl, rfl⟩
    · split <;> exact ⟨rfl, rfl, rfl⟩
  obtain ⟨q1, q2, q3⟩ := hres
  have hKs : K.sch.m_started = true := by
    simp only [Scheduler.control, Prod.mk.injEq] at hKc
    exact hKc.2.2.1
  have hone : ∀ t, t ∈ k.sch.m_sleep_tasks →
      (((TaskSleepRoom.Tick ((CriticalSection k).setSch
        (fun s => { s with m_tick_count := (s.m_tick_count + 1) % 2 ^ 32 }))).tasks
          t).m_dream_ticks = 0 ↔ (k.tasks t).m_dream_ticks = 1) := by
    intro t ht
    have := hdec t ht
    simp only [Task.timing, Prod.mk.injEq] at this
    rw [this.2.1]
    have hm := hmem t ht
    have hmx : ULONG_MAX = 4294967295 := by simp [ULONG_MAX]
    split <;> omega
  have hstay : ∀ t, t ∈ k.sch.m_sleep_tasks → (k.tasks t).m_dream_ticks ≠ 1 →
      t ∈ K.sch.m_sleep_tasks
      ∧ (K.tasks t).timing = (StateBlocked,
            (if (k.tasks t).m_dream_ticks = ULONG_MAX then ULONG_MAX
              else (k.tasks t).m_dream_ticks - 1), (k.tasks t).m_unblock_reason) := by
    intro t ht h1
    have hnz := mt (hone t ht).mp h1
    constructor
    · rw [w1]
      exact List.mem_filter.mpr ⟨ht, by simpa using hnz⟩
    · rw [w2 t, if_neg (fun h => hnz h.2)]
      exact hdec t ht
  refine ⟨?_, by rw [q3]; exact hKs, ?_, ?_⟩
  · unfold SleepQueueInv sleepOrdered
    rw [q1, q2]
    have hsub : ∀ t, t ∈ K.sch.m_sleep_tasks →
        t ∈ k.sch.m_sleep_tasks ∧ (k.tasks t).m_dream_ticks ≠ 1 := by
      intro t ht
      rw [w1] at ht
      obtain ⟨h1, h2⟩ := List.mem_filter.mp ht
      exact ⟨h1, fun e => by simpa using (mt (hone t h1).mpr (by simpa using h2)) e⟩
    refine ⟨?_, ?_, ?_⟩
    · have hp : List.Pairwise (fun a b =>
          ((TaskSleepRoom.Tick ((CriticalSection k).setSch
            (fun s => { s with m_tick_count := (s.m_tick_count + 1) % 2 ^ 32 }))).tasks
              a).m_dream_ticks
          ≤ ((TaskSleepRoom.Tick ((CriticalSection k).setSch
            (fun s => { s with m_tick_count := (s.m_tick_count + 1) % 2 ^ 32 }))).tasks
              b).m_dream_ticks) K.sch.m_sleep_tasks := by
        rw [w1]
        exact List.Pairwise.sublist (List.filter_sublist _) hord2
      refine List.Pairwise.imp_of_mem ?_ hp
      intro a b ha hb hab
      obtain ⟨ha1, ha2⟩ := hsub a ha
      obtain ⟨hb1, hb2⟩ := hsub b hb
      have e1 := (hstay a ha1 ha2).2
      have e2 := (hstay b hb1 hb2).2
      have d1 := hdec a ha1
      have d2 := hdec b hb1
      simp only [Task.timing, Prod.mk.injEq] at e1 e2 d1 d2
      show (K.tasks a).m_dream_ticks ≤ (K.tasks b).m_dream_ticks
      rw [e1.2.1, e2.2.1, ← d1.2.1, ← d2.2.1]
      exact hab
    · rw [w1]
      exact List.Nodup.filter _ hnd
    · intro t ht
      obtain ⟨h1, h2⟩ := hsub t ht
      have e1 := (hstay t h1 h2).2
      simp only [Task.timing, Prod.mk.injEq] at e1
      have hm := hmem t h1
      have hmx : ULONG_MAX = 4294967295 := by simp [ULONG_MAX]
      rw [e1.1, e1.2.1]
      refine ⟨rfl, ?_, ?_⟩
      · split <;> omega
      · split <;> omega
  · intro t ht h1
    rw [q1, q2]
    have hz := (hone t ht).mpr h1
    have := w2 t
    rw [if_pos ⟨ht, hz⟩] at this
    simp only [Task.timing, Prod.mk.injEq] at this
    refine ⟨this.1, this.2.2, ?_⟩
    rw [w1]
    intro hm
    exact (of_decide_eq_true (List.mem_filter.mp hm).2) hz
  · intro t ht h1
    rw [q1, q2]
    obtain ⟨s1, s2⟩ := hstay t ht h1
    simp only [Task.timing, Prod.mk.injEq] at s2
    exact ⟨s1, s2.1, s2.2.1⟩

theorem WakeupPreceeding_congr (k1 k2 : Kernel) (h : k1.tasks = k2.tasks) :
    WakeupPreceeding k1 = WakeupPreceeding k2 := by
  funext a b
  simp [WakeupPreceeding, h]

/-- `TaskSleepList::Add` keeps a list in wake-up order. -/
theorem TaskSleepList_Add_ordered (k : Kernel) (l : List Nat) (e : Nat)
    (h : sleepOrdered k l) : sleepOrdered k (TaskSleepList.Add k l e) := by
  obtain ⟨l1, l2, h1, h2, h3, h4⟩ := SListOrd_Add_split (WakeupPreceeding k) l e
  unfold TaskSleepList.Add
  rw [h2]
  unfold sleepOrdered at h ⊢
  rw [h1] at h
  obtain ⟨p1, p2, p3⟩ := List.pairwise_append.mp h
  have hl1 : ∀ x, x ∈ l1 → (k.tasks x).m_dream_ticks < (k.tasks e).m_dream_ticks := by
    intro x hx
    have := h3 x hx
    simpa [WakeupPreceeding] using this
  have hl2 : ∀ x, x ∈ l2 → (k.tasks e).m_dream_ticks ≤ (k.tasks x).m_dream_ticks := by
    intro x hx
    cases l2 with
    | nil => simp at hx
    | cons y ys =>
      have hy : (k.tasks e).m_dream_ticks ≤ (k.tasks y).m_dream_ticks := by
        have := h4 y rfl
        simpa [WakeupPreceeding] using this
      rcases List.mem_cons.mp hx with hx | hx
      · rw [hx]; exact hy
      · exact Nat.le_trans hy ((List.pairwise_cons.mp p2).1 x hx)
  refine List.pairwise_append.mpr ⟨p1, List.pairwise_cons.mpr ⟨hl2, p2⟩, ?_⟩
  intro a ha b hb
  rcases List.mem_cons.mp hb with hb | hb
  · rw [hb]; exact Nat.le_of_lt (hl1 a ha)
  · exact p3 a ha b hb

/-- The sleep queue after `BlockCurrentTask_Priv` blocked the running
current task. -/
theorem BlockCurrentTask_Priv_sleep (k : Kernel) (c timeout_ms : Nat) (f : Option SyncRef)
    (hs : k.sch.m_started = true)
    (hmode : (System.IsInInterrupt k && !System.IsInSysCall k) = false)
    (hcur : k.sch.m_cur_task = some c)
    (hrun : (k.tasks c).m_state = StateRunning)
    (ht : timeout_ms ≠ 0) :
    (BlockCurrentTask_Priv k timeout_ms f).2.sch.m_sleep_tasks
      = TaskSleepList.Add (BlockCurrentTask_Priv k timeout_ms f).2 k.sch.m_sleep_tasks c := by
  have hr : Task.IsRunnable (k.tasks c) = true := by simp [Task.IsRunnable, hrun]
  have htasks := (BlockCurrentTask_Priv_blocks k c timeout_ms f hs hmode hcur hrun ht).2.1
  have hw : WakeupPreceeding (BlockCurrentTask_Priv k timeout_ms f).2
      = WakeupPreceeding ((CriticalSection k).setTask c (fun t =>
          { t with
            m_state := Task.State.StateBlocked
            m_unblock_reason := Task.UnblockReason.UnblockReasonNone
            m_unblock_func := f
            m_dream_ticks :=
              if timeout_ms ≠ INFINITE_TIMEOUT then MsToTicks (CriticalSection k) timeout_ms
              else ULONG_MAX })) := by
    apply WakeupPreceeding_congr
    rw [htasks]
    funext i
    simp [MsToTicks, System.GetTickRate]
  unfold TaskSleepList.Add
  rw [hw]
  unfold BlockCurrentTask_Priv
  simp only [hs, hmode, Bool.true_eq_false, Bool.false_eq_true, if_false, CriticalSection_sch, hcur,
    CriticalSection_tasks, hr, ht]
  simp [TaskSleepRoom.Insert, TaskSleepList.Add]

/-- `BlockCurrentTask_Priv` with a timeout that makes at least one tick keeps
the sleep queue well formed, and the task sits in it with the ticks of its
timeout. -/
theorem BlockCurrentTask_Priv_SleepQueueInv (k : Kernel) (c timeout_ms : Nat)
    (f : Option SyncRef)
    (hs : k.sch.m_started = true)
    (hmode : (System.IsInInterrupt k && !System.IsInSysCall k) = false)
    (hcur : k.sch.m_cur_task = some c)
    (hrun : (k.tasks c).m_state = StateRunning)
    (ht : timeout_ms ≠ 0)
    (hticks : timeout_ms ≠ INFINITE_TIMEOUT → MsToTicks k timeout_ms ≠ 0)
    (hc : c ∉ k.sch.m_sleep_tasks) (hinv : SleepQueueInv k) :
    SleepQueueInv (BlockCurrentTask_Priv k timeout_ms f).2
    ∧ c ∈ (BlockCurrentTask_Priv k timeout_ms f).2.sch.m_sleep_tasks
    ∧ ((BlockCurrentTask_Priv k timeout_ms f).2.tasks c).m_dream_ticks
        = (if timeout_ms ≠ INFINITE_TIMEOUT then MsToTicks k timeout_ms else ULONG_MAX)
    ∧ (∀ t, t ∈ k.sch.m_sleep_tasks →
        t ∈ (BlockCurrentTask_Priv k timeout_ms f).2.sch.m_sleep_tasks
        ∧ ((BlockCurrentTask_Priv k timeout_ms f).2.tasks t).m_dream_ticks
            = (k.tasks t).m_dream_ticks) := by
  obtain ⟨hord, hnd, hmem⟩ := hinv
  obtain ⟨_, b2, _, _, _, _, _, _, _, b10⟩ :=
    BlockCurrentTask_Priv_blocks k c timeout_ms f hs hmode hcur hrun ht
  have hsl := BlockCurrentTask_Priv_sleep k c timeout_ms f hs hmode hcur hrun ht
  have hother : ∀ t, t ∈ k.sch.m_sleep_tasks →
      (BlockCurrentTask_Priv k timeout_ms f).2.tasks t = k.tasks t := by
    intro t htm
    have : t ≠ c := fun e => hc (e ▸ htm)
    rw [b2]; simp [this]
  have hcd : ((BlockCurrentTask_Priv k timeout_ms f).2.tasks c).m_dream_ticks
      = (if timeout_ms ≠ INFINITE_TIMEOUT then MsToTicks k timeout_ms else ULONG_MAX) := by
    rw [b2]; simp
  have hcs : ((BlockCurrentTask_Priv k timeout_ms f).2.tasks c).m_state = StateBlocked := by
    rw [b2]; simp
  have hord0 : sleepOrdered (BlockCurrentTask_Priv k timeout_ms f).2 k.sch.m_sleep_tasks := by
    unfold sleepOrdered at hord ⊢
    refine List.Pairwise.imp_of_mem ?_ hord
    intro a b ha hb hab
    rw [hother a ha, hother b hb]
    exact hab
  refine ⟨⟨?_, ?_, ?_⟩, b10, hcd, ?_⟩
  · rw [hsl]
    exact TaskSleepList_Add_ordered _ _ _ hord0
  · rw [hsl]
    unfold TaskSleepList.Add
    obtain ⟨l1, l2, h1, h2, _, _⟩ := SListOrd_Add_split
      (WakeupPreceeding (BlockCurrentTask_Priv k timeout_ms f).2) k.sch.m_sleep_tasks c
    rw [h2]
    have hp : (l1 ++ c :: l2).Perm (c :: k.sch.m_sleep_tasks) := by
      rw [h1]; exact List.perm_middle
    exact (List.Perm.nodup_iff hp).mpr (List.nodup_cons.mpr ⟨hc, hnd⟩)
  · intro t htm
    rw [hsl] at htm
    unfold TaskSleepList.Add at htm
    rcases (mem_SListOrd_Add _ _ _ _).mp htm with htm | htm
    · rw [htm, hcs, hcd]
      refine ⟨rfl, ?_, ?_⟩
      · split
        · rename_i h; exact hticks h
        · simp [ULONG_MAX]
      · split
        · unfold MsToTicks ULONG_MAX
          have : (System.GetTickRate k * timeout_ms) % 2 ^ 32 < 2 ^ 32 :=
            Nat.mod_lt _ (by decide)
          have h2 : (System.GetTickRate k * timeout_ms) % 2 ^ 32 / 1000
              ≤ (System.GetTickRate k * timeout_ms) % 2 ^ 32 := Nat.div_le_self _ _
          omega
        · exact Nat.le_refl _
    · rw [hother t htm]
      exact hmem t htm
  · intro t htm
    refine ⟨?_, by rw [hother t htm]⟩
    rw [hsl]
    exact (mem_SListOrd_Add _ _ _ _).mpr (Or.inr htm)

/-- A sleeper with `d` ticks left is still blocked in the sleep queue, with
`d - j` ticks left, after `j < d` ticks. -/
theorem ticks_sleeper (t d : Nat) :
    ∀ (j : Nat) (k : Kernel), k.sch.m_started = true → SleepQueueInv k →
      t ∈ k.sch.m_sleep_tasks → (k.tasks t).m_dream_ticks = d → d ≠ ULONG_MAX → j < d →
      SleepQueueInv (Scheduler.ticks k j) ∧ (Scheduler.ticks k j).sch.m_started = true
      ∧ t ∈ (Scheduler.ticks k j).sch.m_sleep_tasks
      ∧ ((Scheduler.ticks k j).tasks t).m_dream_ticks = d - j
      ∧ ((Scheduler.ticks k j).tasks t).m_state = StateBlocked := by
  intro j
  induction j with
  | zero =>
    intro k hs hinv ht hd _ _
    exact ⟨hinv, hs, ht, by simpa using hd, (hinv.2.2 t ht).1⟩
  | succ n ih =>
    intro k hs hinv ht hd hfin hj
    obtain ⟨i1, i2, i3, i4, _⟩ := ih k hs hinv ht hd hfin (by omega)
    obtain ⟨s1, s2, _, s4⟩ := SysTickHandler_sleepers (Scheduler.ticks k n) i2 i1
    have hne : ((Scheduler.ticks k n).tasks t).m_dream_ticks ≠ 1 := by rw [i4]; omega
    obtain ⟨q1, q2, q3⟩ := s4 t i3 hne
    have hle : d ≤ ULONG_MAX := by rw [← hd]; exact (hinv.2.2 t ht).2.2
    have hnm : ((Scheduler.ticks k n).tasks t).m_dream_ticks ≠ ULONG_MAX := by
      rw [i4]; omega
    rw [if_neg hnm, i4] at q3
    exact ⟨s1, s2, q1, by rw [show Scheduler.ticks k (n + 1)
      = (Scheduler.SysTickHandler (Scheduler.ticks k n)).2 from rfl, q3]; omega, q2⟩

/-- C17.  On a started scheduler whose sleep queue is well formed (in
wake-up order, without repetition, its tasks blocked with non-zero 32-bit
counts), a task in the sleep queue with the finite count `d` is blocked and in
the queue after each of the first `d - 1` calls of `SysTickHandler`, and after
the `d`-th call it is Ready with reason `Timeout` and out of the queue.
`TaskSleepList::Add` keeps the wake-up order whatever the order of insertion,
and `BlockCurrentTask_Priv` with a timeout of at least one tick keeps the
sleep queue well formed and puts the task into it with the ticks of its
timeout. -/
theorem timed_wakeups :
    (∀ (k : Kernel) (t d : Nat), k.sch.m_started = true → SleepQueueInv k →
      t ∈ k.sch.m_sleep_tasks → (k.tasks t).m_dream_ticks = d → d ≠ ULONG_MAX →
      (∀ j, j < d → ((Scheduler.ticks k j).tasks t).m_state = StateBlocked
        ∧ t ∈ (Scheduler.ticks k j).sch.m_sleep_tasks)
      ∧ ((Scheduler.ticks k d).tasks t).m_state = StateReady
      ∧ ((Scheduler.ticks k d).tasks t).m_unblock_reason = UnblockReasonTimeout
      ∧ t ∉ (Scheduler.ticks k d).sch.m_sleep_tasks)
    ∧ (∀ (k : Kernel) (l : List Nat) (e : Nat),
      sleepOrdered k l → sleepOrdered k (TaskSleepList.Add k l e))
    ∧ (∀ (k : Kernel) (c timeout_ms : Nat), k.sch.m_started = true →
      (System.IsInInterrupt k && !System.IsInSysCall k) = false →
      k.sch.m_cur_task = some c → (k.tasks c).m_state = StateRunning →
      timeout_ms ≠ 0 → timeout_ms ≠ INFINITE_TIMEOUT → MsToTicks k timeout_ms ≠ 0 →
      c ∉ k.sch.m_sleep_tasks → SleepQueueInv k →
      SleepQueueInv (BlockCurrentTask_Priv k timeout_ms none).2
      ∧ c ∈ (BlockCurrentTask_Priv k timeout_ms none).2.sch.m_sleep_tasks
      ∧ ((BlockCurrentTask_Priv k timeout_ms none).2.tasks c).m_dream_ticks
          = MsToTicks k timeout_ms) := by
  refine ⟨?_, TaskSleepList_Add_ordered, ?_⟩
  · intro k t d hs hinv ht hd hfin
    have hpos : d ≠ 0 := by rw [← hd]; exact (hinv.2.2 t ht).2.1
    constructor
    · intro j hj
      obtain ⟨_, _, a3, _, a5⟩ := ticks_sleeper t d j k hs hinv ht hd hfin hj
      exact ⟨a5, a3⟩
    · obtain ⟨a1, a2, a3, a4, _⟩ := ticks_sleeper t d (d - 1) k hs hinv ht hd hfin (by omega)
      obtain ⟨_, _, s3, _⟩ := SysTickHandler_sleepers (Scheduler.ticks k (d - 1)) a2 a1
      have hd1 : Scheduler.ticks k d
          = (Scheduler.SysTickHandler (Scheduler.ticks k (d - 1))).2 := by
        obtain ⟨m, hm⟩ : ∃ m, d = m + 1 := ⟨d - 1, by omega⟩
        subst hm
        rfl
      rw [hd1]
      exact s3 t a3 (by rw [a4]; omega)
  · intro k c timeout_ms hs hmode hcur hrun ht hinf hticks hc hinv
    obtain ⟨b1, b2, b3, _⟩ := BlockCurrentTask_Priv_SleepQueueInv k c timeout_ms none hs hmode
      hcur hrun ht (fun _ => hticks) hc hinv
    rw [if_pos hinf] at b3
    exact ⟨b1, b2, b3⟩

/-- Witness for C17: tasks 3, 1 and 2 of `demoAwake` delay for 100, 50 and
75 ticks in this order; the sleep queue holds them as 1, 2, 3, and task 1 is
ready after 50 ticks, task 2 after 75, task 3 after 100, each blocked one tick
before. -/
theorem timed_wakeups_witness :
    (run demoAwake threeDelays).sch.m_sleep_tasks = [1, 2, 3]
    ∧ ((Scheduler.ticks (run demoAwake threeDelays) 49).tasks 1).m_state = StateBlocked
    ∧ ((Scheduler.ticks (run demoAwake threeDelays) 50).tasks 1).m_state = StateReady
    ∧ ((Scheduler.ticks (run demoAwake threeDelays) 50).tasks 2).m_state = StateBlocked
    ∧ ((Scheduler.ticks (run demoAwake threeDelays) 75).tasks 2).m_state = StateReady
    ∧ ((Scheduler.ticks (run demoAwake threeDelays) 75).tasks 3).m_state = StateBlocked
    ∧ ((Scheduler.ticks (run demoAwake threeDelays) 100).tasks 3).m_state = StateReady
    ∧ ((Scheduler.ticks (run demoAwake threeDelays) 100).tasks 3).m_unblock_reason
        = UnblockReasonTimeout :=
  ⟨by decide,
    ((timed_wakeups.1 (run demoAwake threeDelays) 1 50 (by decide)
      (by unfold SleepQueueInv sleepOrdered; decide) (by decide) (by decide) (by decide)).1 49
      (by decide)).1,
    (timed_wakeups.1 (run demoAwake threeDelays) 1 50 (by decide)
      (by unfold SleepQueueInv sleepOrdered; decide) (by decide) (by decide) (by decide)).2.1,
    ((timed_wakeups.1 (run demoAwake threeDelays) 2 75 (by decide)
      (by unfold SleepQueueInv sleepOrdered; decide) (by decide) (by decide) (by decide)).1 50
      (by decide)).1,
    (timed_wakeups.1 (run demoAwake threeDelays) 2 75 (by decide)
      (by unfold SleepQueueInv sleepOrdered; decide) (by decide) (by decide) (by decide)).2.1,
    ((timed_wakeups.1 (run demoAwake threeDelays) 3 100 (by decide)
      (by unfold SleepQueueInv sleepOrdered; decide) (by decide) (by decide) (by decide)).1 75
      (by decide)).1,
    (timed_wakeups.1 (run demoAwake threeDelays) 3 100 (by decide)
      (by unfold SleepQueueInv sleepOrdered; decide) (by decide) (by decide) (by decide)).2.1,
    (timed_wakeups.1 (run demoAwake threeDelays) 3 100 (by decide)
      (by unfold SleepQueueInv sleepOrdered; decide) (by decide) (by decide) (by decide)).2.2.1⟩

/-! ## Message queue: the ring buffer -/

/-- `Count` with the pointers inside the array. -/
theorem MessageQueue_Count_eq {T : Type} (q : MessageQueue T) :
    q.Count = if q.m_head_ptr ≤ q.m_tail_ptr then q.m_tail_ptr - q.m_head_ptr
      else q.m_len + q.m_tail_ptr - q.m_head_ptr := by
  unfold MessageQueue.Count
  simp only []
  split_ifs <;> omega

/-- The buffer after `QA_PUSH_BACK` with room: one more message, at the back. -/
theorem act_push_back {T : Type} (q : MessageQueue T) (x : T) (N : Nat)
    (hl : q.m_len = N + 1) (hh : q.m_head_ptr < q.m_len) (ht : q.m_tail_ptr < q.m_len)
    (hc : q.Count < N) :
    (q.act MessageQueue.ACTION.QA_PUSH_BACK x).1.m_head_ptr < q.m_len
    ∧ (q.act MessageQueue.ACTION.QA_PUSH_BACK x).1.m_tail_ptr < q.m_len
    ∧ (q.act MessageQueue.ACTION.QA_PUSH_BACK x).1.Count = q.Count + 1
    ∧ (q.act MessageQueue.ACTION.QA_PUSH_BACK x).1.contents = q.contents ++ [x] := by
  have hC := MessageQueue_Count_eq q
  have hC2 := MessageQueue_Count_eq (q.act MessageQueue.ACTION.QA_PUSH_BACK x).1
  have hcnt : (q.act MessageQueue.ACTION.QA_PUSH_BACK x).1.Count = q.Count + 1 := by
    rw [hC2, hC]
    simp only [MessageQueue.act]
    rw [hC] at hc
    split_ifs at hc ⊢ <;> omega
  refine ⟨hh, ?_, hcnt, ?_⟩
  · simp only [MessageQueue.act]
    split_ifs <;> omega
  · unfold MessageQueue.contents
    rw [hcnt, List.range_succ, List.map_append]
    congr 1
    · apply List.map_congr_left
      intro i hi
      have hi2 : i < q.Count := List.mem_range.mp hi
      rw [hC] at hi2
      simp only [MessageQueue.act]
      rw [if_neg]
      split_ifs at hi2 ⊢ <;> omega
    · simp only [MessageQueue.act, List.map_cons, List.map_nil]
      rw [if_pos]
      rw [hC]
      rw [hC] at hc
      split_ifs at hc ⊢ <;> omega

/-- The buffer after `QA_PUSH_FRONT` with room: one more message, at the front. -/
theorem act_push_front {T : Type} (q : MessageQueue T) (x : T) (N : Nat)
    (hl : q.m_len = N + 1) (hh : q.m_head_ptr < q.m_len) (ht : q.m_tail_ptr < q.m_len)
    (hc : q.Count < N) :
    (q.act MessageQueue.ACTION.QA_PUSH_FRONT x).1.m_head_ptr < q.m_len
    ∧ (q.act MessageQueue.ACTION.QA_PUSH_FRONT x).1.m_tail_ptr < q.m_len
    ∧ (q.act MessageQueue.ACTION.QA_PUSH_FRONT x).1.Count = q.Count + 1
    ∧ (q.act MessageQueue.ACTION.QA_PUSH_FRONT x).1.contents = x :: q.contents := by
  have hC := MessageQueue_Count_eq q
  have hC2 := MessageQueue_Count_eq (q.act MessageQueue.ACTION.QA_PUSH_FRONT x).1
  have hcnt : (q.act MessageQueue.ACTION.QA_PUSH_FRONT x).1.Count = q.Count + 1 := by
    rw [hC2, hC]
    simp only [MessageQueue.act]
    rw [hC] at hc
    split_ifs at hc ⊢ <;> omega
  refine ⟨?_, ht, hcnt, ?_⟩
  · simp only [MessageQueue.act]
    split_ifs <;> omega
  · unfold MessageQueue.contents
    rw [hcnt, List.range_succ_eq_map, List.map_cons, List.map_map]
    congr 1
    · simp only [MessageQueue.act]
      rw [if_pos]
      split_ifs <;> omega
    · apply List.map_congr_left
      intro i hi
      have hi2 : i < q.Count := List.mem_range.mp hi
      rw [hC] at hi2
      simp only [MessageQueue.act, Function.comp]
      rw [if_neg]
      · congr 1
        split_ifs at hi2 ⊢ <;> omega
      · split_ifs at hi2 ⊢ <;> omega

/-- The buffer after `QA_POP` on a non-empty queue: the front message is
delivered and removed. -/
theorem act_pop {T : Type} (q : MessageQueue T) (x : T) (N : Nat)
    (hl : q.m_len = N + 1) (hh : q.m_head_ptr < q.m_len) (ht : q.m_tail_ptr < q.m_len)
    (hc : 0 < q.Count) :
    (q.act MessageQueue.ACTION.QA_POP x).1.m_head_ptr < q.m_len
    ∧ (q.act MessageQueue.ACTION.QA_POP x).1.m_tail_ptr < q.m_len
    ∧ (q.act MessageQueue.ACTION.QA_POP x).1.Count + 1 = q.Count
    ∧ q.contents
        = (q.act MessageQueue.ACTION.QA_POP x).2 :: (q.act MessageQueue.ACTION.QA_POP x).1.contents := by
  have hC := MessageQueue_Count_eq q
  have hC2 := MessageQueue_Count_eq (q.act MessageQueue.ACTION.QA_POP x).1
  have hcnt : (q.act MessageQueue.ACTION.QA_POP x).1.Count + 1 = q.Count := by
    rw [hC2, hC]
    simp only [MessageQueue.act]
    rw [hC] at hc
    split_ifs at hc ⊢ <;> omega
  refine ⟨?_, ht, hcnt, ?_⟩
  · simp only [MessageQueue.act]
    split_ifs <;> omega
  · unfold MessageQueue.contents
    rw [← hcnt, List.range_succ_eq_map, List.map_cons, List.map_map]
    congr 1
    · simp only [MessageQueue.act]
      congr 1
      split_ifs <;> omega
    · apply List.map_congr_left
      intro i hi
      have hi2 : i < (q.act MessageQueue.ACTION.QA_POP x).1.Count := List.mem_range.mp hi
      have hi3 : i + 1 < q.Count := by omega
      rw [hC] at hi3
      simp only [MessageQueue.act, Function.comp]
      congr 1
      split_ifs at hi3 ⊢ <;> omega

/-- `QA_PEEK` on a non-empty queue delivers the front message and leaves the
queue as it is. -/
theorem act_peek {T : Type} (q : MessageQueue T) (x : T)
    (hh : q.m_head_ptr < q.m_len) (hc : 0 < q.Count) :
    (q.act MessageQueue.ACTION.QA_PEEK x).1 = q
    ∧ q.contents.head? = some (q.act MessageQueue.ACTION.QA_PEEK x).2 := by
  refine ⟨rfl, ?_⟩
  unfold MessageQueue.contents
  obtain ⟨c, hc2⟩ : ∃ c, q.Count = c + 1 := ⟨q.Count - 1, by omega⟩
  rw [hc2, List.range_succ_eq_map]
  simp only [List.map_cons, List.head?_cons, MessageQueue.act, Nat.add_zero]
  rw [if_pos hh]

/-! ## Message queue: the semaphore steps -/

/-- `Semaphore::Wait_Priv` on a counter that is not zero: `Ok`, the counter
goes down by one, the unblock reason of the current task reads as no timeout,
and scheduler and platform state stay as they are. -/
theorem Wait_Priv_pass (k : Kernel) (s t : Nat) (hc : (k.semaphores s).m_count ≠ 0) :
    (Semaphore.Wait_Priv k s t).1 = Result.ResultOk
    ∧ resultByUnblockReason (Semaphore.Wait_Priv k s t).2 = Result.ResultOk
    ∧ (Semaphore.Wait_Priv k s t).2.semaphores
        = (k.setSemaphore s (fun x => { x with m_count := x.m_count - 1 })).semaphores
    ∧ (Semaphore.Wait_Priv k s t).2.sch = k.sch
    ∧ (Semaphore.Wait_Priv k s t).2.sys = k.sys := by
  have hc1 : ((CriticalSection k).semaphores s).m_count ≠ 0 := by simpa using hc
  unfold Semaphore.Wait_Priv Semaphore.TryDecrement
  simp only [hc1, ne_eq, not_false_eq_true, if_true]
  cases hcur : k.sch.m_cur_task with
  | none => simp [resultByUnblockReason, hcur, Kernel.setSemaphore]
  | some c => simp [resultByUnblockReason, hcur, Kernel.setSemaphore, Kernel.setTask]

/-- `Semaphore::Wait_Priv` with timeout zero on a counter that is zero:
`Timeout`, nothing written. -/
theorem Wait_Priv_fail (k : Kernel) (s : Nat) (hc : (k.semaphores s).m_count = 0) :
    Semaphore.Wait_Priv k s 0 = (Result.ResultTimeout, CriticalSection k) := by
  unfold Semaphore.Wait_Priv Semaphore.TryDecrement
  simp [hc]

/-- `Semaphore::Signal_Priv` below the maximum with nobody waiting: `Ok`,
the counter goes up by one. -/
theorem Signal_Priv_pass (k : Kernel) (s : Nat)
    (hc : (k.semaphores s).m_count ≠ (k.semaphores s).m_max_count)
    (hw : (k.semaphores s).m_blocked_task_list = []) :
    Semaphore.Signal_Priv k s
      = (Result.ResultOk, (CriticalSection k).setSemaphore s
          (fun x => { x with m_count := (x.m_count + 1) % 2 ^ 32 })) := by
  unfold Semaphore.Signal_Priv
  simp only [CriticalSection_semaphores]
  rw [if_neg hc, if_neg (by simp [hw])]

/-- The public `Semaphore::Wait` that passes. -/
theorem Semaphore_Wait_pass (k : Kernel) (s t : Nat)
    (hi : k.sch.m_initialized = true) (hst : k.sch.m_started = true)
    (hsc : System.IsSysCallAllowed k = true)
    (hirq : t ≠ 0 → System.IsInInterrupt k = false)
    (hc : (k.semaphores s).m_count ≠ 0) :
    (Semaphore.Wait k s t).1 = Result.ResultOk
    ∧ (Semaphore.Wait k s t).2.semaphores
        = (k.setSemaphore s (fun x => { x with m_count := x.m_count - 1 })).semaphores
    ∧ (Semaphore.Wait k s t).2.sch.m_initialized = true
    ∧ (Semaphore.Wait k s t).2.sch.m_started = true
    ∧ (Semaphore.Wait k s t).2.sys.mode = k.sys.mode := by
  have h1 : ¬ (k.sch.m_initialized = false ∨ k.sch.m_started = false) := by simp [hi, hst]
  have h2 : ¬ (t = 0 ∧ System.IsSysCallAllowed k = false) := by simp [hsc]
  have h3 : ¬ (t ≠ 0 ∧ System.IsInInterrupt k = true) := by
    rintro ⟨a, b⟩
    rw [hirq a] at b
    exact Bool.noConfusion b
  unfold Semaphore.Wait
  rw [if_neg h1, if_neg h2, if_neg h3]
  by_cases hp : System.IsInPrivOrIrq k = true
  · simp only [hp, if_true]
    obtain ⟨a1, a2, a3, a4, a5⟩ := Wait_Priv_pass k s t hc
    rw [if_neg (by simp [a1])]
    refine ⟨a2, a3, ?_, ?_, ?_⟩
    · show (Semaphore.Wait_Priv k s t).2.sch.m_initialized = true
      rw [a4]; exact hi
    · show (Semaphore.Wait_Priv k s t).2.sch.m_started = true
      rw [a4]; exact hst
    · show (Semaphore.Wait_Priv k s t).2.sys.mode = k.sys.mode
      rw [a5]
  · simp only [hp, if_false, Bool.false_eq_true]
    obtain ⟨a1, a2, a3, a4, a5⟩ :=
      Wait_Priv_pass { k with sys := { k.sys with mode := ExecMode.svc } } s t hc
    have e1 : (SvcExecPrivileged (fun k => Semaphore.Wait_Priv k s t) k).1 = Result.ResultOk := a1
    rw [if_neg (by simp [e1])]
    refine ⟨?_, ?_, ?_, ?_, rfl⟩
    · simp only [resultByUnblockReason, SvcExecPrivileged] at a2 ⊢
      exact a2
    · simp only [SvcExecPrivileged]
      exact a3
    · show (Semaphore.Wait_Priv _ s t).2.sch.m_initialized = true
      rw [a4]; exact hi
    · show (Semaphore.Wait_Priv _ s t).2.sch.m_started = true
      rw [a4]; exact hst

/-- The public `Semaphore::Wait` with timeout zero on a counter that is zero. -/
theorem Semaphore_Wait_fail (k : Kernel) (s : Nat)
    (hi : k.sch.m_initialized = true) (hst : k.sch.m_started = true)
    (hsc : System.IsSysCallAllowed k = true)
    (hc : (k.semaphores s).m_count = 0) :
    (Semaphore.Wait k s 0).1 = Result.ResultTimeout
    ∧ (Semaphore.Wait k s 0).2.semaphores = k.semaphores
    ∧ (Semaphore.Wait k s 0).2.sch.m_initialized = true
    ∧ (Semaphore.Wait k s 0).2.sch.m_started = true
    ∧ (Semaphore.Wait k s 0).2.sys.mode = k.sys.mode := by
  have h1 : ¬ (k.sch.m_initialized = false ∨ k.sch.m_started = false) := by simp [hi, hst]
  have h2 : ¬ ((0 : Nat) = 0 ∧ System.IsSysCallAllowed k = false) := by simp [hsc]
  have h3 : ¬ ((0 : Nat) ≠ 0 ∧ System.IsInInterrupt k = true) := by simp
  unfold Semaphore.Wait
  rw [if_neg h1, if_neg h2, if_neg h3]
  by_cases hp : System.IsInPrivOrIrq k = true
  · simp only [hp, if_true]
    rw [Wait_Priv_fail k s hc]
    simp [hi, hst]
  · simp only [hp, if_false, Bool.false_eq_true]
    have e := Wait_Priv_fail { k with sys := { k.sys with mode := ExecMode.svc } } s hc
    simp only [SvcExecPrivileged]
    rw [e]
    simp [hi, hst]

/-- The public `Semaphore::Signal` below the maximum with nobody waiting. -/
theorem Semaphore_Signal_pass (k : Kernel) (s : Nat)
    (hi : k.sch.m_initialized = true) (hst : k.sch.m_started = true)
    (hsc : System.IsSysCallAllowed k = true)
    (hc : (k.semaphores s).m_count ≠ (k.semaphores s).m_max_count)
    (hw : (k.semaphores s).m_blocked_task_list = []) :
    (Semaphore.Signal k s).1 = Result.ResultOk
    ∧ (Semaphore.Signal k s).2.semaphores
        = (k.setSemaphore s (fun x => { x with m_count := (x.m_count + 1) % 2 ^ 32 })).semaphores
    ∧ (Semaphore.Signal k s).2.sch.m_initialized = true
    ∧ (Semaphore.Signal k s).2.sch.m_started = true
    ∧ (Semaphore.Signal k s).2.sys.mode = k.sys.mode := by
  have h1 : ¬ (k.sch.m_initialized = false ∨ k.sch.m_started = false) := by simp [hi, hst]
  have h2 : ¬ (System.IsSysCallAllowed k = false) := by simp [hsc]
  unfold Semaphore.Signal
  rw [if_neg h1, if_neg h2]
  by_cases hp : System.IsInPrivOrIrq k = true
  · simp only [hp, if_true]
    rw [Signal_Priv_pass k s hc hw]
    simp [hi, hst, Kernel.setSemaphore]
  · simp only [hp, if_false, Bool.false_eq_true]
    have e := Signal_Priv_pass { k with sys := { k.sys with mode := ExecMode.svc } } s hc hw
    simp only [SvcExecPrivileged]
    rw [e]
    simp [hi, hst, Kernel.setSemaphore]

theorem Yield_initialized (K : Kernel) :
    (Scheduler.Yield K).sch.m_initialized = K.sch.m_initialized := by
  have := Yield_control K
  simp only [Scheduler.control, Prod.mk.injEq] at this
  exact this.2.1

theorem sameSync_refl (k : Kernel) : k.sameSync k := ⟨rfl, rfl, rfl, rfl⟩

theorem sameSync_trans {a b c : Kernel} (h1 : a.sameSync b) (h2 : b.sameSync c) :
    a.sameSync c :=
  ⟨h2.1.trans h1.1, h2.2.1.trans h1.2.1, h2.2.2.1.trans h1.2.2.1, h2.2.2.2.trans h1.2.2.2⟩

theorem setSch_cnt_sameSync (k : Kernel) (g : Scheduler → Nat) :
    k.sameSync (k.setSch (fun s => { s with m_pause_cnt := g s })) := ⟨rfl, rfl, rfl, rfl⟩

theorem setSch_flg_sameSync (k : Kernel) (b : Bool) :
    k.sameSync (k.setSch (fun s => { s with m_pause_flg := b })) := ⟨rfl, rfl, rfl, rfl⟩

theorem MACS_ALARM_sameSync (k : Kernel) (r : ALARM_REASON) :
    k.sameSync (MACS_ALARM k r) := ⟨rfl, rfl, rfl, rfl⟩

theorem Yield_sameSync (k : Kernel) : k.sameSync (Scheduler.Yield k) :=
  ⟨Yield_semaphores k, Yield_initialized k, Yield_started k, Yield_mode k⟩

theorem ite_sameSync (k A B : Kernel) (c : Prop) [Decidable c]
    (ha : k.sameSync A) (hb : k.sameSync B) : k.sameSync (if c then A else B) := by
  split
  · exact ha
  · exact hb

/-- `Pause` writes scheduler fields only: semaphores, the initialized and
started flags and the execution mode stay. -/
theorem Pause_sameSync (k : Kernel) (b : Bool) : k.sameSync (Scheduler.Pause k b).2 := by
  unfold Scheduler.Pause
  generalize (2 ^ 32 : Nat) = M
  by_cases hs : k.sch.m_started = false
  · rw [if_pos hs]
    exact sameSync_refl k
  · rw [if_neg hs]
    cases b
    · rw [if_pos rfl]
      by_cases h0 : k.sch.m_pause_cnt = 0
      · rw [if_pos h0]
        exact MACS_ALARM_sameSync k _
      · rw [if_neg h0]
        simp only []
        have f1 := setSch_cnt_sameSync k (fun s => (s.m_pause_cnt + M - 1) % M)
        refine ite_sameSync _ _ _ _ ?_ f1
        exact ite_sameSync _ _ _ _ (sameSync_trans f1 (Yield_sameSync _)) f1
    · rw [if_neg (by decide)]
      simp only []
      have f0 := setSch_flg_sameSync k true
      have f1 := sameSync_trans f0 (setSch_cnt_sameSync _ (fun s => (s.m_pause_cnt + 1) % M))
      have f2 := ite_sameSync k _ _
        ((((k.setSch fun s => { s with m_pause_flg := true }).setSch
          fun s => { s with m_pause_cnt := (s.m_pause_cnt + 1) % M }).sch.m_pause_cnt) = 0)
        (sameSync_trans f1 (MACS_ALARM_sameSync _ ALARM_REASON.AR_COUNTER_OVERFLOW)) f1
      exact sameSync_trans f2 (setSch_flg_sameSync _ false)
theorem IsInInterrupt_congr {a b : Kernel} (h : a.sys.mode = b.sys.mode) :
    System.IsInInterrupt a = System.IsInInterrupt b := by
  unfold System.IsInInterrupt
  rw [h]

theorem setSemaphore_congr {a b : Kernel} (h : a.semaphores = b.semaphores) (s : Nat)
    (f : Semaphore → Semaphore) :
    (a.setSemaphore s f).semaphores = (b.setSemaphore s f).semaphores := by
  funext i
  rw [setSemaphore_semaphores, setSemaphore_semaphores, h]

/-- A queue operation whose wait passes: `Ok`, the buffer action is done, the
semaphore waited on is one down and then the semaphore signalled one up. -/
theorem ProcessMessage_pass {T : Type} (k : Kernel) (q : MessageQueue T) (wait sig : Nat)
    (message : T) (action : MessageQueue.ACTION) (t : Nat)
    (hi : k.sch.m_initialized = true) (hst : k.sch.m_started = true)
    (hsc : System.IsSysCallAllowed k = true)
    (hirq : t ≠ 0 → System.IsInInterrupt k = false)
    (hc : (k.semaphores wait).m_count ≠ 0)
    (hs1 : ((k.setSemaphore wait (fun x => { x with m_count := x.m_count - 1 })).semaphores
        sig).m_count
      ≠ ((k.setSemaphore wait (fun x => { x with m_count := x.m_count - 1 })).semaphores
        sig).m_max_count)
    (hs2 : ((k.setSemaphore wait (fun x => { x with m_count := x.m_count - 1 })).semaphores
        sig).m_blocked_task_list = []) :
    (MessageQueue.ProcessMessage k q wait sig message action t).1 = Result.ResultOk
    ∧ (MessageQueue.ProcessMessage k q wait sig message action t).2.2.1
        = (q.act action message).1
    ∧ (MessageQueue.ProcessMessage k q wait sig message action t).2.2.2
        = (q.act action message).2
    ∧ (MessageQueue.ProcessMessage k q wait sig message action t).2.1.semaphores
        = ((k.setSemaphore wait (fun x => { x with m_count := x.m_count - 1 })).setSemaphore sig
            (fun x => { x with m_count := (x.m_count + 1) % 2 ^ 32 })).semaphores
    ∧ (MessageQueue.ProcessMessage k q wait sig message action t).2.1.sch.m_initialized = true
    ∧ (MessageQueue.ProcessMessage k q wait sig message action t).2.1.sch.m_started = true
    ∧ (MessageQueue.ProcessMessage k q wait sig message action t).2.1.sys.mode = k.sys.mode := by
  have h1 : ¬ (k.sch.m_initialized = false ∨ k.sch.m_started = false) := by simp [hi, hst]
  have h2 : ¬ (t = 0 ∧ System.IsSysCallAllowed k = false) := by simp [hsc]
  have h3 : ¬ (t ≠ 0 ∧ System.IsInInterrupt k = true) := by
    rintro ⟨a, b⟩
    rw [hirq a] at b
    exact Bool.noConfusion b
  have hirq2 : (if System.IsInInterrupt k = true then 0 else t) ≠ 0
      → System.IsInInterrupt k = false := by
    intro h
    by_cases hq : System.IsInInterrupt k = true
    · rw [if_pos hq] at h
      exact absurd rfl h
    · simpa using hq
  obtain ⟨w1, w2, w3, w4, w5⟩ :=
    Semaphore_Wait_pass k wait (if System.IsInInterrupt k = true then 0 else t) hi hst hsc hirq2 hc
  have p1 := Pause_sameSync
    (Semaphore.Wait k wait (if System.IsInInterrupt k = true then 0 else t)).2 true
  have p2 := Pause_sameSync (Scheduler.Pause
    (Semaphore.Wait k wait (if System.IsInInterrupt k = true then 0 else t)).2 true).2 false
  have p := sameSync_trans p1 p2
  obtain ⟨s1, s2, s3, s4, s5⟩ := Semaphore_Signal_pass
    (Scheduler.Pause (Scheduler.Pause
      (Semaphore.Wait k wait (if System.IsInInterrupt k = true then 0 else t)).2 true).2 false).2
    sig (p.2.1.trans w3) (p.2.2.1.trans w4)
    ((IsSysCallAllowed_congr (p.2.2.2.trans w5)).trans hsc)
    (by rw [p.1, w2]; exact hs1) (by rw [p.1, w2]; exact hs2)
  unfold MessageQueue.ProcessMessage
  rw [if_neg h1, if_neg h2, if_neg h3]
  simp only []
  rw [if_neg (by rw [w1]; simp)]
  refine ⟨s1, rfl, rfl, ?_, s3, s4, ?_⟩
  · rw [s2]
    exact setSemaphore_congr (p.1.trans w2) _ _
  · rw [s5, p.2.2.2, w5]

/-- A queue operation with timeout zero whose wait finds the counter at
zero: `Timeout`, buffer and semaphores as before. -/
theorem ProcessMessage_fail {T : Type} (k : Kernel) (q : MessageQueue T) (wait sig : Nat)
    (message : T) (action : MessageQueue.ACTION)
    (hi : k.sch.m_initialized = true) (hst : k.sch.m_started = true)
    (hsc : System.IsSysCallAllowed k = true)
    (hc : (k.semaphores wait).m_count = 0) :
    (MessageQueue.ProcessMessage k q wait sig message action 0).1 = Result.ResultTimeout
    ∧ (MessageQueue.ProcessMessage k q wait sig message action 0).2.2.1 = q
    ∧ (MessageQueue.ProcessMessage k q wait sig message action 0).2.2.2 = message
    ∧ (MessageQueue.ProcessMessage k q wait sig message action 0).2.1.semaphores = k.semaphores
    ∧ (MessageQueue.ProcessMessage k q wait sig message action 0).2.1.sch.m_initialized = true
    ∧ (MessageQueue.ProcessMessage k q wait sig message action 0).2.1.sch.m_started = true
    ∧ (MessageQueue.ProcessMessage k q wait sig message action 0).2.1.sys.mode = k.sys.mode := by
  have h1 : ¬ (k.sch.m_initialized = false ∨ k.sch.m_started = false) := by simp [hi, hst]
  have h2 : ¬ ((0 : Nat) = 0 ∧ System.IsSysCallAllowed k = false) := by simp [hsc]
  have h3 : ¬ ((0 : Nat) ≠ 0 ∧ System.IsInInterrupt k = true) := by simp
  obtain ⟨w1, w2, w3, w4, w5⟩ := Semaphore_Wait_fail k wait hi hst hsc hc
  unfold MessageQueue.ProcessMessage
  rw [if_neg h1, if_neg h2, if_neg h3]
  simp only [ite_self]
  rw [if_pos (by rw [w1]; simp)]
  exact ⟨w1, rfl, rfl, w2, w3, w4, w5⟩

theorem act_fields {T : Type} (q : MessageQueue T) (a : MessageQueue.ACTION) (x : T) :
    (q.act a x).1.m_len = q.m_len ∧ (q.act a x).1.m_sem_read = q.m_sem_read
    ∧ (q.act a x).1.m_sem_write = q.m_sem_write := by
  cases a <;> exact ⟨rfl, rfl, rfl⟩

theorem contents_length {T : Type} (q : MessageQueue T) : q.contents.length = q.Count := by
  unfold MessageQueue.contents
  rw [List.length_map, List.length_range]

/-- One call that does not suspend its caller, on a queue in its between-calls
state: the kernel stays initialized, started and callable, the queue is in
its between-calls state again, and result code, delivered message and contents
are those of the abstract bounded queue. -/
theorem MessageQueue_step {T : Type} (N : Nat) (hN : N + 1 < 2 ^ 32) (k : Kernel)
    (q : MessageQueue T) (op : QOp T)
    (hi : k.sch.m_initialized = true) (hst : k.sch.m_started = true)
    (hsc : System.IsSysCallAllowed k = true)
    (hinv : MessageQueue.Inv k q N) (hp : MessageQueue.passes k q op) :
    (MessageQueue.call k q op).2.1.sch.m_initialized = true
    ∧ (MessageQueue.call k q op).2.1.sch.m_started = true
    ∧ System.IsSysCallAllowed (MessageQueue.call k q op).2.1 = true
    ∧ (MessageQueue.call k q op).2.1.sys.mode = k.sys.mode
    ∧ MessageQueue.Inv (MessageQueue.call k q op).2.1 (MessageQueue.call k q op).2.2.1 N
    ∧ ((MessageQueue.call k q op).1, (MessageQueue.call k q op).2.2.2,
        (MessageQueue.call k q op).2.2.1.contents) = dequeStep N q.contents op := by
  obtain ⟨i1, i2, i3, i4, i5, i6, i7, i8, i9, i10, i11⟩ := hinv
  have hN2 : N + 1 < 4294967296 := by simpa using hN
  have hlen := contents_length q
  have i4b : q.m_sem_write ≠ q.m_sem_read := fun h => i4 h.symm
  cases op with
  | push x t =>
    by_cases hc : (k.semaphores q.m_sem_write).m_count = 0
    · have ht : t = 0 := by
        rcases hp with h | h
        · exact h
        · exact absurd hc (Nat.pos_iff_ne_zero.mp h.2)
      subst ht
      obtain ⟨a1, a2, a3, a4, a5, a6, a7⟩ := ProcessMessage_fail k q q.m_sem_write q.m_sem_read x
        MessageQueue.ACTION.QA_PUSH_BACK hi hst hsc hc
      have hfull : ¬ q.contents.length < N := by rw [hlen]; omega
      refine ⟨a5, a6, (IsSysCallAllowed_congr a7).trans hsc, a7, ?_, ?_⟩
      · show MessageQueue.Inv (MessageQueue.ProcessMessage k q _ _ x _ 0).2.1
          (MessageQueue.ProcessMessage k q _ _ x _ 0).2.2.1 N
        rw [a2, MessageQueue.Inv, a4]
        exact ⟨i1, i2, i3, i4, i5, i6, i7, i8, i9, i10, i11⟩
      · show ((MessageQueue.ProcessMessage k q _ _ x _ 0).1,
          (MessageQueue.ProcessMessage k q _ _ x _ 0).2.2.2,
          (MessageQueue.ProcessMessage k q _ _ x _ 0).2.2.1.contents) = _
        rw [a1, a2, a3]
        simp only [dequeStep, if_neg hfull]
    · have hroom : q.Count < N := by omega
      obtain ⟨a1, a2, a3, a4, a5, a6, a7⟩ := ProcessMessage_pass k q q.m_sem_write q.m_sem_read x
        MessageQueue.ACTION.QA_PUSH_BACK t hi hst hsc
        (by
          intro h
          rcases hp with h2 | h2
          · exact absurd h2 h
          · exact h2.1)
        hc
        (by simp only [setSemaphore_semaphores, if_neg i4]; omega)
        (by simp only [setSemaphore_semaphores, if_neg i4]; exact i10)
      obtain ⟨b1, b2, b3, b4⟩ := act_push_back q x N i1 i2 i3 hroom
      obtain ⟨c1, c2, c3⟩ := act_fields q MessageQueue.ACTION.QA_PUSH_BACK x
      have hnot : q.contents.length < N := by rw [hlen]; exact hroom
      refine ⟨a5, a6, (IsSysCallAllowed_congr a7).trans hsc, a7, ?_, ?_⟩
      · show MessageQueue.Inv (MessageQueue.ProcessMessage k q _ _ x _ t).2.1
          (MessageQueue.ProcessMessage k q _ _ x _ t).2.2.1 N
        rw [a2, MessageQueue.Inv, a4, c1, c2, c3, b3]
        simp only [setSemaphore_semaphores, if_neg i4, if_neg i4b, if_true]
        refine ⟨i1, b1, b2, i4, by omega, ?_, ?_, i8, i9, i10, i11⟩
        · show ((k.semaphores q.m_sem_read).m_count + 1) % 4294967296 = _
          omega
        · show (k.semaphores q.m_sem_write).m_count - 1 = _
          omega
      · show ((MessageQueue.ProcessMessage k q _ _ x _ t).1,
          (MessageQueue.ProcessMessage k q _ _ x _ t).2.2.2,
          (MessageQueue.ProcessMessage k q _ _ x _ t).2.2.1.contents) = _
        rw [a1, a2, a3, b4]
        simp only [dequeStep, if_pos hnot]
        rfl
  | pushFront x t =>
    by_cases hc : (k.semaphores q.m_sem_write).m_count = 0
    · have ht : t = 0 := by
        rcases hp with h | h
        · exact h
        · exact absurd hc (Nat.pos_iff_ne_zero.mp h.2)
      subst ht
      obtain ⟨a1, a2, a3, a4, a5, a6, a7⟩ := ProcessMessage_fail k q q.m_sem_write q.m_sem_read x
        MessageQueue.ACTION.QA_PUSH_FRONT hi hst hsc hc
      have hfull : ¬ q.contents.length < N := by rw [hlen]; omega
      refine ⟨a5, a6, (IsSysCallAllowed_congr a7).trans hsc, a7, ?_, ?_⟩
      · show MessageQueue.Inv (MessageQueue.ProcessMessage k q _ _ x _ 0).2.1
          (MessageQueue.ProcessMessage k q _ _ x _ 0).2.2.1 N
        rw [a2, MessageQueue.Inv, a4]
        exact ⟨i1, i2, i3, i4, i5, i6, i7, i8, i9, i10, i11⟩
      · show ((MessageQueue.ProcessMessage k q _ _ x _ 0).1,
          (MessageQueue.ProcessMessage k q _ _ x _ 0).2.2.2,
          (MessageQueue.ProcessMessage k q _ _ x _ 0).2.2.1.contents) = _
        rw [a1, a2, a3]
        simp only [dequeStep, if_neg hfull]
    · have hroom : q.Count < N := by omega
      obtain ⟨a1, a2, a3, a4, a5, a6, a7⟩ := ProcessMessage_pass k q q.m_sem_write q.m_sem_read x
        MessageQueue.ACTION.QA_PUSH_FRONT t hi hst hsc
        (by
          intro h
          rcases hp with h2 | h2
          · exact absurd h2 h
          · exact h2.1)
        hc
        (by simp only [setSemaphore_semaphores, if_neg i4]; omega)
        (by simp only [setSemaphore_semaphores, if_neg i4]; exact i10)
      obtain ⟨b1, b2, b3, b4⟩ := act_push_front q x N i1 i2 i3 hroom
      obtain ⟨c1, c2, c3⟩ := act_fields q MessageQueue.ACTION.QA_PUSH_FRONT x
      have hnot : q.contents.length < N := by rw [hlen]; exact hroom
      refine ⟨a5, a6, (IsSysCallAllowed_congr a7).trans hsc, a7, ?_, ?_⟩
      · show MessageQueue.Inv (MessageQueue.ProcessMessage k q _ _ x _ t).2.1
          (MessageQueue.ProcessMessage k q _ _ x _ t).2.2.1 N
        rw [a2, MessageQueue.Inv, a4, c1, c2, c3, b3]
        simp only [setSemaphore_semaphores, if_neg i4, if_neg i4b, if_true]
        refine ⟨i1, b1, b2, i4, by omega, ?_, ?_, i8, i9, i10, i11⟩
        · show ((k.semaphores q.m_sem_read).m_count + 1) % 4294967296 = _
          omega
        · show (k.semaphores q.m_sem_write).m_count - 1 = _
          omega
      · show ((MessageQueue.ProcessMessage k q _ _ x _ t).1,
          (MessageQueue.ProcessMessage k q _ _ x _ t).2.2.2,
          (MessageQueue.ProcessMessage k q _ _ x _ t).2.2.1.contents) = _
        rw [a1, a2, a3, b4]
        simp only [dequeStep, if_pos hnot]
        rfl
  | pop x t =>
    by_cases hc : (k.semaphores q.m_sem_read).m_count = 0
    · have ht : t = 0 := by
        rcases hp with h | h
        · exact h
        · exact absurd hc (Nat.pos_iff_ne_zero.mp h.2)
      subst ht
      obtain ⟨a1, a2, a3, a4, a5, a6, a7⟩ := ProcessMessage_fail k q q.m_sem_read q.m_sem_write x
        MessageQueue.ACTION.QA_POP hi hst hsc hc
      have hempty : q.contents = [] := List.length_eq_zero.mp (by rw [hlen]; omega)
      refine ⟨a5, a6, (IsSysCallAllowed_congr a7).trans hsc, a7, ?_, ?_⟩
      · show MessageQueue.Inv (MessageQueue.ProcessMessage k q _ _ x _ 0).2.1
          (MessageQueue.ProcessMessage k q _ _ x _ 0).2.2.1 N
        rw [a2, MessageQueue.Inv, a4]
        exact ⟨i1, i2, i3, i4, i5, i6, i7, i8, i9, i10, i11⟩
      · show ((MessageQueue.ProcessMessage k q _ _ x _ 0).1,
          (MessageQueue.ProcessMessage k q _ _ x _ 0).2.2.2,
          (MessageQueue.ProcessMessage k q _ _ x _ 0).2.2.1.contents) = _
        rw [a1, a2, a3, hempty]
        rfl
    · have hsome : 0 < q.Count := by omega
      obtain ⟨a1, a2, a3, a4, a5, a6, a7⟩ := ProcessMessage_pass k q q.m_sem_read q.m_sem_write x
        MessageQueue.ACTION.QA_POP t hi hst hsc
        (by
          intro h
          rcases hp with h2 | h2
          · exact absurd h2 h
          · exact h2.1)
        hc
        (by simp only [setSemaphore_semaphores, if_neg i4b]; omega)
        (by simp only [setSemaphore_semaphores, if_neg i4b]; exact i11)
      obtain ⟨b1, b2, b3, b4⟩ := act_pop q x N i1 i2 i3 hsome
      obtain ⟨c1, c2, c3⟩ := act_fields q MessageQueue.ACTION.QA_POP x
      refine ⟨a5, a6, (IsSysCallAllowed_congr a7).trans hsc, a7, ?_, ?_⟩
      · show MessageQueue.Inv (MessageQueue.ProcessMessage k q _ _ x _ t).2.1
          (MessageQueue.ProcessMessage k q _ _ x _ t).2.2.1 N
        rw [a2, MessageQueue.Inv, a4, c1, c2, c3]
        simp only [setSemaphore_semaphores, if_neg i4, if_neg i4b, if_true]
        refine ⟨i1, b1, b2, i4, by omega, ?_, ?_, i8, i9, i10, i11⟩
        · show (k.semaphores q.m_sem_read).m_count - 1 = _
          omega
        · show ((k.semaphores q.m_sem_write).m_count + 1) % 4294967296 = _
          omega
      · show ((MessageQueue.ProcessMessage k q _ _ x _ t).1,
          (MessageQueue.ProcessMessage k q _ _ x _ t).2.2.2,
          (MessageQueue.ProcessMessage k q _ _ x _ t).2.2.1.contents) = _
        rw [a1, a2, a3, b4]
        rfl
  | peek x t =>
    by_cases hc : (k.semaphores q.m_sem_read).m_count = 0
    · have ht : t = 0 := by
        rcases hp with h | h
        · exact h
        · exact absurd hc (Nat.pos_iff_ne_zero.mp h.2)
      subst ht
      obtain ⟨a1, a2, a3, a4, a5, a6, a7⟩ := ProcessMessage_fail k q q.m_sem_read q.m_sem_read x
        MessageQueue.ACTION.QA_PEEK hi hst hsc hc
      have hempty : q.contents = [] := List.length_eq_zero.mp (by rw [hlen]; omega)
      refine ⟨a5, a6, (IsSysCallAllowed_congr a7).trans hsc, a7, ?_, ?_⟩
      · show MessageQueue.Inv (MessageQueue.ProcessMessage k q _ _ x _ 0).2.1
          (MessageQueue.ProcessMessage k q _ _ x _ 0).2.2.1 N
        rw [a2, MessageQueue.Inv, a4]
        exact ⟨i1, i2, i3, i4, i5, i6, i7, i8, i9, i10, i11⟩
      · show ((MessageQueue.ProcessMessage k q _ _ x _ 0).1,
          (MessageQueue.ProcessMessage k q _ _ x _ 0).2.2.2,
          (MessageQueue.ProcessMessage k q _ _ x _ 0).2.2.1.contents) = _
        rw [a1, a2, a3, hempty]
        rfl
    · have hsome : 0 < q.Count := by omega
      obtain ⟨a1, a2, a3, a4, a5, a6, a7⟩ := ProcessMessage_pass k q q.m_sem_read q.m_sem_read x
        MessageQueue.ACTION.QA_PEEK t hi hst hsc
        (by
          intro h
          rcases hp with h2 | h2
          · exact absurd h2 h
          · exact h2.1)
        hc
        (by
          simp only [setSemaphore_semaphores, if_true]
          show (k.semaphores q.m_sem_read).m_count - 1 ≠ (k.semaphores q.m_sem_read).m_max_count
          omega)
        (by simp only [setSemaphore_semaphores, if_true]; exact i10)
      obtain ⟨b1, b2⟩ := act_peek q x i2 hsome
      refine ⟨a5, a6, (IsSysCallAllowed_congr a7).trans hsc, a7, ?_, ?_⟩
      · show MessageQueue.Inv (MessageQueue.ProcessMessage k q _ _ x _ t).2.1
          (MessageQueue.ProcessMessage k q _ _ x _ t).2.2.1 N
        rw [a2, b1, MessageQueue.Inv, a4]
        simp only [setSemaphore_semaphores, if_neg i4b, if_true]
        refine ⟨i1, i2, i3, i4, i5, ?_, i7, i8, i9, i10, i11⟩
        show ((k.semaphores q.m_sem_read).m_count - 1 + 1) % 4294967296 = _
        omega
      · show ((MessageQueue.ProcessMessage k q _ _ x _ t).1,
          (MessageQueue.ProcessMessage k q _ _ x _ t).2.2.2,
          (MessageQueue.ProcessMessage k q _ _ x _ t).2.2.1.contents) = _
        rw [a1, a2, a3, b1]
        cases hcont : q.contents with
        | nil =>
          rw [hcont] at b2
          exact absurd b2 (by simp)
        | cons a rest =>
          rw [hcont] at b2
          have hhead : a = (q.act MessageQueue.ACTION.QA_PEEK x).2 := by simpa using b2
          rw [← hhead]
          rfl
/-- The queue the constructor builds is empty and in its between-calls
state; scheduler and platform state are not touched. -/
theorem MessageQueue_new_Inv {T : Type} (k : Kernel) (r w N : Nat) (mem : Nat → T)
    (hrw : r ≠ w) (hN : N + 1 < 2 ^ 32) :
    MessageQueue.Inv (MessageQueue.new k r w N mem).1 (MessageQueue.new k r w N mem).2 N
    ∧ (MessageQueue.new k r w N mem).2.contents = []
    ∧ (MessageQueue.new k r w N mem).1.sch = k.sch
    ∧ (MessageQueue.new k r w N mem).1.sys = k.sys := by
  have hN2 : N + 1 < 4294967296 := by simpa using hN
  have hlen : (N + 1) % 4294967296 = N + 1 := Nat.mod_eq_of_lt hN2
  have hcount : (MessageQueue.new k r w N mem).2.Count = 0 := by
    simp [MessageQueue.new, MessageQueue.Count]
  refine ⟨?_, ?_, rfl, rfl⟩
  · unfold MessageQueue.Inv
    rw [hcount]
    simp [MessageQueue.new, hlen, hrw, Semaphore.new]
  · unfold MessageQueue.contents
    rw [hcount]
    rfl

/-- A sequence of calls none of which suspends its caller, from a queue in
its between-calls state: the state afterwards is a between-calls state again,
and contents, result codes and delivered messages are those of the abstract
bounded queue. -/
theorem MessageQueue_run_spec {T : Type} (N : Nat) (hN : N + 1 < 2 ^ 32) :
    ∀ (ops : List (QOp T)) (k : Kernel) (q : MessageQueue T),
      k.sch.m_initialized = true → k.sch.m_started = true
      → System.IsSysCallAllowed k = true → MessageQueue.Inv k q N
      → MessageQueue.allPass k q ops
      → (MessageQueue.run k q ops).1.sch.m_initialized = true
        ∧ (MessageQueue.run k q ops).1.sch.m_started = true
        ∧ System.IsSysCallAllowed (MessageQueue.run k q ops).1 = true
        ∧ MessageQueue.Inv (MessageQueue.run k q ops).1 (MessageQueue.run k q ops).2.1 N
        ∧ ((MessageQueue.run k q ops).2.1.contents, (MessageQueue.run k q ops).2.2)
            = dequeRun N q.contents ops := by
  intro ops
  induction ops with
  | nil =>
    intro k q hi hst hsc hinv _
    exact ⟨hi, hst, hsc, hinv, rfl⟩
  | cons op rest ih =>
    intro k q hi hst hsc hinv hp
    obtain ⟨s1, s2, s3, _, s5, s6⟩ := MessageQueue_step N hN k q op hi hst hsc hinv hp.1
    obtain ⟨r1, r2, r3, r4, r5⟩ := ih _ _ s1 s2 s3 s5 hp.2
    refine ⟨r1, r2, r3, r4, ?_⟩
    have e1 : (dequeStep N q.contents op).1 = (MessageQueue.call k q op).1 := by rw [← s6]
    have e2 : (dequeStep N q.contents op).2.1 = (MessageQueue.call k q op).2.2.2 := by rw [← s6]
    have e3 : (dequeStep N q.contents op).2.2 = (MessageQueue.call k q op).2.2.1.contents := by
      rw [← s6]
    show ((MessageQueue.run _ _ rest).2.1.contents,
        ((MessageQueue.call k q op).1, (MessageQueue.call k q op).2.2.2)
          :: (MessageQueue.run _ _ rest).2.2)
      = ((dequeRun N (dequeStep N q.contents op).2.2 rest).1,
        ((dequeStep N q.contents op).1, (dequeStep N q.contents op).2.1)
          :: (dequeRun N (dequeStep N q.contents op).2.2 rest).2)
    rw [e1, e2, e3, ← r5]

/-- `Peek` never writes the queue object: array, head and tail pointer stay. -/
theorem Peek_queue {T : Type} (k : Kernel) (q : MessageQueue T) (x : T) (t : Nat) :
    (MessageQueue.Peek k q x t).2.2.1 = q := by
  unfold MessageQueue.Peek MessageQueue.ProcessMessage
  simp only []
  split_ifs <;> rfl

/-- C14: the ring buffer of the message queue simulates the abstract
double-ended queue.  From the queue the constructor builds (capacity `N`, the
array of `N + 1` slots addressable: `N + 1 < 2^32`), on a started scheduler
with kernel calls allowed, for every sequence of `Push`, `PushFront`, `Pop`
and `Peek` calls none of which suspends its caller (each passes its semaphore
wait, or has timeout zero), the contents of the buffer afterwards, every
result code and every delivered message are those of the abstract queue run
on the same calls from the empty queue: `Push` appends at the back,
`PushFront` inserts at the front, `Pop` removes and returns the front element,
`Peek` returns it.  `Peek` never writes the queue object, so array, head,
tail and `Count()` are as before. -/
theorem MessageQueue_refines_deque {T : Type} (N : Nat) (hN : N + 1 < 2 ^ 32) (k : Kernel)
    (r w : Nat) (hrw : r ≠ w) (mem : Nat → T)
    (hi : k.sch.m_initialized = true) (hst : k.sch.m_started = true)
    (hsc : System.IsSysCallAllowed k = true) (ops : List (QOp T))
    (hp : MessageQueue.allPass (MessageQueue.new k r w N mem).1
      (MessageQueue.new k r w N mem).2 ops) :
    ((MessageQueue.run (MessageQueue.new k r w N mem).1
          (MessageQueue.new k r w N mem).2 ops).2.1.contents,
      (MessageQueue.run (MessageQueue.new k r w N mem).1
          (MessageQueue.new k r w N mem).2 ops).2.2) = dequeRun N [] ops
    ∧ (MessageQueue.run (MessageQueue.new k r w N mem).1
          (MessageQueue.new k r w N mem).2 ops).2.1.Count = (dequeRun N [] ops).1.length
    ∧ ∀ (k1 : Kernel) (q : MessageQueue T) (x : T) (t : Nat),
        (MessageQueue.Peek k1 q x t).2.2.1 = q := by
  obtain ⟨n1, n2, n3, n4⟩ := MessageQueue_new_Inv k r w N mem hrw hN
  have hi2 : (MessageQueue.new k r w N mem).1.sch.m_initialized = true := by rw [n3]; exact hi
  have hst2 : (MessageQueue.new k r w N mem).1.sch.m_started = true := by rw [n3]; exact hst
  have hsc2 : System.IsSysCallAllowed (MessageQueue.new k r w N mem).1 = true := by
    rw [IsSysCallAllowed_congr (congrArg System.mode n4)]; exact hsc
  obtain ⟨_, _, _, _, r5⟩ := MessageQueue_run_spec N hN ops _ _ hi2 hst2 hsc2 n1 hp
  rw [n2] at r5
  refine ⟨r5, ?_, Peek_queue⟩
  rw [← contents_length, ← r5]

theorem MessageQueue_refines_deque_witness :
    2 + 1 < 2 ^ 32 ∧ demo.sch.m_started = true
    ∧ MessageQueue.allPass demoQueue.1 demoQueue.2 wrapOps
    ∧ (MessageQueue.run demoQueue.1 demoQueue.2 wrapOps).2.1.contents = []
    ∧ (MessageQueue.run demoQueue.1 demoQueue.2 wrapOps).2.2
        = [(Result.ResultOk, 1), (Result.ResultOk, 1), (Result.ResultOk, 2),
            (Result.ResultOk, 3), (Result.ResultOk, 2), (Result.ResultOk, 2),
            (Result.ResultOk, 4), (Result.ResultOk, 3), (Result.ResultOk, 4)] := by
  have hp : MessageQueue.allPass demoQueue.1 demoQueue.2 wrapOps := by
    simp only [MessageQueue.allPass, wrapOps, MessageQueue.passes]
    decide
  have h := (MessageQueue_refines_deque 2 (by decide) demo 0 1 (by decide) (fun _ => 0)
    (by decide) (by decide) (by decide) wrapOps hp).1
  have e : dequeRun 2 ([] : List Nat) wrapOps
      = ([], [(Result.ResultOk, 1), (Result.ResultOk, 1), (Result.ResultOk, 2),
            (Result.ResultOk, 3), (Result.ResultOk, 2), (Result.ResultOk, 2),
            (Result.ResultOk, 4), (Result.ResultOk, 3), (Result.ResultOk, 4)]) := by decide
  rw [e] at h
  exact ⟨by decide, by decide, hp, congrArg Prod.fst h, congrArg Prod.snd h⟩
/-- C15: the message queue is bounded by its capacity.  For the queue the
constructor builds with `max_size = N` (the array of `N + 1` slots
addressable: `N + 1 < 2^32`), on a started scheduler with kernel calls
allowed, after every sequence of calls none of which suspends its caller:
`Count() ≤ N`, the counter of the read semaphore is `Count()` and the counter
of the write semaphore is `N - Count()`.  In such a state a `Push` with
timeout zero on a queue holding `N` messages, and a `Pop` or `Peek` with
timeout zero on an empty queue, return `ResultTimeout` and leave the queue
object (array, head, tail) as it is; and on a full queue of capacity at least
one, a `Pop` followed by two `Push` calls gives `Ok`, `Ok`, `Timeout`. -/
theorem MessageQueue_bounded {T : Type} (N : Nat) (hN : N + 1 < 2 ^ 32) (k : Kernel)
    (r w : Nat) (hrw : r ≠ w) (mem : Nat → T)
    (hi : k.sch.m_initialized = true) (hst : k.sch.m_started = true)
    (hsc : System.IsSysCallAllowed k = true) (ops : List (QOp T))
    (hp : MessageQueue.allPass (MessageQueue.new k r w N mem).1
      (MessageQueue.new k r w N mem).2 ops) :
    ∀ (K : Kernel) (q : MessageQueue T),
      K = (MessageQueue.run (MessageQueue.new k r w N mem).1
        (MessageQueue.new k r w N mem).2 ops).1
      → q = (MessageQueue.run (MessageQueue.new k r w N mem).1
        (MessageQueue.new k r w N mem).2 ops).2.1
      → q.Count ≤ N
        ∧ (K.semaphores q.m_sem_read).m_count = q.Count
        ∧ (K.semaphores q.m_sem_write).m_count = N - q.Count
        ∧ (q.Count = N → ∀ x : T,
            (MessageQueue.Push K q x 0).1 = Result.ResultTimeout
            ∧ (MessageQueue.Push K q x 0).2.2.1 = q)
        ∧ (q.Count = 0 → ∀ x : T,
            (MessageQueue.Pop K q x 0).1 = Result.ResultTimeout
            ∧ (MessageQueue.Pop K q x 0).2.2.1 = q
            ∧ (MessageQueue.Peek K q x 0).1 = Result.ResultTimeout
            ∧ (MessageQueue.Peek K q x 0).2.2.1 = q)
        ∧ (q.Count = N → 0 < N → ∀ x y z : T,
            (MessageQueue.run K q [QOp.pop x 0, QOp.push y 0, QOp.push z 0]).2.2.map Prod.fst
              = [Result.ResultOk, Result.ResultOk, Result.ResultTimeout]) := by
  intro K q hK hq
  obtain ⟨n1, n2, n3, n4⟩ := MessageQueue_new_Inv k r w N mem hrw hN
  have hi2 : (MessageQueue.new k r w N mem).1.sch.m_initialized = true := by rw [n3]; exact hi
  have hst2 : (MessageQueue.new k r w N mem).1.sch.m_started = true := by rw [n3]; exact hst
  have hsc2 : System.IsSysCallAllowed (MessageQueue.new k r w N mem).1 = true := by
    rw [IsSysCallAllowed_congr (congrArg System.mode n4)]; exact hsc
  obtain ⟨r1, r2, r3, r4, _⟩ := MessageQueue_run_spec N hN ops _ _ hi2 hst2 hsc2 n1 hp
  rw [← hK] at r1 r2 r3 r4
  rw [← hq] at r4
  have hinv := r4
  obtain ⟨i1, i2, i3, i4, i5, i6, i7, i8, i9, i10, i11⟩ := r4
  refine ⟨i5, i6, i7, ?_, ?_, ?_⟩
  · intro hfull x
    have hc : (K.semaphores q.m_sem_write).m_count = 0 := by rw [i7]; omega
    obtain ⟨a1, a2, _⟩ := ProcessMessage_fail K q q.m_sem_write q.m_sem_read x
      MessageQueue.ACTION.QA_PUSH_BACK r1 r2 r3 hc
    exact ⟨a1, a2⟩
  · intro hempty x
    have hc : (K.semaphores q.m_sem_read).m_count = 0 := by rw [i6]; exact hempty
    obtain ⟨a1, a2, _⟩ := ProcessMessage_fail K q q.m_sem_read q.m_sem_write x
      MessageQueue.ACTION.QA_POP r1 r2 r3 hc
    obtain ⟨b1, b2, _⟩ := ProcessMessage_fail K q q.m_sem_read q.m_sem_read x
      MessageQueue.ACTION.QA_PEEK r1 r2 r3 hc
    exact ⟨a1, a2, b1, b2⟩
  · intro hfull hpos x y z
    have hp3 : MessageQueue.allPass K q [QOp.pop x 0, QOp.push y 0, QOp.push z 0] :=
      ⟨Or.inl rfl, Or.inl rfl, Or.inl rfl, trivial⟩
    obtain ⟨_, _, _, _, s5⟩ := MessageQueue_run_spec N hN _ K q r1 r2 r3 hinv hp3
    have hlen := contents_length q
    rw [congrArg Prod.snd s5]
    cases hcont : q.contents with
    | nil =>
      rw [hcont] at hlen
      simp at hlen
      omega
    | cons a rest =>
      rw [hcont] at hlen
      have hl : rest.length + 1 = N := by simpa [hfull] using hlen
      have h1 : rest.length < N := by omega
      have h2 : ¬ (rest ++ [y]).length < N := by simp; omega
      simp only [dequeRun, dequeStep, if_pos h1, if_neg h2, List.map_cons, List.map_nil]

theorem MessageQueue_bounded_witness :
    2 + 1 < 2 ^ 32 ∧ demo.sch.m_started = true
    ∧ MessageQueue.allPass demoQueue.1 demoQueue.2 fillOps
    ∧ (MessageQueue.run demoQueue.1 demoQueue.2 fillOps).2.1.Count = 2
    ∧ (MessageQueue.Push (MessageQueue.run demoQueue.1 demoQueue.2 fillOps).1
        (MessageQueue.run demoQueue.1 demoQueue.2 fillOps).2.1 3 0).1 = Result.ResultTimeout
    ∧ (MessageQueue.run (MessageQueue.run demoQueue.1 demoQueue.2 fillOps).1
        (MessageQueue.run demoQueue.1 demoQueue.2 fillOps).2.1
        [QOp.pop 0 0, QOp.push 3 0, QOp.push 4 0]).2.2.map Prod.fst
        = [Result.ResultOk, Result.ResultOk, Result.ResultTimeout]
    ∧ demoQueue.2.Count = 0
    ∧ (MessageQueue.Pop demoQueue.1 demoQueue.2 0 0).1 = Result.ResultTimeout
    ∧ (MessageQueue.Peek demoQueue.1 demoQueue.2 0 0).1 = Result.ResultTimeout := by
  have hp : MessageQueue.allPass demoQueue.1 demoQueue.2 fillOps :=
    ⟨Or.inl rfl, Or.inl rfl, trivial⟩
  have hc : (MessageQueue.run demoQueue.1 demoQueue.2 fillOps).2.1.Count = 2 := by decide
  have h := MessageQueue_bounded 2 (by decide) demo 0 1 (by decide) (fun _ => 0)
    (by decide) (by decide) (by decide) fillOps hp _ _ rfl rfl
  have h0 := MessageQueue_bounded 2 (by decide) demo 0 1 (by decide) (fun _ => 0)
    (by decide) (by decide) (by decide) [] trivial _ _ rfl rfl
  have e := h0.2.2.2.2.1 (by decide) 0
  exact ⟨by decide, by decide, hp, hc, (h.2.2.2.1 hc 3).1, h.2.2.2.2.2 hc (by decide) 0 3 4,
    by decide, e.1, e.2.2.1⟩

/-- `SelectNextTask` with a current task that is still `Running`: the task
becomes `Ready` and is linked into the ready queue by priority; the front of
the queue is unlinked, becomes the current task and `Running`. -/
theorem SelectNextTask_running (k : Kernel) (c n : Nat) (rest : List Nat)
    (hcur : k.sch.m_cur_task = some c) (hrun : (k.tasks c).m_state = StateRunning)
    (hadd : SListOrd.Add (PriorPreceeding k) k.sch.m_work_tasks c = n :: rest) :
    Scheduler.SelectNextTask k
      = ((k.setTask c (fun t => { t with m_state := StateReady })).setSch
          (fun s =>
            { s with
              m_work_tasks := rest
              m_cur_task := some n
              m_relinked :=
                s.m_relinked || decide (c ∈ s.m_work_tasks ∨ c ∈ s.m_sleep_tasks) })).setTask n
            (fun t => { t with m_state := StateRunning }) := by
  have hpp : PriorPreceeding (k.setTask c (fun t => { t with m_state := StateReady }))
      = PriorPreceeding k := by
    apply PriorPreceeding_congr_priority
    intro i
    by_cases hi : i = c
    · subst hi; simp
    · simp [hi]
  unfold Scheduler.SelectNextTask
  simp only [hcur, hrun, if_true]
  have hready : ((k.setTask c (fun t => { t with m_state := StateReady })).tasks c).m_state
      = StateReady := by simp
  rw [if_pos hready]
  simp only [TaskWorkRoom.Insert, TaskWorkRoom.Fetch, TaskWorkList.Add, hpp, setTask_sch,
    setSch_sch, hadd, SList.Fetch, List.head?_cons, List.tail_cons]
  apply Kernel.ext_fields <;> simp [Kernel.setSch, Kernel.setTask, hadd]
/-- `SListOrd::Add` links the element in front of a list whose head it
precedes, and into the empty list. -/
theorem SListOrd_Add_front (P : Nat → Nat → Bool) (l : List Nat) (e : Nat)
    (h : ∀ z, l.head? = some z → P e z = true) : SListOrd.Add P l e = e :: l := by
  cases l with
  | nil => rfl
  | cons z zs =>
    unfold SListOrd.Add
    rw [if_pos (h z rfl)]

/-- Where `SListOrd::Add` with `PriorPreceeding` links a task into a list
sorted by non-increasing priority: after the tasks of priority at least its
own, in front of the tasks of lower priority. -/
theorem SListOrd_Add_prio_split (k : Kernel) (l : List Nat) (e : Nat)
    (hs : waitersOrdered k l) :
    ∃ l1 l2, l = l1 ++ l2 ∧ SListOrd.Add (PriorPreceeding k) l e = l1 ++ e :: l2
      ∧ (∀ x, x ∈ l1 → (k.tasks e).m_priority ≤ (k.tasks x).m_priority)
      ∧ (∀ x, x ∈ l2 → (k.tasks x).m_priority < (k.tasks e).m_priority) := by
  obtain ⟨l1, l2, h1, h2, h3, h4⟩ := SListOrd_Add_split (PriorPreceeding k) l e
  refine ⟨l1, l2, h1, h2, ?_, ?_⟩
  · intro x hx
    have := h3 x hx
    simpa [PriorPreceeding] using this
  · intro x hx
    cases l2 with
    | nil => simp at hx
    | cons y ys =>
      have hy : (k.tasks y).m_priority < (k.tasks e).m_priority := by
        have := h4 y rfl
        simpa [PriorPreceeding] using this
      rcases List.mem_cons.mp hx with hx | hx
      · rw [hx]; exact hy
      · have hord : waitersOrdered k (l1 ++ y :: ys) := h1 ▸ hs
        unfold waitersOrdered at hord
        have h5 := (List.pairwise_append.mp hord).2.1
        have h6 := (List.pairwise_cons.mp h5).1 x hx
        exact Nat.lt_of_le_of_lt h6 hy

/-- `SwitchContext` with a current task that is still `Running` and no
interrupt-task activation pending: the scheduler fields and the tasks
afterwards. -/
theorem SwitchContext_running (k : Kernel) (c n : Nat) (rest : List Nat)
    (hcur : k.sch.m_cur_task = some c) (hrun : (k.tasks c).m_state = StateRunning)
    (hirq : k.sch.m_irq_event = false)
    (hadd : SListOrd.Add (PriorPreceeding k) k.sch.m_work_tasks c = n :: rest) :
    (Scheduler.SwitchContext k).sch
        = { k.sch with
            m_pending_swc := false
            m_work_tasks := rest
            m_cur_task := some n
            m_relinked :=
              k.sch.m_relinked || decide (c ∈ k.sch.m_work_tasks ∨ c ∈ k.sch.m_sleep_tasks) }
    ∧ (Scheduler.SwitchContext k).tasks
        = ((k.setTask c (fun t => { t with m_state := StateReady })).setTask n
            (fun t => { t with m_state := StateRunning })).tasks := by
  have hpp : PriorPreceeding ((CriticalSection k).setSch
      (fun s => { s with m_pending_swc := false })) = PriorPreceeding k := by
    apply PriorPreceeding_congr_priority
    intro i
    simp
  have h := SelectNextTask_running
    ((CriticalSection k).setSch (fun s => { s with m_pending_swc := false })) c n rest
    (by simp [hcur]) (by simp [hrun]) (by rw [hpp]; simp [hadd])
  unfold Scheduler.SwitchContext
  simp only []
  rw [if_neg (by simp [hirq]), h]
  simp [System.SetPrivMode, Kernel.setTask, Kernel.setSch]

/-- One `SwitchContext` rotates a round-robin group by one place. -/
theorem roundRobin_step (k : Kernel) (l lower : List Nat) (h : roundRobin k l lower) :
    roundRobin (Scheduler.SwitchContext k) (l.rotate 1) lower := by
  cases l with
  | nil => exact absurd h (by simp [roundRobin])
  | cons x m =>
    obtain ⟨h1, h2, h3, h4, h5, h6, h7⟩ := h
    have hrot : (x :: m).rotate 1 = m ++ [x] := by
      rw [List.rotate_cons_succ, List.rotate_zero]
    rw [hrot]
    have hnd := List.nodup_cons.mp h3
    have hskip : SListOrd.Add (PriorPreceeding k) (m ++ lower) x
        = m ++ x :: lower := by
      rw [SListOrd_Add_skip _ _ _ _ (by
        intro y hy
        simp [PriorPreceeding, (h6 y hy).2])]
      rw [SListOrd_Add_front _ _ _ (by
        intro z hz
        have hzm : z ∈ lower := List.mem_of_mem_head? hz
        simpa [PriorPreceeding] using h7 z hzm)]
    cases m with
    | nil =>
      obtain ⟨s1, s2⟩ := SwitchContext_running k x x lower h1 h5 h4
        (by rw [h2]; simpa using hskip)
      show roundRobin _ [x] lower
      refine ⟨by rw [s1], by rw [s1]; rfl, h3, by rw [s1]; exact h4, by rw [s2]; simp,
        by intro y hy; simp at hy, ?_⟩
      intro z hz
      have := h7 z hz
      rw [s2]
      by_cases hzx : z = x
      · subst hzx
        exact absurd this (Nat.lt_irrefl _)
      · simpa [hzx] using this
    | cons y m2 =>
      obtain ⟨s1, s2⟩ := SwitchContext_running k x y (m2 ++ x :: lower) h1 h5 h4
        (by rw [h2]; simpa using hskip)
      have hxy : x ≠ y := by
        intro e
        exact hnd.1 (by rw [e]; exact List.mem_cons_self _ _)
      have hnd2 := List.nodup_cons.mp hnd.2
      have hpy := (h6 y (List.mem_cons_self _ _)).2
      have hprio : ∀ i, ((Scheduler.SwitchContext k).tasks i).m_priority
          = (k.tasks i).m_priority := by
        intro i
        rw [s2]
        by_cases hiy : i = y
        · subst hiy; simp [hxy.symm]
        · by_cases hix : i = x
          · subst hix; simp [hiy]
          · simp [hiy, hix]
      show roundRobin _ (y :: (m2 ++ [x])) lower
      refine ⟨by rw [s1], by rw [s1]; simp, ?_, by rw [s1]; exact h4, by rw [s2]; simp, ?_, ?_⟩
      · rw [List.nodup_cons]
        refine ⟨?_, ?_⟩
        · intro hmem
          rcases List.mem_append.mp hmem with hm | hm
          · exact hnd2.1 hm
          · exact hxy (List.mem_singleton.mp hm).symm
        · rw [List.nodup_append]
          refine ⟨hnd2.2, List.nodup_singleton x, ?_⟩
          intro a ha1 ha2
          rw [List.mem_singleton.mp ha2] at ha1
          exact hnd.1 (List.mem_cons_of_mem _ ha1)
      · intro a ha
        rw [hprio a, hprio y]
        rcases List.mem_append.mp ha with ha | ha
        · have hay : a ≠ y := fun e => hnd2.1 (e ▸ ha)
          have hax : a ≠ x := fun e => hnd.1 (List.mem_cons_of_mem _ (e ▸ ha))
          have := h6 a (List.mem_cons_of_mem _ ha)
          refine ⟨?_, by rw [this.2, hpy]⟩
          rw [s2]
          simpa [hay, hax] using this.1
        · have hax : a = x := List.mem_singleton.mp ha
          subst hax
          refine ⟨?_, hpy.symm⟩
          rw [s2]
          simp [hxy]
      · intro z hz
        rw [hprio z, hprio y, hpy]
        exact h7 z hz

/-- After `j` calls of `SwitchContext` a round-robin group is rotated by
`j` places. -/
theorem roundRobin_iterate (lower : List Nat) :
    ∀ (j : Nat) (k : Kernel) (l : List Nat), roundRobin k l lower
      → roundRobin (Scheduler.SwitchContext^[j] k) (l.rotate j) lower := by
  intro j
  induction j with
  | zero =>
    intro k l h
    simpa using h
  | succ j ih =>
    intro k l h
    have h1 := ih _ _ (roundRobin_step k l lower h)
    rw [List.rotate_rotate, Nat.add_comm] at h1
    exact h1

theorem roundRobin_cur (k : Kernel) (l lower : List Nat) (h : roundRobin k l lower) :
    k.sch.m_cur_task = l.head? ∧ l ≠ [] := by
  cases l with
  | nil => exact absurd h (by simp [roundRobin])
  | cons x m => exact ⟨h.1, by simp⟩
/-- C21: task selection at a context switch.  (1) With a current task `c`
still `Running` and a ready queue sorted by non-increasing priority,
`SelectNextTask` links `c` after the ready tasks of priority at least its own
and in front of those of lower priority, unlinks the front `n` of the
resulting queue and makes it the current task with state `Running`; `c` is
`Ready` unless it is selected again; the priority of `n` is at least that of
every task left in the queue, which stays sorted.  (2) Round robin: when the
current task and the front tasks of the ready queue form a group `l` of equal
priority above the rest of the queue, `j` consecutive `SwitchContext` calls
rotate the group by `j` places, so the `j`-th call makes `l[j mod |l|]` the
current task: each task of the group runs once per `|l|` calls, in queue
order. -/
theorem SelectNextTask_round_robin :
    (∀ (k : Kernel) (c : Nat), k.sch.m_cur_task = some c
      → (k.tasks c).m_state = StateRunning → waitersOrdered k k.sch.m_work_tasks
      → ∃ l1 l2 n rest, k.sch.m_work_tasks = l1 ++ l2
          ∧ (∀ a ∈ l1, (k.tasks c).m_priority ≤ (k.tasks a).m_priority)
          ∧ (∀ b ∈ l2, (k.tasks b).m_priority < (k.tasks c).m_priority)
          ∧ l1 ++ c :: l2 = n :: rest
          ∧ (Scheduler.SelectNextTask k).sch.m_cur_task = some n
          ∧ (Scheduler.SelectNextTask k).sch.m_work_tasks = rest
          ∧ ((Scheduler.SelectNextTask k).tasks n).m_state = StateRunning
          ∧ (n ≠ c → ((Scheduler.SelectNextTask k).tasks c).m_state = StateReady)
          ∧ (∀ a ∈ rest, ((Scheduler.SelectNextTask k).tasks a).m_priority
              ≤ ((Scheduler.SelectNextTask k).tasks n).m_priority)
          ∧ waitersOrdered (Scheduler.SelectNextTask k) rest)
    ∧ (∀ (k : Kernel) (l lower : List Nat), roundRobin k l lower
      → ∀ j : Nat, roundRobin (Scheduler.SwitchContext^[j] k) (l.rotate j) lower
          ∧ (Scheduler.SwitchContext^[j] k).sch.m_cur_task = l[j % l.length]?) := by
  refine ⟨?_, ?_⟩
  · intro k c hcur hrun hs
    obtain ⟨l1, l2, h1, h2, h3, h4⟩ := SListOrd_Add_prio_split k k.sch.m_work_tasks c hs
    have hord := SListOrd_Add_ordered k k.sch.m_work_tasks c hs
    rw [h2] at hord
    obtain ⟨n, rest, hn⟩ : ∃ n rest, l1 ++ c :: l2 = n :: rest := by
      cases l1 with
      | nil => exact ⟨c, l2, rfl⟩
      | cons a l1b => exact ⟨a, l1b ++ c :: l2, rfl⟩
    have heq := SelectNextTask_running k c n rest hcur hrun (by rw [h2, hn])
    have hprio : ∀ i, ((Scheduler.SelectNextTask k).tasks i).m_priority
        = (k.tasks i).m_priority := by
      intro i
      rw [heq]
      by_cases hin : i = n
      · subst hin
        by_cases hic : i = c
        · subst hic; simp
        · simp [hic]
      · by_cases hic : i = c
        · subst hic; simp [hin]
        · simp [hin, hic]
    rw [hn] at hord
    have hord2 := List.pairwise_cons.mp hord
    refine ⟨l1, l2, n, rest, h1, h3, h4, hn, by rw [heq]; rfl, by rw [heq]; rfl,
      by rw [heq]; simp, ?_, ?_, ?_⟩
    · intro hne
      rw [heq]
      simp [hne.symm]
    · intro a ha
      rw [hprio a, hprio n]
      exact hord2.1 a ha
    · exact (waitersOrdered_congr _ k rest hprio).mpr hord2.2
  · intro k l lower h j
    have hj := roundRobin_iterate lower j k l h
    obtain ⟨c1, _⟩ := roundRobin_cur _ _ _ hj
    obtain ⟨_, c3⟩ := roundRobin_cur _ _ _ h
    refine ⟨hj, ?_⟩
    rw [c1, ← List.rotate_mod]
    exact List.head?_rotate (Nat.mod_lt _ (List.length_pos.mpr c3))

theorem SelectNextTask_round_robin_witness :
    waitersOrdered demoPeers demoPeers.sch.m_work_tasks
    ∧ roundRobin demoPeers [2, 1, 3] [0]
    ∧ (Scheduler.SelectNextTask demoPeers).sch.m_cur_task = some 1
    ∧ (Scheduler.SelectNextTask demoPeers).sch.m_work_tasks = [3, 2, 0]
    ∧ (Scheduler.SwitchContext^[1] demoPeers).sch.m_cur_task = some 1
    ∧ (Scheduler.SwitchContext^[2] demoPeers).sch.m_cur_task = some 3
    ∧ (Scheduler.SwitchContext^[3] demoPeers).sch.m_cur_task = some 2
    ∧ ∃ l1 l2 n rest, demoPeers.sch.m_work_tasks = l1 ++ l2
        ∧ l1 ++ 2 :: l2 = n :: rest
        ∧ (Scheduler.SelectNextTask demoPeers).sch.m_cur_task = some n
        ∧ (Scheduler.SelectNextTask demoPeers).sch.m_work_tasks = rest := by
  have hs : waitersOrdered demoPeers demoPeers.sch.m_work_tasks := by
    unfold waitersOrdered; decide
  have hr : roundRobin demoPeers [2, 1, 3] [0] := by
    unfold roundRobin; decide
  have h := SelectNextTask_round_robin
  obtain ⟨l1, l2, n, rest, a1, _, _, a4, a5, a6, _⟩ := h.1 demoPeers 2 rfl rfl hs
  exact ⟨hs, hr, by decide, by decide, (h.2 demoPeers _ _ hr 1).2, (h.2 demoPeers _ _ hr 2).2,
    (h.2 demoPeers _ _ hr 3).2, l1, l2, n, rest, a1, a4, a5, a6⟩

/-- C22: deleting a ready task whose priority is raised through a mutex it
owns leaves the task in the ready queue.  In the state after `boostedOps`
task 3 runs and task 2 is ready, owns mutex 0 and has the priority 20 of the
waiter, task 1.  `Scheduler::DeleteTask` of task 2 returns `Ok` and task 2 ends
`Inactive` with an empty owned list and no mutex owned, but it stands in the
ready queue again: `DeleteTask_Priv` unlinks it, then `Mutex::UnlockInternal`
restores its priority through `IntSetTaskPriority_Priv`, which links a `Ready`
task into the ready queue.  Two context switches later the deleted task is the
current task.  The mutex is handed to task 1 with lock count 0. -/
theorem DeleteTask_requeues_boosted_owner :
    (run demo boostedOps).sch.m_cur_task = some 3
    ∧ (run demo boostedOps).sch.m_work_tasks = [2, 0]
    ∧ ((run demo boostedOps).tasks 2).m_state = StateReady
    ∧ ((run demo boostedOps).tasks 2).m_priority = 20
    ∧ ((run demo boostedOps).tasks 2).m_owned_obj_list = [0]
    ∧ ((run demo boostedOps).mutexes 0).m_owner = some 2
    ∧ ((run demo boostedOps).mutexes 0).m_blocked_task_list = [1]
    ∧ (Scheduler.DeleteTask (run demo boostedOps) (some 2)).1 = Result.ResultOk
    ∧ ((Scheduler.DeleteTask (run demo boostedOps) (some 2)).2.tasks 2).m_state = StateInactive
    ∧ ((Scheduler.DeleteTask (run demo boostedOps) (some 2)).2.tasks 2).m_owned_obj_list = ([] : List Nat)
    ∧ (Scheduler.DeleteTask (run demo boostedOps) (some 2)).2.sch.m_work_tasks = [1, 2, 0]
    ∧ ((Scheduler.DeleteTask (run demo boostedOps) (some 2)).2.mutexes 0).m_owner = some 1
    ∧ ((Scheduler.DeleteTask (run demo boostedOps) (some 2)).2.mutexes 0).m_lock_cnt = 0
    ∧ (run (Scheduler.DeleteTask (run demo boostedOps) (some 2)).2
        [Op.delay INFINITE_TIMEOUT, Op.delay INFINITE_TIMEOUT]).sch.m_cur_task = some 2
    ∧ ((run (Scheduler.DeleteTask (run demo boostedOps) (some 2)).2
        [Op.delay INFINITE_TIMEOUT, Op.delay INFINITE_TIMEOUT]).tasks 2).m_state
        = StateRunning := by
  decide

/-! ## Timed wake-ups and the sync objects -/

theorem waiters_setTask (k : Kernel) (t : Nat) (f : Task → Task) (s : SyncRef) :
    (k.setTask t f).waiters s = k.waiters s := by
  cases s <;> rfl

theorem waiters_setSch (k : Kernel) (f : Scheduler → Scheduler) (s : SyncRef) :
    (k.setSch f).waiters s = k.waiters s := by
  cases s <;> rfl

theorem waiters_setWaiters (k : Kernel) (s s2 : SyncRef) (l : List Nat) :
    (k.setWaiters s l).waiters s2 = if s2 = s then l else k.waiters s2 := by
  cases s <;> cases s2 <;>
    simp [Kernel.setWaiters, Kernel.waiters, Kernel.setMutex, Kernel.setSemaphore,
      Kernel.setEvent] <;>
    split <;> simp_all

theorem waiters_congr {a b : Kernel} (h1 : a.mutexes = b.mutexes)
    (h2 : a.semaphores = b.semaphores) (h3 : a.events = b.events) (s : SyncRef) :
    a.waiters s = b.waiters s := by
  cases s <;> simp [Kernel.waiters, h1, h2, h3]

/-- An internal priority change keeps every task of the ready queue in it. -/
theorem IntSetTaskPriority_internal_work (k : Kernel) (t p : Nat) (i : Nat)
    (hi : i ∈ k.sch.m_work_tasks) :
    i ∈ (IntSetTaskPriority_Priv k t p true).2.sch.m_work_tasks := by
  unfold IntSetTaskPriority_Priv
  simp only [CriticalSection_tasks]
  by_cases h1 : (k.tasks t).m_state = StateInactive
  · simpa [h1] using hi
  · by_cases h2 : (k.tasks t).m_priority = p
    · simpa [h1, h2] using hi
    · simp only [h1, h2, if_false, Bool.true_eq_false, if_true]
      have hy : ∀ K : Kernel, i ∈ K.sch.m_work_tasks →
          i ∈ (if K.sch.m_use_preemption = true then Scheduler.Yield K else K).sch.m_work_tasks := by
        intro K hK
        split
        · rw [Yield_work]; exact hK
        · exact hK
      apply hy
      split
      · simp only [TaskWorkRoom.Insert, TaskWorkRoom.Remove, TaskWorkList.Add, setSch_sch,
          SList.Del, setTask_sch, CriticalSection_sch]
        rw [mem_SListOrd_Add]
        by_cases hit : i = t
        · exact Or.inl hit
        · exact Or.inr ((List.mem_erase_of_ne hit).mpr hi)
      · simpa using hi

/-- What `Mutex::UpdateOwnerPriority` leaves alone: the sync objects, the
unblock functors, the current task, and the membership of the ready queue. -/
theorem UpdateOwnerPriority_sync (k : Kernel) (m : Nat) :
    (Mutex.UpdateOwnerPriority k m).mutexes = k.mutexes
    ∧ (Mutex.UpdateOwnerPriority k m).semaphores = k.semaphores
    ∧ (Mutex.UpdateOwnerPriority k m).events = k.events
    ∧ (∀ i, ((Mutex.UpdateOwnerPriority k m).tasks i).m_unblock_func
        = (k.tasks i).m_unblock_func)
    ∧ (∀ i, i ∈ k.sch.m_work_tasks → i ∈ (Mutex.UpdateOwnerPriority k m).sch.m_work_tasks)
    ∧ (Mutex.UpdateOwnerPriority k m).sch.m_cur_task = k.sch.m_cur_task := by
  cases hown : (k.mutexes m).m_owner with
  | none =>
    have : Mutex.UpdateOwnerPriority k m = k := by
      unfold Mutex.UpdateOwnerPriority
      rw [hown]
    rw [this]
    exact ⟨rfl, rfl, rfl, fun _ => rfl, fun _ h => h, rfl⟩
  | some o =>
    obtain ⟨a1, a2, a3, a4, _, a6, _⟩ := UpdateOwnerPriority_frame k m o hown
    refine ⟨a2, a3, a4, ?_, ?_, a6⟩
    · intro i
      rw [a1]
      simp only []
      split
      · rename_i h
        rw [h.1]
      · rfl
    · intro i hi
      unfold Mutex.UpdateOwnerPriority
      rw [hown]
      simp only []
      split
      · exact IntSetTaskPriority_internal_work k o _ i hi
      · exact hi

/-- The callback of a timed wake: the task leaves the waiter list of the
object it waited on; owners, lock counts, the other waiter lists, the other
tasks' functors and the current task stay, and no task leaves the ready
queue. -/
theorem OnUnblockTask_timeout_sync (k : Kernel) (f : SyncRef) (x : Nat) :
    (∀ m, ((UnblockFunctor.OnUnblockTask k f x UnblockReasonTimeout).mutexes m).m_owner
          = (k.mutexes m).m_owner
        ∧ ((UnblockFunctor.OnUnblockTask k f x UnblockReasonTimeout).mutexes m).m_lock_cnt
          = (k.mutexes m).m_lock_cnt)
    ∧ (∀ s, (UnblockFunctor.OnUnblockTask k f x UnblockReasonTimeout).waiters s
        = if s = f then (k.waiters s).erase x else k.waiters s)
    ∧ (∀ i, i ≠ x → ((UnblockFunctor.OnUnblockTask k f x UnblockReasonTimeout).tasks i).m_unblock_func
        = (k.tasks i).m_unblock_func)
    ∧ (∀ i, i ∈ k.sch.m_work_tasks
        → i ∈ (UnblockFunctor.OnUnblockTask k f x UnblockReasonTimeout).sch.m_work_tasks)
    ∧ (UnblockFunctor.OnUnblockTask k f x UnblockReasonTimeout).sch.m_cur_task
        = k.sch.m_cur_task := by
  cases f with
  | mutex m =>
    simp only [UnblockFunctor.OnUnblockTask, Mutex.OnUnblockTask, if_true]
    obtain ⟨a1, a2, a3, a4, a5, a6⟩ := UpdateOwnerPriority_sync
      (k.setMutex m (fun x1 => { x1 with m_blocked_task_list := SList.Del x1.m_blocked_task_list x })) m
    refine ⟨?_, ?_, ?_, ?_, ?_⟩
    · intro m2
      rw [a1]
      by_cases h : m2 = m
      · subst h; simp
      · simp [h]
    · intro s
      rw [waiters_congr a1 a2 a3 s]
      have := waiters_setWaiters k (SyncRef.mutex m) s (SList.Del (k.waiters (SyncRef.mutex m)) x)
      simp only [Kernel.setWaiters, Kernel.waiters] at this
      simp only [Kernel.waiters] at this ⊢
      cases s with
      | mutex m2 =>
        by_cases h : m2 = m
        · subst h; simp [SList.Del]
        · simp [h, SList.Del]
      | semaphore s2 => simp
      | event e2 => simp
    · intro i _
      rw [a4]
      rfl
    · intro i hi
      exact a5 i hi
    · rw [a6]
      rfl
  | semaphore s0 =>
    simp only [UnblockFunctor.OnUnblockTask, SyncObject.OnUnblockTask, if_true,
      Task.DropBlockSync]
    refine ⟨fun m => ⟨rfl, rfl⟩, ?_, ?_, fun i hi => hi, rfl⟩
    · intro s
      rw [waiters_setTask, waiters_setWaiters]
      by_cases h : s = SyncRef.semaphore s0
      · subst h; simp [SList.Del]
      · simp [h]
    · intro i hi
      simp [hi, Kernel.setWaiters]
  | event e0 =>
    simp only [UnblockFunctor.OnUnblockTask, SyncObject.OnUnblockTask, if_true,
      Task.DropBlockSync]
    refine ⟨fun m => ⟨rfl, rfl⟩, ?_, ?_, fun i hi => hi, rfl⟩
    · intro s
      rw [waiters_setTask, waiters_setWaiters]
      by_cases h : s = SyncRef.event e0
      · subst h; simp [SList.Del]
      · simp [h]
    · intro i hi
      simp [hi, Kernel.setWaiters]
/-- `UnblockTaskInternal` with reason `Timeout`, seen from the sync objects:
owners and lock counts stay; a blocked task leaves the waiter list of the
object it waited on and its functor is cleared; the other waiter lists and
functors stay; no task leaves the ready queue, and the woken task is linked
into it unless it is the current task. -/
theorem UnblockTaskInternal_timeout_sync (k : Kernel) (x : Nat) :
    (∀ m, ((Scheduler.UnblockTaskInternal k x UnblockReasonTimeout).2.mutexes m).m_owner
          = (k.mutexes m).m_owner
        ∧ ((Scheduler.UnblockTaskInternal k x UnblockReasonTimeout).2.mutexes m).m_lock_cnt
          = (k.mutexes m).m_lock_cnt)
    ∧ (∀ s, (Scheduler.UnblockTaskInternal k x UnblockReasonTimeout).2.waiters s
        = if (k.tasks x).m_state = StateBlocked ∧ (k.tasks x).m_unblock_func = some s then
            (k.waiters s).erase x
          else k.waiters s)
    ∧ (∀ i, ((Scheduler.UnblockTaskInternal k x UnblockReasonTimeout).2.tasks i).m_unblock_func
        = if i = x ∧ (k.tasks x).m_state = StateBlocked then none
          else (k.tasks i).m_unblock_func)
    ∧ (∀ i, i ∈ k.sch.m_work_tasks
        → i ∈ (Scheduler.UnblockTaskInternal k x UnblockReasonTimeout).2.sch.m_work_tasks)
    ∧ ((k.tasks x).m_state = StateBlocked → some x ≠ k.sch.m_cur_task
        → x ∈ (Scheduler.UnblockTaskInternal k x UnblockReasonTimeout).2.sch.m_work_tasks)
    ∧ (Scheduler.UnblockTaskInternal k x UnblockReasonTimeout).2.sch.m_cur_task
        = k.sch.m_cur_task := by
  by_cases hb : (k.tasks x).m_state = StateBlocked
  · -- the state before the callback
    have hk2 : ∀ K : Kernel,
        K = (if some x ≠ k.sch.m_cur_task then
              TaskWorkRoom.Insert (k.setTask x (fun t =>
                { t with m_unblock_reason := UnblockReasonTimeout, m_state := StateReady })) x
            else k.setTask x (fun t =>
                { t with m_unblock_reason := UnblockReasonTimeout, m_state := StateReady })) →
        K.mutexes = k.mutexes ∧ K.semaphores = k.semaphores ∧ K.events = k.events
        ∧ (∀ i, (K.tasks i).m_unblock_func = (k.tasks i).m_unblock_func)
        ∧ (∀ i, i ∈ k.sch.m_work_tasks → i ∈ K.sch.m_work_tasks)
        ∧ (some x ≠ k.sch.m_cur_task → x ∈ K.sch.m_work_tasks)
        ∧ K.sch.m_cur_task = k.sch.m_cur_task := by
      intro K hK
      have hf : ∀ i, ((k.setTask x (fun t =>
          { t with m_unblock_reason := UnblockReasonTimeout, m_state := StateReady })).tasks
            i).m_unblock_func = (k.tasks i).m_unblock_func := by
        intro i
        by_cases hi : i = x
        · subst hi; simp
        · simp [hi]
      by_cases hc : some x ≠ k.sch.m_cur_task
      · rw [if_pos hc] at hK
        rw [hK]
        refine ⟨rfl, rfl, rfl, hf, ?_, ?_, rfl⟩
        · intro i hi
          simp only [TaskWorkRoom.Insert, TaskWorkList.Add, setSch_sch, setTask_sch]
          exact (mem_SListOrd_Add _ _ _ _).mpr (Or.inr hi)
        · intro _
          simp only [TaskWorkRoom.Insert, TaskWorkList.Add, setSch_sch, setTask_sch]
          exact (mem_SListOrd_Add _ _ _ _).mpr (Or.inl rfl)
      · rw [if_neg hc] at hK
        rw [hK]
        exact ⟨rfl, rfl, rfl, hf, fun i hi => hi, fun h => absurd h hc, rfl⟩
    obtain ⟨b1, b2, b3, b4, b5, b6, b7⟩ := hk2 _ rfl
    unfold Scheduler.UnblockTaskInternal
    simp only [hb, ne_eq, not_true_eq_false, if_false, setTask_sch, true_and]
    cases hfun : (k.tasks x).m_unblock_func with
    | none =>
      have hfun2 := (b4 x).trans hfun
      simp only [ne_eq] at hfun2
      rw [hfun2]
      simp only []
      refine ⟨fun m => by rw [b1]; exact ⟨rfl, rfl⟩, ?_, ?_, b5, ?_, b7⟩
      · intro s
        rw [waiters_congr b1 b2 b3 s]
        simp
      · intro i
        rw [b4 i]
        by_cases hi : i = x
        · subst hi; simp [hfun]
        · simp [hi]
      · intro _ hc
        exact b6 hc
    | some f =>
      have hfun2 := (b4 x).trans hfun
      simp only [ne_eq] at hfun2
      rw [hfun2]
      simp only []
      obtain ⟨c1, c2, c3, c4, c5⟩ := OnUnblockTask_timeout_sync
        (if ¬ some x = k.sch.m_cur_task then
            TaskWorkRoom.Insert (k.setTask x (fun t =>
              { t with m_unblock_reason := UnblockReasonTimeout, m_state := StateReady })) x
          else k.setTask x (fun t =>
              { t with m_unblock_reason := UnblockReasonTimeout, m_state := StateReady })) f x
      refine ⟨?_, ?_, ?_, ?_, ?_, ?_⟩
      · intro m
        have := c1 m
        rw [b1] at this
        exact this
      · intro s
        rw [waiters_setTask, c2 s, waiters_congr b1 b2 b3 s]
        by_cases hs : s = f
        · subst hs; simp
        · have : ¬ some f = some s := fun h => hs (Option.some.inj h).symm
          simp [hs, this]
      · intro i
        by_cases hi : i = x
        · subst hi; simp
        · simp only [setTask_tasks, if_neg hi, hi, false_and, if_false]
          rw [c3 i hi, b4 i]
      · intro i hi
        exact c4 i (b5 i hi)
      · intro _ hc
        exact c4 x (b6 hc)
      · simp only [setTask_sch]
        rw [c5, b7]
  · have hK : (Scheduler.UnblockTaskInternal k x UnblockReasonTimeout).2 = k := by
      unfold Scheduler.UnblockTaskInternal
      simp [hb]
    rw [hK]
    refine ⟨fun m => ⟨rfl, rfl⟩, ?_, ?_, fun i hi => hi, fun h => absurd h hb, rfl⟩
    · intro s
      simp [hb]
    · intro i
      simp [hb]
/-- The loop of the tick handler, seen from the sync objects.  On a sleep
queue in wake-up order whose tasks are blocked: owners and lock counts stay;
every waiter list keeps its order and loses only tasks the loop wakes from
that object; a woken task is in no waiter list of the object it waited on
(when that list held it once), has no functor, and is in the ready queue
unless it is the current task. -/
theorem wakeExpired_sync (l : List Nat) :
    ∀ (k : Kernel) (fuel : Nat), k.sch.m_sleep_tasks = l → l.length ≤ fuel → l.Nodup →
      sleepOrdered k l → (∀ t, t ∈ l → (k.tasks t).m_state = StateBlocked) →
      (∀ m, ((Scheduler.wakeExpired fuel k).mutexes m).m_owner = (k.mutexes m).m_owner
          ∧ ((Scheduler.wakeExpired fuel k).mutexes m).m_lock_cnt = (k.mutexes m).m_lock_cnt)
      ∧ (∀ s, ((Scheduler.wakeExpired fuel k).waiters s).Sublist (k.waiters s))
      ∧ (∀ s x, x ∈ k.waiters s
          → ¬ (x ∈ l ∧ (k.tasks x).m_dream_ticks = 0 ∧ (k.tasks x).m_unblock_func = some s)
          → x ∈ (Scheduler.wakeExpired fuel k).waiters s)
      ∧ (∀ s T, T ∈ l → (k.tasks T).m_dream_ticks = 0 → (k.tasks T).m_unblock_func = some s
          → (k.waiters s).Nodup → T ∉ (Scheduler.wakeExpired fuel k).waiters s)
      ∧ (∀ T, T ∈ l → (k.tasks T).m_dream_ticks = 0
          → ((Scheduler.wakeExpired fuel k).tasks T).m_unblock_func = none)
      ∧ (∀ i, i ∈ k.sch.m_work_tasks → i ∈ (Scheduler.wakeExpired fuel k).sch.m_work_tasks)
      ∧ (∀ T, T ∈ l → (k.tasks T).m_dream_ticks = 0 → some T ≠ k.sch.m_cur_task
          → T ∈ (Scheduler.wakeExpired fuel k).sch.m_work_tasks)
      ∧ (Scheduler.wakeExpired fuel k).sch.m_cur_task = k.sch.m_cur_task := by
  induction l with
  | nil =>
    intro k fuel hl _ _ _ _
    have hR : Scheduler.wakeExpired fuel k = k := by
      cases fuel with
      | zero => rfl
      | succ f => simp [Scheduler.wakeExpired, TaskSleepRoom.Fetch, hl]
    rw [hR]
    exact ⟨fun m => ⟨rfl, rfl⟩, fun s => List.Sublist.refl _, fun s x hx _ => hx,
      fun s T hT => absurd hT (List.not_mem_nil _), fun T hT => absurd hT (List.not_mem_nil _),
      fun i hi => hi, fun T hT => absurd hT (List.not_mem_nil _), rfl⟩
  | cons x xs ih =>
    intro k fuel hl hlen hnd hord hb
    cases fuel with
    | zero => simp at hlen
    | succ f =>
      rw [List.nodup_cons] at hnd
      by_cases hx : (k.tasks x).m_dream_ticks = 0
      · have hF : TaskSleepRoom.Fetch k
            = (some x, k.setSch (fun s => { s with m_sleep_tasks := xs })) := by
          simp [TaskSleepRoom.Fetch, hl, hx]
        have hR : Scheduler.wakeExpired (f + 1) k
            = Scheduler.wakeExpired f (Scheduler.UnblockTaskInternal
                (k.setSch (fun s => { s with m_sleep_tasks := xs })) x
                UnblockReasonTimeout).2 := by
          show (match TaskSleepRoom.Fetch k with
            | (none, _) => k
            | (some awake_task, k1) =>
              Scheduler.wakeExpired f
                (Scheduler.UnblockTaskInternal k1 awake_task UnblockReasonTimeout).2) = _
          rw [hF]
        have hxb : ((k.setSch (fun s => { s with m_sleep_tasks := xs })).tasks x).m_state
            = StateBlocked := hb x (List.mem_cons_self _ _)
        obtain ⟨u1, u2, u3, _⟩ := UnblockTaskInternal_timing
          (k.setSch (fun s => { s with m_sleep_tasks := xs })) x UnblockReasonTimeout
        have u3 := u3 hxb
        have hdream : ∀ i, ((Scheduler.UnblockTaskInternal
            (k.setSch (fun s => { s with m_sleep_tasks := xs })) x
            UnblockReasonTimeout).2.tasks i).m_dream_ticks = (k.tasks i).m_dream_ticks := by
          intro i
          by_cases hi : i = x
          · subst hi
            have := u3
            simp only [Task.timing, Prod.mk.injEq] at this
            exact this.2.1
          · have := u2 i hi
            simp only [Task.timing, Prod.mk.injEq] at this
            exact this.2.1
        have hord2 : sleepOrdered (Scheduler.UnblockTaskInternal
            (k.setSch (fun s => { s with m_sleep_tasks := xs })) x
            UnblockReasonTimeout).2 xs := by
          rw [sleepOrdered_congr _ k xs hdream]
          unfold sleepOrdered at hord ⊢
          exact (List.pairwise_cons.mp hord).2
        obtain ⟨r1, r2, r3, r4, r5, r6, r7, r8⟩ := ih _ f (by rw [u1]; rfl) (by simpa using hlen)
          hnd.2 hord2
          (by
            intro t ht
            have hne : t ≠ x := fun e => hnd.1 (e ▸ ht)
            have := u2 t hne
            simp only [Task.timing, Prod.mk.injEq] at this
            rw [this.1]
            exact hb t (List.mem_cons_of_mem _ ht))
        obtain ⟨v1, v2, v3, v4, v5, v6⟩ := UnblockTaskInternal_timeout_sync
          (k.setSch (fun s => { s with m_sleep_tasks := xs })) x
        simp only [setSch_tasks, setSch_mutexes, waiters_setSch, setSch_sch] at v1 v2 v3 v4 v5 v6
        have hxb2 : (k.tasks x).m_state = StateBlocked := hb x (List.mem_cons_self _ _)
        simp only [hxb2, true_and, and_true] at v2 v3
        rw [hR]
        simp only [hdream] at r3 r4 r5 r7
        refine ⟨?_, ?_, ?_, ?_, ?_, ?_, ?_, ?_⟩
        · intro m
          exact ⟨(r1 m).1.trans (v1 m).1, (r1 m).2.trans (v1 m).2⟩
        · intro s
          refine (r2 s).trans ?_
          rw [v2 s]
          split
          · exact List.erase_sublist _ _
          · exact List.Sublist.refl _
        · intro s y hy hn
          apply r3 s y
          · rw [v2 s]
            split
            · rename_i hfs
              have hyx : y ≠ x := by
                intro e
                apply hn
                rw [e]
                exact ⟨List.mem_cons_self _ _, hx, hfs⟩
              exact (List.mem_erase_of_ne hyx).mpr hy
            · exact hy
          · rintro ⟨h1, h2, h3⟩
            have hyx : y ≠ x := fun e => hnd.1 (e ▸ h1)
            rw [v3 y, if_neg hyx] at h3
            exact hn ⟨List.mem_cons_of_mem _ h1, h2, h3⟩
        · intro s T hT hd hfT hnodup
          rcases List.mem_cons.mp hT with hT | hT
          · subst hT
            intro hmem
            have := (r2 s).subset hmem
            rw [v2 s, if_pos hfT] at this
            exact (List.Nodup.not_mem_erase hnodup) this
          · have hTx : T ≠ x := fun e => hnd.1 (e ▸ hT)
            apply r4 s T hT hd
            · rw [v3 T, if_neg hTx]
              exact hfT
            · rw [v2 s]
              split
              · exact hnodup.sublist (List.erase_sublist _ _)
              · exact hnodup
        · intro T hT hd
          rcases List.mem_cons.mp hT with hT | hT
          · subst hT
            -- the later rounds wake other tasks only
            have hkeep : ∀ (n : Nat) (K : Kernel), T ∉ K.sch.m_sleep_tasks →
                ((Scheduler.wakeExpired n K).tasks T).m_unblock_func
                  = (K.tasks T).m_unblock_func := by
              intro n
              induction n with
              | zero => intro K _; rfl
              | succ n ihn =>
                intro K hK
                cases hq : K.sch.m_sleep_tasks with
                | nil => simp [Scheduler.wakeExpired, TaskSleepRoom.Fetch, hq]
                | cons y ys =>
                  have hyT : T ≠ y := by
                    intro e
                    apply hK
                    rw [hq, e]
                    exact List.mem_cons_self _ _
                  by_cases hy : (K.tasks y).m_dream_ticks = 0
                  · have hFy : TaskSleepRoom.Fetch K
                        = (some y, K.setSch (fun s => { s with m_sleep_tasks := ys })) := by
                      simp [TaskSleepRoom.Fetch, hq, hy]
                    have hRy : Scheduler.wakeExpired (n + 1) K
                        = Scheduler.wakeExpired n (Scheduler.UnblockTaskInternal
                            (K.setSch (fun s => { s with m_sleep_tasks := ys })) y
                            UnblockReasonTimeout).2 := by
                      show (match TaskSleepRoom.Fetch K with
                        | (none, _) => K
                        | (some awake_task, k1) =>
                          Scheduler.wakeExpired n
                            (Scheduler.UnblockTaskInternal k1 awake_task
                              UnblockReasonTimeout).2) = _
                      rw [hFy]
                    rw [hRy, ihn]
                    · have := (UnblockTaskInternal_timeout_sync
                        (K.setSch (fun s => { s with m_sleep_tasks := ys })) y).2.2.1 T
                      rw [this, if_neg (fun h => hyT h.1)]
                      rfl
                    · rw [(UnblockTaskInternal_timing _ y UnblockReasonTimeout).1]
                      intro hm
                      apply hK
                      rw [hq]
                      exact List.mem_cons_of_mem _ hm
                  · have hFy : TaskSleepRoom.Fetch K = (none, K) := by
                      simp [TaskSleepRoom.Fetch, hq, hy]
                    have hRy : Scheduler.wakeExpired (n + 1) K = K := by
                      show (match TaskSleepRoom.Fetch K with
                        | (none, _) => K
                        | (some awake_task, k1) =>
                          Scheduler.wakeExpired n
                            (Scheduler.UnblockTaskInternal k1 awake_task
                              UnblockReasonTimeout).2) = _
                      rw [hFy]
                    rw [hRy]
            rw [hkeep f _ (by rw [u1]; exact hnd.1), v3 T]
            simp
          · exact r5 T hT hd
        · intro i hi
          exact r6 i (v4 i hi)
        · intro T hT hd hc
          rcases List.mem_cons.mp hT with hT | hT
          · subst hT
            exact r6 T (v5 hxb2 hc)
          · apply r7 T hT hd
            rw [v6]
            exact hc
        · rw [r8, v6]
      · have hF : TaskSleepRoom.Fetch k = (none, k) := by
          simp [TaskSleepRoom.Fetch, hl, hx]
        have hR : Scheduler.wakeExpired (f + 1) k = k := by
          show (match TaskSleepRoom.Fetch k with
            | (none, _) => k
            | (some awake_task, k1) =>
              Scheduler.wakeExpired f
                (Scheduler.UnblockTaskInternal k1 awake_task UnblockReasonTimeout).2) = _
          rw [hF]
        have hall : ∀ t, t ∈ x :: xs → (k.tasks t).m_dream_ticks ≠ 0 := by
          intro t ht
          rcases List.mem_cons.mp ht with ht | ht
          · rw [ht]; exact hx
          · unfold sleepOrdered at hord
            have := (List.pairwise_cons.mp hord).1 t ht
            omega
        rw [hR]
        exact ⟨fun m => ⟨rfl, rfl⟩, fun s => List.Sublist.refl _, fun s y hy _ => hy,
          fun s T hT hd => absurd hd (hall T hT), fun T hT hd => absurd hd (hall T hT),
          fun i hi => hi, fun T hT hd => absurd hd (hall T hT), rfl⟩
/-- The tick handler on a started scheduler with a well-formed sleep queue,
as the loop over the expired sleepers run in the state `kT` in which the
counters are decremented. -/
theorem SysTickHandler_as_loop (k : Kernel) (hs : k.sch.m_started = true)
    (hinv : SleepQueueInv k) :
    ∃ kT K : Kernel,
      K = Scheduler.wakeExpired k.sch.m_sleep_tasks.length kT
      ∧ (Scheduler.SysTickHandler k).2.tasks = K.tasks
      ∧ (Scheduler.SysTickHandler k).2.mutexes = K.mutexes
      ∧ (Scheduler.SysTickHandler k).2.semaphores = K.semaphores
      ∧ (Scheduler.SysTickHandler k).2.events = K.events
      ∧ (Scheduler.SysTickHandler k).2.sch.m_work_tasks = K.sch.m_work_tasks
      ∧ (Scheduler.SysTickHandler k).2.sch.m_cur_task = K.sch.m_cur_task
      ∧ kT.sch.m_sleep_tasks = k.sch.m_sleep_tasks
      ∧ kT.sch.m_work_tasks = k.sch.m_work_tasks
      ∧ kT.sch.m_cur_task = k.sch.m_cur_task
      ∧ kT.mutexes = k.mutexes ∧ kT.semaphores = k.semaphores ∧ kT.events = k.events
      ∧ sleepOrdered kT k.sch.m_sleep_tasks
      ∧ (∀ t, t ∈ k.sch.m_sleep_tasks → (kT.tasks t).m_state = StateBlocked
          ∧ ((kT.tasks t).m_dream_ticks = 0 ↔ (k.tasks t).m_dream_ticks = 1))
      ∧ (∀ i, (kT.tasks i).m_unblock_func = (k.tasks i).m_unblock_func) := by
  obtain ⟨hord, hnd, hmem⟩ := hinv
  obtain ⟨K, hK, _, hr⟩ := SysTickHandler_started k hs
  have hT := TaskSleepRoom_Tick_tasks ((CriticalSection k).setSch
    (fun s => { s with m_tick_count := (s.m_tick_count + 1) % 2 ^ 32 })) (by simpa using hnd)
  simp only [setSch_tasks, setSch_sch, CriticalSection_tasks, CriticalSection_sch] at hT
  obtain ⟨f1, f2, f3, f4, _, _⟩ := TaskSleepRoom_Tick_frame ((CriticalSection k).setSch
    (fun s => { s with m_tick_count := (s.m_tick_count + 1) % 2 ^ 32 }))
  have hdec : ∀ t, t ∈ k.sch.m_sleep_tasks →
      ((TaskSleepRoom.Tick ((CriticalSection k).setSch
        (fun s => { s with m_tick_count := (s.m_tick_count + 1) % 2 ^ 32 }))).tasks t).timing
        = (StateBlocked,
            (if (k.tasks t).m_dream_ticks = ULONG_MAX then ULONG_MAX
              else (k.tasks t).m_dream_ticks - 1), (k.tasks t).m_unblock_reason) := by
    intro t ht
    obtain ⟨m1, m2, m3⟩ := hmem t ht
    rw [hT]
    by_cases hmax : (k.tasks t).m_dream_ticks = ULONG_MAX
    · simp [ht, hmax, Task.timing, m1]
    · have hlt : (k.tasks t).m_dream_ticks < 4294967296 := by
        have : (k.tasks t).m_dream_ticks ≤ 4294967295 := by simpa [ULONG_MAX] using m3
        omega
      have hmod : ((k.tasks t).m_dream_ticks + 4294967295) % 4294967296
          = (k.tasks t).m_dream_ticks - 1 := by omega
      simp [ht, hmax, Task.timing, m1, hmod]
  have hres : (Scheduler.SysTickHandler k).2.tasks = K.tasks
      ∧ (Scheduler.SysTickHandler k).2.mutexes = K.mutexes
      ∧ (Scheduler.SysTickHandler k).2.semaphores = K.semaphores
      ∧ (Scheduler.SysTickHandler k).2.events = K.events
      ∧ (Scheduler.SysTickHandler k).2.sch.m_work_tasks = K.sch.m_work_tasks
      ∧ (Scheduler.SysTickHandler k).2.sch.m_cur_task = K.sch.m_cur_task := by
    rw [hr]
    split
    · exact ⟨rfl, rfl, rfl, rfl, rfl, rfl⟩
    · split <;> exact ⟨rfl, rfl, rfl, rfl, rfl, rfl⟩
  obtain ⟨q1, q2, q3, q4, q5, q6⟩ := hres
  refine ⟨_, K, hK, q1, q2, q3, q4, q5, q6, by rw [f1]; simp, by rw [f1]; simp, by rw [f1]; simp,
    by rw [f2]; simp, by rw [f3]; simp, by rw [f4]; simp, ?_, ?_, ?_⟩
  · unfold sleepOrdered at hord ⊢
    refine List.Pairwise.imp_of_mem ?_ hord
    intro a b ha hb hab
    have ha2 := hdec a ha
    have hb2 := hdec b hb
    simp only [Task.timing, Prod.mk.injEq] at ha2 hb2
    rw [ha2.2.1, hb2.2.1]
    have hbm := (hmem b hb).2.2
    have ham := (hmem a ha).2.2
    split <;> split <;> omega
  · intro t ht
    have := hdec t ht
    simp only [Task.timing, Prod.mk.injEq] at this
    refine ⟨this.1, ?_⟩
    rw [this.2.1]
    have hm := hmem t ht
    have hmx : ULONG_MAX = 4294967295 := by simp [ULONG_MAX]
    split <;> omega
  · intro i
    rw [hT]
    simp only []
    split <;> rfl

/-- `SyncObject::UnblockTask` on a waiter list `w :: rest` with `w` blocked,
on a started scheduler that accepts kernel calls: `w` leaves the list and is
woken with reason `Request`; the other waiter lists and tasks stay. -/
theorem SyncObject_UnblockTask_front (k : Kernel) (s : SyncRef) (w : Nat) (rest : List Nat)
    (hs : k.sch.m_started = true) (ha : System.IsSysCallAllowed k = true)
    (hw : k.waiters s = w :: rest) (hb : (k.tasks w).m_state = StateBlocked) :
    (SyncObject.UnblockTask k s).1 = Result.ResultOk
    ∧ (∀ s2, (SyncObject.UnblockTask k s).2.waiters s2
        = if s2 = s then rest else k.waiters s2)
    ∧ (SyncObject.UnblockTask k s).2.tasks
        = (fun i => if i = w then wokenByRequest (k.tasks w) else k.tasks i) := by
  have heq : SyncObject.UnblockTask k s
      = Scheduler.UnblockTask (Task.DropBlockSync (k.setWaiters s rest) w) (some w) := by
    simp [SyncObject.UnblockTask, hw, SList.Fetch]
  have hsch : (Task.DropBlockSync (k.setWaiters s rest) w).sch = k.sch := by
    cases s <;> rfl
  have hsys : (Task.DropBlockSync (k.setWaiters s rest) w).sys = k.sys := by
    cases s <;> rfl
  have htask : (Task.DropBlockSync (k.setWaiters s rest) w).tasks
      = (k.setTask w (fun t => { t with m_unblock_func := none })).tasks := by
    cases s <;> rfl
  obtain ⟨a1, a2, a3, a4, a5, _⟩ := Scheduler_UnblockTask_blocked
    (Task.DropBlockSync (k.setWaiters s rest) w) w (by rw [hsch]; exact hs)
    (by rw [← ha]; exact IsSysCallAllowed_congr (by rw [hsys]))
    (by rw [htask]; simpa using hb)
  rw [heq]
  refine ⟨a1, ?_, ?_⟩
  · intro s2
    rw [waiters_congr a3 a4 a5 s2]
    unfold Task.DropBlockSync
    rw [waiters_setTask, waiters_setWaiters]
  · rw [a2, htask]
    funext i
    by_cases hi : i = w
    · subst hi; simp [wokenByRequest]
    · simp [hi]

/-- A priority change through `IntSetTaskPriority_Priv` leaves every waiter
list as it is. -/
theorem IntSetTaskPriority_waiters (k : Kernel) (t p : Nat) (b : Bool) (s : SyncRef) :
    (IntSetTaskPriority_Priv k t p b).2.waiters s = k.waiters s := by
  have hf : ∀ (l : List Nat) (ka : Kernel) (s : SyncRef),
      (l.foldl (fun k pobj => k.setMutex pobj
        (fun m => { m with m_owner_original_priority := p })) ka).waiters s = ka.waiters s := by
    intro l
    induction l with
    | nil => intro ka s; rfl
    | cons x xs ih =>
      intro ka s
      simp only [List.foldl_cons]
      rw [ih]
      cases s with
      | mutex m =>
        simp only [Kernel.waiters, Kernel.setMutex]
        split
        · rename_i h; rw [h]
        · rfl
      | semaphore m => rfl
      | event m => rfl
  have hy : ∀ K : Kernel,
      (if K.sch.m_use_preemption = true then Scheduler.Yield K else K).waiters s = K.waiters s := by
    intro K
    split
    · exact waiters_congr (Yield_mutexes K) (Yield_semaphores K) (Yield_events K) s
    · rfl
  have hc : (CriticalSection k).waiters s = k.waiters s :=
    waiters_congr (CriticalSection_mutexes k) (CriticalSection_semaphores k)
      (CriticalSection_events k) s
  unfold IntSetTaskPriority_Priv
  simp only []
  split
  · exact hc
  · split
    · exact hc
    · rw [hy]
      cases b
      · simp only [Bool.false_eq_true, if_false]
        rw [hf]
        split
        · simp only [TaskWorkRoom.Insert, TaskWorkRoom.Remove]
          rw [waiters_setSch, waiters_setSch, waiters_setTask]
          exact hc
        · rw [waiters_setTask]
          exact hc
      · simp only [if_true]
        split
        · simp only [TaskWorkRoom.Insert, TaskWorkRoom.Remove]
          rw [waiters_setSch, waiters_setSch, waiters_setTask]
          exact hc
        · rw [waiters_setTask]
          exact hc
/-- C25: the state after deleting a ready task whose priority is inherited
through a mutex it owns has an `Inactive` task in the ready queue, and adding
the task again puts it into the ready queue twice.  In the state after
`boostedOps` the ready and sleep queues are as the claim says; after
`Scheduler::DeleteTask` of task 2 the ready queue is `[1, 2, 0]` with task 2
`Inactive`; after `Scheduler::AddTask` of task 2 it is `[1, 2, 2, 0]`. -/
theorem DeleteTask_breaks_queue_invariant :
    (run demo boostedOps).sch.m_work_tasks = [2, 0]
    ∧ (run demo boostedOps).sch.m_sleep_tasks = [1]
    ∧ (∀ t, t ∈ (run demo boostedOps).sch.m_work_tasks
        → ((run demo boostedOps).tasks t).m_state = StateReady)
    ∧ (∀ t, t ∈ (run demo boostedOps).sch.m_sleep_tasks
        → ((run demo boostedOps).tasks t).m_state = StateBlocked)
    ∧ (Scheduler.DeleteTask (run demo boostedOps) (some 2)).1 = Result.ResultOk
    ∧ (Scheduler.DeleteTask (run demo boostedOps) (some 2)).2.sch.m_work_tasks = [1, 2, 0]
    ∧ ((Scheduler.DeleteTask (run demo boostedOps) (some 2)).2.tasks 2).m_state = StateInactive
    ∧ (Scheduler.AddTask (Scheduler.DeleteTask (run demo boostedOps) (some 2)).2 (some 2) 10
        Task.Mode.ModePrivileged).1 = Result.ResultOk
    ∧ (Scheduler.AddTask (Scheduler.DeleteTask (run demo boostedOps) (some 2)).2 (some 2) 10
        Task.Mode.ModePrivileged).2.sch.m_work_tasks = [1, 2, 2, 0]
    ∧ ¬ (Scheduler.AddTask (Scheduler.DeleteTask (run demo boostedOps) (some 2)).2 (some 2) 10
        Task.Mode.ModePrivileged).2.sch.m_work_tasks.Nodup := by
  decide

/-! ## Only the current task is `Running` -/

/-! ## The `Running` state -/

theorem running_of_eq {a b : Kernel} (h1 : a.sch.m_cur_task = b.sch.m_cur_task)
    (h2 : a.tasks = b.tasks) : a.running = b.running := by
  unfold Kernel.running
  rw [h1, h2]

theorem running_iff {a b : Kernel} :
    a.running = b.running ↔ a.sch.m_cur_task = b.sch.m_cur_task
      ∧ ∀ t, ((a.tasks t).m_state = StateRunning ↔ (b.tasks t).m_state = StateRunning) := by
  unfold Kernel.running
  rw [Prod.mk.injEq]
  constructor
  · rintro ⟨h1, h2⟩
    refine ⟨h1, fun t => ?_⟩
    have := congrFun h2 t
    simpa using this
  · rintro ⟨h1, h2⟩
    refine ⟨h1, ?_⟩
    funext t
    simp [h2 t]

/-- A write to a task that keeps its state. -/
theorem setTask_running (k : Kernel) (t : Nat) (f : Task → Task)
    (h : (f (k.tasks t)).m_state = (k.tasks t).m_state) :
    (k.setTask t f).running = k.running := by
  rw [running_iff]
  refine ⟨rfl, fun i => ?_⟩
  by_cases hi : i = t
  · subst hi; simp [h]
  · simp [hi]

/-- A write to a task that was not `Running` and is not made `Running`. -/
theorem setTask_running_off (k : Kernel) (t : Nat) (f : Task → Task)
    (h1 : (f (k.tasks t)).m_state ≠ StateRunning) (h2 : (k.tasks t).m_state ≠ StateRunning) :
    (k.setTask t f).running = k.running := by
  rw [running_iff]
  refine ⟨rfl, fun i => ?_⟩
  by_cases hi : i = t
  · subst hi; simp [h1, h2]
  · simp [hi]

theorem setSch_running (k : Kernel) (f : Scheduler → Scheduler)
    (h : (f k.sch).m_cur_task = k.sch.m_cur_task) : (k.setSch f).running = k.running :=
  running_of_eq h rfl

@[simp]
theorem setMutex_running (k : Kernel) (m : Nat) (f : Mutex → Mutex) :
    (k.setMutex m f).running = k.running := rfl

@[simp]
theorem setSemaphore_running (k : Kernel) (m : Nat) (f : Semaphore → Semaphore) :
    (k.setSemaphore m f).running = k.running := rfl

@[simp]
theorem setEvent_running (k : Kernel) (m : Nat) (f : Event → Event) :
    (k.setEvent m f).running = k.running := rfl

@[simp]
theorem setWaiters_running (k : Kernel) (s : SyncRef) (l : List Nat) :
    (k.setWaiters s l).running = k.running := by
  cases s <;> rfl

@[simp]
theorem CriticalSection_running (k : Kernel) : (CriticalSection k).running = k.running :=
  running_of_eq (by simp) (by simp)

@[simp]
theorem TryContextSwitch_running (k : Kernel) :
    (Scheduler.TryContextSwitch k).running = k.running :=
  running_of_eq (TryContextSwitch_cur k) (TryContextSwitch_tasks k)

@[simp]
theorem Yield_running (k : Kernel) : (Scheduler.Yield k).running = k.running :=
  running_of_eq (Yield_cur k) (Yield_tasks k)

@[simp]
theorem WorkInsert_running (k : Kernel) (t : Nat) :
    (TaskWorkRoom.Insert k t).running = k.running := rfl

@[simp]
theorem WorkRemove_running (k : Kernel) (t : Nat) :
    (TaskWorkRoom.Remove k t).running = k.running := rfl

@[simp]
theorem SleepInsert_running (k : Kernel) (t : Nat) :
    (TaskSleepRoom.Insert k t).running = k.running := rfl

@[simp]
theorem SleepRemove_running (k : Kernel) (t : Nat) :
    (TaskSleepRoom.Remove k t).running = k.running := rfl

theorem Svc_running {α : Type} (f : Kernel → α × Kernel) (k : Kernel)
    (h : ∀ K : Kernel, (f K).2.running = K.running) :
    (SvcExecPrivileged f k).2.running = k.running :=
  h { k with sys := { k.sys with mode := ExecMode.svc } }

theorem setTask_priority_running (k : Kernel) (t p : Nat) :
    (k.setTask t (fun x => { x with m_priority := p })).running = k.running :=
  setTask_running k t _ rfl

theorem setTask_func_running (k : Kernel) (t : Nat) (f : Option SyncRef) :
    (k.setTask t (fun x => { x with m_unblock_func := f })).running = k.running :=
  setTask_running k t _ rfl

theorem setTask_owned_running (k : Kernel) (t : Nat) (g : List Nat → List Nat) :
    (k.setTask t (fun x => { x with m_owned_obj_list := g x.m_owned_obj_list })).running
      = k.running :=
  setTask_running k t _ rfl

@[simp]
theorem IntSetTaskPriority_running (k : Kernel) (t p : Nat) (b : Bool) :
    (IntSetTaskPriority_Priv k t p b).2.running = k.running := by
  have hf : ∀ (l : List Nat) (ka : Kernel),
      (l.foldl (fun k pobj => k.setMutex pobj
        (fun m => { m with m_owner_original_priority := p })) ka).running = ka.running := by
    intro l
    induction l with
    | nil => intro ka; rfl
    | cons x xs ih => intro ka; simp only [List.foldl_cons]; rw [ih]; simp
  unfold IntSetTaskPriority_Priv
  simp only []
  split
  · simp
  · split
    · simp
    · split <;> split <;> split <;> simp [hf, setTask_priority_running]

@[simp]
theorem UpdateOwnerPriority_running (k : Kernel) (m : Nat) :
    (Mutex.UpdateOwnerPriority k m).running = k.running := by
  unfold Mutex.UpdateOwnerPriority
  split
  · rfl
  · split
    · simp
    · rfl

@[simp]
theorem OnUnblockTask_running (k : Kernel) (f : SyncRef) (t : Nat) (r : Task.UnblockReason) :
    (UnblockFunctor.OnUnblockTask k f t r).running = k.running := by
  cases f <;>
    simp only [UnblockFunctor.OnUnblockTask, Mutex.OnUnblockTask, SyncObject.OnUnblockTask,
      Task.DropBlockSync] <;>
    split <;> simp [setTask_func_running]

@[simp]
theorem UnblockTaskInternal_running (k : Kernel) (t : Nat) (r : Task.UnblockReason) :
    (Scheduler.UnblockTaskInternal k t r).2.running = k.running := by
  by_cases hb : (k.tasks t).m_state = StateBlocked
  · have h1 : (k.setTask t
        (fun x => { x with m_unblock_reason := r, m_state := StateReady })).running
        = k.running :=
      setTask_running_off k t _ (by simp) (by rw [hb]; simp)
    unfold Scheduler.UnblockTaskInternal
    simp only [hb, ne_eq, not_true_eq_false, if_false]
    split <;> split <;> simp [setTask_func_running, h1]
  · unfold Scheduler.UnblockTaskInternal
    simp [hb]

@[simp]
theorem UnblockTask_Priv_running (k : Kernel) (t : Nat) :
    (UnblockTask_Priv k t).2.running = k.running := by
  unfold UnblockTask_Priv
  simp only []
  split
  · simp
  · split
    · simp
    · split
      · simp
      · split <;> simp

@[simp]
theorem Scheduler_UnblockTask_running (k : Kernel) (t : Option Nat) :
    (Scheduler.UnblockTask k t).2.running = k.running := by
  unfold Scheduler.UnblockTask
  split
  · rfl
  · split
    · rfl
    · split
      · rfl
      · split
        · simp
        · exact Svc_running _ k (fun K => UnblockTask_Priv_running K _)

theorem setTask_dream_running (k : Kernel) (t : Nat) (g : Task → Nat) :
    (k.setTask t (fun x => { x with m_dream_ticks := g x })).running = k.running :=
  setTask_running k t _ rfl

@[simp]
theorem Tick_running (k : Kernel) : (TaskSleepRoom.Tick k).running = k.running := by
  have hf : ∀ (g : Task → Nat) (l : List Nat) (ka : Kernel),
      (l.foldl (fun k t =>
        if (k.tasks t).m_dream_ticks ≠ ULONG_MAX then
          k.setTask t (fun x => { x with m_dream_ticks := g x })
        else k) ka).running = ka.running := by
    intro g l
    induction l with
    | nil => intro ka; rfl
    | cons x xs ih =>
      intro ka
      simp only [List.foldl_cons]
      rw [ih]
      split
      · exact setTask_dream_running ka x g
      · rfl
  exact hf _ _ _

@[simp]
theorem SleepFetch_running (k : Kernel) : (TaskSleepRoom.Fetch k).2.running = k.running := by
  unfold TaskSleepRoom.Fetch
  split
  · rfl
  · split <;> rfl

@[simp]
theorem wakeExpired_running (fuel : Nat) (k : Kernel) :
    (Scheduler.wakeExpired fuel k).running = k.running := by
  induction fuel generalizing k with
  | zero => rfl
  | succ n ih =>
    unfold Scheduler.wakeExpired
    have hF := SleepFetch_running k
    cases hq : TaskSleepRoom.Fetch k with
    | mk a K =>
      rw [hq] at hF
      cases a with
      | none => rfl
      | some t =>
        simp only []
        rw [ih, UnblockTaskInternal_running]
        exact hF

@[simp]
theorem SysTickHandler_running (k : Kernel) :
    (Scheduler.SysTickHandler k).2.running = k.running := by
  have h0 : ((CriticalSection k).setSch
      (fun s => { s with m_tick_count := (s.m_tick_count + 1) % 2 ^ 32 })).running
      = k.running := by
    rw [setSch_running _ _ rfl]
    simp
  unfold Scheduler.SysTickHandler
  simp only []
  split
  · exact h0
  · split
    · rw [setSch_running _ _ rfl, wakeExpired_running, Tick_running]
      exact h0
    · split
      · show (Scheduler.wakeExpired _ _).running = _
        rw [wakeExpired_running, Tick_running]
        exact h0
      · show (Scheduler.wakeExpired _ _).running = _
        rw [wakeExpired_running, Tick_running]
        exact h0

theorem setTask_irq_running (k : Kernel) (t : Nat) (b : Bool) :
    (k.setTask t (fun x => { x with m_irq_up := b })).running = k.running :=
  setTask_running k t _ rfl

@[simp]
theorem ActivateTasks_running (k : Kernel) :
    (TaskIrqRoom.ActivateTasks k).running = k.running := by
  have hf : ∀ (l : List Nat) (ka : Kernel),
      (l.foldl (fun k ptsk =>
        if (k.tasks ptsk).m_irq_up = true ∧ (k.tasks ptsk).m_state = StateBlocked
            ∧ (k.tasks ptsk).m_unblock_func = none then
          let k := TaskSleepRoom.Remove k ptsk
          let k := (Scheduler.UnblockTaskInternal k ptsk UnblockReasonIrq).2
          k.setTask ptsk (fun t => { t with m_irq_up := false })
        else k) ka).running = ka.running := by
    intro l
    induction l with
    | nil => intro ka; rfl
    | cons x xs ih =>
      intro ka
      simp only [List.foldl_cons]
      rw [ih]
      split
      · simp [setTask_irq_running]
      · rfl
  unfold TaskIrqRoom.ActivateTasks
  rw [setSch_running _ _ rfl]
  exact hf _ _

@[simp]
theorem AddOwnedSync_running (k : Kernel) (t m : Nat) :
    (Task.AddOwnedSync k t m).running = k.running :=
  setTask_running k t _ rfl

@[simp]
theorem RemoveOwnedSync_running (k : Kernel) (t m : Nat) :
    (Task.RemoveOwnedSync k t m).running = k.running :=
  setTask_running k t _ rfl

@[simp]
theorem Mutex_UnblockTask_running (k : Kernel) (m : Nat) :
    (Mutex.UnblockTask k m).2.running = k.running := by
  unfold Mutex.UnblockTask
  simp only []
  split <;> simp

@[simp]
theorem RemoveFromOwner_running (k : Kernel) (m : Nat) :
    (Mutex.RemoveFromOwner k m).2.running = k.running := by
  unfold Mutex.RemoveFromOwner
  split <;> simp

@[simp]
theorem UnlockInternal_running (k : Kernel) (m : Nat) :
    (Mutex.UnlockInternal k m).2.running = k.running := by
  unfold Mutex.UnlockInternal
  simp only []
  split <;> split <;> (try split) <;> simp

@[simp]
theorem SyncObject_OnDeleteTask_running (k : Kernel) (s : SyncRef) (t : Nat) :
    (SyncObject.OnDeleteTask k s t).running = k.running := by
  unfold SyncObject.OnDeleteTask
  simp

@[simp]
theorem Mutex_OnDeleteTask_running (k : Kernel) (m t : Nat) :
    (Mutex.OnDeleteTask k m t).running = k.running := by
  unfold Mutex.OnDeleteTask
  split
  · rfl
  · split <;> simp

@[simp]
theorem UnblockFunctor_OnDeleteTask_running (k : Kernel) (f : SyncRef) (t : Nat) :
    (UnblockFunctor.OnDeleteTask k f t).running = k.running := by
  cases f <;> simp [UnblockFunctor.OnDeleteTask]

@[simp]
theorem detachOwned_running (task fuel : Nat) (k : Kernel) :
    (Task.detachOwned task fuel k).running = k.running := by
  induction fuel generalizing k with
  | zero => rfl
  | succ n ih =>
    unfold Task.detachOwned
    split
    · rfl
    · rw [ih]; simp

@[simp]
theorem DetachFromSync_running (k : Kernel) (t : Nat) :
    (Task.DetachFromSync k t).running = k.running := by
  unfold Task.DetachFromSync
  simp only []
  split <;> simp [setTask_func_running]

@[simp]
theorem TaskIrqRoom_Del_running (k : Kernel) (t : Nat) :
    (TaskIrqRoom.Del k t).running = k.running := rfl

@[simp]
theorem AddTask_Priv_running (k : Kernel) (t : Nat) :
    (AddTask_Priv k t).2.running = k.running := by
  unfold AddTask_Priv
  simp only []
  split <;> simp

@[simp]
theorem SetTaskPriority_Priv_running (k : Kernel) (t p : Nat) :
    (SetTaskPriority_Priv k t p).2.running = k.running :=
  IntSetTaskPriority_running k t p false

theorem RunningInv_of_running {k K : Kernel} (h : K.running = k.running)
    (hk : RunningInv k) : RunningInv K := by
  obtain ⟨h1, h2⟩ := running_iff.mp h
  intro t ht
  rw [h1]
  exact hk t ((h2 t).mp ht)

/-- `BlockCurrentTask_Priv` keeps the current task and makes no task
`Running`. -/
theorem BlockCurrentTask_Priv_calm (k : Kernel) (ms : Nat) (f : Option SyncRef) :
    (BlockCurrentTask_Priv k ms f).2.sch.m_cur_task = k.sch.m_cur_task
    ∧ ∀ t, ((BlockCurrentTask_Priv k ms f).2.tasks t).m_state = StateRunning
        → (k.tasks t).m_state = StateRunning := by
  have key : ∀ K : Kernel, K.running = k.running →
      K.sch.m_cur_task = k.sch.m_cur_task
      ∧ ∀ t, (K.tasks t).m_state = StateRunning → (k.tasks t).m_state = StateRunning := by
    intro K hK
    obtain ⟨h1, h2⟩ := running_iff.mp hK
    exact ⟨h1, fun t ht => (h2 t).mp ht⟩
  unfold BlockCurrentTask_Priv
  split
  · exact key _ rfl
  · split
    · exact key _ rfl
    · simp only []
      split
      · exact key _ (by simp)
      · split
        · exact key _ (by simp)
        · split
          · split
            · exact key _ (by simp)
            · exact key _ (by simp)
          · rename_i c hc _ _
            constructor
            · rw [TryContextSwitch_cur]
              simp [TaskSleepRoom.Insert]
            · intro t ht
              rw [TryContextSwitch_tasks] at ht
              simp only [TaskSleepRoom.Insert, setSch_tasks] at ht
              by_cases htc : t = c
              · subst htc
                simp at ht
              · simpa [htc] using ht

/-- `DeleteTask_Priv` makes no task `Running`; the current task stays unless
it is the task deleted, and the task deleted is not `Running` afterwards. -/
theorem DeleteTask_Priv_calm (k : Kernel) (task : Nat) :
    ((DeleteTask_Priv k task).2.sch.m_cur_task = k.sch.m_cur_task
      ∨ ((DeleteTask_Priv k task).2.sch.m_cur_task = none ∧ k.sch.m_cur_task = some task
          ∧ ((DeleteTask_Priv k task).2.tasks task).m_state ≠ StateRunning))
    ∧ ∀ t, ((DeleteTask_Priv k task).2.tasks t).m_state = StateRunning
        → (k.tasks t).m_state = StateRunning := by
  unfold DeleteTask_Priv
  simp only []
  split
  · obtain ⟨h1, h2⟩ := running_iff.mp (CriticalSection_running k)
    exact ⟨Or.inl h1, fun t ht => (h2 t).mp ht⟩
  · -- the state in which the task is marked inactive
    have hK : ∀ K : Kernel, K.running = k.running →
        (∀ t, ((K.setTask task (fun x => { x with m_state := StateInactive })).tasks t).m_state
            = StateRunning → (k.tasks t).m_state = StateRunning)
        ∧ (K.setTask task (fun x => { x with m_state := StateInactive })).sch.m_cur_task
            = k.sch.m_cur_task
        ∧ ((K.setTask task (fun x => { x with m_state := StateInactive })).tasks task).m_state
            ≠ StateRunning := by
      intro K hKr
      obtain ⟨h1, h2⟩ := running_iff.mp hKr
      refine ⟨?_, h1, by simp⟩
      intro t ht
      by_cases htt : t = task
      · subst htt; simp at ht
      · exact (h2 t).mp (by simpa [htt] using ht)
    split
    · rename_i hsu
      have hcur : k.sch.m_cur_task = some task := by
        have : some task = (CriticalSection k).sch.m_cur_task := by simpa using hsu
        rw [← (by simp : (CriticalSection k).sch.m_cur_task = k.sch.m_cur_task)]
        exact this.symm
      obtain ⟨a1, a2, a3⟩ := hK (TaskIrqRoom.Del (Task.DetachFromSync
        (if decide (some task = (CriticalSection k).sch.m_cur_task) = false then
          if Task.IsRunnable ((TaskSleepRoom.Remove (CriticalSection k) task).tasks task) = true then
            TaskWorkRoom.Remove (TaskSleepRoom.Remove (CriticalSection k) task) task
          else TaskSleepRoom.Remove (CriticalSection k) task
        else CriticalSection k) task) task)
        (by
          rw [TaskIrqRoom_Del_running, DetachFromSync_running]
          split
          · split <;> simp
          · simp)
      refine ⟨Or.inr ⟨?_, hcur, ?_⟩, ?_⟩
      · show (System.InternalSwitchContext _).sch.m_cur_task = none
        unfold System.InternalSwitchContext
        rw [TryContextSwitch_cur]
        rfl
      · show ((System.InternalSwitchContext _).tasks task).m_state ≠ StateRunning
        unfold System.InternalSwitchContext
        rw [TryContextSwitch_tasks]
        exact a3
      · intro t ht
        apply a1 t
        have : ((System.InternalSwitchContext _).tasks t).m_state = StateRunning := ht
        unfold System.InternalSwitchContext at this
        rw [TryContextSwitch_tasks] at this
        exact this
    · obtain ⟨a1, a2, a3⟩ := hK (TaskIrqRoom.Del (Task.DetachFromSync
        (if decide (some task = (CriticalSection k).sch.m_cur_task) = false then
          if Task.IsRunnable ((TaskSleepRoom.Remove (CriticalSection k) task).tasks task) = true then
            TaskWorkRoom.Remove (TaskSleepRoom.Remove (CriticalSection k) task) task
          else TaskSleepRoom.Remove (CriticalSection k) task
        else CriticalSection k) task) task)
        (by
          rw [TaskIrqRoom_Del_running, DetachFromSync_running]
          split
          · split <;> simp
          · simp)
      exact ⟨Or.inl a2, a1⟩

/-- `SelectNextTask` from a state in which only the current task can be
`Running`: afterwards the current task, if there is one, is `Running`, and no
other task is. -/
theorem SelectNextTask_RunningInv (k : Kernel) (h : RunningInv k) :
    RunningInv (Scheduler.SelectNextTask k)
    ∧ ∀ n, (Scheduler.SelectNextTask k).sch.m_cur_task = some n
        → ((Scheduler.SelectNextTask k).tasks n).m_state = StateRunning := by
  have key : ∀ K4 : Kernel, (∀ t, (K4.tasks t).m_state ≠ StateRunning) →
      RunningInv
        (match (TaskWorkRoom.Fetch K4).1 with
        | none => (TaskWorkRoom.Fetch K4).2.setSch
            (fun s => { s with m_cur_task := (TaskWorkRoom.Fetch K4).1 })
        | some n => ((TaskWorkRoom.Fetch K4).2.setSch
            (fun s => { s with m_cur_task := (TaskWorkRoom.Fetch K4).1 })).setTask n
              (fun t => { t with m_state := StateRunning }))
      ∧ ∀ n, (match (TaskWorkRoom.Fetch K4).1 with
        | none => (TaskWorkRoom.Fetch K4).2.setSch
            (fun s => { s with m_cur_task := (TaskWorkRoom.Fetch K4).1 })
        | some n => ((TaskWorkRoom.Fetch K4).2.setSch
            (fun s => { s with m_cur_task := (TaskWorkRoom.Fetch K4).1 })).setTask n
              (fun t => { t with m_state := StateRunning })).sch.m_cur_task = some n
          → ((match (TaskWorkRoom.Fetch K4).1 with
        | none => (TaskWorkRoom.Fetch K4).2.setSch
            (fun s => { s with m_cur_task := (TaskWorkRoom.Fetch K4).1 })
        | some n => ((TaskWorkRoom.Fetch K4).2.setSch
            (fun s => { s with m_cur_task := (TaskWorkRoom.Fetch K4).1 })).setTask n
              (fun t => { t with m_state := StateRunning })).tasks n).m_state = StateRunning := by
    intro K4 h4
    simp only [TaskWorkRoom.Fetch, SList.Fetch]
    cases hq : K4.sch.m_work_tasks.head? with
    | none =>
      refine ⟨?_, ?_⟩
      · intro t ht
        exact absurd ht (h4 t)
      · intro n hn
        simp at hn
    | some n =>
      refine ⟨?_, ?_⟩
      · intro t ht
        by_cases htn : t = n
        · subst htn; simp
        · have : (K4.tasks t).m_state = StateRunning := by simpa [htn] using ht
          exact absurd this (h4 t)
      · intro m hm
        have : n = m := by simpa using hm
        subst this
        simp
  unfold Scheduler.SelectNextTask
  refine key _ ?_
  intro t
  cases hc : k.sch.m_cur_task with
  | none =>
    intro ht
    have := h t ht
    rw [hc] at this
    exact Option.noConfusion this
  | some c =>
    have hk1 : ∀ t, ((if (k.tasks c).m_state = StateRunning then
            k.setTask c (fun t => { t with m_state := StateReady })
          else k).tasks t).m_state ≠ StateRunning := by
      intro t ht
      by_cases hr : (k.tasks c).m_state = StateRunning
      · rw [if_pos hr] at ht
        by_cases htc : t = c
        · subst htc; simp at ht
        · have ht2 : (k.tasks t).m_state = StateRunning := by simpa [htc] using ht
          have := h t ht2
          rw [hc] at this
          exact htc (Option.some.inj this).symm
      · rw [if_neg hr] at ht
        have := h t ht
        rw [hc] at this
        rw [← Option.some.inj this] at ht
        exact hr ht
    show ((if ((if (k.tasks c).m_state = StateRunning then
            k.setTask c (fun t => { t with m_state := StateReady })
          else k).tasks c).m_state = StateReady then
          TaskWorkRoom.Insert (if (k.tasks c).m_state = StateRunning then
            k.setTask c (fun t => { t with m_state := StateReady })
          else k) c
        else (if (k.tasks c).m_state = StateRunning then
            k.setTask c (fun t => { t with m_state := StateReady })
          else k)).tasks t).m_state ≠ StateRunning
    generalize (if (k.tasks c).m_state = StateRunning then
            k.setTask c (fun t => { t with m_state := StateReady })
          else k) = K1 at hk1 ⊢
    split
    · simpa [TaskWorkRoom.Insert] using hk1 t
    · exact hk1 t

/-- `SwitchContext` from a state in which only the current task can be
`Running`. -/
theorem SwitchContext_RunningInv (k : Kernel) (h : RunningInv k) :
    RunningInv (Scheduler.SwitchContext k)
    ∧ ∀ n, (Scheduler.SwitchContext k).sch.m_cur_task = some n
        → ((Scheduler.SwitchContext k).tasks n).m_state = StateRunning := by
  have h3 : RunningInv (if ((CriticalSection k).setSch
      (fun s => { s with m_pending_swc := false })).sch.m_irq_event = true then
      TaskIrqRoom.ActivateTasks ((CriticalSection k).setSch
        (fun s => { s with m_pending_swc := false }))
    else (CriticalSection k).setSch (fun s => { s with m_pending_swc := false })) := by
    apply RunningInv_of_running _ h
    split
    · rw [ActivateTasks_running, setSch_running _ _ rfl]
      simp
    · rw [setSch_running _ _ rfl]
      simp
  obtain ⟨s1, s2⟩ := SelectNextTask_RunningInv _ h3
  unfold Scheduler.SwitchContext
  simp only []
  split
  · exact ⟨s1, s2⟩
  · exact ⟨s1, s2⟩

theorem ExactlyOneRunning_of_running {k K : Kernel} (h : K.running = k.running)
    (hk : ExactlyOneRunning k) : ExactlyOneRunning K := by
  obtain ⟨h1, h2⟩ := running_iff.mp h
  obtain ⟨c, hc, ht⟩ := hk
  exact ⟨c, by rw [h1]; exact hc, fun t => (h2 t).trans (ht t)⟩

theorem RunningInv_of_calm {k K : Kernel}
    (h1 : K.sch.m_cur_task = k.sch.m_cur_task)
    (h2 : ∀ t, (K.tasks t).m_state = StateRunning → (k.tasks t).m_state = StateRunning)
    (hk : RunningInv k) : RunningInv K := by
  intro t ht
  rw [h1]
  exact hk t (h2 t ht)

theorem RunningInv_demo : RunningInv demo := by
  intro t ht
  rcases t with _ | _ | _ | _ | t <;> simp [demo, demoTasks] at ht ⊢

theorem ExactlyOneRunning_demo : ExactlyOneRunning demo := by
  refine ⟨2, by decide, fun t => ⟨fun ht => ?_, fun ht => ?_⟩⟩
  · exact (Option.some.inj (RunningInv_demo t ht)).symm
  · subst ht
    decide

/-- C26, the claim as it stands fails: in the concrete system, started and
with task 2 the one `Running` task and the current task, a call of
`BlockCurrentTask_Priv` with a timeout of 5 ms returns `ResultOk` and leaves
no task `Running`; task 2 is still the current task, now `Blocked`, and the
context switch is only requested (PendSV pending). -/
theorem BlockCurrentTask_Priv_leaves_no_Running :
    demo.sch.m_started = true
    ∧ ExactlyOneRunning demo
    ∧ (BlockCurrentTask_Priv demo 5 none).1 = Result.ResultOk
    ∧ (∀ t, ((BlockCurrentTask_Priv demo 5 none).2.tasks t).m_state ≠ StateRunning)
    ∧ (BlockCurrentTask_Priv demo 5 none).2.sch.m_cur_task = some 2
    ∧ ((BlockCurrentTask_Priv demo 5 none).2.tasks 2).m_state = StateBlocked
    ∧ (BlockCurrentTask_Priv demo 5 none).2.sys.pendsv = true := by
  refine ⟨by decide, ExactlyOneRunning_demo, by decide, ?_, by decide, by decide, by decide⟩
  · intro t ht
    have h1 := (BlockCurrentTask_Priv_calm demo 5 none).2 t ht
    have h2 := RunningInv_demo t h1
    have h3 : t = 2 := (Option.some.inj h2).symm
    subst h3
    revert ht
    decide

/-- C26, amended: started from a state in which only the current task can be
`Running`, after each of `AddTask_Priv`, `BlockCurrentTask_Priv`,
`UnblockTask_Priv`, `SetTaskPriority_Priv`, `DeleteTask_Priv`,
`SysTickHandler` and `SwitchContext` at most one task is `Running`, and such a
task is the current task.  `AddTask_Priv`, `UnblockTask_Priv`,
`SetTaskPriority_Priv` and `SysTickHandler` keep "exactly one task is
`Running`, the current task"; after `SwitchContext` the current task, if the
ready queue gave one, is the one `Running` task. -/
theorem Running_only_current (k : Kernel) (h : RunningInv k) :
    (∀ task, RunningInv (AddTask_Priv k task).2)
    ∧ (∀ ms f, RunningInv (BlockCurrentTask_Priv k ms f).2)
    ∧ (∀ task, RunningInv (UnblockTask_Priv k task).2)
    ∧ (∀ task p, RunningInv (SetTaskPriority_Priv k task p).2)
    ∧ (∀ task, RunningInv (DeleteTask_Priv k task).2)
    ∧ RunningInv (Scheduler.SysTickHandler k).2
    ∧ RunningInv (Scheduler.SwitchContext k)
    ∧ (ExactlyOneRunning k →
        (∀ task, ExactlyOneRunning (AddTask_Priv k task).2)
        ∧ (∀ task, ExactlyOneRunning (UnblockTask_Priv k task).2)
        ∧ (∀ task p, ExactlyOneRunning (SetTaskPriority_Priv k task p).2)
        ∧ ExactlyOneRunning (Scheduler.SysTickHandler k).2)
    ∧ (∀ n, (Scheduler.SwitchContext k).sch.m_cur_task = some n →
        ExactlyOneRunning (Scheduler.SwitchContext k)) := by
  refine ⟨fun task => RunningInv_of_running (AddTask_Priv_running k task) h,
    fun ms f => RunningInv_of_calm (BlockCurrentTask_Priv_calm k ms f).1
      (BlockCurrentTask_Priv_calm k ms f).2 h,
    fun task => RunningInv_of_running (UnblockTask_Priv_running k task) h,
    fun task p => RunningInv_of_running (SetTaskPriority_Priv_running k task p) h,
    ?_, RunningInv_of_running (SysTickHandler_running k) h,
    (SwitchContext_RunningInv k h).1, ?_, ?_⟩
  · intro task t ht
    obtain ⟨hc, hs⟩ := DeleteTask_Priv_calm k task
    have ht0 := h t (hs t ht)
    rcases hc with hc | ⟨_, hcur, hne⟩
    · rw [hc]; exact ht0
    · rw [hcur] at ht0
      have : task = t := Option.some.inj ht0
      subst this
      exact absurd ht hne
  · intro he
    exact ⟨fun task => ExactlyOneRunning_of_running (AddTask_Priv_running k task) he,
      fun task => ExactlyOneRunning_of_running (UnblockTask_Priv_running k task) he,
      fun task p => ExactlyOneRunning_of_running (SetTaskPriority_Priv_running k task p) he,
      ExactlyOneRunning_of_running (SysTickHandler_running k) he⟩
  · intro n hn
    obtain ⟨s1, s2⟩ := SwitchContext_RunningInv k h
    refine ⟨n, hn, fun t => ⟨fun ht => ?_, fun ht => ?_⟩⟩
    · have := s1 t ht
      rw [hn] at this
      exact (Option.some.inj this).symm
    · subst ht
      exact s2 t hn

theorem Running_only_current_witness :
    RunningInv demo
    ∧ ExactlyOneRunning demo
    ∧ RunningInv (BlockCurrentTask_Priv demo 5 none).2
    ∧ RunningInv (DeleteTask_Priv demo 2).2
    ∧ ExactlyOneRunning (Scheduler.SysTickHandler demo).2
    ∧ (Scheduler.SwitchContext demo).sch.m_cur_task = some 2
    ∧ ExactlyOneRunning (Scheduler.SwitchContext demo) :=
  ⟨RunningInv_demo, ExactlyOneRunning_demo,
    (Running_only_current demo RunningInv_demo).2.1 5 none,
    (Running_only_current demo RunningInv_demo).2.2.2.2.1 2,
    ((Running_only_current demo RunningInv_demo).2.2.2.2.2.2.2.1
      ExactlyOneRunning_demo).2.2.2,
    by decide,
    (Running_only_current demo RunningInv_demo).2.2.2.2.2.2.2.2 2 (by decide)⟩

/-! ## Stack check -/

/-- C27: what `StackPtr::Check` returns, for pointers into a 32-bit address
space (word indices below `2 ^ 30`) and a stack of fewer than `2 ^ 31` words:
`SP_CORRUPTED` exactly when the guard word differs from the marker; with the
guard word intact `SP_OK` exactly when `marg <= SP <= marg + len`, and
`SP_UNDERFLOW` otherwise, both when the saved SP is more than `len` words
above `marg` and when it is below `marg`: the negative difference, converted
to unsigned for the comparison with `len`, exceeds `len`, so `SP_OVERFLOW` is
never returned. -/
theorem StackPtr_Check_classification (mem : Nat → Nat) (m_sp marg len : Nat)
    (hsp : m_sp < 2 ^ 30) (hmarg : marg < 2 ^ 30) (hlen : len < 2 ^ 31) :
    (StackPtr.Check mem m_sp marg len = StackPtr.CHECK_RES.SP_CORRUPTED
        ↔ mem marg ≠ StackPtr.TOP_MARKER)
    ∧ (mem marg = StackPtr.TOP_MARKER →
        (StackPtr.Check mem m_sp marg len = StackPtr.CHECK_RES.SP_OK
          ↔ marg ≤ m_sp ∧ m_sp ≤ marg + len)
        ∧ (marg + len < m_sp →
            StackPtr.Check mem m_sp marg len = StackPtr.CHECK_RES.SP_UNDERFLOW)
        ∧ (m_sp < marg →
            StackPtr.Check mem m_sp marg len = StackPtr.CHECK_RES.SP_UNDERFLOW))
    ∧ StackPtr.Check mem m_sp marg len ≠ StackPtr.CHECK_RES.SP_OVERFLOW := by
  have hover : (m_sp : Int) - (marg : Int) < 0 →
      (((m_sp : Int) - (marg : Int)) % 2 ^ 32).toNat > len := by
    intro h
    omega
  have hin : 0 ≤ (m_sp : Int) - (marg : Int) →
      (((m_sp : Int) - (marg : Int)) % 2 ^ 32).toNat = m_sp - marg := by
    intro h
    omega
  unfold StackPtr.Check
  simp only []
  by_cases hg : mem marg = StackPtr.TOP_MARKER
  · simp only [hg, ne_eq, not_true_eq_false, if_false, forall_true_left]
    by_cases hneg : (m_sp : Int) - (marg : Int) < 0
    · have h1 := hover hneg
      rw [if_pos h1]
      refine ⟨by simp, ⟨?_, fun _ => rfl, fun _ => rfl⟩, by simp⟩
      constructor
      · intro h; cases h
      · rintro ⟨h2, _⟩
        omega
    · have h0 : 0 ≤ (m_sp : Int) - (marg : Int) := by omega
      have h1 := hin h0
      rw [h1, if_neg hneg]
      by_cases hbig : m_sp - marg > len
      · rw [if_pos hbig]
        refine ⟨by simp, ⟨?_, fun _ => rfl, fun _ => rfl⟩, by simp⟩
        constructor
        · intro h; cases h
        · rintro ⟨h2, h3⟩
          omega
      · rw [if_neg hbig]
        refine ⟨by simp, ⟨?_, fun h => ?_, fun h => ?_⟩, by simp⟩
        · constructor
          · intro _
            constructor <;> omega
          · intro _; rfl
        · omega
        · omega
  · simp [hg]

theorem StackPtr_Check_classification_witness :
    StackPtr.Check (fun _ => StackPtr.TOP_MARKER) 99 100 64 = StackPtr.CHECK_RES.SP_UNDERFLOW
    ∧ StackPtr.Check (fun _ => StackPtr.TOP_MARKER) 164 100 64 = StackPtr.CHECK_RES.SP_OK
    ∧ StackPtr.Check (fun _ => StackPtr.TOP_MARKER) 165 100 64
        = StackPtr.CHECK_RES.SP_UNDERFLOW :=
  ⟨((StackPtr_Check_classification (fun _ => StackPtr.TOP_MARKER) 99 100 64
      (by decide) (by decide) (by decide)).2.1 rfl).2.2 (by decide),
    ((StackPtr_Check_classification (fun _ => StackPtr.TOP_MARKER) 164 100 64
      (by decide) (by decide) (by decide)).2.1 rfl).1.mpr ⟨by decide, by decide⟩,
    ((StackPtr_Check_classification (fun _ => StackPtr.TOP_MARKER) 165 100 64
      (by decide) (by decide) (by decide)).2.1 rfl).2.1 (by decide)⟩

/-! ## The checked context switch -/

theorem OnUnblockTask_not_timeout (k : Kernel) (f : SyncRef) (t : Nat)
    (r : Task.UnblockReason) (hr : r ≠ UnblockReasonTimeout) :
    UnblockFunctor.OnUnblockTask k f t r = k := by
  cases f <;> simp [UnblockFunctor.OnUnblockTask, Mutex.OnUnblockTask, SyncObject.OnUnblockTask, hr]

/-- The ready queue after `UnblockTaskInternal` with a reason other than
timeout holds nothing new but the task woken. -/
theorem UnblockTaskInternal_work_mem (k : Kernel) (t : Nat) (r : Task.UnblockReason)
    (hr : r ≠ UnblockReasonTimeout) (x : Nat)
    (hx : x ∈ (Scheduler.UnblockTaskInternal k t r).2.sch.m_work_tasks) :
    x ∈ k.sch.m_work_tasks ∨ (x = t ∧ (k.tasks t).m_state = StateBlocked) := by
  by_cases hb : (k.tasks t).m_state = StateBlocked
  · unfold Scheduler.UnblockTaskInternal at hx
    simp only [hb, ne_eq, not_true_eq_false, if_false] at hx
    have key : ∀ K2 : Kernel, (x ∈ K2.sch.m_work_tasks → x ∈ k.sch.m_work_tasks ∨ x = t) →
        x ∈ (match (K2.tasks t).m_unblock_func with
          | some f => (UnblockFunctor.OnUnblockTask K2 f t r).setTask t
              (fun t => { t with m_unblock_func := none })
          | none => K2).sch.m_work_tasks → x ∈ k.sch.m_work_tasks ∨ x = t := by
      intro K2 h2 h
      cases hf : (K2.tasks t).m_unblock_func with
      | none => rw [hf] at h; exact h2 h
      | some f =>
        rw [hf] at h
        simp only [OnUnblockTask_not_timeout _ _ _ _ hr, setTask_sch] at h
        exact h2 h
    have := key _ ?_ hx
    · rcases this with h | h
      · exact Or.inl h
      · exact Or.inr ⟨h, hb⟩
    · intro h
      split at h
      · simp only [TaskWorkRoom.Insert, TaskWorkList.Add, setSch_sch, setTask_sch] at h
        rcases (mem_SListOrd_Add _ _ _ _).mp h with h | h
        · exact Or.inr h
        · exact Or.inl h
      · exact Or.inl (by simpa using h)
  · unfold Scheduler.UnblockTaskInternal at hx
    simp only [hb, ne_eq, not_false_eq_true, if_true] at hx
    exact Or.inl hx

theorem Dropped_of_running {k K : Kernel} (c : Nat) (h : K.running = k.running)
    (hw : c ∉ K.sch.m_work_tasks) (hd : Dropped k c) : Dropped K c := by
  obtain ⟨h1, h2⟩ := running_iff.mp h
  exact ⟨by rw [h1]; exact hd.1, hw, (h2 c).mpr hd.2.2⟩

/-- `TaskIrqRoom::ActivateTasks` leaves a forgotten task forgotten. -/
theorem ActivateTasks_Dropped (k : Kernel) (c : Nat) (hd : Dropped k c) :
    Dropped (TaskIrqRoom.ActivateTasks k) c := by
  have hf : ∀ (l : List Nat) (ka : Kernel), Dropped ka c →
      Dropped (l.foldl (fun k ptsk =>
        if (k.tasks ptsk).m_irq_up = true ∧ (k.tasks ptsk).m_state = StateBlocked
            ∧ (k.tasks ptsk).m_unblock_func = none then
          let k := TaskSleepRoom.Remove k ptsk
          let k := (Scheduler.UnblockTaskInternal k ptsk UnblockReasonIrq).2
          k.setTask ptsk (fun t => { t with m_irq_up := false })
        else k) ka) c := by
    intro l
    induction l with
    | nil => intro ka h; exact h
    | cons p ps ih =>
      intro ka h
      simp only [List.foldl_cons]
      apply ih
      split
      · rename_i hcond
        apply Dropped_of_running c _ _ h
        · simp [setTask_irq_running]
        · intro hmem
          simp only [setTask_sch] at hmem
          rcases UnblockTaskInternal_work_mem _ _ _ (by decide) _ hmem with h1 | ⟨h1, _⟩
          · exact h.2.1 (by simpa [TaskSleepRoom.Remove] using h1)
          · subst h1
            rw [h.2.2] at hcond
            exact absurd hcond.2.1 (by decide)
      · exact h
  unfold TaskIrqRoom.ActivateTasks
  have := hf k.sch.m_irq_tasks k hd
  exact ⟨by simpa using this.1, by simpa using this.2.1, by simpa using this.2.2⟩

/-- `Scheduler::SelectNextTask` leaves a forgotten task forgotten. -/
theorem SelectNextTask_Dropped (k : Kernel) (c : Nat) (hd : Dropped k c) :
    Dropped (Scheduler.SelectNextTask k) c := by
  have key : ∀ K4 : Kernel, Dropped K4 c →
      Dropped
        (match (TaskWorkRoom.Fetch K4).1 with
        | none => (TaskWorkRoom.Fetch K4).2.setSch
            (fun s => { s with m_cur_task := (TaskWorkRoom.Fetch K4).1 })
        | some n => ((TaskWorkRoom.Fetch K4).2.setSch
            (fun s => { s with m_cur_task := (TaskWorkRoom.Fetch K4).1 })).setTask n
              (fun t => { t with m_state := StateRunning })) c := by
    intro K4 h4
    simp only [TaskWorkRoom.Fetch, SList.Fetch]
    cases hq : K4.sch.m_work_tasks with
    | nil =>
      refine ⟨by simp, by simp [hq], ?_⟩
      simpa using h4.2.2
    | cons n rest =>
      have hn : n ≠ c := by
        intro e
        apply h4.2.1
        rw [hq, e]
        exact List.mem_cons_self _ _
      have hr : c ∉ rest := by
        intro e
        apply h4.2.1
        rw [hq]
        exact List.mem_cons_of_mem _ e
      refine ⟨?_, ?_, ?_⟩
      · simp only [List.head?_cons, setTask_sch, setSch_sch]
        intro e
        exact hn (Option.some.inj e)
      · simpa [hq] using hr
      · simp only [List.head?_cons]
        rw [setTask_tasks]
        split
        · rfl
        · simpa using h4.2.2
  unfold Scheduler.SelectNextTask
  refine key _ ?_
  cases hc : k.sch.m_cur_task with
  | none => exact hd
  | some d =>
    have hdc : d ≠ c := by
      intro e
      apply hd.1
      rw [hc, e]
    have hk1 : Dropped (if (k.tasks d).m_state = StateRunning then
          k.setTask d (fun t => { t with m_state := StateReady })
        else k) c := by
      split
      · refine ⟨by simpa using hd.1, by simpa using hd.2.1, ?_⟩
        rw [setTask_tasks, if_neg (Ne.symm hdc)]
        exact hd.2.2
      · exact hd
    show Dropped (if ((if (k.tasks d).m_state = StateRunning then
          k.setTask d (fun t => { t with m_state := StateReady })
        else k).tasks d).m_state = StateReady then
        TaskWorkRoom.Insert (if (k.tasks d).m_state = StateRunning then
          k.setTask d (fun t => { t with m_state := StateReady })
        else k) d
      else (if (k.tasks d).m_state = StateRunning then
          k.setTask d (fun t => { t with m_state := StateReady })
        else k)) c
    generalize (if (k.tasks d).m_state = StateRunning then
          k.setTask d (fun t => { t with m_state := StateReady })
        else k) = K1 at hk1 ⊢
    split
    · refine ⟨by simpa [TaskWorkRoom.Insert] using hk1.1, ?_, by
        simpa [TaskWorkRoom.Insert] using hk1.2.2⟩
      intro hmem
      simp only [TaskWorkRoom.Insert, TaskWorkList.Add, setSch_sch] at hmem
      rcases (mem_SListOrd_Add _ _ _ _).mp hmem with h | h
      · exact hdc h.symm
      · exact hk1.2.1 h
    · exact hk1

/-- What follows the stack check in the checked context switch leaves a
forgotten task forgotten. -/
theorem SwitchContextChecked_tail_Dropped (K : Kernel) (c : Nat) (hd : Dropped K c) :
    Dropped
      (match (Scheduler.SelectNextTask
          (if K.sch.m_irq_event = true then TaskIrqRoom.ActivateTasks K else K)).sch.m_cur_task with
      | none => Scheduler.SelectNextTask
          (if K.sch.m_irq_event = true then TaskIrqRoom.ActivateTasks K else K)
      | some n => System.SetPrivMode (Scheduler.SelectNextTask
          (if K.sch.m_irq_event = true then TaskIrqRoom.ActivateTasks K else K))
          (decide (((Scheduler.SelectNextTask
            (if K.sch.m_irq_event = true then TaskIrqRoom.ActivateTasks K else K)).tasks
              n).m_mode = Task.Mode.ModePrivileged))) c := by
  have h1 : Dropped (if K.sch.m_irq_event = true then TaskIrqRoom.ActivateTasks K else K) c := by
    split
    · exact ActivateTasks_Dropped K c hd
    · exact hd
  have h2 := SelectNextTask_Dropped _ c h1
  split
  · exact h2
  · exact h2

/-- `TaskStack::Check` writes nothing but the alarm record. -/
theorem TaskStack_Check_frame (on_alarm : ALARM_REASON → ALARM_ACTION) (mem : Nat → Nat)
    (stk : TaskStack) (k : Kernel) :
    (TaskStack.Check on_alarm mem stk k).2.sch = k.sch
    ∧ (TaskStack.Check on_alarm mem stk k).2.tasks = k.tasks := by
  unfold TaskStack.Check MACS_ALARM_action MACS_ALARM
  split
  · simp only []
    split <;> exact ⟨rfl, rfl⟩
  · exact ⟨rfl, rfl⟩
  · exact ⟨rfl, rfl⟩
  · exact ⟨rfl, rfl⟩

/-- `TaskStack::Check` returns `false` exactly when the check reports
`SP_UNDERFLOW` and the alarm hook answers `AA_KILL_TASK`. -/
theorem TaskStack_Check_false_iff (on_alarm : ALARM_REASON → ALARM_ACTION) (mem : Nat → Nat)
    (stk : TaskStack) (k : Kernel) :
    (TaskStack.Check on_alarm mem stk k).1 = false
      ↔ StackPtr.Check mem stk.m_top stk.m_margin stk.m_len = StackPtr.CHECK_RES.SP_UNDERFLOW
        ∧ on_alarm ALARM_REASON.AR_STACK_UNDERFLOW = ALARM_ACTION.AA_KILL_TASK := by
  unfold TaskStack.Check MACS_ALARM_action
  split
  · rename_i h
    simp only [h, true_and]
    split <;> simp_all
  · rename_i h; simp [h]
  · rename_i h; simp [h]
  · rename_i h; simp [h]

/-- The checked context switch leaves a forgotten task forgotten. -/
theorem SwitchContextChecked_Dropped (on_alarm : ALARM_REASON → ALARM_ACTION)
    (mem : Nat → Nat) (stack_of : Nat → TaskStack) (k : Kernel) (new_sp c : Nat)
    (hd : Dropped k c) :
    Dropped (Scheduler.SwitchContextChecked on_alarm mem stack_of k new_sp) c := by
  unfold Scheduler.SwitchContextChecked
  refine SwitchContextChecked_tail_Dropped _ c ?_
  simp only [setSch_sch, CriticalSection_sch]
  cases hc : k.sch.m_cur_task with
  | none =>
    exact ⟨by simp [hc], by simpa using hd.2.1, by simpa using hd.2.2⟩
  | some d =>
    simp only []
    obtain ⟨f1, f2⟩ := TaskStack_Check_frame on_alarm mem { stack_of d with m_top := new_sp }
      ((CriticalSection k).setSch (fun s => { s with m_pending_swc := false }))
    split
    · refine ⟨by simp, ?_, ?_⟩
      · simp only [setSch_sch, f1]
        simpa using hd.2.1
      · simp only [setSch_tasks, f2]
        simpa using hd.2.2
    · refine ⟨?_, ?_, ?_⟩
      · rw [f1]; simpa [hc] using hd.1
      · rw [f1]; simpa using hd.2.1
      · rw [f2]; simpa using hd.2.2

theorem switchesChecked_Dropped (on_alarm : ALARM_REASON → ALARM_ACTION)
    (mem : Nat → Nat) (stack_of : Nat → TaskStack) (c : Nat) (l : List Nat) :
    ∀ k : Kernel, Dropped k c →
      Dropped (Scheduler.switchesChecked on_alarm mem stack_of k l) c := by
  induction l with
  | nil => intro k h; exact h
  | cons sp rest ih =>
    intro k h
    exact ih _ (SwitchContextChecked_Dropped on_alarm mem stack_of k sp c h)

/-- The one case in which the stack check removes a task.  In the build
with `MACS_DEBUG = 1`, if at a context switch
the stack check of the outgoing task (the current task, `Running` and not in
the ready queue) reports `SP_UNDERFLOW` and the alarm hook answers
`AA_KILL_TASK` to `AR_STACK_UNDERFLOW`, then after `Scheduler::SwitchContext`
that task is not the current task and not in the ready queue, its state is
still `Running` (not `Inactive`), and the same holds after any number of later
context switches.  `TaskStack::Check` returns `false` in no other case: for
`SP_OVERFLOW` and `SP_CORRUPTED` the answer of the hook is not looked at. -/
theorem SwitchContextChecked_kill_on_underflow (on_alarm : ALARM_REASON → ALARM_ACTION)
    (mem : Nat → Nat) (stack_of : Nat → TaskStack) (k : Kernel) (new_sp c : Nat)
    (hcur : k.sch.m_cur_task = some c) (hrun : (k.tasks c).m_state = StateRunning)
    (hq : c ∉ k.sch.m_work_tasks)
    (hres : StackPtr.Check mem new_sp (stack_of c).m_margin (stack_of c).m_len
      = StackPtr.CHECK_RES.SP_UNDERFLOW)
    (hact : on_alarm ALARM_REASON.AR_STACK_UNDERFLOW = ALARM_ACTION.AA_KILL_TASK) :
    Dropped (Scheduler.SwitchContextChecked on_alarm mem stack_of k new_sp) c
    ∧ (∀ l, Dropped (Scheduler.switchesChecked on_alarm mem stack_of
        (Scheduler.SwitchContextChecked on_alarm mem stack_of k new_sp) l) c)
    ∧ (∀ (hook : ALARM_REASON → ALARM_ACTION) (stk : TaskStack) (K : Kernel),
        (TaskStack.Check hook mem stk K).1 = false
          ↔ StackPtr.Check mem stk.m_top stk.m_margin stk.m_len
              = StackPtr.CHECK_RES.SP_UNDERFLOW
            ∧ hook ALARM_REASON.AR_STACK_UNDERFLOW = ALARM_ACTION.AA_KILL_TASK) := by
  have h1 : Dropped (Scheduler.SwitchContextChecked on_alarm mem stack_of k new_sp) c := by
    unfold Scheduler.SwitchContextChecked
    refine SwitchContextChecked_tail_Dropped _ c ?_
    simp only [setSch_sch, CriticalSection_sch, hcur]
    obtain ⟨f1, f2⟩ := TaskStack_Check_frame on_alarm mem { stack_of c with m_top := new_sp }
      ((CriticalSection k).setSch (fun s => { s with m_pending_swc := false }))
    have hfalse : (TaskStack.Check on_alarm mem { stack_of c with m_top := new_sp }
        ((CriticalSection k).setSch (fun s => { s with m_pending_swc := false }))).1 = false :=
      (TaskStack_Check_false_iff on_alarm mem _ _).mpr ⟨hres, hact⟩
    rw [if_pos hfalse]
    refine ⟨by simp, ?_, ?_⟩
    · simp only [setSch_sch, f1]
      simpa using hq
    · simp only [setSch_tasks, f2]
      simpa using hrun
  exact ⟨h1, fun l => switchesChecked_Dropped on_alarm mem stack_of c l _ h1,
    fun hook stk K => TaskStack_Check_false_iff hook mem stk K⟩

theorem SwitchContextChecked_kill_on_underflow_witness :
    Dropped (Scheduler.SwitchContextChecked killAlways (fun _ => StackPtr.TOP_MARKER)
      demoStacks demo 2099) 2
    ∧ Dropped (Scheduler.switchesChecked killAlways (fun _ => StackPtr.TOP_MARKER) demoStacks
        (Scheduler.SwitchContextChecked killAlways (fun _ => StackPtr.TOP_MARKER)
          demoStacks demo 2099) [150, 150]) 2 :=
  ⟨(SwitchContextChecked_kill_on_underflow killAlways (fun _ => StackPtr.TOP_MARKER)
      demoStacks demo 2099 2 (by decide) (by decide) (by decide) (by decide) (by decide)).1,
    (SwitchContextChecked_kill_on_underflow killAlways (fun _ => StackPtr.TOP_MARKER)
      demoStacks demo 2099 2 (by decide) (by decide) (by decide) (by decide) (by decide)).2.1
      [150, 150]⟩

/-- C28: a stack overflow with a kill decision does not remove the task.
In the concrete system the running task 2 has a stack of 64 words above the
margin at word 2100 with the guard word intact, and is switched out with its
stack pointer at word 2099, one word past the margin: the stack has
overflowed.  `StackPtr::Check` reports `SP_UNDERFLOW`, not `SP_OVERFLOW`, so
`TaskStack::Check` raises `AR_STACK_UNDERFLOW` and never `AR_STACK_OVERFLOW`.
With an alarm hook that answers `AA_KILL_TASK` to `AR_STACK_OVERFLOW` the
check returns `true` and the checked context switch selects task 2 again: it
is the current task and `Running`.  With a hook that answers `AA_KILL_TASK`
to every alarm the task is forgotten (the idle task runs, task 2 is in no
queue), and its state is still `Running`, not `Inactive`.  For every hook,
memory and stack `TaskStack::Check` returns `false` only for `SP_UNDERFLOW`
with `AA_KILL_TASK` as the answer to `AR_STACK_UNDERFLOW`: the answer to
`AR_STACK_OVERFLOW` is never looked at. -/
theorem SwitchContextChecked_overflow_not_killed :
    (demo.sch.m_cur_task = some 2
      ∧ demoStacks 2 = { m_len := 64, m_margin := 2100, m_top := 2164 }
      ∧ StackPtr.Check (fun _ => StackPtr.TOP_MARKER) 2099 2100 64
          = StackPtr.CHECK_RES.SP_UNDERFLOW
      ∧ killOnOverflow ALARM_REASON.AR_STACK_OVERFLOW = ALARM_ACTION.AA_KILL_TASK
      ∧ (TaskStack.Check killOnOverflow (fun _ => StackPtr.TOP_MARKER)
          { demoStacks 2 with m_top := 2099 } demo).1 = true
      ∧ (Scheduler.SwitchContextChecked killOnOverflow (fun _ => StackPtr.TOP_MARKER)
          demoStacks demo 2099).alarms = [ALARM_REASON.AR_STACK_UNDERFLOW]
      ∧ (Scheduler.SwitchContextChecked killOnOverflow (fun _ => StackPtr.TOP_MARKER)
          demoStacks demo 2099).sch.m_cur_task = some 2
      ∧ ((Scheduler.SwitchContextChecked killOnOverflow (fun _ => StackPtr.TOP_MARKER)
          demoStacks demo 2099).tasks 2).m_state = StateRunning
      ∧ (Scheduler.SwitchContextChecked killAlways (fun _ => StackPtr.TOP_MARKER)
          demoStacks demo 2099).alarms = [ALARM_REASON.AR_STACK_UNDERFLOW]
      ∧ (Scheduler.SwitchContextChecked killAlways (fun _ => StackPtr.TOP_MARKER)
          demoStacks demo 2099).sch.m_cur_task = some 0
      ∧ (Scheduler.SwitchContextChecked killAlways (fun _ => StackPtr.TOP_MARKER)
          demoStacks demo 2099).sch.m_work_tasks = []
      ∧ ((Scheduler.SwitchContextChecked killAlways (fun _ => StackPtr.TOP_MARKER)
          demoStacks demo 2099).tasks 2).m_state = StateRunning)
    ∧ (∀ (hook : ALARM_REASON → ALARM_ACTION) (mem : Nat → Nat) (stk : TaskStack) (K : Kernel),
        (TaskStack.Check hook mem stk K).1 = false
          ↔ StackPtr.Check mem stk.m_top stk.m_margin stk.m_len
              = StackPtr.CHECK_RES.SP_UNDERFLOW
            ∧ hook ALARM_REASON.AR_STACK_UNDERFLOW = ALARM_ACTION.AA_KILL_TASK) :=
  ⟨by decide, fun hook mem stk K => TaskStack_Check_false_iff hook mem stk K⟩

/-! ## Milliseconds to ticks -/

/-- C29: at the tick rate of 1000 Hz of the concrete system the timeout
4294968 ms, which is not `INFINITE_TIMEOUT`, is converted to 0 ticks, although
`floor(1000 * 4294968 / 1000) = 4294968`: the 32-bit product wraps to 704.
The timeout one millisecond shorter is converted to 4294967 ticks, so the
conversion is not monotone.  Whenever the product `tick_rate * ms` is below
`2 ^ 32` the result is `floor(tick_rate * ms / 1000)`, and no shorter timeout
gives more ticks. -/
theorem MsToTicks_wraps :
    (4294968 ≠ INFINITE_TIMEOUT
      ∧ System.GetTickRate demo = 1000
      ∧ MsToTicks demo 4294968 = 0
      ∧ System.GetTickRate demo * 4294968 / 1000 = 4294968
      ∧ MsToTicks demo 4294967 = 4294967)
    ∧ ∀ (k : Kernel) (ms : Nat), System.GetTickRate k * ms < 2 ^ 32 →
        MsToTicks k ms = System.GetTickRate k * ms / 1000
        ∧ ∀ a, a ≤ ms → MsToTicks k a ≤ MsToTicks k ms := by
  refine ⟨by decide, ?_⟩
  intro k ms h
  have e : ∀ a, a ≤ ms → MsToTicks k a = System.GetTickRate k * a / 1000 := by
    intro a ha
    unfold MsToTicks
    have : System.GetTickRate k * a ≤ System.GetTickRate k * ms := Nat.mul_le_mul_left _ ha
    rw [Nat.mod_eq_of_lt (by omega)]
  refine ⟨e ms (Nat.le_refl _), fun a ha => ?_⟩
  rw [e a ha, e ms (Nat.le_refl _)]
  exact Nat.div_le_div_right (Nat.mul_le_mul_left _ ha)

theorem MsToTicks_wraps_witness :
    System.GetTickRate demo * 2500 < 2 ^ 32
    ∧ MsToTicks demo 2500 = System.GetTickRate demo * 2500 / 1000
    ∧ MsToTicks demo 1000 ≤ MsToTicks demo 2500 :=
  ⟨by decide, (MsToTicks_wraps.2 demo 2500 (by decide)).1,
    (MsToTicks_wraps.2 demo 2500 (by decide)).2 1000 (by decide)⟩

/-! ## Ownership of mutexes -/

theorem ownership_of_eq {a b : Kernel} (h1 : a.mutexes = b.mutexes)
    (h2 : a.tasks = b.tasks) : a.ownership = b.ownership := by
  unfold Kernel.ownership
  rw [h1, h2]

theorem ownership_iff {a b : Kernel} :
    a.ownership = b.ownership ↔ (∀ m, (a.mutexes m).m_owner = (b.mutexes m).m_owner)
      ∧ ∀ t, (a.tasks t).m_owned_obj_list = (b.tasks t).m_owned_obj_list := by
  unfold Kernel.ownership
  rw [Prod.mk.injEq]
  constructor
  · rintro ⟨h1, h2⟩
    exact ⟨fun m => congrFun h1 m, fun t => congrFun h2 t⟩
  · rintro ⟨h1, h2⟩
    exact ⟨funext h1, funext h2⟩

/-- A write to a task that keeps its owned list. -/
theorem setTask_ownership (k : Kernel) (t : Nat) (f : Task → Task)
    (h : (f (k.tasks t)).m_owned_obj_list = (k.tasks t).m_owned_obj_list) :
    (k.setTask t f).ownership = k.ownership := by
  rw [ownership_iff]
  refine ⟨fun _ => rfl, fun i => ?_⟩
  by_cases hi : i = t
  · subst hi; simp [h]
  · simp [hi]

/-- A write to a mutex that keeps its owner. -/
theorem setMutex_ownership (k : Kernel) (m : Nat) (f : Mutex → Mutex)
    (h : (f (k.mutexes m)).m_owner = (k.mutexes m).m_owner) :
    (k.setMutex m f).ownership = k.ownership := by
  rw [ownership_iff]
  refine ⟨fun i => ?_, fun _ => rfl⟩
  by_cases hi : i = m
  · subst hi; simp [h]
  · simp [hi]

@[simp]
theorem setSch_ownership (k : Kernel) (f : Scheduler → Scheduler) :
    (k.setSch f).ownership = k.ownership := rfl

@[simp]
theorem setSemaphore_ownership (k : Kernel) (m : Nat) (f : Semaphore → Semaphore) :
    (k.setSemaphore m f).ownership = k.ownership := rfl

@[simp]
theorem setEvent_ownership (k : Kernel) (m : Nat) (f : Event → Event) :
    (k.setEvent m f).ownership = k.ownership := rfl

@[simp]
theorem setWaiters_ownership (k : Kernel) (s : SyncRef) (l : List Nat) :
    (k.setWaiters s l).ownership = k.ownership := by
  cases s
  · unfold Kernel.setWaiters
    exact setMutex_ownership k _ _ rfl
  · rfl
  · rfl

@[simp]
theorem MACS_ALARM_ownership (k : Kernel) (r : ALARM_REASON) :
    (MACS_ALARM k r).ownership = k.ownership := rfl

@[simp]
theorem CriticalSection_ownership (k : Kernel) : (CriticalSection k).ownership = k.ownership :=
  ownership_of_eq (by simp) (by simp)

@[simp]
theorem TryContextSwitch_ownership (k : Kernel) :
    (Scheduler.TryContextSwitch k).ownership = k.ownership :=
  ownership_of_eq (TryContextSwitch_mutexes k) (TryContextSwitch_tasks k)

@[simp]
theorem Yield_ownership (k : Kernel) : (Scheduler.Yield k).ownership = k.ownership :=
  ownership_of_eq (Yield_mutexes k) (Yield_tasks k)

@[simp]
theorem WorkInsert_ownership (k : Kernel) (t : Nat) :
    (TaskWorkRoom.Insert k t).ownership = k.ownership := rfl

@[simp]
theorem WorkRemove_ownership (k : Kernel) (t : Nat) :
    (TaskWorkRoom.Remove k t).ownership = k.ownership := rfl

@[simp]
theorem SleepInsert_ownership (k : Kernel) (t : Nat) :
    (TaskSleepRoom.Insert k t).ownership = k.ownership := rfl

@[simp]
theorem SleepRemove_ownership (k : Kernel) (t : Nat) :
    (TaskSleepRoom.Remove k t).ownership = k.ownership := rfl

theorem Svc_ownership {α : Type} (f : Kernel → α × Kernel) (k : Kernel)
    (h : ∀ K : Kernel, (f K).2.ownership = K.ownership) :
    (SvcExecPrivileged f k).2.ownership = k.ownership :=
  h { k with sys := { k.sys with mode := ExecMode.svc } }

theorem setTask_priority_ownership (k : Kernel) (t p : Nat) :
    (k.setTask t (fun x => { x with m_priority := p })).ownership = k.ownership :=
  setTask_ownership k t _ rfl

theorem setTask_func_ownership (k : Kernel) (t : Nat) (f : Option SyncRef) :
    (k.setTask t (fun x => { x with m_unblock_func := f })).ownership = k.ownership :=
  setTask_ownership k t _ rfl

theorem setMutex_waiters_ownership (k : Kernel) (m : Nat) (g : Mutex → List Nat) :
    (k.setMutex m (fun x => { x with m_blocked_task_list := g x })).ownership
      = k.ownership :=
  setMutex_ownership k m _ rfl

@[simp]
theorem IntSetTaskPriority_ownership (k : Kernel) (t p : Nat) (b : Bool) :
    (IntSetTaskPriority_Priv k t p b).2.ownership = k.ownership := by
  have hf : ∀ (l : List Nat) (ka : Kernel),
      (l.foldl (fun k pobj => k.setMutex pobj
        (fun m => { m with m_owner_original_priority := p })) ka).ownership = ka.ownership := by
    intro l
    induction l with
    | nil => intro ka; rfl
    | cons x xs ih =>
      intro ka
      simp only [List.foldl_cons]
      rw [ih]
      exact setMutex_ownership ka x _ rfl
  unfold IntSetTaskPriority_Priv
  simp only []
  split
  · simp
  · split
    · simp
    · split <;> split <;> split <;> simp [hf, setTask_priority_ownership]

@[simp]
theorem SetTaskPriority_bare_ownership (k : Kernel) (t p : Nat) :
    (_SetTaskPriority_Priv k t p).ownership = k.ownership := by
  unfold _SetTaskPriority_Priv
  simp only []
  split <;> simp [setTask_priority_ownership]

@[simp]
theorem UpdateOwnerPriority_ownership (k : Kernel) (m : Nat) :
    (Mutex.UpdateOwnerPriority k m).ownership = k.ownership := by
  unfold Mutex.UpdateOwnerPriority
  split
  · rfl
  · split
    · simp
    · rfl

@[simp]
theorem OnUnblockTask_ownership (k : Kernel) (f : SyncRef) (t : Nat) (r : Task.UnblockReason) :
    (UnblockFunctor.OnUnblockTask k f t r).ownership = k.ownership := by
  cases f <;>
    simp only [UnblockFunctor.OnUnblockTask, Mutex.OnUnblockTask, SyncObject.OnUnblockTask,
      Task.DropBlockSync] <;>
    split <;> simp [setTask_func_ownership, setMutex_waiters_ownership]

@[simp]
theorem UnblockTaskInternal_ownership (k : Kernel) (t : Nat) (r : Task.UnblockReason) :
    (Scheduler.UnblockTaskInternal k t r).2.ownership = k.ownership := by
  have h1 : (k.setTask t
      (fun x => { x with m_unblock_reason := r, m_state := StateReady })).ownership
      = k.ownership := setTask_ownership k t _ rfl
  unfold Scheduler.UnblockTaskInternal
  split
  · rfl
  · simp only []
    split <;> split <;> simp [setTask_func_ownership, h1]

@[simp]
theorem UnblockTask_Priv_ownership (k : Kernel) (t : Nat) :
    (UnblockTask_Priv k t).2.ownership = k.ownership := by
  unfold UnblockTask_Priv
  simp only []
  split
  · simp
  · split
    · simp
    · split
      · simp
      · split <;> simp

@[simp]
theorem Scheduler_UnblockTask_ownership (k : Kernel) (t : Option Nat) :
    (Scheduler.UnblockTask k t).2.ownership = k.ownership := by
  unfold Scheduler.UnblockTask
  split
  · rfl
  · split
    · rfl
    · split
      · rfl
      · split
        · simp
        · exact Svc_ownership _ k (fun K => UnblockTask_Priv_ownership K _)

theorem setTask_dream_ownership (k : Kernel) (t : Nat) (g : Task → Nat) :
    (k.setTask t (fun x => { x with m_dream_ticks := g x })).ownership = k.ownership :=
  setTask_ownership k t _ rfl

@[simp]
theorem Tick_ownership (k : Kernel) : (TaskSleepRoom.Tick k).ownership = k.ownership := by
  have hf : ∀ (g : Task → Nat) (l : List Nat) (ka : Kernel),
      (l.foldl (fun k t =>
        if (k.tasks t).m_dream_ticks ≠ ULONG_MAX then
          k.setTask t (fun x => { x with m_dream_ticks := g x })
        else k) ka).ownership = ka.ownership := by
    intro g l
    induction l with
    | nil => intro ka; rfl
    | cons x xs ih =>
      intro ka
      simp only [List.foldl_cons]
      rw [ih]
      split
      · exact setTask_dream_ownership ka x g
      · rfl
  exact hf _ _ _

@[simp]
theorem SleepFetch_ownership (k : Kernel) :
    (TaskSleepRoom.Fetch k).2.ownership = k.ownership := by
  unfold TaskSleepRoom.Fetch
  split
  · rfl
  · split <;> rfl

@[simp]
theorem wakeExpired_ownership (fuel : Nat) (k : Kernel) :
    (Scheduler.wakeExpired fuel k).ownership = k.ownership := by
  induction fuel generalizing k with
  | zero => rfl
  | succ n ih =>
    unfold Scheduler.wakeExpired
    have hF := SleepFetch_ownership k
    cases hq : TaskSleepRoom.Fetch k with
    | mk a K =>
      rw [hq] at hF
      cases a with
      | none => rfl
      | some t =>
        simp only []
        rw [ih, UnblockTaskInternal_ownership]
        exact hF

@[simp]
theorem SysTickHandler_ownership (k : Kernel) :
    (Scheduler.SysTickHandler k).2.ownership = k.ownership := by
  unfold Scheduler.SysTickHandler
  simp only []
  split
  · simp
  · split
    · simp
    · split
      · show (Scheduler.wakeExpired _ _).ownership = _
        simp
      · show (Scheduler.wakeExpired _ _).ownership = _
        simp

theorem setTask_block_ownership (k : Kernel) (t : Nat) (f : Option SyncRef) (d : Nat) :
    (k.setTask t (fun x =>
      { x with
        m_state := StateBlocked
        m_unblock_reason := UnblockReasonNone
        m_unblock_func := f
        m_dream_ticks := d })).ownership = k.ownership :=
  setTask_ownership k t _ rfl

@[simp]
theorem BlockCurrentTask_Priv_ownership (k : Kernel) (ms : Nat) (f : Option SyncRef) :
    (BlockCurrentTask_Priv k ms f).2.ownership = k.ownership := by
  unfold BlockCurrentTask_Priv
  split
  · rfl
  · split
    · rfl
    · simp only []
      split
      · simp
      · split
        · simp
        · split
          · split <;> simp
          · simp [setTask_block_ownership]

@[simp]
theorem SyncObject_BlockCurTask_ownership (k : Kernel) (s : SyncRef) (ms : Nat) :
    (SyncObject.BlockCurTask k s ms).2.ownership = k.ownership := by
  unfold SyncObject.BlockCurTask
  split
  · rfl
  · simp [Task.SetBlockSync, setTask_func_ownership]

@[simp]
theorem Mutex_BlockCurTask_ownership (k : Kernel) (m ms : Nat) :
    (Mutex.BlockCurTask k m ms).2.ownership = k.ownership := by
  unfold Mutex.BlockCurTask
  simp

@[simp]
theorem SyncObject_OnDeleteTask_ownership (k : Kernel) (s : SyncRef) (t : Nat) :
    (SyncObject.OnDeleteTask k s t).ownership = k.ownership := by
  unfold SyncObject.OnDeleteTask
  simp

@[simp]
theorem TaskIrqRoom_Del_ownership (k : Kernel) (t : Nat) :
    (TaskIrqRoom.Del k t).ownership = k.ownership := rfl

theorem OwnedInv_of_ownership {k K : Kernel} (h : K.ownership = k.ownership)
    (hk : OwnedInv k) : OwnedInv K := by
  obtain ⟨h1, h2⟩ := ownership_iff.mp h
  refine ⟨fun t m => ?_, fun t => ?_⟩
  · rw [h1, h2]; exact hk.1 t m
  · rw [h2]; exact hk.2 t

theorem Released_of_ownership {k K : Kernel} {m : Nat} (h : K.ownership = k.ownership)
    (hk : Released k m) : Released K m := by
  obtain ⟨h1, h2⟩ := ownership_iff.mp h
  refine ⟨fun t x => ?_, fun t => ?_⟩
  · rw [h1, h2]; exact hk.1 t x
  · rw [h2]; exact hk.2 t

/-- A consistent state in which the mutex has no owner. -/
theorem Released_of_free {k : Kernel} {m : Nat} (hk : OwnedInv k)
    (hm : (k.mutexes m).m_owner = none) : Released k m := by
  refine ⟨fun t x => ?_, hk.2⟩
  rw [hk.1 t x]
  constructor
  · intro h
    refine ⟨?_, h⟩
    intro e
    rw [e, hm] at h
    exact Option.noConfusion h
  · exact fun h => h.2

/-- Unlinking the mutex from the list of its owner. -/
theorem Released_of_remove {k K : Kernel} {m o : Nat} (hk : OwnedInv k)
    (hm : (k.mutexes m).m_owner = some o)
    (ho : ∀ x, (K.mutexes x).m_owner = (k.mutexes x).m_owner)
    (hl : ∀ t, (K.tasks t).m_owned_obj_list
      = if t = o then (k.tasks t).m_owned_obj_list.erase m else (k.tasks t).m_owned_obj_list) :
    Released K m := by
  refine ⟨fun t x => ?_, fun t => ?_⟩
  · rw [hl t, ho x]
    by_cases hto : t = o
    · subst hto
      rw [if_pos rfl, (hk.2 t).mem_erase_iff, hk.1 t x]
    · rw [if_neg hto, hk.1 t x]
      constructor
      · intro h
        refine ⟨?_, h⟩
        intro e
        rw [e, hm] at h
        exact hto (Option.some.inj h).symm
      · exact fun h => h.2
  · rw [hl t]
    split
    · exact (hk.2 t).erase m
    · exact hk.2 t

/-- Giving the released mutex to a task. -/
theorem OwnedInv_of_acquire {k K : Kernel} {m c : Nat} (hk : Released k m)
    (ho : ∀ x, (K.mutexes x).m_owner = if x = m then some c else (k.mutexes x).m_owner)
    (hl : ∀ t, (K.tasks t).m_owned_obj_list
      = if t = c then m :: (k.tasks t).m_owned_obj_list else (k.tasks t).m_owned_obj_list) :
    OwnedInv K := by
  have hnot : ∀ t, m ∉ (k.tasks t).m_owned_obj_list := by
    intro t h
    exact ((hk.1 t m).mp h).1 rfl
  refine ⟨fun t x => ?_, fun t => ?_⟩
  · rw [hl t, ho x]
    by_cases hx : x = m
    · subst hx
      rw [if_pos rfl]
      by_cases htc : t = c
      · subst htc
        simp
      · rw [if_neg htc]
        constructor
        · intro h; exact absurd h (hnot t)
        · intro h; exact absurd (Option.some.inj h).symm htc
    · rw [if_neg hx]
      by_cases htc : t = c
      · subst htc
        rw [if_pos rfl, List.mem_cons, hk.1 t x]
        constructor
        · rintro (h | h)
          · exact absurd h hx
          · exact h.2
        · exact fun h => Or.inr ⟨hx, h⟩
      · rw [if_neg htc, hk.1 t x]
        exact ⟨fun h => h.2, fun h => ⟨hx, h⟩⟩
  · rw [hl t]
    split
    · exact List.nodup_cons.mpr ⟨hnot t, hk.2 t⟩
    · exact hk.2 t

/-- Leaving the released mutex without owner. -/
theorem OwnedInv_of_free {k K : Kernel} {m : Nat} (hk : Released k m)
    (ho : ∀ x, (K.mutexes x).m_owner = if x = m then none else (k.mutexes x).m_owner)
    (hl : ∀ t, (K.tasks t).m_owned_obj_list = (k.tasks t).m_owned_obj_list) :
    OwnedInv K := by
  refine ⟨fun t x => ?_, fun t => ?_⟩
  · rw [hl t, ho x, hk.1 t x]
    by_cases hx : x = m
    · subst hx; simp
    · simp [hx]
  · rw [hl t]; exact hk.2 t

/-- `Mutex::Lock_Priv` keeps the owned lists consistent. -/
theorem Lock_Priv_OwnedInv (k : Kernel) (m ms : Nat) (hk : OwnedInv k) :
    OwnedInv (Mutex.Lock_Priv k m ms).2 := by
  have hc : OwnedInv (CriticalSection k) := OwnedInv_of_ownership (by simp) hk
  unfold Mutex.Lock_Priv
  simp only []
  split
  · split
    · exact hc
    · split
      · exact OwnedInv_of_ownership (by simp) hc
      · split
        · exact OwnedInv_of_ownership (by simp) hc
        · exact OwnedInv_of_ownership
            (setMutex_ownership (CriticalSection k) m
              (fun x => { x with m_lock_cnt := (x.m_lock_cnt + 1) % 2 ^ 32 }) rfl) hc
  · split
    · rename_i cur_task hown hcur
      refine OwnedInv_of_acquire (Released_of_free hc hown) (c := cur_task) ?_ ?_
      · intro x
        by_cases hx : x = m
        · subst hx; simp [Task.AddOwnedSync]
        · simp [Task.AddOwnedSync, hx]
      · intro t
        by_cases ht : t = cur_task
        · subst ht; simp [Task.AddOwnedSync, SList.Add]
        · simp [Task.AddOwnedSync, ht]
    · exact hc
    · split
      · exact hc
      · exact OwnedInv_of_ownership (by simp) hc

/-- `Mutex::RemoveFromOwner` unlinks the mutex. -/
theorem RemoveFromOwner_Released (k : Kernel) (m : Nat) (hk : OwnedInv k) :
    Released (Mutex.RemoveFromOwner k m).2 m := by
  unfold Mutex.RemoveFromOwner
  split
  · rename_i hown
    exact Released_of_free hk hown
  · rename_i o hown
    refine Released_of_remove hk hown (fun x => ?_) (fun t => ?_)
    · simp [Task.RemoveOwnedSync]
    · by_cases ht : t = o
      · subst ht; simp [Task.RemoveOwnedSync, SList.Del]
      · simp [Task.RemoveOwnedSync, ht]

/-- `Mutex::UnblockTask` on a released mutex gives it to the front waiter. -/
theorem Mutex_UnblockTask_OwnedInv (k : Kernel) (m : Nat) (hk : Released k m) :
    OwnedInv (Mutex.UnblockTask k m).2 := by
  unfold Mutex.UnblockTask
  simp only []
  cases hw : (SList.Fetch (k.mutexes m).m_blocked_task_list).1 with
  | none =>
    simp only []
    refine OwnedInv_of_ownership (Scheduler_UnblockTask_ownership _ _) ?_
    refine OwnedInv_of_free hk (fun x => ?_) (fun t => ?_)
    · by_cases hx : x = m
      · subst hx; simp [hw]
      · simp [hx]
    · simp
  | some w =>
    simp only []
    refine OwnedInv_of_ownership (Scheduler_UnblockTask_ownership _ _) ?_
    refine OwnedInv_of_acquire hk (c := w) (fun x => ?_) (fun t => ?_)
    · by_cases hx : x = m
      · subst hx; simp [Task.AddOwnedSync, hw]
      · simp [Task.AddOwnedSync, hx]
    · by_cases ht : t = w
      · subst ht; simp [Task.AddOwnedSync, SList.Add]
      · simp [Task.AddOwnedSync, ht]

theorem setMutex_free_OwnedInv (k : Kernel) (m : Nat) (hk : Released k m) :
    OwnedInv (k.setMutex m (fun x => { x with m_owner := none })) := by
  refine OwnedInv_of_free hk (fun x => ?_) (fun t => ?_)
  · by_cases hx : x = m
    · subst hx; simp
    · simp [hx]
  · simp

/-- `Mutex::Unlock_Priv` keeps the owned lists consistent. -/
theorem Unlock_Priv_OwnedInv (k : Kernel) (m : Nat) (hk : OwnedInv k) :
    OwnedInv (Mutex.Unlock_Priv k m).2 := by
  have hc : OwnedInv (CriticalSection k) := OwnedInv_of_ownership (by simp) hk
  have key : ∀ (g : Mutex → Nat) (cur_task : Nat),
      OwnedInv
        (if (((CriticalSection k).setMutex m (fun x => { x with m_lock_cnt := g x })).mutexes
            m).m_lock_cnt > 0 then
          (Result.ResultOk, (CriticalSection k).setMutex m (fun x => { x with m_lock_cnt := g x }))
        else
          if ((if ((Mutex.RemoveFromOwner ((CriticalSection k).setMutex m
                (fun x => { x with m_lock_cnt := g x })) m).2.tasks cur_task).m_priority
                ≠ (Mutex.RemoveFromOwner ((CriticalSection k).setMutex m
                  (fun x => { x with m_lock_cnt := g x })) m).1 then
              _SetTaskPriority_Priv (Mutex.RemoveFromOwner ((CriticalSection k).setMutex m
                (fun x => { x with m_lock_cnt := g x })) m).2 cur_task
                (Mutex.RemoveFromOwner ((CriticalSection k).setMutex m
                  (fun x => { x with m_lock_cnt := g x })) m).1
            else (Mutex.RemoveFromOwner ((CriticalSection k).setMutex m
                (fun x => { x with m_lock_cnt := g x })) m).2).mutexes m).m_blocked_task_list ≠ []
          then
            Mutex.UnblockTask
              (if ((Mutex.RemoveFromOwner ((CriticalSection k).setMutex m
                (fun x => { x with m_lock_cnt := g x })) m).2.tasks cur_task).m_priority
                ≠ (Mutex.RemoveFromOwner ((CriticalSection k).setMutex m
                  (fun x => { x with m_lock_cnt := g x })) m).1 then
              _SetTaskPriority_Priv (Mutex.RemoveFromOwner ((CriticalSection k).setMutex m
                (fun x => { x with m_lock_cnt := g x })) m).2 cur_task
                (Mutex.RemoveFromOwner ((CriticalSection k).setMutex m
                  (fun x => { x with m_lock_cnt := g x })) m).1
            else (Mutex.RemoveFromOwner ((CriticalSection k).setMutex m
                (fun x => { x with m_lock_cnt := g x })) m).2) m
          else
            (Result.ResultOk,
              (if ((Mutex.RemoveFromOwner ((CriticalSection k).setMutex m
                (fun x => { x with m_lock_cnt := g x })) m).2.tasks cur_task).m_priority
                ≠ (Mutex.RemoveFromOwner ((CriticalSection k).setMutex m
                  (fun x => { x with m_lock_cnt := g x })) m).1 then
              _SetTaskPriority_Priv (Mutex.RemoveFromOwner ((CriticalSection k).setMutex m
                (fun x => { x with m_lock_cnt := g x })) m).2 cur_task
                (Mutex.RemoveFromOwner ((CriticalSection k).setMutex m
                  (fun x => { x with m_lock_cnt := g x })) m).1
            else (Mutex.RemoveFromOwner ((CriticalSection k).setMutex m
                (fun x => { x with m_lock_cnt := g x })) m).2).setMutex m
                (fun x => { x with m_owner := none }))).2 := by
    intro g cur_task
    have h1 : OwnedInv ((CriticalSection k).setMutex m (fun x => { x with m_lock_cnt := g x })) :=
      OwnedInv_of_ownership (setMutex_ownership _ _ _ rfl) hc
    have h2 := RemoveFromOwner_Released _ m h1
    generalize Mutex.RemoveFromOwner ((CriticalSection k).setMutex m
                (fun x => { x with m_lock_cnt := g x })) m = r at h2 ⊢
    have h3 : Released (if (r.2.tasks cur_task).m_priority ≠ r.1 then
        _SetTaskPriority_Priv r.2 cur_task r.1 else r.2) m := by
      split
      · exact Released_of_ownership (by simp) h2
      · exact h2
    generalize (if (r.2.tasks cur_task).m_priority ≠ r.1 then
        _SetTaskPriority_Priv r.2 cur_task r.1 else r.2) = K3 at h3 ⊢
    split
    · exact h1
    · split
      · exact Mutex_UnblockTask_OwnedInv _ m h3
      · exact setMutex_free_OwnedInv _ m h3
  unfold Mutex.Unlock_Priv
  simp only []
  split
  · exact hc
  · split
    · exact hc
    · exact key _ _

/-- `Mutex::UnlockInternal` keeps the owned lists consistent. -/
theorem UnlockInternal_OwnedInv (k : Kernel) (m : Nat) (hk : OwnedInv k) :
    OwnedInv (Mutex.UnlockInternal k m).2 := by
  have h2 := RemoveFromOwner_Released k m hk
  have key : ∀ K3 : Kernel, Released K3 m →
      OwnedInv
        (if (K3.mutexes m).m_blocked_task_list ≠ [] then Mutex.UnblockTask K3 m
        else (Result.ResultOk, K3.setMutex m (fun x => { x with m_owner := none }))).2 := by
    intro K3 h3
    split
    · exact Mutex_UnblockTask_OwnedInv _ m h3
    · exact setMutex_free_OwnedInv _ m h3
  unfold Mutex.UnlockInternal
  simp only []
  refine key _ ?_
  split
  · exact h2
  · split
    · exact Released_of_ownership (by simp) h2
    · exact h2

/-- `Mutex::OnDeleteTask` keeps the owned lists consistent. -/
theorem Mutex_OnDeleteTask_OwnedInv (k : Kernel) (m t : Nat) (hk : OwnedInv k) :
    OwnedInv (Mutex.OnDeleteTask k m t) := by
  unfold Mutex.OnDeleteTask
  split
  · exact hk
  · split
    · exact OwnedInv_of_ownership (by simp) hk
    · exact OwnedInv_of_ownership (setMutex_ownership _ _ _ rfl) (UnlockInternal_OwnedInv k m hk)

theorem UnblockFunctor_OnDeleteTask_OwnedInv (k : Kernel) (f : SyncRef) (t : Nat)
    (hk : OwnedInv k) : OwnedInv (UnblockFunctor.OnDeleteTask k f t) := by
  cases f with
  | mutex m => exact Mutex_OnDeleteTask_OwnedInv k m t hk
  | semaphore s => exact OwnedInv_of_ownership (SyncObject_OnDeleteTask_ownership _ _ _) hk
  | event e => exact OwnedInv_of_ownership (SyncObject_OnDeleteTask_ownership _ _ _) hk

theorem detachOwned_OwnedInv (task fuel : Nat) (k : Kernel) (hk : OwnedInv k) :
    OwnedInv (Task.detachOwned task fuel k) := by
  induction fuel generalizing k with
  | zero => exact hk
  | succ n ih =>
    unfold Task.detachOwned
    split
    · exact hk
    · exact ih _ (Mutex_OnDeleteTask_OwnedInv k _ task hk)

/-- `Task::DetachFromSync` keeps the owned lists consistent. -/
theorem DetachFromSync_OwnedInv (k : Kernel) (t : Nat) (hk : OwnedInv k) :
    OwnedInv (Task.DetachFromSync k t) := by
  unfold Task.DetachFromSync
  simp only []
  apply detachOwned_OwnedInv
  split
  · exact OwnedInv_of_ownership (setTask_func_ownership _ _ _)
      (UnblockFunctor_OnDeleteTask_OwnedInv k _ t hk)
  · exact hk

/-- `DeleteTask_Priv` keeps the owned lists consistent. -/
theorem DeleteTask_Priv_OwnedInv (k : Kernel) (t : Nat) (hk : OwnedInv k) :
    OwnedInv (DeleteTask_Priv k t).2 := by
  have hc : OwnedInv (CriticalSection k) := OwnedInv_of_ownership (by simp) hk
  have key : ∀ K1 : Kernel, OwnedInv K1 → ∀ b : Bool,
      OwnedInv
        (if b = true then
          System.InternalSwitchContext
            (((TaskIrqRoom.Del (Task.DetachFromSync K1 t) t).setTask t
              (fun x => { x with m_state := StateInactive })).setSch
                (fun s => { s with m_cur_task := none }))
        else (TaskIrqRoom.Del (Task.DetachFromSync K1 t) t).setTask t
              (fun x => { x with m_state := StateInactive })) := by
    intro K1 h1 b
    have h2 : OwnedInv ((TaskIrqRoom.Del (Task.DetachFromSync K1 t) t).setTask t
        (fun x => { x with m_state := StateInactive })) :=
      OwnedInv_of_ownership (setTask_ownership _ _ _ rfl)
        (OwnedInv_of_ownership (TaskIrqRoom_Del_ownership _ _) (DetachFromSync_OwnedInv K1 t h1))
    split
    · unfold System.InternalSwitchContext
      exact OwnedInv_of_ownership (by simp) h2
    · exact h2
  unfold DeleteTask_Priv
  simp only []
  split
  · exact hc
  · refine key _ ?_ _
    split
    · split
      · exact OwnedInv_of_ownership (by simp) hc
      · exact OwnedInv_of_ownership (by simp) hc
    · exact hc

theorem setTask_state_ownership (k : Kernel) (t : Nat) (s : Task.State) :
    (k.setTask t (fun x => { x with m_state := s })).ownership = k.ownership :=
  setTask_ownership k t _ rfl

theorem setTask_irq_ownership (k : Kernel) (t : Nat) (b : Bool) :
    (k.setTask t (fun x => { x with m_irq_up := b })).ownership = k.ownership :=
  setTask_ownership k t _ rfl

@[simp]
theorem ActivateTasks_ownership (k : Kernel) :
    (TaskIrqRoom.ActivateTasks k).ownership = k.ownership := by
  have hf : ∀ (l : List Nat) (ka : Kernel),
      (l.foldl (fun k ptsk =>
        if (k.tasks ptsk).m_irq_up = true ∧ (k.tasks ptsk).m_state = StateBlocked
            ∧ (k.tasks ptsk).m_unblock_func = none then
          let k := TaskSleepRoom.Remove k ptsk
          let k := (Scheduler.UnblockTaskInternal k ptsk UnblockReasonIrq).2
          k.setTask ptsk (fun t => { t with m_irq_up := false })
        else k) ka).ownership = ka.ownership := by
    intro l
    induction l with
    | nil => intro ka; rfl
    | cons x xs ih =>
      intro ka
      simp only [List.foldl_cons]
      rw [ih]
      split
      · simp [setTask_irq_ownership]
      · rfl
  unfold TaskIrqRoom.ActivateTasks
  rw [setSch_ownership]
  exact hf _ _

@[simp]
theorem SelectNextTask_ownership (k : Kernel) :
    (Scheduler.SelectNextTask k).ownership = k.ownership := by
  have key : ∀ K4 : Kernel,
      (match (TaskWorkRoom.Fetch K4).1 with
        | none => (TaskWorkRoom.Fetch K4).2.setSch
            (fun s => { s with m_cur_task := (TaskWorkRoom.Fetch K4).1 })
        | some n => ((TaskWorkRoom.Fetch K4).2.setSch
            (fun s => { s with m_cur_task := (TaskWorkRoom.Fetch K4).1 })).setTask n
              (fun t => { t with m_state := StateRunning })).ownership = K4.ownership := by
    intro K4
    split
    · simp [TaskWorkRoom.Fetch]
    · simp [TaskWorkRoom.Fetch, setTask_state_ownership]
  unfold Scheduler.SelectNextTask
  refine (key _).trans ?_
  split
  · rfl
  · simp only []
    split <;> split <;> simp [setTask_state_ownership]

@[simp]
theorem SwitchContext_ownership (k : Kernel) :
    (Scheduler.SwitchContext k).ownership = k.ownership := by
  unfold Scheduler.SwitchContext
  simp only []
  split
  · rw [SelectNextTask_ownership]
    split <;> simp
  · show (Scheduler.SelectNextTask _).ownership = _
    rw [SelectNextTask_ownership]
    split <;> simp

@[simp]
theorem PendSV_Handler_ownership (k : Kernel) :
    (PendSV_Handler k).ownership = k.ownership := by
  unfold PendSV_Handler inHandler
  split
  · show (Scheduler.SwitchContext _).ownership = _
    rw [SwitchContext_ownership]
    rfl
  · rfl

@[simp]
theorem SysTick_Handler_ownership (k : Kernel) :
    (SysTick_Handler k).ownership = k.ownership := by
  unfold SysTick_Handler inHandler
  simp only []
  split
  · show (System.SwitchContext (Scheduler.SysTickHandler _).2).ownership = _
    show (Scheduler.SysTickHandler _).2.ownership = _
    rw [SysTickHandler_ownership]
    rfl
  · show (Scheduler.SysTickHandler _).2.ownership = _
    rw [SysTickHandler_ownership]
    rfl

theorem ownStep_OwnedInv (k : Kernel) (op : OwnOp) (hk : OwnedInv k) :
    OwnedInv (ownStep k op) := by
  cases op with
  | lock m t => exact Lock_Priv_OwnedInv k m t hk
  | unlock m => exact Unlock_Priv_OwnedInv k m hk
  | timeout w => exact OwnedInv_of_ownership (UnblockTaskInternal_ownership k w _) hk
  | delete t => exact DeleteTask_Priv_OwnedInv k t hk
  | tick => exact OwnedInv_of_ownership (SysTick_Handler_ownership k) hk
  | switch => exact OwnedInv_of_ownership (PendSV_Handler_ownership k) hk

theorem ownRun_OwnedInv (ops : List OwnOp) :
    ∀ k : Kernel, OwnedInv k → OwnedInv (ownRun k ops) := by
  induction ops with
  | nil => intro k h; exact h
  | cons op rest ih =>
    intro k h
    exact ih _ (ownStep_OwnedInv k op h)

/-- A state without owners and with empty owned lists is consistent. -/
theorem OwnedInv_initial (k : Kernel) (h1 : ∀ m, (k.mutexes m).m_owner = none)
    (h2 : ∀ t, (k.tasks t).m_owned_obj_list = []) : OwnedInv k := by
  refine ⟨fun t m => ?_, fun t => ?_⟩
  · rw [h1, h2]; simp
  · rw [h2]; exact List.nodup_nil

theorem OwnedInv_demo : OwnedInv demo := by
  apply OwnedInv_initial
  · intro m
    show ((if m = 2 then ({ m_recursive := true } : Mutex) else {}).m_owner) = none
    split <;> rfl
  · intro t
    rcases t with _ | _ | _ | _ | t <;> rfl

/-- C30: owned-list consistency.  From a consistent state (such as the
initial one, in which no mutex has an owner and every owned list is empty),
every state reached through `Lock_Priv`, `Unlock_Priv`, timeouts of blocked
tasks, `DeleteTask_Priv`, ticks and context switches, with the transfers of
ownership they contain, is consistent: a mutex `M` has the non-null owner `O`
exactly when `M` occurs in the owned list of `O`, it occurs there once, and it
occurs in the owned list of no other task. -/
theorem owned_lists_consistent (k0 : Kernel) (h0 : OwnedInv k0) (ops : List OwnOp) :
    (∀ m o, ((ownRun k0 ops).mutexes m).m_owner = some o
        ↔ m ∈ ((ownRun k0 ops).tasks o).m_owned_obj_list)
    ∧ (∀ m o, ((ownRun k0 ops).mutexes m).m_owner = some o →
        (((ownRun k0 ops).tasks o).m_owned_obj_list.count m = 1
          ∧ ∀ t, t ≠ o → m ∉ ((ownRun k0 ops).tasks t).m_owned_obj_list)) := by
  have h := ownRun_OwnedInv ops k0 h0
  refine ⟨fun m o => (h.1 o m).symm, fun m o ho => ⟨?_, fun t hto hmem => ?_⟩⟩
  · exact List.count_eq_one_of_mem (h.2 o) ((h.1 o m).mpr ho)
  · have := (h.1 t m).mp hmem
    rw [ho] at this
    exact hto (Option.some.inj this).symm

theorem owned_lists_consistent_witness :
    OwnedInv demo
    ∧ ((ownRun demo ownOps).mutexes 0).m_owner = some 1
    ∧ ((ownRun demo ownOps).mutexes 1).m_owner = none
    ∧ ((ownRun demo ownOps).tasks 1).m_owned_obj_list.count 0 = 1
    ∧ (∀ t, t ≠ 1 → 0 ∉ ((ownRun demo ownOps).tasks t).m_owned_obj_list) :=
  ⟨OwnedInv_demo, by decide, by decide,
    ((owned_lists_consistent demo OwnedInv_demo ownOps).2 0 1 (by decide)).1,
    ((owned_lists_consistent demo OwnedInv_demo ownOps).2 0 1 (by decide)).2⟩

/-! ## Waiters and unblock functors -/

/-- C31: in the concrete system task 2 blocks in `Semaphore::Wait` on
semaphore 1: it is the one waiter of the semaphore, `Blocked`, in the sleep
queue, and the semaphore is its unblock functor.  Then the idle task calls
`Scheduler::UnblockTask` for task 2.  The call returns `ResultOk`; task 2 is
`Ready` with no unblock functor and out of the sleep queue, and it is still in
the waiter list of semaphore 1.  After the context switch the next
`Semaphore::Signal` on semaphore 1, whose counter 0 is below its maximum 1,
takes the stale waiter from the list, finds it not blocked, returns
`ResultErrorInvalidState` and leaves the counter at 0: the signal is lost. -/
theorem UnblockTask_leaves_stale_waiter :
    (run demo [Op.wait 1 INFINITE_TIMEOUT]).sch.m_started = true
    ∧ (run demo [Op.wait 1 INFINITE_TIMEOUT]).sch.m_cur_task = some 0
    ∧ ((run demo [Op.wait 1 INFINITE_TIMEOUT]).semaphores 1).m_blocked_task_list = [2]
    ∧ ((run demo [Op.wait 1 INFINITE_TIMEOUT]).tasks 2).m_unblock_func
        = some (SyncRef.semaphore 1)
    ∧ ((run demo [Op.wait 1 INFINITE_TIMEOUT]).tasks 2).m_state = StateBlocked
    ∧ 2 ∈ (run demo [Op.wait 1 INFINITE_TIMEOUT]).sch.m_sleep_tasks
    ∧ (Scheduler.UnblockTask (run demo [Op.wait 1 INFINITE_TIMEOUT]) (some 2)).1
        = Result.ResultOk
    ∧ (staleWaiter.semaphores 1).m_blocked_task_list = [2]
    ∧ (staleWaiter.tasks 2).m_unblock_func = none
    ∧ (staleWaiter.tasks 2).m_state = StateReady
    ∧ 2 ∉ staleWaiter.sch.m_sleep_tasks
    ∧ ((staleWaiter.semaphores 1).m_count, (staleWaiter.semaphores 1).m_max_count) = (0, 1)
    ∧ (Semaphore.Signal (PendSV_Handler staleWaiter) 1).1 = Result.ResultErrorInvalidState
    ∧ ((Semaphore.Signal (PendSV_Handler staleWaiter) 1).2.semaphores 1).m_count = 0 := by
  decide

/-! ## Adding tasks -/

theorem SListOrd_Add_count (P : Nat → Nat → Bool) (l : List Nat) (e : Nat) :
    (SListOrd.Add P l e).count e = l.count e + 1 := by
  obtain ⟨l1, l2, h1, h2, _, _⟩ := SListOrd_Add_split P l e
  rw [h2, h1]
  simp [List.count_append, List.count_cons]
  omega

/-- `AddTask_Priv` in privileged mode: the ready queue and the tasks
afterwards. -/
theorem AddTask_Priv_effect (k : Kernel) (t : Nat) (hp : System.IsInPrivOrIrq k = true) :
    (AddTask_Priv k t).1 = Result.ResultOk
    ∧ (AddTask_Priv k t).2.tasks = k.tasks
    ∧ (AddTask_Priv k t).2.sch.m_work_tasks = SListOrd.Add (PriorPreceeding k) k.sch.m_work_tasks t
    ∧ (AddTask_Priv k t).2.sch.m_sleep_tasks = k.sch.m_sleep_tasks := by
  unfold AddTask_Priv
  simp only [CriticalSection_priv k hp]
  refine ⟨trivial, ?_, ?_, ?_⟩
  · split <;> simp [TaskWorkRoom.Insert]
  · split <;> simp [TaskWorkRoom.Insert, TaskWorkList.Add]
  · split <;> simp [TaskWorkRoom.Insert]

theorem Keeps.refl (i : Nat) (k : Kernel) : Keeps i k k := ⟨id, id, id⟩

theorem Keeps.trans {i : Nat} {a b c : Kernel} (h1 : Keeps i a b) (h2 : Keeps i b c) :
    Keeps i a c :=
  ⟨fun h => h2.1 (h1.1 h), fun h => h2.2.1 (h1.2.1 h), fun h => h2.2.2 (h1.2.2 h)⟩

theorem keeps_of_eq {i : Nat} {k K : Kernel} (hw : K.sch.m_work_tasks = k.sch.m_work_tasks)
    (hc : K.sch.m_cur_task = k.sch.m_cur_task) (ht : K.tasks = k.tasks) : Keeps i k K := by
  refine ⟨?_, ?_, ?_⟩
  · rw [hw]; exact id
  · rw [hc]; exact id
  · rw [ht]; exact id

theorem keeps_ite {i : Nat} {k a b : Kernel} (c : Prop) [Decidable c]
    (h1 : Keeps i k a) (h2 : Keeps i k b) : Keeps i k (if c then a else b) := by
  split
  · exact h1
  · exact h2

theorem keeps_ite_snd {α : Type} {i : Nat} {k : Kernel} {a b : α × Kernel} (c : Prop)
    [Decidable c] (h1 : Keeps i k a.2) (h2 : Keeps i k b.2) :
    Keeps i k (if c then a else b).2 := by
  split
  · exact h1
  · exact h2

theorem keeps_setSch {i : Nat} (k : Kernel) (f : Scheduler → Scheduler)
    (hw : i ∈ k.sch.m_work_tasks → i ∈ (f k.sch).m_work_tasks)
    (hc : k.sch.m_cur_task = some i → (f k.sch).m_cur_task = some i) :
    Keeps i k (k.setSch f) := ⟨hw, hc, id⟩

/-- A write to a task that keeps it runnable. -/
theorem keeps_setTask {i : Nat} (k : Kernel) (t : Nat) (f : Task → Task)
    (h : Task.IsRunnable (k.tasks t) = true → Task.IsRunnable (f (k.tasks t)) = true) :
    Keeps i k (k.setTask t f) := by
  refine ⟨id, id, ?_⟩
  intro hr
  by_cases hi : i = t
  · subst hi
    simpa using h hr
  · simpa [hi] using hr

/-- A write to another task. -/
theorem keeps_setTask_ne {i : Nat} (k : Kernel) (t : Nat) (f : Task → Task) (hne : t ≠ i) :
    Keeps i k (k.setTask t f) := by
  refine ⟨id, id, ?_⟩
  intro hr
  have : ¬ i = t := fun e => hne e.symm
  simpa [this] using hr

theorem keeps_setMutex {i : Nat} (k : Kernel) (m : Nat) (f : Mutex → Mutex) :
    Keeps i k (k.setMutex m f) := ⟨id, id, id⟩

theorem keeps_setSemaphore {i : Nat} (k : Kernel) (m : Nat) (f : Semaphore → Semaphore) :
    Keeps i k (k.setSemaphore m f) := ⟨id, id, id⟩

theorem keeps_setEvent {i : Nat} (k : Kernel) (m : Nat) (f : Event → Event) :
    Keeps i k (k.setEvent m f) := ⟨id, id, id⟩

theorem keeps_setWaiters {i : Nat} (k : Kernel) (s : SyncRef) (l : List Nat) :
    Keeps i k (k.setWaiters s l) := by
  cases s <;> exact ⟨id, id, id⟩

theorem keeps_MACS_ALARM {i : Nat} (k : Kernel) (r : ALARM_REASON) :
    Keeps i k (MACS_ALARM k r) := ⟨id, id, id⟩

theorem keeps_CriticalSection {i : Nat} (k : Kernel) : Keeps i k (CriticalSection k) :=
  keeps_of_eq (by simp) (by simp) (by simp)

theorem keeps_TryContextSwitch {i : Nat} (k : Kernel) :
    Keeps i k (Scheduler.TryContextSwitch k) :=
  keeps_of_eq (TryContextSwitch_work k) (TryContextSwitch_cur k) (TryContextSwitch_tasks k)

theorem keeps_Yield {i : Nat} (k : Kernel) : Keeps i k (Scheduler.Yield k) :=
  keeps_of_eq (Yield_work k) (Yield_cur k) (Yield_tasks k)

theorem keeps_WorkInsert {i : Nat} (k : Kernel) (t : Nat) :
    Keeps i k (TaskWorkRoom.Insert k t) := by
  refine ⟨fun h => ?_, id, id⟩
  simp only [TaskWorkRoom.Insert, TaskWorkList.Add, setSch_sch]
  exact (mem_SListOrd_Add _ _ _ _).mpr (Or.inr h)

theorem keeps_WorkRemove_ne {i : Nat} (k : Kernel) (t : Nat) (hne : t ≠ i) :
    Keeps i k (TaskWorkRoom.Remove k t) := by
  refine ⟨fun h => ?_, id, id⟩
  simp only [TaskWorkRoom.Remove, SList.Del, setSch_sch]
  exact (List.mem_erase_of_ne (fun e => hne e.symm)).mpr h

/-- Taking a task out of the ready queue and linking it in again. -/
theorem keeps_requeue {i : Nat} (k : Kernel) (t : Nat) :
    Keeps i k (TaskWorkRoom.Insert (TaskWorkRoom.Remove k t) t) := by
  refine ⟨fun h => ?_, id, id⟩
  simp only [TaskWorkRoom.Insert, TaskWorkRoom.Remove, TaskWorkList.Add, SList.Del, setSch_sch]
  rw [mem_SListOrd_Add]
  by_cases hi : i = t
  · exact Or.inl hi
  · exact Or.inr ((List.mem_erase_of_ne hi).mpr h)

theorem keeps_SleepInsert {i : Nat} (k : Kernel) (t : Nat) :
    Keeps i k (TaskSleepRoom.Insert k t) := ⟨id, id, id⟩

theorem keeps_SleepRemove {i : Nat} (k : Kernel) (t : Nat) :
    Keeps i k (TaskSleepRoom.Remove k t) := ⟨id, id, id⟩

theorem keeps_Svc {α : Type} {i : Nat} (f : Kernel → α × Kernel) (k : Kernel)
    (h : ∀ K : Kernel, K.sch = k.sch → K.tasks = k.tasks → Keeps i K (f K).2) :
    Keeps i k (SvcExecPrivileged f k).2 := by
  have := h { k with sys := { k.sys with mode := ExecMode.svc } } rfl rfl
  exact this

theorem keeps_foldl {β : Type} {i : Nat} (f : Kernel → β → Kernel)
    (h : ∀ K b, Keeps i K (f K b)) (l : List β) (k : Kernel) : Keeps i k (l.foldl f k) := by
  induction l generalizing k with
  | nil => exact Keeps.refl i k
  | cons x xs ih => exact (h k x).trans (ih _)

theorem keeps_IntSetTaskPriority {i : Nat} (k : Kernel) (t p : Nat) (b : Bool) :
    Keeps i k (IntSetTaskPriority_Priv k t p b).2 := by
  unfold IntSetTaskPriority_Priv
  simp only []
  refine keeps_ite_snd _ (keeps_CriticalSection k) ?_
  refine keeps_ite_snd _ (keeps_CriticalSection k) ?_
  show Keeps i k (if _ then _ else _)
  refine keeps_ite _ ((Keeps.trans ?_ (keeps_Yield _))) ?_
  all_goals
    refine keeps_ite _ ?_ ?_
    all_goals
      first
      | refine Keeps.trans ?_ (keeps_foldl _ (fun K m => keeps_setMutex K m _) _ _)
      | skip
      refine keeps_ite _ ?_ ?_
      · exact ((keeps_CriticalSection k).trans (keeps_setTask _ t _ (by simp [Task.IsRunnable]))).trans
          (keeps_requeue _ t)
      · exact (keeps_CriticalSection k).trans (keeps_setTask _ t _ (by simp [Task.IsRunnable]))

theorem keeps_SetTaskPriority_bare {i : Nat} (k : Kernel) (t p : Nat) :
    Keeps i k (_SetTaskPriority_Priv k t p) := by
  unfold _SetTaskPriority_Priv
  simp only []
  refine keeps_ite _ (Keeps.trans ?_ (keeps_Yield _)) ?_
  · exact keeps_setTask _ t _ (by simp [Task.IsRunnable])
  · exact keeps_setTask _ t _ (by simp [Task.IsRunnable])

theorem keeps_UpdateOwnerPriority {i : Nat} (k : Kernel) (m : Nat) :
    Keeps i k (Mutex.UpdateOwnerPriority k m) := by
  unfold Mutex.UpdateOwnerPriority
  split
  · exact Keeps.refl i k
  · exact keeps_ite _ (keeps_IntSetTaskPriority k _ _ true) (Keeps.refl i k)

theorem keeps_DropBlockSync {i : Nat} (k : Kernel) (t : Nat) :
    Keeps i k (Task.DropBlockSync k t) :=
  keeps_setTask _ t _ (by simp [Task.IsRunnable])

theorem keeps_SetBlockSync {i : Nat} (k : Kernel) (t : Nat) (s : SyncRef) :
    Keeps i k (Task.SetBlockSync k t s) :=
  keeps_setTask _ t _ (by simp [Task.IsRunnable])

theorem keeps_OnUnblockTask {i : Nat} (k : Kernel) (f : SyncRef) (t : Nat)
    (r : Task.UnblockReason) : Keeps i k (UnblockFunctor.OnUnblockTask k f t r) := by
  cases f with
  | mutex m =>
    simp only [UnblockFunctor.OnUnblockTask, Mutex.OnUnblockTask]
    exact keeps_ite _ ((keeps_setMutex k m _).trans (keeps_UpdateOwnerPriority _ m))
      (Keeps.refl i k)
  | semaphore s =>
    simp only [UnblockFunctor.OnUnblockTask, SyncObject.OnUnblockTask]
    exact keeps_ite _ ((keeps_setWaiters k _ _).trans (keeps_DropBlockSync _ t)) (Keeps.refl i k)
  | event e =>
    simp only [UnblockFunctor.OnUnblockTask, SyncObject.OnUnblockTask]
    exact keeps_ite _ ((keeps_setWaiters k _ _).trans (keeps_DropBlockSync _ t)) (Keeps.refl i k)

theorem keeps_UnblockTaskInternal {i : Nat} (k : Kernel) (t : Nat) (r : Task.UnblockReason) :
    Keeps i k (Scheduler.UnblockTaskInternal k t r).2 := by
  have h1 : Keeps i k (k.setTask t
      (fun x => { x with m_unblock_reason := r, m_state := StateReady })) :=
    keeps_setTask _ t _ (by simp [Task.IsRunnable])
  have key : ∀ K2 : Kernel, Keeps i k K2 →
      Keeps i k (match (K2.tasks t).m_unblock_func with
        | some f => (UnblockFunctor.OnUnblockTask K2 f t r).setTask t
            (fun t => { t with m_unblock_func := none })
        | none => K2) := by
    intro K2 h2
    split
    · exact (h2.trans (keeps_OnUnblockTask K2 _ t r)).trans
        (keeps_setTask _ t _ (by simp [Task.IsRunnable]))
    · exact h2
  unfold Scheduler.UnblockTaskInternal
  refine keeps_ite_snd _ (Keeps.refl i k) ?_
  refine key _ ?_
  exact keeps_ite _ (h1.trans (keeps_WorkInsert _ t)) h1

theorem keeps_UnblockTask_Priv {i : Nat} (k : Kernel) (t : Nat) :
    Keeps i k (UnblockTask_Priv k t).2 := by
  have h1 : Keeps i k (Scheduler.UnblockTaskInternal (TaskSleepRoom.Remove (CriticalSection k) t)
      t UnblockReasonRequest).2 :=
    ((keeps_CriticalSection k).trans (keeps_SleepRemove _ t)).trans
      (keeps_UnblockTaskInternal _ t _)
  unfold UnblockTask_Priv
  simp only []
  refine keeps_ite_snd _ h1 ?_
  refine keeps_ite_snd _ h1 ?_
  split
  · exact h1
  · exact keeps_ite_snd _ (h1.trans (keeps_TryContextSwitch _)) h1

theorem keeps_Scheduler_UnblockTask {i : Nat} (k : Kernel) (t : Option Nat) :
    Keeps i k (Scheduler.UnblockTask k t).2 := by
  unfold Scheduler.UnblockTask
  refine keeps_ite_snd _ (Keeps.refl i k) ?_
  refine keeps_ite_snd _ (Keeps.refl i k) ?_
  cases t with
  | none => exact Keeps.refl i k
  | some t =>
    simp only []
    refine keeps_ite_snd _ (keeps_UnblockTask_Priv k t) ?_
    exact keeps_Svc _ k (fun K _ _ => keeps_UnblockTask_Priv K t)

/-- `BlockCurrentTask_Priv` called by another task than `i`. -/
theorem keeps_BlockCurrentTask_Priv {i : Nat} (k : Kernel) (ms : Nat) (f : Option SyncRef)
    (hc : k.sch.m_cur_task ≠ some i) : Keeps i k (BlockCurrentTask_Priv k ms f).2 := by
  unfold BlockCurrentTask_Priv
  refine keeps_ite_snd _ (Keeps.refl i k) ?_
  refine keeps_ite_snd _ (Keeps.refl i k) ?_
  simp only []
  cases hcur : (CriticalSection k).sch.m_cur_task with
  | none => exact keeps_CriticalSection k
  | some c =>
    have hci : c ≠ i := by
      intro e
      apply hc
      rw [← e, ← hcur]
      simp
    simp only []
    refine keeps_ite_snd _ (keeps_CriticalSection k) ?_
    refine keeps_ite_snd _ ?_ ?_
    · show Keeps i k (match f with
        | some f => UnblockFunctor.OnUnblockTask (CriticalSection k) f c UnblockReasonTimeout
        | none => CriticalSection k)
      split
      · exact (keeps_CriticalSection k).trans (keeps_OnUnblockTask _ _ _ _)
      · exact keeps_CriticalSection k
    · exact (((keeps_CriticalSection k).trans (keeps_setTask_ne _ c _ hci)).trans
        (keeps_SleepInsert _ c)).trans (keeps_TryContextSwitch _)

theorem keeps_SyncObject_BlockCurTask {i : Nat} (k : Kernel) (s : SyncRef) (ms : Nat)
    (hc : k.sch.m_cur_task ≠ some i) : Keeps i k (SyncObject.BlockCurTask k s ms).2 := by
  unfold SyncObject.BlockCurTask
  split
  · exact Keeps.refl i k
  · simp only []
    refine ((keeps_setWaiters k _ _).trans (keeps_SetBlockSync _ _ s)).trans
      (keeps_BlockCurrentTask_Priv _ ms _ ?_)
    simpa [Task.SetBlockSync] using hc

theorem keeps_Mutex_BlockCurTask {i : Nat} (k : Kernel) (m ms : Nat)
    (hc : k.sch.m_cur_task ≠ some i) : Keeps i k (Mutex.BlockCurTask k m ms).2 := by
  unfold Mutex.BlockCurTask
  exact (keeps_SyncObject_BlockCurTask k _ ms hc).trans (keeps_UpdateOwnerPriority _ m)

theorem keeps_SyncObject_UnblockTask {i : Nat} (k : Kernel) (s : SyncRef) :
    Keeps i k (SyncObject.UnblockTask k s).2 := by
  unfold SyncObject.UnblockTask
  simp only []
  split
  · exact (keeps_setWaiters k _ _).trans (keeps_Scheduler_UnblockTask _ none)
  · exact ((keeps_setWaiters k _ _).trans (keeps_DropBlockSync _ _)).trans
      (keeps_Scheduler_UnblockTask _ _)

theorem keeps_AddOwnedSync {i : Nat} (k : Kernel) (t m : Nat) :
    Keeps i k (Task.AddOwnedSync k t m) :=
  keeps_setTask _ t _ (by simp [Task.IsRunnable])

theorem keeps_RemoveOwnedSync {i : Nat} (k : Kernel) (t m : Nat) :
    Keeps i k (Task.RemoveOwnedSync k t m) :=
  keeps_setTask _ t _ (by simp [Task.IsRunnable])

theorem keeps_RemoveFromOwner {i : Nat} (k : Kernel) (m : Nat) :
    Keeps i k (Mutex.RemoveFromOwner k m).2 := by
  unfold Mutex.RemoveFromOwner
  split
  · exact Keeps.refl i k
  · exact keeps_RemoveOwnedSync k _ m

theorem keeps_Mutex_UnblockTask {i : Nat} (k : Kernel) (m : Nat) :
    Keeps i k (Mutex.UnblockTask k m).2 := by
  unfold Mutex.UnblockTask
  simp only []
  split
  · exact (keeps_setMutex k m _).trans (keeps_Scheduler_UnblockTask _ none)
  · exact (((keeps_setMutex k m _).trans (keeps_AddOwnedSync _ _ m)).trans
      (keeps_setMutex _ m _)).trans (keeps_Scheduler_UnblockTask _ _)

/-- `Mutex::Lock_Priv` called by another task than `i`. -/
theorem keeps_Lock_Priv {i : Nat} (k : Kernel) (m ms : Nat)
    (hc : k.sch.m_cur_task ≠ some i) : Keeps i k (Mutex.Lock_Priv k m ms).2 := by
  have h0 : Keeps i k (CriticalSection k) := keeps_CriticalSection k
  unfold Mutex.Lock_Priv
  simp only []
  refine keeps_ite_snd _ ?_ ?_
  · split
    · exact h0
    · refine keeps_ite_snd _ (h0.trans (keeps_MACS_ALARM _ _)) ?_
      refine keeps_ite_snd _ (h0.trans (keeps_MACS_ALARM _ _)) ?_
      exact h0.trans (keeps_setMutex _ m _)
  · split
    · exact (((h0.trans (keeps_setMutex _ m _)).trans (keeps_AddOwnedSync _ _ m)).trans
        (keeps_setMutex _ m _)).trans (keeps_setTask _ _ _ (by simp [Task.IsRunnable]))
    · exact h0
    · refine keeps_ite_snd _ h0 ?_
      exact h0.trans (keeps_Mutex_BlockCurTask _ m ms (by simpa using hc))

theorem keeps_unlock_tail {i : Nat} (k K3 : Kernel) (m : Nat) (h3 : Keeps i k K3) :
    Keeps i k
      (if (K3.mutexes m).m_blocked_task_list ≠ [] then Mutex.UnblockTask K3 m
      else (Result.ResultOk, K3.setMutex m (fun x => { x with m_owner := none }))).2 :=
  keeps_ite_snd _ (h3.trans (keeps_Mutex_UnblockTask K3 m)) (h3.trans (keeps_setMutex K3 m _))

theorem keeps_Unlock_Priv {i : Nat} (k : Kernel) (m : Nat) :
    Keeps i k (Mutex.Unlock_Priv k m).2 := by
  have h0 : Keeps i k (CriticalSection k) := keeps_CriticalSection k
  unfold Mutex.Unlock_Priv
  simp only []
  split
  · exact h0
  · refine keeps_ite_snd _ h0 ?_
    have h1 := h0.trans (keeps_setMutex (i := i) (CriticalSection k) m
      (fun x => { x with m_lock_cnt := (x.m_lock_cnt + 2 ^ 32 - 1) % 2 ^ 32 }))
    refine keeps_ite_snd _ h1 ?_
    refine keeps_unlock_tail k _ m ?_
    have h2 := h1.trans (keeps_RemoveFromOwner _ m)
    exact keeps_ite _ (h2.trans (keeps_SetTaskPriority_bare _ _ _)) h2

theorem keeps_UnlockInternal {i : Nat} (k : Kernel) (m : Nat) :
    Keeps i k (Mutex.UnlockInternal k m).2 := by
  unfold Mutex.UnlockInternal
  simp only []
  refine keeps_unlock_tail k _ m ?_
  have h2 := keeps_RemoveFromOwner (i := i) k m
  split
  · exact h2
  · exact keeps_ite _ (h2.trans (keeps_IntSetTaskPriority _ _ _ true)) h2

theorem keeps_SyncObject_OnDeleteTask {i : Nat} (k : Kernel) (s : SyncRef) (t : Nat) :
    Keeps i k (SyncObject.OnDeleteTask k s t) := keeps_setWaiters k _ _

theorem keeps_Mutex_OnDeleteTask {i : Nat} (k : Kernel) (m t : Nat) :
    Keeps i k (Mutex.OnDeleteTask k m t) := by
  unfold Mutex.OnDeleteTask
  split
  · exact Keeps.refl i k
  · exact keeps_ite _
      ((keeps_SyncObject_OnDeleteTask k _ t).trans (keeps_UpdateOwnerPriority _ m))
      ((keeps_UnlockInternal k m).trans (keeps_setMutex _ m _))

theorem keeps_UnblockFunctor_OnDeleteTask {i : Nat} (k : Kernel) (f : SyncRef) (t : Nat) :
    Keeps i k (UnblockFunctor.OnDeleteTask k f t) := by
  cases f with
  | mutex m => exact keeps_Mutex_OnDeleteTask k m t
  | semaphore s => exact keeps_SyncObject_OnDeleteTask k _ t
  | event e => exact keeps_SyncObject_OnDeleteTask k _ t

theorem keeps_detachOwned {i : Nat} (task fuel : Nat) (k : Kernel) :
    Keeps i k (Task.detachOwned task fuel k) := by
  induction fuel generalizing k with
  | zero => exact Keeps.refl i k
  | succ n ih =>
    unfold Task.detachOwned
    split
    · exact Keeps.refl i k
    · exact (keeps_Mutex_OnDeleteTask k _ task).trans (ih _)

theorem keeps_DetachFromSync {i : Nat} (k : Kernel) (t : Nat) :
    Keeps i k (Task.DetachFromSync k t) := by
  unfold Task.DetachFromSync
  simp only []
  refine Keeps.trans ?_ (keeps_detachOwned t _ _)
  split
  · exact (keeps_UnblockFunctor_OnDeleteTask k _ t).trans
      (keeps_setTask _ t _ (by simp [Task.IsRunnable]))
  · exact Keeps.refl i k

/-- `DeleteTask_Priv` of another task than `i`. -/
theorem keeps_DeleteTask_Priv {i : Nat} (k : Kernel) (t : Nat) (hne : t ≠ i) :
    Keeps i k (DeleteTask_Priv k t).2 := by
  have h0 : Keeps i k (CriticalSection k) := keeps_CriticalSection k
  have key : ∀ K1 : Kernel, Keeps i k K1 → K1.sch.m_cur_task = k.sch.m_cur_task →
      ∀ b : Bool, (b = true → k.sch.m_cur_task = some t) →
      Keeps i k
        (if b = true then
          System.InternalSwitchContext
            (((TaskIrqRoom.Del (Task.DetachFromSync K1 t) t).setTask t
              (fun x => { x with m_state := StateInactive })).setSch
                (fun s => { s with m_cur_task := none }))
        else (TaskIrqRoom.Del (Task.DetachFromSync K1 t) t).setTask t
              (fun x => { x with m_state := StateInactive })) := by
    intro K1 h1 _ b hb
    have h2 : Keeps i k ((TaskIrqRoom.Del (Task.DetachFromSync K1 t) t).setTask t
        (fun x => { x with m_state := StateInactive })) :=
      ((h1.trans (keeps_DetachFromSync K1 t)).trans
        (keeps_setSch _ _ (by simp [TaskIrqRoom.Del]) (by simp [TaskIrqRoom.Del]))).trans
        (keeps_setTask_ne _ t _ hne)
    split
    · rename_i hbt
      have hcur := hb hbt
      unfold System.InternalSwitchContext
      refine Keeps.trans ?_ (keeps_TryContextSwitch _)
      refine ⟨fun h => h2.1 h, fun h => ?_, fun h => h2.2.2 h⟩
      rw [hcur] at h
      exact absurd (Option.some.inj h) hne
    · exact h2
  unfold DeleteTask_Priv
  simp only []
  refine keeps_ite_snd _ h0 ?_
  refine key _ ?_ ?_ _ ?_
  · refine keeps_ite _ ?_ h0
    have h1 := h0.trans (keeps_SleepRemove (CriticalSection k) t)
    exact keeps_ite _ (h1.trans (keeps_WorkRemove_ne _ t hne)) h1
  · split
    · split <;> simp [TaskWorkRoom.Remove, TaskSleepRoom.Remove]
    · simp
  · intro hb
    have : some t = (CriticalSection k).sch.m_cur_task := by simpa using hb
    rw [this]
    simp

/-- `Semaphore::Wait_Priv` called by another task than `i`. -/
theorem keeps_Semaphore_Wait_Priv {i : Nat} (k : Kernel) (s ms : Nat)
    (hc : k.sch.m_cur_task ≠ some i) : Keeps i k (Semaphore.Wait_Priv k s ms).2 := by
  have h0 : Keeps i k (CriticalSection k) := keeps_CriticalSection k
  have h1 : Keeps i k (Semaphore.TryDecrement (CriticalSection k) s).2 := by
    unfold Semaphore.TryDecrement
    exact keeps_ite_snd _ (h0.trans (keeps_setSemaphore _ s _)) h0
  have hcur : (Semaphore.TryDecrement (CriticalSection k) s).2.sch.m_cur_task
      = k.sch.m_cur_task := by
    unfold Semaphore.TryDecrement
    split <;> simp
  unfold Semaphore.Wait_Priv
  simp only []
  refine keeps_ite_snd _ ?_ ?_
  · show Keeps i k (match (Semaphore.TryDecrement (CriticalSection k) s).2.sch.m_cur_task with
      | none => (Semaphore.TryDecrement (CriticalSection k) s).2
      | some c => (Semaphore.TryDecrement (CriticalSection k) s).2.setTask c
          (fun t => { t with m_unblock_reason := UnblockReasonNone }))
    split
    · exact h1
    · exact h1.trans (keeps_setTask _ _ _ (by simp [Task.IsRunnable]))
  · refine keeps_ite_snd _ h1 ?_
    exact h1.trans (keeps_SyncObject_BlockCurTask _ _ ms (by rw [hcur]; exact hc))

theorem keeps_Semaphore_Signal_Priv {i : Nat} (k : Kernel) (s : Nat) :
    Keeps i k (Semaphore.Signal_Priv k s).2 := by
  have h0 : Keeps i k (CriticalSection k) := keeps_CriticalSection k
  unfold Semaphore.Signal_Priv
  simp only []
  refine keeps_ite_snd _ h0 ?_
  refine keeps_ite_snd _ (h0.trans (keeps_SyncObject_UnblockTask _ _)) ?_
  exact h0.trans (keeps_setSemaphore _ s _)

theorem keeps_raiseLoop {i : Nat} (fuel : Nat) (k : Kernel) (e : Nat) :
    Keeps i k (Event.raiseLoop fuel k e) := by
  induction fuel generalizing k with
  | zero => exact Keeps.refl i k
  | succ n ih =>
    unfold Event.raiseLoop
    refine keeps_ite _ ?_ (Keeps.refl i k)
    simp only []
    have h1 := keeps_SyncObject_UnblockTask (i := i) k (SyncRef.event e)
    exact keeps_ite _ h1 (h1.trans (ih _))

theorem keeps_Event_Raise_Priv {i : Nat} (k : Kernel) (e : Nat) :
    Keeps i k (Event.Raise_Priv k e).2 := by
  unfold Event.Raise_Priv
  exact (keeps_CriticalSection k).trans (keeps_raiseLoop _ _ e)

/-- `Event::Wait_Priv` called by another task than `i`. -/
theorem keeps_Event_Wait_Priv {i : Nat} (k : Kernel) (e ms : Nat)
    (hc : k.sch.m_cur_task ≠ some i) : Keeps i k (Event.Wait_Priv k e ms).2 := by
  have h0 : Keeps i k (CriticalSection k) := keeps_CriticalSection k
  unfold Event.Wait_Priv
  simp only []
  refine keeps_ite_snd _ h0 ?_
  exact h0.trans (keeps_SyncObject_BlockCurTask _ _ ms (by simpa using hc))

theorem keeps_Tick {i : Nat} (k : Kernel) : Keeps i k (TaskSleepRoom.Tick k) := by
  unfold TaskSleepRoom.Tick
  refine keeps_foldl _ (fun K t => ?_) _ _
  exact keeps_ite _ (keeps_setTask _ t _ (by simp [Task.IsRunnable])) (Keeps.refl i K)

theorem keeps_SleepFetch {i : Nat} (k : Kernel) : Keeps i k (TaskSleepRoom.Fetch k).2 := by
  unfold TaskSleepRoom.Fetch
  split
  · exact Keeps.refl i k
  · exact keeps_ite_snd _ (keeps_setSch k _ id id) (Keeps.refl i k)

theorem keeps_wakeExpired {i : Nat} (fuel : Nat) (k : Kernel) :
    Keeps i k (Scheduler.wakeExpired fuel k) := by
  induction fuel generalizing k with
  | zero => exact Keeps.refl i k
  | succ n ih =>
    unfold Scheduler.wakeExpired
    have hF := keeps_SleepFetch (i := i) k
    cases hq : TaskSleepRoom.Fetch k with
    | mk a K =>
      rw [hq] at hF
      cases a with
      | none => exact Keeps.refl i k
      | some t =>
        simp only []
        exact (hF.trans (keeps_UnblockTaskInternal K t _)).trans (ih _)

theorem keeps_SysTickHandler {i : Nat} (k : Kernel) :
    Keeps i k (Scheduler.SysTickHandler k).2 := by
  have h0 : Keeps i k ((CriticalSection k).setSch
      (fun s => { s with m_tick_count := (s.m_tick_count + 1) % 2 ^ 32 })) :=
    (keeps_CriticalSection k).trans (keeps_setSch _ _ id id)
  have h1 := (h0.trans (keeps_Tick _)).trans (keeps_wakeExpired (i := i)
    (TaskSleepRoom.Tick ((CriticalSection k).setSch
      (fun s => { s with m_tick_count := (s.m_tick_count + 1) % 2 ^ 32 }))).sch.m_sleep_tasks.length
    _)
  unfold Scheduler.SysTickHandler
  simp only []
  refine keeps_ite_snd _ h0 ?_
  refine keeps_ite_snd _ (h1.trans (keeps_setSch _ _ id id)) ?_
  exact keeps_ite_snd _ h1 h1

theorem keeps_inHandler {i : Nat} (f : Kernel → Kernel) (k : Kernel)
    (h : ∀ K : Kernel, K.sch = k.sch → K.tasks = k.tasks → Keeps i K (f K)) :
    Keeps i k (inHandler f k) := by
  have := h { k with sys := { k.sys with mode := ExecMode.irq true } } rfl rfl
  exact this

theorem keeps_System_SwitchContext {i : Nat} (k : Kernel) :
    Keeps i k (System.SwitchContext k) := ⟨id, id, id⟩

theorem keeps_SysTick_Handler {i : Nat} (k : Kernel) : Keeps i k (SysTick_Handler k) := by
  unfold SysTick_Handler
  refine keeps_inHandler _ k (fun K _ _ => ?_)
  simp only []
  exact keeps_ite _ ((keeps_SysTickHandler K).trans (keeps_System_SwitchContext _))
    (keeps_SysTickHandler K)

theorem keeps_AddTask_Priv {i : Nat} (k : Kernel) (t : Nat) :
    Keeps i k (AddTask_Priv k t).2 := by
  unfold AddTask_Priv
  simp only []
  have h1 := (keeps_CriticalSection (i := i) k).trans (keeps_WorkInsert _ t)
  exact keeps_ite _ (h1.trans (keeps_Yield _)) h1

theorem keeps_Scheduler_AddTask {i : Nat} (k : Kernel) (t : Option Nat) (p : Nat)
    (mode : Task.Mode) : Keeps i k (Scheduler.AddTask k t p mode).2 := by
  unfold Scheduler.AddTask
  refine keeps_ite_snd _ (Keeps.refl i k) ?_
  cases t with
  | none => exact Keeps.refl i k
  | some t =>
    simp only []
    refine keeps_ite_snd _ (Keeps.refl i k) ?_
    refine keeps_ite_snd _ (Keeps.refl i k) ?_
    have h1 : Keeps i k (k.setTask t (fun x =>
        { x with m_priority := p, m_state := StateReady, m_mode := mode })) :=
      keeps_setTask _ t _ (by simp [Task.IsRunnable])
    refine keeps_ite_snd _ (h1.trans (keeps_AddTask_Priv _ t)) ?_
    refine h1.trans (keeps_Svc _ _ (fun K _ _ => keeps_AddTask_Priv K t))

theorem keeps_ActivateTasks {i : Nat} (k : Kernel) :
    Keeps i k (TaskIrqRoom.ActivateTasks k) := by
  unfold TaskIrqRoom.ActivateTasks
  refine Keeps.trans ?_ (keeps_setSch _ _ id id)
  refine keeps_foldl _ (fun K t => ?_) _ _
  refine keeps_ite _ ?_ (Keeps.refl i K)
  exact ((keeps_SleepRemove K t).trans (keeps_UnblockTaskInternal _ t _)).trans
    (keeps_setTask _ t _ (by simp [Task.IsRunnable]))

theorem IdleAvailable_of_keeps {i : Nat} {k K : Kernel} (h : Keeps i k K)
    (hk : IdleAvailable k i) : IdleAvailable K i := by
  rcases hk with h1 | ⟨h1, h2⟩
  · exact Or.inl (h.1 h1)
  · exact Or.inr ⟨h.2.1 h1, h.2.2 h2⟩

/-- `Scheduler::SelectNextTask` with the idle task available: the fetch
returns a task, and the idle task stays available. -/
theorem SelectNextTask_IdleAvailable (k : Kernel) (i : Nat) (hk : IdleAvailable k i) :
    (Scheduler.SelectNextTask k).sch.m_cur_task ≠ none
    ∧ IdleAvailable (Scheduler.SelectNextTask k) i := by
  have key : ∀ K4 : Kernel, i ∈ K4.sch.m_work_tasks →
      (match (TaskWorkRoom.Fetch K4).1 with
        | none => (TaskWorkRoom.Fetch K4).2.setSch
            (fun s => { s with m_cur_task := (TaskWorkRoom.Fetch K4).1 })
        | some n => ((TaskWorkRoom.Fetch K4).2.setSch
            (fun s => { s with m_cur_task := (TaskWorkRoom.Fetch K4).1 })).setTask n
              (fun t => { t with m_state := StateRunning })).sch.m_cur_task ≠ none
      ∧ IdleAvailable
        (match (TaskWorkRoom.Fetch K4).1 with
        | none => (TaskWorkRoom.Fetch K4).2.setSch
            (fun s => { s with m_cur_task := (TaskWorkRoom.Fetch K4).1 })
        | some n => ((TaskWorkRoom.Fetch K4).2.setSch
            (fun s => { s with m_cur_task := (TaskWorkRoom.Fetch K4).1 })).setTask n
              (fun t => { t with m_state := StateRunning })) i := by
    intro K4 h4
    simp only [TaskWorkRoom.Fetch, SList.Fetch]
    cases hq : K4.sch.m_work_tasks with
    | nil => rw [hq] at h4; exact absurd h4 (List.not_mem_nil _)
    | cons n rest =>
      simp only [List.head?_cons]
      refine ⟨by simp, ?_⟩
      rw [hq] at h4
      rcases List.mem_cons.mp h4 with h | h
      · subst h
        right
        refine ⟨by simp, ?_⟩
        simp [Task.IsRunnable]
      · left
        simpa [hq] using h
  unfold Scheduler.SelectNextTask
  refine key _ ?_
  rcases hk with h1 | ⟨h1, h2⟩
  · refine (?_ : Keeps i k _).1 h1
    split
    · exact Keeps.refl i k
    · simp only []
      refine keeps_ite _ (Keeps.trans ?_ (keeps_WorkInsert _ _)) ?_
      · exact keeps_ite _ (keeps_setTask _ _ _ (by simp [Task.IsRunnable])) (Keeps.refl i k)
      · exact keeps_ite _ (keeps_setTask _ _ _ (by simp [Task.IsRunnable])) (Keeps.refl i k)
  · rw [h1]
    simp only []
    have hr : (k.tasks i).m_state = StateRunning ∨ (k.tasks i).m_state = StateReady := by
      simpa [Task.IsRunnable] using h2
    have hstate : ((if (k.tasks i).m_state = StateRunning then
          k.setTask i (fun t => { t with m_state := StateReady })
        else k).tasks i).m_state = StateReady := by
      rcases hr with hr | hr
      · rw [if_pos hr]; simp
      · rw [if_neg (by rw [hr]; decide)]; exact hr
    rw [if_pos hstate]
    simp only [TaskWorkRoom.Insert, TaskWorkList.Add, setSch_sch]
    exact (mem_SListOrd_Add _ _ _ _).mpr (Or.inl rfl)

/-- `Scheduler::SwitchContext` with the idle task available. -/
theorem SwitchContext_IdleAvailable (k : Kernel) (i : Nat) (hk : IdleAvailable k i) :
    (Scheduler.SwitchContext k).sch.m_cur_task ≠ none
    ∧ IdleAvailable (Scheduler.SwitchContext k) i := by
  have h3 : IdleAvailable (if ((CriticalSection k).setSch
      (fun s => { s with m_pending_swc := false })).sch.m_irq_event = true then
      TaskIrqRoom.ActivateTasks ((CriticalSection k).setSch
        (fun s => { s with m_pending_swc := false }))
    else (CriticalSection k).setSch (fun s => { s with m_pending_swc := false })) i := by
    have h1 : Keeps i k ((CriticalSection k).setSch
        (fun s => { s with m_pending_swc := false })) :=
      (keeps_CriticalSection k).trans (keeps_setSch _ _ id id)
    exact IdleAvailable_of_keeps (keeps_ite _ (h1.trans (keeps_ActivateTasks _)) h1) hk
  obtain ⟨s1, s2⟩ := SelectNextTask_IdleAvailable _ i h3
  unfold Scheduler.SwitchContext
  simp only []
  split
  · exact ⟨s1, s2⟩
  · exact ⟨by simpa [System.SetPrivMode] using s1, s2⟩

theorem IdleAvailable_congr {i : Nat} {k K : Kernel} (hs : K.sch = k.sch)
    (ht : K.tasks = k.tasks) (hk : IdleAvailable k i) : IdleAvailable K i := by
  unfold IdleAvailable at hk ⊢
  rw [hs, ht]
  exact hk

theorem inHandler_IdleAvailable (f : Kernel → Kernel) (k : Kernel) (i : Nat)
    (h : ∀ K : Kernel, IdleAvailable K i → IdleAvailable (f K) i) (hk : IdleAvailable k i) :
    IdleAvailable (inHandler f k) i := by
  unfold inHandler
  exact IdleAvailable_congr rfl rfl
    (h { k with sys := { k.sys with mode := ExecMode.irq true } }
      (IdleAvailable_congr (k := k) rfl rfl hk))

theorem PendSV_Handler_IdleAvailable (k : Kernel) (i : Nat) (hk : IdleAvailable k i) :
    IdleAvailable (PendSV_Handler k) i := by
  unfold PendSV_Handler
  split
  · exact inHandler_IdleAvailable _ _ i (fun K hK => (SwitchContext_IdleAvailable K i hK).2)
      (IdleAvailable_congr (k := k) rfl rfl hk)
  · exact hk

theorem kStep_IdleAvailable (k : Kernel) (i : Nat) (op : KOp) (hs : op.spares i k)
    (hk : IdleAvailable k i) : IdleAvailable (kStep k op) i := by
  cases op with
  | lock m t => exact IdleAvailable_of_keeps (keeps_Lock_Priv k m t hs) hk
  | unlock m => exact IdleAvailable_of_keeps (keeps_Unlock_Priv k m) hk
  | delay t => exact IdleAvailable_of_keeps (keeps_BlockCurrentTask_Priv k t none hs) hk
  | setPriority t p => exact IdleAvailable_of_keeps (keeps_IntSetTaskPriority k t p false) hk
  | semWait s t => exact IdleAvailable_of_keeps (keeps_Semaphore_Wait_Priv k s t hs) hk
  | semSignal s => exact IdleAvailable_of_keeps (keeps_Semaphore_Signal_Priv k s) hk
  | evWait e t => exact IdleAvailable_of_keeps (keeps_Event_Wait_Priv k e t hs) hk
  | evRaise e => exact IdleAvailable_of_keeps (keeps_Event_Raise_Priv k e) hk
  | unblock t => exact IdleAvailable_of_keeps (keeps_UnblockTask_Priv k t) hk
  | add t p mode => exact IdleAvailable_of_keeps (keeps_Scheduler_AddTask k (some t) p mode) hk
  | delete t => exact IdleAvailable_of_keeps (keeps_DeleteTask_Priv k t hs) hk
  | tick => exact IdleAvailable_of_keeps (keeps_SysTick_Handler k) hk
  | switch => exact PendSV_Handler_IdleAvailable k i hk

theorem kRun_IdleAvailable (i : Nat) (ops : List KOp) :
    ∀ k : Kernel, sparesAll i k ops → IdleAvailable k i → IdleAvailable (kRun k ops) i := by
  induction ops with
  | nil => intro k _ h; exact h
  | cons op rest ih =>
    intro k hs h
    exact ih _ hs.2 (kStep_IdleAvailable k i op hs.1 h)

theorem AddTask_Priv_mem (k : Kernel) (t : Nat) :
    t ∈ (AddTask_Priv k t).2.sch.m_work_tasks ∧ (AddTask_Priv k t).2.tasks = k.tasks := by
  unfold AddTask_Priv
  simp only []
  constructor
  · split <;>
      simp [TaskWorkRoom.Insert, TaskWorkList.Add, mem_SListOrd_Add]
  · split <;> simp [TaskWorkRoom.Insert]

/-- `Scheduler::Initialize`, when it succeeds, leaves the idle task in the
ready queue with priority 0. -/
theorem Initialize_IdleAvailable (k : Kernel) (idle : Nat)
    (hi : System.IsInInterrupt k = false) (hn : k.sch.m_initialized = false) :
    (Scheduler.Initialize k idle true).1 = Result.ResultOk
    ∧ IdleAvailable (Scheduler.Initialize k idle true).2 idle
    ∧ ((Scheduler.Initialize k idle true).2.tasks idle).m_priority = 0
    ∧ (Scheduler.Initialize k idle true).2.sch.m_initialized = true := by
  have hi2 : System.IsInInterrupt ((k.setSch (fun s => { s with m_tick_count := 0 })).setTask idle
      (fun _ => {})) = false := hi
  have e : idle ∈ (Scheduler.AddTask ((k.setSch (fun s => { s with m_tick_count := 0 })).setTask
      idle (fun _ => {})) (some idle) 0 Task.Mode.ModePrivileged).2.sch.m_work_tasks
      ∧ ((Scheduler.AddTask ((k.setSch (fun s => { s with m_tick_count := 0 })).setTask idle
      (fun _ => {})) (some idle) 0 Task.Mode.ModePrivileged).2.tasks idle).m_priority = 0 := by
    unfold Scheduler.AddTask
    simp only [hi2, Bool.false_and, Bool.false_eq_true, if_false, Scheduler.IsPriorityValid,
      Nat.zero_le, decide_True, Bool.true_eq_false, setTask_tasks, if_true, ne_eq,
      not_true_eq_false]
    split
    · obtain ⟨a1, a2⟩ := AddTask_Priv_mem ((((k.setSch (fun s => { s with m_tick_count := 0 })).setTask
        idle (fun _ => {})).setTask idle (fun x =>
          { x with m_priority := 0, m_state := StateReady, m_mode := Task.Mode.ModePrivileged })))
        idle
      exact ⟨a1, by rw [a2]; simp⟩
    · obtain ⟨a1, a2⟩ := AddTask_Priv_mem
        { (((k.setSch (fun s => { s with m_tick_count := 0 })).setTask
        idle (fun _ => {})).setTask idle (fun x =>
          { x with m_priority := 0, m_state := StateReady, m_mode := Task.Mode.ModePrivileged }))
          with sys := { (((k.setSch (fun s => { s with m_tick_count := 0 })).setTask
        idle (fun _ => {})).setTask idle (fun x =>
          { x with m_priority := 0, m_state := StateReady,
                   m_mode := Task.Mode.ModePrivileged })).sys with mode := ExecMode.svc } }
        idle
      exact ⟨a1, by
        show (((AddTask_Priv _ idle).2.tasks idle).m_priority = 0)
        rw [a2]; simp⟩
  unfold Scheduler.Initialize
  simp only [hi, hn, Bool.false_eq_true, Bool.true_eq_false, if_false]
  exact ⟨trivial, Or.inl e.1, e.2, rfl⟩

theorem keeps_SetPrivMode {i : Nat} (k : Kernel) (b : Bool) :
    Keeps i k (System.SetPrivMode k b) := ⟨id, id, id⟩

/-- `Scheduler::Start` keeps the idle task available. -/
theorem Start_IdleAvailable (k : Kernel) (idle : Nat) (b msp : Bool)
    (hk : IdleAvailable k idle) : IdleAvailable (Scheduler.Start k b msp).2 idle := by
  have h1 : IdleAvailable (Scheduler.SelectNextTask
      (k.setSch (fun s => { s with m_use_preemption := b }))) idle :=
    (SelectNextTask_IdleAvailable (k.setSch (fun s => { s with m_use_preemption := b })) idle
      (IdleAvailable_of_keeps (keeps_setSch k _ id id) hk)).2
  have h2 : IdleAvailable ((Scheduler.SelectNextTask
      (k.setSch (fun s => { s with m_use_preemption := b }))).setSch
        (fun s => { s with m_started := true })) idle :=
    IdleAvailable_of_keeps (keeps_setSch _ _ id id) h1
  unfold Scheduler.Start
  split
  · exact hk
  · split
    · exact hk
    · split
      · exact hk
      · simp only []
        split
        · exact h2
        · exact IdleAvailable_of_keeps (keeps_SetPrivMode _ _) h2

theorem sparesAll_bootOps : sparesAll 0 booted bootOps := by
  unfold bootOps sparesAll
  refine ⟨trivial, ?_⟩
  unfold sparesAll
  refine ⟨trivial, ?_⟩
  unfold sparesAll
  refine ⟨by unfold KOp.spares; decide, ?_⟩
  unfold sparesAll
  refine ⟨by unfold KOp.spares; decide, ?_⟩
  unfold sparesAll
  refine ⟨trivial, ?_⟩
  unfold sparesAll
  refine ⟨trivial, ?_⟩
  unfold sparesAll
  refine ⟨trivial, ?_⟩
  unfold sparesAll
  refine ⟨by unfold KOp.spares; decide, ?_⟩
  unfold sparesAll
  exact ⟨trivial, trivial⟩

/-- The idle task in the lists of the model.  `Scheduler::Initialize` puts the
idle task, with priority 0, into the ready queue, and `Scheduler::Start` keeps
it available.  From a state in which the idle task is available (in the list
of the ready queue, or current and runnable), after any sequence of kernel
operations in which the idle task makes no blocking call and is not deleted,
the idle task is available again, and if `m_relinked` is still false after
`Scheduler::SelectNextTask`, called directly or in `Scheduler::SwitchContext`,
then the fetch returned a task, which is the current task.  The lists are the
queues of the source only while `m_relinked` is false: a run that sets it can
lose the idle task from the queue of the source while the list keeps it. -/
theorem kRun_keeps_idle_in_lists (k0 : Kernel) (idle : Nat) (ops : List KOp)
    (h0 : IdleAvailable k0 idle) (hs : sparesAll idle k0 ops) :
    IdleAvailable (kRun k0 ops) idle
    ∧ ((Scheduler.SelectNextTask (kRun k0 ops)).sch.m_relinked = false →
        (Scheduler.SelectNextTask (kRun k0 ops)).sch.m_cur_task ≠ none)
    ∧ ((Scheduler.SwitchContext (kRun k0 ops)).sch.m_relinked = false →
        (Scheduler.SwitchContext (kRun k0 ops)).sch.m_cur_task ≠ none)
    ∧ (∀ (k : Kernel) (b msp : Bool), System.IsInInterrupt k = false →
        k.sch.m_initialized = false →
        IdleAvailable (Scheduler.Start (Scheduler.Initialize k idle true).2 b msp).2 idle
        ∧ ((Scheduler.Initialize k idle true).2.tasks idle).m_priority = 0) := by
  have h := kRun_IdleAvailable idle ops k0 hs h0
  refine ⟨h, fun _ => (SelectNextTask_IdleAvailable _ idle h).1,
    fun _ => (SwitchContext_IdleAvailable _ idle h).1, fun k b msp hi hn => ?_⟩
  obtain ⟨_, a2, a3, _⟩ := Initialize_IdleAvailable k idle hi hn
  exact ⟨Start_IdleAvailable _ idle b msp a2, a3⟩

theorem kRun_keeps_idle_in_lists_witness :
    IdleAvailable booted 0
    ∧ sparesAll 0 booted bootOps
    ∧ (Scheduler.SelectNextTask (kRun booted bootOps)).sch.m_relinked = false
    ∧ IdleAvailable (kRun booted bootOps) 0
    ∧ (Scheduler.SelectNextTask (kRun booted bootOps)).sch.m_cur_task ≠ none :=
  ⟨Or.inr (by decide), sparesAll_bootOps, by decide,
    (kRun_keeps_idle_in_lists booted 0 bootOps (Or.inr (by decide)) sparesAll_bootOps).1,
    (kRun_keeps_idle_in_lists booted 0 bootOps (Or.inr (by decide)) sparesAll_bootOps).2.1
      (by decide)⟩

/-! ## The list of indices and the links -/

theorem SList_holds_congr (next next2 : Nat → Option Nat) (l : List Nat) :
    ∀ p, (∀ x, x ∈ l → next2 x = next x) → SList.holds next2 p l = SList.holds next p l := by
  induction l with
  | nil => intro p _; rfl
  | cons x xs ih =>
    intro p h
    simp only [SList.holds]
    rw [h x (List.mem_cons_self _ _), ih _ (fun y hy => h y (List.mem_cons_of_mem _ hy))]

theorem SList_Links_get_set (L : SList.Links) (ptr : SList.Ptr) (v : Option Nat) :
    (L.set ptr v).get ptr = v := by
  cases ptr with
  | head => rfl
  | next y => simp [SList.Links.set, SList.Links.get]

theorem SList_AddLinks_get (L : SList.Links) (ptr : SList.Ptr) (elm : Nat) :
    (SList.AddLinks L ptr elm).get ptr = some elm := SList_Links_get_set _ _ _

theorem SList_AddLinks_next (L : SList.Links) (ptr : SList.Ptr) (elm i : Nat)
    (hp : ptr ≠ SList.Ptr.next i) :
    (SList.AddLinks L ptr elm).next i = if i = elm then L.get ptr else L.next i := by
  cases ptr with
  | head => simp [SList.AddLinks, SList.Links.set, SList.Links.get]
  | next y =>
    have hy : i ≠ y := fun e => hp (by rw [e])
    simp [SList.AddLinks, SList.Links.set, SList.Links.get, hy]

theorem SList_AddLinks_head (L : SList.Links) (ptr : SList.Ptr) (elm : Nat)
    (hp : ptr ≠ SList.Ptr.head) : (SList.AddLinks L ptr elm).head = L.head := by
  cases ptr with
  | head => exact absurd rfl hp
  | next y => rfl

/-- `SListOrd::Add` from the place `ptr` on, for an element that is not in
the rest of the list: the walk stops within the length of the rest, and the
links from `ptr` hold the rest with the element inserted; the other links are
as before. -/
theorem SListOrd_walk_refines (P : Nat → Nat → Bool) (L : SList.Links) (elm : Nat)
    (suf : List Nat) :
    ∀ ptr, SList.holds L.next (L.get ptr) suf = true → suf.Nodup → elm ∉ suf →
      (∀ y, ptr = SList.Ptr.next y → y ≠ elm ∧ y ∉ suf) →
      ∃ stop, SListOrd.walk P L elm (suf.length + 1) ptr = some stop
        ∧ SList.holds (SList.AddLinks L stop elm).next ((SList.AddLinks L stop elm).get ptr)
            (SListOrd.Add P suf elm) = true
        ∧ (∀ i, i ≠ elm → i ∉ suf → ptr ≠ SList.Ptr.next i →
            (SList.AddLinks L stop elm).next i = L.next i)
        ∧ (ptr ≠ SList.Ptr.head → (SList.AddLinks L stop elm).head = L.head) := by
  induction suf with
  | nil =>
    intro ptr hh _ _ hp
    have hget : L.get ptr = none := by simpa [SList.holds] using hh
    have hpe : ptr ≠ SList.Ptr.next elm := fun e => (hp elm e).1 rfl
    refine ⟨ptr, by simp [SListOrd.walk, hget], ?_, ?_, ?_⟩
    · simp [SListOrd.Add, SList.holds, SList_AddLinks_get, SList_AddLinks_next L ptr elm elm hpe,
        hget]
    · intro i hi _ hpi
      rw [SList_AddLinks_next L ptr elm i hpi, if_neg hi]
    · exact SList_AddLinks_head L ptr elm
  | cons x xs ih =>
    intro ptr hh hnd he hp
    simp only [SList.holds, Bool.and_eq_true, decide_eq_true_eq] at hh
    obtain ⟨hget, hrest⟩ := hh
    rw [List.nodup_cons] at hnd
    have hxe : x ≠ elm := by
      intro e
      apply he
      rw [← e]
      exact List.mem_cons_self _ _
    have hexs : elm ∉ xs := fun h => he (List.mem_cons_of_mem _ h)
    have hpe : ptr ≠ SList.Ptr.next elm := fun e => (hp elm e).1 rfl
    have hpin : ∀ z, z ∈ x :: xs → ptr ≠ SList.Ptr.next z := fun z hz e => (hp z e).2 hz
    by_cases hP : P elm x = true
    · refine ⟨ptr, by simp [SListOrd.walk, hget, hP], ?_, ?_, ?_⟩
      · have hcong : SList.holds (SList.AddLinks L ptr elm).next (L.next x) xs
            = SList.holds L.next (L.next x) xs := by
          apply SList_holds_congr
          intro z hz
          have hze : z ≠ elm := by
            intro e
            apply hexs
            rw [← e]
            exact hz
          rw [SList_AddLinks_next L ptr elm z (hpin z (List.mem_cons_of_mem _ hz)),
            if_neg hze]
        simp only [SListOrd.Add, hP, if_true, SList.holds, SList_AddLinks_get,
          SList_AddLinks_next L ptr elm elm hpe, hget,
          SList_AddLinks_next L ptr elm x (hpin x (List.mem_cons_self _ _)), if_neg hxe,
          hcong, hrest, decide_True, Bool.and_self]
      · intro i hi _ hpi
        rw [SList_AddLinks_next L ptr elm i hpi, if_neg hi]
      · exact SList_AddLinks_head L ptr elm
    · have hPf : P elm x = false := by simpa using hP
      obtain ⟨stop, w1, w2, w3, w4⟩ := ih (SList.Ptr.next x) hrest hnd.2 hexs
        (fun y hy => by
          have hxy : y = x := (SList.Ptr.next.inj hy).symm
          rw [hxy]
          exact ⟨hxe, hnd.1⟩)
      refine ⟨stop, ?_, ?_, ?_, ?_⟩
      · simp only [List.length_cons, SListOrd.walk, hget, hPf]
        exact w1
      · have hptr : (SList.AddLinks L stop elm).get ptr = some x := by
          cases ptr with
          | head =>
            show (SList.AddLinks L stop elm).head = some x
            rw [w4 (by simp)]
            exact hget
          | next y =>
            show (SList.AddLinks L stop elm).next y = some x
            have hy := hp y rfl
            rw [w3 y hy.1 (fun h => hy.2 (List.mem_cons_of_mem _ h))
              (fun e => hy.2 ((SList.Ptr.next.inj e) ▸ List.mem_cons_self _ _))]
            exact hget
        simp only [SListOrd.Add, hPf, SList.holds, hptr, decide_True, Bool.true_and]
        exact w2
      · intro i hi hix hpi
        exact w3 i hi (fun h => hix (List.mem_cons_of_mem _ h))
          (fun e => hix ((SList.Ptr.next.inj e) ▸ List.mem_cons_self _ _))
      · intro _
        exact w4 (by simp)

/-- `SListOrd::Add` of an element that is not linked: the walk stops, and the
links then hold the list that `SListOrd.Add` gives; no link of a task outside
the list is changed but the one of the element. -/
theorem SListOrd_AddLinks_refines (P : Nat → Nat → Bool) (L : SList.Links) (l : List Nat)
    (elm : Nat) (hl : SList.holds L.next L.head l = true) (hnd : l.Nodup) (he : elm ∉ l) :
    ∃ R, SListOrd.AddLinks P (l.length + 1) L elm = some R
      ∧ SList.holds R.next R.head (SListOrd.Add P l elm) = true
      ∧ ∀ i, i ≠ elm → i ∉ l → R.next i = L.next i := by
  obtain ⟨stop, w1, w2, w3, _⟩ := SListOrd_walk_refines P L elm l SList.Ptr.head hl hnd he
    (fun y hy => by cases hy)
  refine ⟨SList.AddLinks L stop elm, by simp [SListOrd.AddLinks, w1], w2, ?_⟩
  intro i hi hil
  exact w3 i hi hil (by simp)

/-- `TaskWorkRoom::Insert` of a task that is in neither queue: on links that
hold the two lists of the state the source's insertion stops and leaves links
that hold the two lists of `TaskWorkRoom.Insert`, and `m_relinked` is as
before. -/
theorem TaskWorkRoom_InsertLinks_refines (k : Kernel) (r : TaskRooms) (task : Nat)
    (hw : SList.holds r.next r.work k.sch.m_work_tasks = true)
    (hs : SList.holds r.next r.sleep k.sch.m_sleep_tasks = true)
    (hnd : k.sch.m_work_tasks.Nodup)
    (hdis : ∀ x, x ∈ k.sch.m_sleep_tasks → x ∉ k.sch.m_work_tasks)
    (h1 : task ∉ k.sch.m_work_tasks) (h2 : task ∉ k.sch.m_sleep_tasks) :
    ∃ R, TaskWorkRoom.InsertLinks (k.sch.m_work_tasks.length + 1) k r task = some R
      ∧ SList.holds R.next R.work (TaskWorkRoom.Insert k task).sch.m_work_tasks = true
      ∧ SList.holds R.next R.sleep (TaskWorkRoom.Insert k task).sch.m_sleep_tasks = true
      ∧ (TaskWorkRoom.Insert k task).sch.m_relinked = k.sch.m_relinked := by
  obtain ⟨L, a1, a2, a3⟩ := SListOrd_AddLinks_refines (PriorPreceeding k) r.workLinks
    k.sch.m_work_tasks task hw hnd h1
  refine ⟨{ r with work := L.head, next := L.next }, ?_, a2, ?_, ?_⟩
  · simp [TaskWorkRoom.InsertLinks, a1]
  · show SList.holds L.next r.sleep k.sch.m_sleep_tasks = true
    rw [SList_holds_congr r.next L.next _ _ (fun x hx =>
      a3 x (fun e => h2 (e ▸ hx)) (hdis x hx))]
    exact hs
  · simp [TaskWorkRoom.Insert, Kernel.setSch, h1, h2]

/-- `TaskSleepRoom::Insert` of a task that is in neither queue: as
`TaskWorkRoom_InsertLinks_refines`, for the sleep queue. -/
theorem TaskSleepRoom_InsertLinks_refines (k : Kernel) (r : TaskRooms) (task : Nat)
    (hw : SList.holds r.next r.work k.sch.m_work_tasks = true)
    (hs : SList.holds r.next r.sleep k.sch.m_sleep_tasks = true)
    (hnd : k.sch.m_sleep_tasks.Nodup)
    (hdis : ∀ x, x ∈ k.sch.m_work_tasks → x ∉ k.sch.m_sleep_tasks)
    (h1 : task ∉ k.sch.m_work_tasks) (h2 : task ∉ k.sch.m_sleep_tasks) :
    ∃ R, TaskSleepRoom.InsertLinks (k.sch.m_sleep_tasks.length + 1) k r task = some R
      ∧ SList.holds R.next R.work (TaskSleepRoom.Insert k task).sch.m_work_tasks = true
      ∧ SList.holds R.next R.sleep (TaskSleepRoom.Insert k task).sch.m_sleep_tasks = true
      ∧ (TaskSleepRoom.Insert k task).sch.m_relinked = k.sch.m_relinked := by
  obtain ⟨L, a1, a2, a3⟩ := SListOrd_AddLinks_refines (WakeupPreceeding k) r.sleepLinks
    k.sch.m_sleep_tasks task hs hnd h2
  refine ⟨{ r with sleep := L.head, next := L.next }, ?_, ?_, a2, ?_⟩
  · simp [TaskSleepRoom.InsertLinks, a1]
  · show SList.holds L.next r.work k.sch.m_work_tasks = true
    rw [SList_holds_congr r.next L.next _ _ (fun x hx =>
      a3 x (fun e => h1 (e ▸ hx)) (hdis x hx))]
    exact hw
  · simp [TaskSleepRoom.Insert, Kernel.setSch, h1, h2]

/-- C33: the ready queue can be empty at selection time although the idle
task was never blocked or deleted.  After `Scheduler::Initialize` and
`Scheduler::Start`, task 1 is added with priority 30 and runs; the idle task 0
is alone in the ready queue and no task sleeps.  Task 1 calls
`Scheduler::Pause(true)`, `Task::Delay(50)`, `Scheduler::UnblockTask` on
itself and `Scheduler::SetTaskPriority(itself, 31)`.  It is then the current
task, `Ready`, and in the ready queue in front of the idle task, put there by
`IntSetTaskPriority_Priv`; up to here no task was linked while it was linked,
and the links hold the list `[1, 0]` and the empty sleep queue.  It calls
`Task::Delay(50)` again: `m_sleep_tasks.Insert` makes it the head of the sleep
queue and writes the null pointer to its link field, which was the link to the
idle task, so the ready queue is task 1 alone.  It calls
`Scheduler::Pause(false)`; in the context switch `SelectNextTask` fetches task
1, which runs, and the ready queue is empty.  It calls `Task::Delay(50)`; in
the context switch `SelectNextTask` does not reinsert the blocked task,
`m_work_tasks.Fetch()` returns the null pointer, and the source writes
`m_cur_task->m_state` through it.  The idle task is `Ready` with priority 0
throughout.  The lists of the model, which do not show the lost link, have the
idle task run after the last switch; `m_relinked` is set from the second
`Delay` on, and up to the third `Delay` the tasks and the current task of the
model are those that `SelectNextTask` leaves on the links. -/
theorem SelectNextTask_fetches_null :
    (bootedTask.sch.m_cur_task = some 1
      ∧ (bootedTask.tasks 1).m_state = StateRunning
      ∧ bootedTask.sch.m_work_tasks = [0]
      ∧ bootedTask.sch.m_sleep_tasks = []
      ∧ (bootedTask.tasks 0).m_priority = 0
      ∧ queuedCurrent.sch.m_cur_task = some 1
      ∧ (queuedCurrent.tasks 1).m_state = StateReady
      ∧ (queuedCurrent.tasks 1).m_priority = 31
      ∧ queuedCurrent.sch.m_work_tasks = [1, 0]
      ∧ queuedCurrent.sch.m_sleep_tasks = []
      ∧ queuedCurrent.sch.m_pause_cnt = 1
      ∧ queuedCurrent.sch.m_relinked = false
      ∧ SList.holds (TaskRooms.ofKernel queuedCurrent).next
          (TaskRooms.ofKernel queuedCurrent).work [1, 0] = true
      ∧ SList.holds (TaskRooms.ofKernel queuedCurrent).next
          (TaskRooms.ofKernel queuedCurrent).sleep [] = true)
    ∧ ((Scheduler.BlockCurrentTask queuedCurrent 50).1 = Result.ResultOk
      ∧ (queuedSleeper.tasks 1).m_state = StateBlocked
      ∧ (queuedSleeper.tasks 1).m_dream_ticks = 50
      ∧ queuedSleeper.sch.m_relinked = true
      ∧ queuedSleeperRooms.map (fun r => (r.work, r.sleep, r.next 1, r.next 0))
          = some (some 1, some 1, none, none)
      ∧ queuedSleeperRooms.map (fun r => SList.reach r.next 8 r.work) = some [1]
      ∧ queuedSleeperRooms.map (fun r => SList.reach r.next 8 r.sleep) = some [1])
    ∧ ((Scheduler.Pause queuedSleeper false).1 = Result.ResultOk
      ∧ (Scheduler.Pause queuedSleeper false).2.sys.pendsv = true
      ∧ queuedResumedLinks.map (fun x => (x.1.sch.m_cur_task, (x.1.tasks 1).m_state, x.2.work))
          = some (some 1, StateRunning, none)
      ∧ queuedResumedLinks.map (fun x => (x.1.sch.m_cur_task, x.1.tasks 0, x.1.tasks 1))
          = some (queuedResumed.sch.m_cur_task, queuedResumed.tasks 0, queuedResumed.tasks 1))
    ∧ ((Scheduler.BlockCurrentTask queuedResumed 50).1 = Result.ResultOk
      ∧ queuedBlocked.sch.m_cur_task = some 1
      ∧ (queuedBlocked.tasks 1).m_state = StateBlocked
      ∧ queuedBlocked.sys.pendsv = true
      ∧ queuedBlockedRooms.map (fun r => r.work) = some none)
    ∧ (queuedSelected.map (fun x => (x.1.sch.m_cur_task, x.2.work)) = some (none, none)
      ∧ (PendSV_Handler queuedBlocked).sch.m_cur_task = some 0)
    ∧ ((bootedTask.tasks 0).m_state = StateReady
      ∧ (queuedCurrent.tasks 0).m_state = StateReady
      ∧ (queuedSleeper.tasks 0).m_state = StateReady
      ∧ (queuedResumed.tasks 0).m_state = StateReady
      ∧ (queuedBlocked.tasks 0).m_state = StateReady
      ∧ (queuedBlocked.tasks 0).m_priority = 0) :=
  ⟨by decide, by decide, by decide, by decide, by decide, by decide⟩

/-! ## A contended lock and the priority of the owner -/

/-- C35: in the concrete system after `raisedOwnerOps` task 2 owns mutexes 0
and 1 and has priority 50, inherited from task 3, which waits for mutex 1.
The current task 1 (priority 20) calls `Lock_Priv` on mutex 0 and blocks.
Afterwards the priority of the owner is 20, not `max(50, 20) = 50`: it is
lower than before the call, and lower than the priority of task 3, which still
waits for mutex 1. -/
theorem Lock_Priv_lowers_raised_owner :
    (run demo raisedOwnerOps).sch.m_cur_task = some 1
    ∧ ((run demo raisedOwnerOps).tasks 1).m_priority = 20
    ∧ ((run demo raisedOwnerOps).mutexes 0).m_owner = some 2
    ∧ ((run demo raisedOwnerOps).mutexes 1).m_owner = some 2
    ∧ ((run demo raisedOwnerOps).mutexes 1).m_blocked_task_list = [3]
    ∧ ((run demo raisedOwnerOps).tasks 3).m_priority = 50
    ∧ ((run demo raisedOwnerOps).tasks 2).m_priority = 50
    ∧ (Mutex.Lock_Priv (run demo raisedOwnerOps) 0 INFINITE_TIMEOUT).1 = Result.ResultOk
    ∧ ((Mutex.Lock_Priv (run demo raisedOwnerOps) 0 INFINITE_TIMEOUT).2.tasks 1).m_state
        = StateBlocked
    ∧ ((Mutex.Lock_Priv (run demo raisedOwnerOps) 0 INFINITE_TIMEOUT).2.mutexes
        0).m_blocked_task_list = [1]
    ∧ ((Mutex.Lock_Priv (run demo raisedOwnerOps) 0 INFINITE_TIMEOUT).2.tasks 2).m_priority = 20
    ∧ ((Mutex.Lock_Priv (run demo raisedOwnerOps) 0 INFINITE_TIMEOUT).2.mutexes
        1).m_blocked_task_list = [3] := by
  decide

/-! ## Interrupt tasks -/

/-- One round of the loop of `TaskIrqRoom::ActivateTasks` on a task that
passes the test, field by field. -/
theorem ActivateTasks_round (k : Kernel) (p : Nat) (hc : (k.tasks p).toActivate) :
    (((Scheduler.UnblockTaskInternal (TaskSleepRoom.Remove k p) p UnblockReasonIrq).2).setTask p
        (fun t => { t with m_irq_up := false })).tasks
      = (fun i => if i = p then (k.tasks p).activated else k.tasks i)
    ∧ (((Scheduler.UnblockTaskInternal (TaskSleepRoom.Remove k p) p UnblockReasonIrq).2).setTask p
        (fun t => { t with m_irq_up := false })).sch.m_cur_task = k.sch.m_cur_task
    ∧ (((Scheduler.UnblockTaskInternal (TaskSleepRoom.Remove k p) p UnblockReasonIrq).2).setTask p
        (fun t => { t with m_irq_up := false })).sch.m_sleep_tasks = k.sch.m_sleep_tasks.erase p
    ∧ (((Scheduler.UnblockTaskInternal (TaskSleepRoom.Remove k p) p UnblockReasonIrq).2).setTask p
        (fun t => { t with m_irq_up := false })).sch.m_work_tasks
      = (if some p ≠ k.sch.m_cur_task then
          SListOrd.Add (PriorPreceeding k) k.sch.m_work_tasks p
        else k.sch.m_work_tasks)
    ∧ (((Scheduler.UnblockTaskInternal (TaskSleepRoom.Remove k p) p UnblockReasonIrq).2).setTask p
        (fun t => { t with m_irq_up := false })).sch.m_irq_tasks = k.sch.m_irq_tasks := by
  obtain ⟨h1, h2, h3⟩ := hc
  have hpp : PriorPreceeding ((TaskSleepRoom.Remove k p).setTask p
      (fun t => { t with m_unblock_reason := UnblockReasonIrq, m_state := StateReady }))
      = PriorPreceeding k := by
    apply PriorPreceeding_congr_priority
    intro i
    by_cases hi : i = p
    · subst hi; simp [TaskSleepRoom.Remove]
    · simp [TaskSleepRoom.Remove, hi]
  have hb : ((TaskSleepRoom.Remove k p).tasks p).m_state = StateBlocked := by
    simpa [TaskSleepRoom.Remove] using h2
  unfold Scheduler.UnblockTaskInternal
  simp only [hb, ne_eq, not_true_eq_false, if_false]
  by_cases hcur : some p = k.sch.m_cur_task
  · have hcur2 : some p = ((TaskSleepRoom.Remove k p).setTask p
        (fun t => { t with m_unblock_reason := UnblockReasonIrq,
                           m_state := StateReady })).sch.m_cur_task := by
      simpa [TaskSleepRoom.Remove] using hcur
    simp only [hcur2, not_true_eq_false, if_false, setTask_tasks, if_true]
    simp only [TaskSleepRoom.Remove, setSch_tasks, h3]
    refine ⟨?_, ?_, ?_, ?_, ?_⟩
    · funext i
      by_cases hi : i = p
      · subst hi; simp [Task.activated]
      · simp [hi]
    · simp
    · simp [SList.Del]
    · have : ¬ (some p ≠ k.sch.m_cur_task) := by simpa using hcur
      simp [this]
    · simp
  · have hcur2 : ¬ some p = ((TaskSleepRoom.Remove k p).setTask p
        (fun t => { t with m_unblock_reason := UnblockReasonIrq,
                           m_state := StateReady })).sch.m_cur_task := by
      simpa [TaskSleepRoom.Remove] using hcur
    simp only [hcur2, not_false_eq_true, if_true]
    have hf : ((TaskWorkRoom.Insert ((TaskSleepRoom.Remove k p).setTask p
        (fun t => { t with m_unblock_reason := UnblockReasonIrq, m_state := StateReady }))
        p).tasks p).m_unblock_func = none := by
      simpa [TaskWorkRoom.Insert, TaskSleepRoom.Remove] using h3
    rw [hf]
    simp only []
    refine ⟨?_, ?_, ?_, ?_, ?_⟩
    · funext i
      by_cases hi : i = p
      · subst hi; simp [Task.activated, TaskWorkRoom.Insert, TaskSleepRoom.Remove]
      · simp [hi, TaskWorkRoom.Insert, TaskSleepRoom.Remove]
    · simp [TaskWorkRoom.Insert, TaskSleepRoom.Remove]
    · simp [TaskWorkRoom.Insert, TaskSleepRoom.Remove, SList.Del]
    · rw [if_pos hcur]
      simp only [TaskWorkRoom.Insert, TaskWorkList.Add, setTask_sch, setSch_sch, hpp]
      simp [TaskSleepRoom.Remove]
    · simp [TaskWorkRoom.Insert, TaskSleepRoom.Remove]

theorem not_toActivate_activated (t : Task) : ¬ t.activated.toActivate := by
  intro h
  have := h.1
  simp [Task.activated] at this

/-- The loop of `TaskIrqRoom::ActivateTasks` over a list of tasks, in terms
of the state before the loop. -/
theorem ActivateTasks_loop (l : List Nat) :
    ∀ ka : Kernel, ka.sch.m_sleep_tasks.Nodup →
      (∀ t, ((l.foldl (fun k ptsk =>
          if (k.tasks ptsk).m_irq_up = true ∧ (k.tasks ptsk).m_state = StateBlocked
              ∧ (k.tasks ptsk).m_unblock_func = none then
            let k := TaskSleepRoom.Remove k ptsk
            let k := (Scheduler.UnblockTaskInternal k ptsk UnblockReasonIrq).2
            k.setTask ptsk (fun t => { t with m_irq_up := false })
          else k) ka).tasks t)
        = if t ∈ l ∧ (ka.tasks t).toActivate then (ka.tasks t).activated else ka.tasks t)
      ∧ (l.foldl (fun k ptsk =>
          if (k.tasks ptsk).m_irq_up = true ∧ (k.tasks ptsk).m_state = StateBlocked
              ∧ (k.tasks ptsk).m_unblock_func = none then
            let k := TaskSleepRoom.Remove k ptsk
            let k := (Scheduler.UnblockTaskInternal k ptsk UnblockReasonIrq).2
            k.setTask ptsk (fun t => { t with m_irq_up := false })
          else k) ka).sch.m_cur_task = ka.sch.m_cur_task
      ∧ (l.foldl (fun k ptsk =>
          if (k.tasks ptsk).m_irq_up = true ∧ (k.tasks ptsk).m_state = StateBlocked
              ∧ (k.tasks ptsk).m_unblock_func = none then
            let k := TaskSleepRoom.Remove k ptsk
            let k := (Scheduler.UnblockTaskInternal k ptsk UnblockReasonIrq).2
            k.setTask ptsk (fun t => { t with m_irq_up := false })
          else k) ka).sch.m_irq_tasks = ka.sch.m_irq_tasks
      ∧ (∀ x, x ∈ (l.foldl (fun k ptsk =>
          if (k.tasks ptsk).m_irq_up = true ∧ (k.tasks ptsk).m_state = StateBlocked
              ∧ (k.tasks ptsk).m_unblock_func = none then
            let k := TaskSleepRoom.Remove k ptsk
            let k := (Scheduler.UnblockTaskInternal k ptsk UnblockReasonIrq).2
            k.setTask ptsk (fun t => { t with m_irq_up := false })
          else k) ka).sch.m_work_tasks
        ↔ x ∈ ka.sch.m_work_tasks
          ∨ (x ∈ l ∧ (ka.tasks x).toActivate ∧ some x ≠ ka.sch.m_cur_task))
      ∧ (l.foldl (fun k ptsk =>
          if (k.tasks ptsk).m_irq_up = true ∧ (k.tasks ptsk).m_state = StateBlocked
              ∧ (k.tasks ptsk).m_unblock_func = none then
            let k := TaskSleepRoom.Remove k ptsk
            let k := (Scheduler.UnblockTaskInternal k ptsk UnblockReasonIrq).2
            k.setTask ptsk (fun t => { t with m_irq_up := false })
          else k) ka).sch.m_sleep_tasks.Nodup
      ∧ (∀ x, x ∈ (l.foldl (fun k ptsk =>
          if (k.tasks ptsk).m_irq_up = true ∧ (k.tasks ptsk).m_state = StateBlocked
              ∧ (k.tasks ptsk).m_unblock_func = none then
            let k := TaskSleepRoom.Remove k ptsk
            let k := (Scheduler.UnblockTaskInternal k ptsk UnblockReasonIrq).2
            k.setTask ptsk (fun t => { t with m_irq_up := false })
          else k) ka).sch.m_sleep_tasks
        ↔ x ∈ ka.sch.m_sleep_tasks ∧ ¬ (x ∈ l ∧ (ka.tasks x).toActivate)) := by
  induction l with
  | nil =>
    intro ka hnd
    exact ⟨fun t => by simp, rfl, rfl, fun x => by simp, hnd, fun x => by simp⟩
  | cons p ps ih =>
    intro ka hnd
    simp only [List.foldl_cons]
    by_cases hc : (ka.tasks p).toActivate
    · have hc' : (ka.tasks p).m_irq_up = true ∧ (ka.tasks p).m_state = StateBlocked
          ∧ (ka.tasks p).m_unblock_func = none := hc
      rw [if_pos hc']
      have hcT : (ka.tasks p).toActivate = True := eq_true hc
      obtain ⟨r1, r2, r3, r4, r5⟩ := ActivateTasks_round ka p hc
      have hnd1 : (((Scheduler.UnblockTaskInternal (TaskSleepRoom.Remove ka p) p
          UnblockReasonIrq).2).setTask p
          (fun t => { t with m_irq_up := false })).sch.m_sleep_tasks.Nodup := by
        rw [r3]; exact hnd.erase p
      obtain ⟨i1, i2, i3, i4, i5, i6⟩ := ih _ hnd1
      refine ⟨fun t => ?_, by rw [i2, r2], by rw [i3, r5], fun x => ?_, i5, fun x => ?_⟩
      · rw [i1 t, r1]
        by_cases htp : t = p
        · subst htp
          simp [hcT, not_toActivate_activated]
        · simp [htp]
      · rw [i4 x, r1, r2, r4]
        by_cases hxp : x = p
        · subst hxp
          simp only [if_true, not_toActivate_activated, false_and, and_false, or_false,
            List.mem_cons, true_or, hcT, true_and]
          by_cases hcur : some x = ka.sch.m_cur_task
          · simp [hcur]
          · simp [hcur, mem_SListOrd_Add]
        · simp only [hxp, if_false, List.mem_cons, false_or]
          by_cases hcur : some p = ka.sch.m_cur_task
          · simp [hcur]
          · simp [hcur, mem_SListOrd_Add, hxp]
      · rw [i6 x, r1, r3]
        by_cases hxp : x = p
        · subst hxp
          simp [hcT, hnd.mem_erase_iff]
        · simp [hxp, List.mem_erase_of_ne hxp]
    · have hc' : ¬ ((ka.tasks p).m_irq_up = true ∧ (ka.tasks p).m_state = StateBlocked
          ∧ (ka.tasks p).m_unblock_func = none) := hc
      rw [if_neg hc']
      have hcF : (ka.tasks p).toActivate = False := eq_false hc
      obtain ⟨i1, i2, i3, i4, i5, i6⟩ := ih ka hnd
      refine ⟨fun t => ?_, i2, i3, fun x => ?_, i5, fun x => ?_⟩
      · rw [i1 t]
        by_cases htp : t = p
        · subst htp
          simp [hcF]
        · simp [htp]
      · rw [i4 x]
        by_cases hxp : x = p
        · subst hxp
          simp [hcF]
        · simp [hxp]
      · rw [i6 x]
        by_cases hxp : x = p
        · subst hxp
          simp [hcF]
        · simp [hxp]

/-- The loop of `TaskIrqRoom::ProceedIrq` over a list of tasks: the tasks
afterwards. -/
theorem ProceedIrq_loop (n : Int) (l : List Nat) :
    ∀ ka : Kernel, ∀ t,
      ((l.foldl (fun k ptsk =>
        if (k.tasks ptsk).m_irq_num = n then
          let k :=
            if (k.tasks ptsk).m_state = StateBlocked ∧ (k.tasks ptsk).m_unblock_func = none then
              k.setSch (fun s => { s with m_irq_event := true })
            else k
          k.setTask ptsk (fun t => { t with m_irq_up := true })
        else k) ka).tasks t)
      = if t ∈ l ∧ (ka.tasks t).m_irq_num = n then { ka.tasks t with m_irq_up := true }
        else ka.tasks t := by
  induction l with
  | nil => intro ka t; simp
  | cons p ps ih =>
    intro ka t
    simp only [List.foldl_cons]
    rw [ih]
    by_cases hp : (ka.tasks p).m_irq_num = n
    · rw [if_pos hp]
      simp only []
      by_cases htp : t = p
      · subst htp
        split <;> simp [hp]
      · split <;> simp [htp]
    · rw [if_neg hp]
      by_cases htp : t = p
      · subst htp
        simp [hp]
      · simp [htp]

/-- `TaskIrqRoom::ProceedIrq`: the tasks afterwards. -/
theorem ProceedIrq_tasks (k : Kernel) (n : Int) (t : Nat) :
    (TaskIrqRoom.ProceedIrq k n).tasks t
      = if t ∈ k.sch.m_irq_tasks ∧ (k.tasks t).m_irq_num = n then
          { k.tasks t with m_irq_up := true }
        else k.tasks t := by
  unfold TaskIrqRoom.ProceedIrq
  simp only []
  split
  · rw [Yield_tasks, setSch_tasks]
    exact ProceedIrq_loop n _ k t
  · exact ProceedIrq_loop n _ k t

/-- C36, the claim as it stands fails: in the state `irqCurrent` the
interrupt task 4 is the current task, blocked with its interrupt pending and
no unblock functor, and the context switch is pending.
`TaskIrqRoom::ActivateTasks` makes it `Ready` with reason `Irq`, takes it out
of the sleep queue and clears its flag, and does not insert it into the ready
queue; `Scheduler::SelectNextTask` does that next. -/
theorem ActivateTasks_skips_current_task :
    4 ∈ irqCurrent.sch.m_irq_tasks
    ∧ irqCurrent.sch.m_cur_task = some 4
    ∧ (irqCurrent.tasks 4).toActivate
    ∧ 4 ∈ irqCurrent.sch.m_sleep_tasks
    ∧ ((TaskIrqRoom.ActivateTasks irqCurrent).tasks 4).m_state = StateReady
    ∧ ((TaskIrqRoom.ActivateTasks irqCurrent).tasks 4).m_unblock_reason = UnblockReasonIrq
    ∧ ((TaskIrqRoom.ActivateTasks irqCurrent).tasks 4).m_irq_up = false
    ∧ 4 ∉ (TaskIrqRoom.ActivateTasks irqCurrent).sch.m_sleep_tasks
    ∧ 4 ∉ (TaskIrqRoom.ActivateTasks irqCurrent).sch.m_work_tasks
    ∧ (Scheduler.SwitchContext irqCurrent).sch.m_cur_task = some 4 := by
  decide

/-- C36, amended.  `TaskIrqRoom::ProceedIrq(n)` sets `m_irq_up` on exactly
the tasks of the IRQ-task list whose `m_irq_num` is `n` and changes no other
task.  `TaskIrqRoom::ActivateTasks`, in a state whose sleep queue has no
repetition, makes every task of the IRQ-task list that has the flag set, is
`Blocked` and has no unblock functor `Ready` with unblock reason `Irq` and the
flag cleared, and leaves all other tasks unchanged; such a task is taken out
of the sleep queue and, unless it is the current task, inserted into the
ready queue; nothing else enters or leaves the two queues; the
activation-needed flag is reset. -/
theorem irq_activation (k : Kernel) (hnd : k.sch.m_sleep_tasks.Nodup) :
    (∀ (n : Int) (t : Nat),
      (TaskIrqRoom.ProceedIrq k n).tasks t
        = if t ∈ k.sch.m_irq_tasks ∧ (k.tasks t).m_irq_num = n then
            { k.tasks t with m_irq_up := true }
          else k.tasks t)
    ∧ (∀ t, (TaskIrqRoom.ActivateTasks k).tasks t
        = if t ∈ k.sch.m_irq_tasks ∧ (k.tasks t).toActivate then (k.tasks t).activated
          else k.tasks t)
    ∧ (∀ x, x ∈ (TaskIrqRoom.ActivateTasks k).sch.m_sleep_tasks
        ↔ x ∈ k.sch.m_sleep_tasks ∧ ¬ (x ∈ k.sch.m_irq_tasks ∧ (k.tasks x).toActivate))
    ∧ (∀ x, x ∈ (TaskIrqRoom.ActivateTasks k).sch.m_work_tasks
        ↔ x ∈ k.sch.m_work_tasks
          ∨ (x ∈ k.sch.m_irq_tasks ∧ (k.tasks x).toActivate ∧ some x ≠ k.sch.m_cur_task))
    ∧ (TaskIrqRoom.ActivateTasks k).sch.m_irq_event = false
    ∧ (TaskIrqRoom.ActivateTasks k).sch.m_cur_task = k.sch.m_cur_task
    ∧ (TaskIrqRoom.ActivateTasks k).sch.m_irq_tasks = k.sch.m_irq_tasks := by
  obtain ⟨i1, i2, i3, i4, _, i6⟩ := ActivateTasks_loop k.sch.m_irq_tasks k hnd
  refine ⟨fun n t => ProceedIrq_tasks k n t, ?_, ?_, ?_, ?_, ?_, ?_⟩
  · intro t
    unfold TaskIrqRoom.ActivateTasks
    rw [setSch_tasks]
    exact i1 t
  · intro x
    unfold TaskIrqRoom.ActivateTasks
    exact i6 x
  · intro x
    unfold TaskIrqRoom.ActivateTasks
    exact i4 x
  · unfold TaskIrqRoom.ActivateTasks
    rfl
  · unfold TaskIrqRoom.ActivateTasks
    exact i2
  · unfold TaskIrqRoom.ActivateTasks
    exact i3

theorem irq_activation_witness :
    irqDemo.sch.m_sleep_tasks.Nodup
    ∧ (TaskIrqRoom.ProceedIrq irqDemo 7).tasks 4 = { irqDemo.tasks 4 with m_irq_up := true }
    ∧ (TaskIrqRoom.ActivateTasks (TaskIrqRoom.ProceedIrq irqDemo 7)).tasks 4
        = ((TaskIrqRoom.ProceedIrq irqDemo 7).tasks 4).activated
    ∧ 4 ∈ (TaskIrqRoom.ActivateTasks (TaskIrqRoom.ProceedIrq irqDemo 7)).sch.m_work_tasks :=
  ⟨by decide,
    ((irq_activation irqDemo (by decide)).1 7 4).trans (if_pos (by decide)),
    ((irq_activation (TaskIrqRoom.ProceedIrq irqDemo 7) (by decide)).2.1 4).trans
      (if_pos (by decide)),
    ((irq_activation (TaskIrqRoom.ProceedIrq irqDemo 7) (by decide)).2.2.2.1 4).mpr
      (Or.inr (by decide))⟩

/-! ## The system-call table and its declared range -/

/-- C37: the table is shorter than the range it declares when
`MACS_SHARED_MEM_SPI` is not defined.  In both builds word 0 is `EPM_Count`,
which is 16, and every selector is below it.  With `MACS_SHARED_MEM_SPI` the
table has 17 words and every selector `s` finds the implementation it names
at index `s + 1`.  Without it the table has 15 words: the selectors up to
`EPM_Semaphore_Signal_Priv` find their implementation at index `s + 1`, and
the selectors 14 and 15 have no word there. -/
theorem svcMethods_range_without_spi :
    (∀ spi, (svcMethods spi)[0]? = some (SvcWord.count EPM_Count))
    ∧ EPM_Count = 16
    ∧ (∀ s : EPrivilegedMethods, s.toNat < EPM_Count)
    ∧ (svcMethods true).length = EPM_Count + 1
    ∧ (∀ s : EPrivilegedMethods, (svcMethods true)[s.toNat + 1]? = some s.impl)
    ∧ (svcMethods false).length = 15
    ∧ (∀ s : EPrivilegedMethods,
        (svcMethods false)[s.toNat + 1]? = if s.toNat < 14 then some s.impl else none)
    ∧ EPrivilegedMethods.EPM_SpiTransferCore_Initialize_Priv.toNat = 14
    ∧ EPrivilegedMethods.EPM_Spi_PowerControl_Priv.toNat = 15
    ∧ (svcMethods false)[14 + 1]? = none
    ∧ (svcMethods false)[15 + 1]? = none := by
  refine ⟨?_, rfl, ?_, rfl, ?_, rfl, ?_, rfl, rfl, rfl, rfl⟩
  · intro spi; cases spi <;> rfl
  · intro s; cases s <;> decide
  · intro s; cases s <;> rfl
  · intro s; cases s <;> rfl

/-! ## Owner and lock count of a mutex -/

/-- C38: a mutex that passes to a waiter because its owner is deleted has
an owner and the lock count 0.  In the concrete system after `boostedOps`
task 2 owns the non-recursive mutex 0 with lock count 1 and task 1 waits for
it; task 3 deletes task 2.  `Mutex::OnDeleteTask` hands the mutex to task 1
through `UnlockInternal` and then writes 0 to the lock count: the owner is
task 1, the mutex is in its owned list, and the count is 0.  When task 1 runs
and calls `Unlock`, the count wraps to `2 ^ 32 - 1`, the call returns
`ResultOk` and task 1 still owns the mutex. -/
theorem OnDeleteTask_owner_with_zero_count :
    ((run demo boostedOps).mutexes 0).m_owner = some 2
    ∧ ((run demo boostedOps).mutexes 0).m_lock_cnt = 1
    ∧ ((run demo boostedOps).mutexes 0).m_blocked_task_list = [1]
    ∧ (Scheduler.DeleteTask (run demo boostedOps) (some 2)).1 = Result.ResultOk
    ∧ (inherited.mutexes 0).m_recursive = false
    ∧ (inherited.mutexes 0).m_owner = some 1
    ∧ (inherited.mutexes 0).m_lock_cnt = 0
    ∧ (inherited.tasks 1).m_owned_obj_list = [0]
    ∧ inheritedRunning.sch.m_cur_task = some 1
    ∧ (inheritedRunning.mutexes 0).m_owner = some 1
    ∧ (inheritedRunning.mutexes 0).m_lock_cnt = 0
    ∧ (Mutex.Unlock inheritedRunning 0).1 = Result.ResultOk
    ∧ ((Mutex.Unlock inheritedRunning 0).2.mutexes 0).m_owner = some 1
    ∧ ((Mutex.Unlock inheritedRunning 0).2.mutexes 0).m_lock_cnt = 2 ^ 32 - 1 := by
  decide

/-! ## The sleep counter of a blocked task -/

/-- C39: a timeout shorter than a tick stores the sleep counter 0.  At a
tick rate of 100 Hz `MsToTicks(5)` is 0; task 2 of the concrete system calls
`Task::Delay(5)`, `BlockCurrentTask_Priv` returns `ResultOk`, stores
`m_dream_ticks = 0` and links the task at the head of the sleep queue.  The
first tick decrements this counter to `ULONG_MAX`, the value of an indefinite
sleep, and `Fetch`, which looks at the head only, wakes nobody: after five
ticks the tasks 2, 1 and 3 are still blocked in the sleep queue, all with the
counter `ULONG_MAX`, and the idle task runs.  At 1000 Hz the timeout
4294968 ms stores 0 as well.  A finite timeout never stores `ULONG_MAX`
itself. -/
theorem BlockCurrentTask_Priv_stores_zero_ticks :
    (System.GetTickRate demoSlow = 100
    ∧ MsToTicks demoSlow 5 = 0
    ∧ (Scheduler.BlockCurrentTask demoSlow 5).1 = Result.ResultOk
    ∧ (shortDelay.tasks 2).m_state = StateBlocked
    ∧ (shortDelay.tasks 2).m_dream_ticks = 0
    ∧ shortDelay.sch.m_sleep_tasks = [2, 1, 3]
    ∧ ((run shortDelay [Op.tick]).tasks 2).m_dream_ticks = ULONG_MAX
    ∧ ((run shortDelay [Op.tick]).tasks 2).m_state = StateBlocked
    ∧ ((run shortDelay [Op.tick]).tasks 1).m_dream_ticks = 0
    ∧ ((run shortDelay [Op.tick]).tasks 1).m_state = StateBlocked
    ∧ shortDelayLater.sch.m_sleep_tasks = [2, 1, 3]
    ∧ (shortDelayLater.tasks 1).m_state = StateBlocked
    ∧ (shortDelayLater.tasks 2).m_state = StateBlocked
    ∧ (shortDelayLater.tasks 3).m_state = StateBlocked
    ∧ (shortDelayLater.tasks 1).m_dream_ticks = ULONG_MAX
    ∧ (shortDelayLater.tasks 2).m_dream_ticks = ULONG_MAX
    ∧ (shortDelayLater.tasks 3).m_dream_ticks = ULONG_MAX
    ∧ shortDelayLater.sch.m_cur_task = some 0
    ∧ ((run demo [Op.delay 4294968]).tasks 2).m_dream_ticks = 0)
    ∧ (∀ (k : Kernel) (timeout_ms : Nat), MsToTicks k timeout_ms ≠ ULONG_MAX) := by
  refine ⟨by decide, ?_⟩
  intro k ms
  unfold MsToTicks ULONG_MAX
  omega

/-! ## Termination of the loop of `Task::DetachFromSync` -/

theorem steady_refl (task m : Nat) (k : Kernel) : Steady task m k k :=
  ⟨rfl, fun _ _ => ⟨rfl, rfl⟩⟩

theorem steady_trans {task m : Nat} {a b c : Kernel} (h1 : Steady task m a b)
    (h2 : Steady task m b c) : Steady task m a c :=
  ⟨h2.1.trans h1.1, fun x hx =>
    ⟨((h2.2 x hx).1).trans (h1.2 x hx).1, ((h2.2 x hx).2).trans (h1.2 x hx).2⟩⟩

theorem steady_of_ownership {task m : Nat} {k K : Kernel} (h : K.ownership = k.ownership)
    (hw : ∀ x, (K.mutexes x).m_blocked_task_list = (k.mutexes x).m_blocked_task_list) :
    Steady task m k K := by
  obtain ⟨h1, h2⟩ := ownership_iff.mp h
  exact ⟨h2 task, fun x _ => ⟨h1 x, hw x⟩⟩

theorem steady_IntSetTaskPriority (task m : Nat) (k : Kernel) (t p : Nat) (b : Bool) :
    Steady task m k (IntSetTaskPriority_Priv k t p b).2 :=
  steady_of_ownership (IntSetTaskPriority_ownership k t p b)
    (fun x => IntSetTaskPriority_waiters k t p b (SyncRef.mutex x))

theorem steady_Scheduler_UnblockTask (task m : Nat) (k : Kernel) (t : Option Nat) :
    Steady task m k (Scheduler.UnblockTask k t).2 :=
  steady_of_ownership (Scheduler_UnblockTask_ownership k t)
    (fun x => by rw [Scheduler_UnblockTask_mutexes])

theorem steady_setMutex (task m : Nat) (k : Kernel) (f : Mutex → Mutex) :
    Steady task m k (k.setMutex m f) := by
  refine ⟨rfl, fun x hx => ?_⟩
  simp [hx]

theorem steady_AddOwnedSync (task m : Nat) (k : Kernel) (w x : Nat) (hw : w ≠ task) :
    Steady task m k (Task.AddOwnedSync k w x) := by
  refine ⟨?_, fun y _ => ⟨rfl, rfl⟩⟩
  simp [Task.AddOwnedSync, Ne.symm hw]

/-- `Mutex::UnblockTask` when the front waiter is another task. -/
theorem steady_Mutex_UnblockTask (task m : Nat) (k : Kernel)
    (hw : task ∉ (k.mutexes m).m_blocked_task_list) :
    Steady task m k (Mutex.UnblockTask k m).2 := by
  unfold Mutex.UnblockTask
  simp only [SList.Fetch]
  cases hf : (k.mutexes m).m_blocked_task_list.head? with
  | none =>
    simp only []
    exact steady_trans (steady_setMutex task m k _) (steady_Scheduler_UnblockTask task m _ none)
  | some w =>
    simp only []
    have hne : w ≠ task := by
      intro h
      subst h
      exact hw (List.mem_of_mem_head? hf)
    refine steady_trans ?_ (steady_Scheduler_UnblockTask task m _ (some w))
    refine steady_trans ?_ (steady_setMutex task m _ _)
    exact steady_trans (steady_setMutex task m k _) (steady_AddOwnedSync task m _ w m hne)

/-- One round of the loop for a mutex the task owns: the mutex leaves the
owned list of the task, and the other mutexes keep owner and waiters. -/
theorem OnDeleteTask_owner_round (k : Kernel) (task m : Nat)
    (ho : (k.mutexes m).m_owner = some task)
    (hw : task ∉ (k.mutexes m).m_blocked_task_list) :
    ((Mutex.OnDeleteTask k m task).tasks task).m_owned_obj_list
        = (k.tasks task).m_owned_obj_list.erase m
    ∧ ∀ x, x ≠ m →
        ((Mutex.OnDeleteTask k m task).mutexes x).m_owner = (k.mutexes x).m_owner
        ∧ ((Mutex.OnDeleteTask k m task).mutexes x).m_blocked_task_list
            = (k.mutexes x).m_blocked_task_list := by
  -- after `RemoveFromOwner`
  have h1 : ((Mutex.RemoveFromOwner k m).2.tasks task).m_owned_obj_list
        = (k.tasks task).m_owned_obj_list.erase m
      ∧ (Mutex.RemoveFromOwner k m).2.mutexes = k.mutexes := by
    unfold Mutex.RemoveFromOwner
    rw [ho]
    simp [Task.RemoveOwnedSync, SList.Del]
  have key : ∀ K3 : Kernel, task ∉ (K3.mutexes m).m_blocked_task_list →
      Steady task m K3
        (if (K3.mutexes m).m_blocked_task_list ≠ [] then Mutex.UnblockTask K3 m
        else (Result.ResultOk, K3.setMutex m (fun x => { x with m_owner := none }))).2 := by
    intro K3 h3
    split
    · exact steady_Mutex_UnblockTask task m K3 h3
    · exact steady_setMutex task m K3 (fun x => { x with m_owner := none })
  have h2 : Steady task m (Mutex.RemoveFromOwner k m).2 (Mutex.UnlockInternal k m).2 := by
    have hK : ∀ K2 : Kernel, Steady task m (Mutex.RemoveFromOwner k m).2 K2 →
        (K2.mutexes m).m_blocked_task_list = (k.mutexes m).m_blocked_task_list →
        Steady task m (Mutex.RemoveFromOwner k m).2
          (if (K2.mutexes m).m_blocked_task_list ≠ [] then Mutex.UnblockTask K2 m
          else (Result.ResultOk, K2.setMutex m (fun x => { x with m_owner := none }))).2 := by
      intro K2 hs hb
      exact steady_trans hs (key K2 (by rw [hb]; exact hw))
    unfold Mutex.UnlockInternal
    simp only []
    refine hK _ ?_ ?_
    · split
      · exact steady_refl _ _ _
      · split
        · exact steady_IntSetTaskPriority task m _ _ _ _
        · exact steady_refl _ _ _
    · split
      · rw [h1.2]
      · split
        · have := IntSetTaskPriority_waiters (Mutex.RemoveFromOwner k m).2 ‹Nat›
            (Mutex.RemoveFromOwner k m).1 true (SyncRef.mutex m)
          simp only [Kernel.waiters] at this
          rw [this, h1.2]
        · rw [h1.2]
  have h3 : Mutex.OnDeleteTask k m task
      = (Mutex.UnlockInternal k m).2.setMutex m (fun x => { x with m_lock_cnt := 0 }) := by
    unfold Mutex.OnDeleteTask
    rw [ho]
    simp
  rw [h3]
  have h4 := steady_trans h2 (steady_setMutex task m (Mutex.UnlockInternal k m).2
    (fun x => { x with m_lock_cnt := 0 }))
  refine ⟨h4.1.trans h1.1, fun x hx => ?_⟩
  have := h4.2 x hx
  rw [h1.2] at this
  exact this


theorem UpdateOwnerPriority_waiters (k : Kernel) (m : Nat) (s : SyncRef) :
    (Mutex.UpdateOwnerPriority k m).waiters s = k.waiters s := by
  unfold Mutex.UpdateOwnerPriority
  split
  · rfl
  · split
    · exact IntSetTaskPriority_waiters _ _ _ _ _
    · rfl

/-- The invariant of the loop survives a step that keeps the ownership and
does not make the task a waiter of a mutex it owns. -/
theorem OwnsAll_of_ownership {k K : Kernel} {task : Nat} (h : K.ownership = k.ownership)
    (hw : ∀ y, (k.mutexes y).m_owner = some task →
      task ∉ (k.mutexes y).m_blocked_task_list → task ∉ (K.mutexes y).m_blocked_task_list)
    (hk : OwnsAll k task) : OwnsAll K task := by
  obtain ⟨h1, h2⟩ := ownership_iff.mp h
  refine ⟨by rw [h2]; exact hk.1, fun y hy => ?_⟩
  rw [h2] at hy
  rw [h1]
  exact ⟨(hk.2 y hy).1, hw y (hk.2 y hy).1 (hk.2 y hy).2⟩

/-- One round of the loop keeps its invariant. -/
theorem OwnsAll_round (k : Kernel) (task m : Nat) (hk : OwnsAll k task)
    (hm : m ∈ (k.tasks task).m_owned_obj_list) :
    ((Mutex.OnDeleteTask k m task).tasks task).m_owned_obj_list
        = (k.tasks task).m_owned_obj_list.erase m
    ∧ OwnsAll (Mutex.OnDeleteTask k m task) task := by
  have hr := OnDeleteTask_owner_round k task m (hk.2 m hm).1 (hk.2 m hm).2
  refine ⟨hr.1, ?_, fun y hy => ?_⟩
  · rw [hr.1]; exact hk.1.erase m
  · rw [hr.1] at hy
    have hy2 := (List.Nodup.mem_erase_iff hk.1).mp hy
    rw [(hr.2 y hy2.1).1, (hr.2 y hy2.1).2]
    exact hk.2 y hy2.2

/-- The owned list of the task after `n` rounds of the loop. -/
theorem detachOwned_drop (task n : Nat) (k : Kernel) (hk : OwnsAll k task) :
    ((Task.detachOwned task n k).tasks task).m_owned_obj_list
        = (k.tasks task).m_owned_obj_list.drop n
    ∧ OwnsAll (Task.detachOwned task n k) task := by
  induction n generalizing k with
  | zero => exact ⟨rfl, hk⟩
  | succ n ih =>
    unfold Task.detachOwned
    cases hl : (k.tasks task).m_owned_obj_list with
    | nil => simp only []; exact ⟨by rw [hl]; rfl, hk⟩
    | cons m rest =>
      simp only []
      have hr := OwnsAll_round k task m hk (by rw [hl]; exact List.mem_cons_self _ _)
      have h1 := ih _ hr.2
      refine ⟨?_, h1.2⟩
      rw [h1.1, hr.1, hl]
      simp

/-- The first statement of `Task::DetachFromSync`, for a task that is not
blocked on a mutex it owns: the owned list and the invariant stay. -/
theorem DetachFromSync_functor (k : Kernel) (task : Nat) (f : SyncRef) (hk : OwnsAll k task)
    (hf : ∀ x, f = SyncRef.mutex x → (k.mutexes x).m_owner ≠ some task) :
    (((UnblockFunctor.OnDeleteTask k f task).setTask task
        (fun t => { t with m_unblock_func := none })).tasks task).m_owned_obj_list
        = (k.tasks task).m_owned_obj_list
    ∧ OwnsAll ((UnblockFunctor.OnDeleteTask k f task).setTask task
        (fun t => { t with m_unblock_func := none })) task := by
  have key : (UnblockFunctor.OnDeleteTask k f task).ownership = k.ownership
      ∧ ∀ y, (k.mutexes y).m_owner = some task →
          ((UnblockFunctor.OnDeleteTask k f task).mutexes y).m_blocked_task_list
            = (k.mutexes y).m_blocked_task_list := by
    cases f with
    | mutex x =>
      have hx := hf x rfl
      simp only [UnblockFunctor.OnDeleteTask]
      unfold Mutex.OnDeleteTask
      split
      · exact ⟨rfl, fun _ _ => rfl⟩
      · rename_i o ho
        have hne : task ≠ o := by
          intro h
          subst h
          exact hx ho
        rw [if_pos hne]
        refine ⟨by simp, fun y hy => ?_⟩
        have hyx : y ≠ x := by
          intro h
          subst h
          exact hx hy
        have := UpdateOwnerPriority_waiters
          (SyncObject.OnDeleteTask k (SyncRef.mutex x) task) x (SyncRef.mutex y)
        simp only [Kernel.waiters] at this
        rw [this]
        simp [SyncObject.OnDeleteTask, Kernel.setWaiters, hyx]
    | semaphore s =>
      exact ⟨SyncObject_OnDeleteTask_ownership _ _ _, fun _ _ => rfl⟩
    | event e =>
      exact ⟨SyncObject_OnDeleteTask_ownership _ _ _, fun _ _ => rfl⟩
  have ho : ((UnblockFunctor.OnDeleteTask k f task).setTask task
      (fun t => { t with m_unblock_func := none })).ownership = k.ownership :=
    (setTask_func_ownership _ _ _).trans key.1
  refine ⟨(ownership_iff.mp ho).2 task, OwnsAll_of_ownership ho (fun y hy hw => ?_) hk⟩
  show task ∉ ((UnblockFunctor.OnDeleteTask k f task).mutexes y).m_blocked_task_list
  rw [key.2 y hy]
  exact hw


theorem utils.Swap_apply {α : Type} (mem : Nat → α) (a b i : Nat) :
    utils.Swap mem a b i = if i = b then mem a else if i = a then mem b else mem i := rfl

/-- The loop of `Reverse` mirrors the range `[b, e]`. -/
theorem utils.Reverse_loop_eq {α : Type} (fuel : Nat) (mem : Nat → α) (b e : Nat)
    (hf : e - b < fuel) :
    utils.Reverse.loop fuel mem b e
      = some (fun i => if b ≤ i ∧ i ≤ e then mem (b + e - i) else mem i) := by
  induction fuel generalizing mem b e with
  | zero => omega
  | succ n ih =>
    unfold utils.Reverse.loop
    split
    · rename_i hlt
      rw [ih _ _ _ (by omega)]
      congr 1
      funext i
      simp only [utils.Swap_apply]
      by_cases h1 : b + 1 ≤ i ∧ i ≤ e - 1
      · rw [if_pos h1, if_pos (by omega : b ≤ i ∧ i ≤ e)]
        rw [if_neg (by omega), if_neg (by omega)]
        congr 1
        omega
      · rw [if_neg h1]
        by_cases h2 : i = e
        · subst h2
          rw [if_pos rfl, if_pos (by omega : b ≤ i ∧ i ≤ i)]
          congr 1
          omega
        · rw [if_neg h2]
          by_cases h3 : i = b
          · subst h3
            rw [if_pos rfl, if_pos (by omega : i ≤ i ∧ i ≤ e)]
            congr 1
            omega
          · rw [if_neg h3, if_neg (by omega)]
    · rename_i hge
      congr 1
      funext i
      by_cases h1 : b ≤ i ∧ i ≤ e
      · rw [if_pos h1]
        congr 1
        omega
      · rw [if_neg h1]

/-- `Reverse` mirrors the range `[b, e)` and leaves the rest alone. -/
theorem utils.Reverse_eq {α : Type} (mem : Nat → α) (b e : Nat) :
    utils.Reverse mem b e
      = some (fun i => if b ≤ i ∧ i < e then mem (b + (e - 1) - i) else mem i) := by
  unfold utils.Reverse
  rw [utils.Reverse_loop_eq _ _ _ _ (by omega)]
  congr 1
  funext i
  by_cases h1 : b ≤ i ∧ i < e
  · rw [if_pos h1, if_pos (by omega)]
  · rw [if_neg h1]
    by_cases h2 : b ≤ i ∧ i ≤ e - 1
    · rw [if_pos h2]
      congr 1
      omega
    · rw [if_neg h2]

/-- `Rotate` moves `[m, e)` in front of `[b, m)` and leaves the rest alone. -/
theorem utils.Rotate_eq {α : Type} (mem : Nat → α) (b m e : Nat) (h1 : b ≤ m) (h2 : m ≤ e) :
    utils.Rotate mem b m e
      = some (fun i =>
          if b ≤ i ∧ i < e then
            if i < b + (e - m) then mem (m + (i - b)) else mem (b + (i - (b + (e - m))))
          else mem i) := by
  unfold utils.Rotate
  simp only [utils.Reverse_eq, Option.bind_some, Option.some_bind]
  congr 1
  funext i
  split_ifs <;> first
    | rfl
    | (exfalso; omega)
    | (congr 1; omega)

/-! ## Sorting: ranges as lists -/

@[simp]
theorem utils.view_length {α : Type} (mem : Nat → α) (b e : Nat) :
    (utils.view mem b e).length = e - b := by
  simp [utils.view]

theorem utils.view_getElem {α : Type} (mem : Nat → α) (b e i : Nat)
    (h : i < (utils.view mem b e).length) : (utils.view mem b e)[i] = mem (b + i) := by
  simp [utils.view]

theorem utils.mem_view {α : Type} (mem : Nat → α) (b e : Nat) (x : α) :
    x ∈ utils.view mem b e ↔ ∃ i, b ≤ i ∧ i < e ∧ mem i = x := by
  simp only [utils.view, List.mem_map, List.mem_range]
  constructor
  · rintro ⟨i, hi, rfl⟩
    exact ⟨b + i, by omega, by omega, rfl⟩
  · rintro ⟨i, h1, h2, rfl⟩
    exact ⟨i - b, by omega, by congr 1; omega⟩

theorem utils.view_append {α : Type} (mem : Nat → α) (b m e : Nat) (h1 : b ≤ m) (h2 : m ≤ e) :
    utils.view mem b e = utils.view mem b m ++ utils.view mem m e := by
  apply List.ext_getElem
  · simp; omega
  · intro i h3 h4
    rw [utils.view_getElem]
    by_cases hi : i < m - b
    · rw [List.getElem_append_left (by simpa using hi), utils.view_getElem]
    · rw [List.getElem_append_right (by simpa using hi), utils.view_getElem]
      simp only [utils.view_length]
      congr 1
      omega

theorem utils.view_congr {α : Type} (mem mem2 : Nat → α) (b e : Nat)
    (h : ∀ i, b ≤ i → i < e → mem2 i = mem i) : utils.view mem2 b e = utils.view mem b e := by
  apply List.ext_getElem
  · simp
  · intro i h3 h4
    rw [utils.view_getElem, utils.view_getElem]
    simp only [utils.view_length] at h3
    exact h _ (by omega) (by omega)

theorem utils.view_empty {α : Type} (mem : Nat → α) (b e : Nat) (h : e ≤ b) :
    utils.view mem b e = [] := by
  apply List.eq_nil_of_length_eq_zero
  simp; omega

theorem utils.Sorted_view {α : Type} (less : α → α → Bool) (mem : Nat → α) (b e : Nat) :
    utils.Sorted less (utils.view mem b e)
      ↔ ∀ i j, b ≤ i → i < j → j < e → less (mem j) (mem i) = false := by
  unfold utils.Sorted
  rw [List.pairwise_iff_getElem]
  constructor
  · intro h i j h1 h2 h3
    have := h (i - b) (j - b) (by simp; omega) (by simp; omega) (by omega)
    rw [utils.view_getElem, utils.view_getElem] at this
    rw [show b + (i - b) = i by omega, show b + (j - b) = j by omega] at this
    exact this
  · intro h i j hi hj hij
    rw [utils.view_getElem, utils.view_getElem]
    simp only [utils.view_length] at hi hj
    exact h _ _ (by omega) (by omega) (by omega)

/-! ## Sorting: strict weak orders and the binary searches -/

theorem utils.StrictWeakOrder.asymm {α : Type} {less : α → α → Bool}
    (h : utils.StrictWeakOrder less) {a b : α} (hab : less a b = true) : less b a = false := by
  cases hba : less b a with
  | false => rfl
  | true =>
    have := h.2.1 a b a hab hba
    rw [h.1 a] at this
    cases this

/-- Negative transitivity: what is less than `b` is less than `c`, or `c` is
less than `b`. -/
theorem utils.StrictWeakOrder.cut {α : Type} {less : α → α → Bool}
    (h : utils.StrictWeakOrder less) {a b : α} (hab : less a b = true) (c : α) :
    less a c = true ∨ less c b = true := by
  cases hac : less a c with
  | true => exact Or.inl rfl
  | false =>
    cases hcb : less c b with
    | true => exact Or.inr rfl
    | false =>
      exfalso
      have hca : less c a = false := by
        cases hca : less c a with
        | false => rfl
        | true =>
          have := h.2.1 c a b hca hab
          rw [hcb] at this
          cases this
      have hbc : less b c = false := by
        cases hbc : less b c with
        | false => rfl
        | true =>
          have := h.2.1 a b c hab hbc
          rw [hac] at this
          cases this
      have := (h.2.2 a c b hac hca hcb hbc).1
      rw [hab] at this
      cases this

theorem utils.LowerBound_loop_spec {α : Type} (less : α → α → Bool) (mem : Nat → α)
    (value : α) (fuel begin n : Nat) (hf : n < fuel)
    (hmono : ∀ i j, begin ≤ i → i ≤ j → j < begin + n →
      less (mem j) value = true → less (mem i) value = true) :
    ∃ p, utils.LowerBound.loop less mem value fuel begin n = some p
      ∧ begin ≤ p ∧ p ≤ begin + n
      ∧ (∀ i, begin ≤ i → i < p → less (mem i) value = true)
      ∧ (∀ i, p ≤ i → i < begin + n → less (mem i) value = false) := by
  induction fuel generalizing begin n with
  | zero => omega
  | succ f ih =>
    unfold utils.LowerBound.loop
    by_cases hn : n > 0
    · rw [if_pos hn]
      simp only []
      cases hm : less (mem (begin + n / 2)) value with
      | true =>
        simp only [if_true]
        obtain ⟨p, hp, h1, h2, h3, h4⟩ := ih (begin + n / 2 + 1) (n - (n / 2 + 1)) (by omega)
          (fun i j hi hij hj => hmono i j (by omega) hij (by omega))
        refine ⟨p, hp, by omega, by omega, fun i hi hip => ?_, fun i hi hin => ?_⟩
        · by_cases hle : i ≤ begin + n / 2
          · exact hmono i (begin + n / 2) hi hle (by omega) hm
          · exact h3 i (by omega) hip
        · exact h4 i hi (by omega)
      | false =>
        simp only [Bool.false_eq_true, if_false]
        obtain ⟨p, hp, h1, h2, h3, h4⟩ := ih begin (n / 2) (by omega)
          (fun i j hi hij hj => hmono i j hi hij (by omega))
        refine ⟨p, hp, h1, by omega, h3, fun i hi hin => ?_⟩
        by_cases hlt : i < begin + n / 2
        · exact h4 i hi hlt
        · cases hv : less (mem i) value with
          | false => rfl
          | true =>
            have := hmono (begin + n / 2) i (by omega) (by omega) hin hv
            rw [hm] at this
            cases this
    · rw [if_neg hn]
      exact ⟨begin, rfl, le_refl _, by omega, fun i hi hip => by omega, fun i hi hin => by omega⟩

theorem utils.UpperBound_loop_spec {α : Type} (less : α → α → Bool) (mem : Nat → α)
    (value : α) (fuel begin n : Nat) (hf : n < fuel)
    (hmono : ∀ i j, begin ≤ i → i ≤ j → j < begin + n →
      less value (mem j) = false → less value (mem i) = false) :
    ∃ p, utils.UpperBound.loop less mem value fuel begin n = some p
      ∧ begin ≤ p ∧ p ≤ begin + n
      ∧ (∀ i, begin ≤ i → i < p → less value (mem i) = false)
      ∧ (∀ i, p ≤ i → i < begin + n → less value (mem i) = true) := by
  induction fuel generalizing begin n with
  | zero => omega
  | succ f ih =>
    unfold utils.UpperBound.loop
    by_cases hn : n > 0
    · rw [if_pos hn]
      simp only []
      cases hm : less value (mem (begin + n / 2)) with
      | false =>
        simp only [Bool.false_eq_true, if_false]
        obtain ⟨p, hp, h1, h2, h3, h4⟩ := ih (begin + n / 2 + 1) (n - (n / 2 + 1)) (by omega)
          (fun i j hi hij hj => hmono i j (by omega) hij (by omega))
        refine ⟨p, hp, by omega, by omega, fun i hi hip => ?_, fun i hi hin => ?_⟩
        · by_cases hle : i ≤ begin + n / 2
          · exact hmono i (begin + n / 2) hi hle (by omega) hm
          · exact h3 i (by omega) hip
        · exact h4 i hi (by omega)
      | true =>
        simp only [if_true]
        obtain ⟨p, hp, h1, h2, h3, h4⟩ := ih begin (n / 2) (by omega)
          (fun i j hi hij hj => hmono i j hi hij (by omega))
        refine ⟨p, hp, h1, by omega, h3, fun i hi hin => ?_⟩
        by_cases hlt : i < begin + n / 2
        · exact h4 i hi hlt
        · cases hv : less value (mem i) with
          | true => rfl
          | false =>
            have := hmono (begin + n / 2) i (by omega) (by omega) hin hv
            rw [hm] at this
            cases this
    · rw [if_neg hn]
      exact ⟨begin, rfl, le_refl _, by omega, fun i hi hip => by omega, fun i hi hin => by omega⟩

/-- `LowerBound` on a sorted range: the first position whose element is not
less than the value. -/
theorem utils.LowerBound_spec {α : Type} (less : α → α → Bool)
    (hless : utils.StrictWeakOrder less) (mem : Nat → α) (b e : Nat) (value : α)
    (hs : utils.Sorted less (utils.view mem b e)) :
    ∃ p, utils.LowerBound less mem b e value = some p
      ∧ b ≤ p ∧ p ≤ max b e
      ∧ (∀ i, b ≤ i → i < p → less (mem i) value = true)
      ∧ (∀ i, p ≤ i → i < e → less (mem i) value = false) := by
  rw [utils.Sorted_view] at hs
  obtain ⟨p, hp, h1, h2, h3, h4⟩ := utils.LowerBound_loop_spec less mem value (e - b + 1) b (e - b)
    (by omega) (fun i j hi hij hj hv => by
      by_cases heq : i = j
      · subst heq; exact hv
      · have hsort := hs i j hi (by omega) (by omega)
        rcases hless.cut hv (mem i) with h | h
        · rw [hsort] at h; cases h
        · exact h)
  exact ⟨p, hp, h1, by omega, h3, fun i hi hie => h4 i hi (by omega)⟩

/-- `UpperBound` on a sorted range: the first position whose element the
value is less than. -/
theorem utils.UpperBound_spec {α : Type} (less : α → α → Bool)
    (hless : utils.StrictWeakOrder less) (mem : Nat → α) (b e : Nat) (value : α)
    (hs : utils.Sorted less (utils.view mem b e)) :
    ∃ p, utils.UpperBound less mem b e value = some p
      ∧ b ≤ p ∧ p ≤ max b e
      ∧ (∀ i, b ≤ i → i < p → less value (mem i) = false)
      ∧ (∀ i, p ≤ i → i < e → less value (mem i) = true) := by
  rw [utils.Sorted_view] at hs
  obtain ⟨p, hp, h1, h2, h3, h4⟩ := utils.UpperBound_loop_spec less mem value (e - b + 1) b (e - b)
    (by omega) (fun i j hi hij hj hv => by
      by_cases heq : i = j
      · subst heq; exact hv
      · have hsort := hs i j hi (by omega) (by omega)
        cases hvi : less value (mem i) with
        | false => rfl
        | true =>
          rcases hless.cut hvi (mem j) with h | h
          · rw [hv] at h; cases h
          · rw [hsort] at h; cases h)
  exact ⟨p, hp, h1, by omega, h3, fun i hi hie => h4 i hi (by omega)⟩

/-! ## Sorting: merging -/

theorem utils.view_shift {α : Type} (mem mem2 : Nat → α) (b e b2 e2 : Nat)
    (hl : e2 - b2 = e - b) (h : ∀ i, i < e - b → mem2 (b2 + i) = mem (b + i)) :
    utils.view mem2 b2 e2 = utils.view mem b e := by
  apply List.ext_getElem
  · simp [hl]
  · intro i h3 h4
    rw [utils.view_getElem, utils.view_getElem]
    simp only [utils.view_length] at h4
    exact h i h4

theorem utils.equivalent_trans {α : Type} {less : α → α → Bool}
    (h : utils.StrictWeakOrder less) {a b c : α}
    (hab : utils.equivalent less a b = true) (hbc : utils.equivalent less b c = true) :
    utils.equivalent less a c = true := by
  simp only [utils.equivalent, Bool.and_eq_true, Bool.not_eq_true'] at hab hbc ⊢
  exact h.2.2 a b c hab.1 hab.2 hbc.1 hbc.2

theorem utils.equivalent_symm {α : Type} {less : α → α → Bool} {a b : α}
    (hab : utils.equivalent less a b = true) : utils.equivalent less b a = true := by
  simp only [utils.equivalent, Bool.and_eq_true, Bool.not_eq_true'] at hab ⊢
  exact ⟨hab.2, hab.1⟩

theorem utils.StableSortOf_refl {α : Type} (less : α → α → Bool) (L : List α)
    (h : utils.Sorted less L) : utils.StableSortOf less L L :=
  ⟨h, List.Perm.refl _, fun _ => rfl⟩

theorem utils.StableSortOf_trans {α : Type} {less : α → α → Bool} {L M N : List α}
    (h1 : utils.StableSortOf less L M) (h2 : utils.StableSortOf less M N) :
    utils.StableSortOf less L N :=
  ⟨h2.1, h2.2.1.trans h1.2.1, fun x => (h2.2.2 x).trans (h1.2.2 x)⟩

/-- The two halves of a merge, glued: `A ++ B` and `C ++ D` are the sorted
inputs cut in two, `M1` arranges `A ++ C` and `M2` arranges `B ++ D`. -/
theorem utils.merge_glue {α : Type} {less : α → α → Bool} (hless : utils.StrictWeakOrder less)
    (A B C D M1 M2 : List α)
    (hAB : utils.Sorted less (A ++ B)) (hCD : utils.Sorted less (C ++ D))
    (hAD : ∀ a ∈ A, ∀ d ∈ D, less d a = false)
    (hCB : ∀ c ∈ C, ∀ b ∈ B, less c b = true)
    (h1 : utils.StableSortOf less (A ++ C) M1) (h2 : utils.StableSortOf less (B ++ D) M2) :
    utils.StableSortOf less ((A ++ B) ++ (C ++ D)) (M1 ++ M2) := by
  unfold utils.Sorted at hAB hCD
  rw [List.pairwise_append] at hAB hCD
  refine ⟨?_, ?_, fun x => ?_⟩
  · unfold utils.Sorted
    rw [List.pairwise_append]
    refine ⟨h1.1, h2.1, fun x hx y hy => ?_⟩
    have hx2 := h1.2.1.subset hx
    have hy2 := h2.2.1.subset hy
    rw [List.mem_append] at hx2 hy2
    rcases hx2 with hx2 | hx2 <;> rcases hy2 with hy2 | hy2
    · exact hAB.2.2 x hx2 y hy2
    · exact hAD x hx2 y hy2
    · exact hless.asymm (hCB x hx2 y hy2)
    · exact hCD.2.2 x hx2 y hy2
  · refine (h1.2.1.append h2.2.1).trans ?_
    rw [List.append_assoc, List.append_assoc]
    refine List.Perm.append_left A ?_
    rw [← List.append_assoc, ← List.append_assoc]
    exact List.Perm.append_right D List.perm_append_comm
  · rw [List.filter_append, h1.2.2 x, h2.2.2 x]
    simp only [List.filter_append, List.append_assoc]
    congr 1
    rw [← List.append_assoc, ← List.append_assoc]
    congr 1
    -- one of the two middle parts is empty
    by_cases hB : B.filter (utils.equivalent less x) = []
    · rw [hB]; simp
    · by_cases hC : C.filter (utils.equivalent less x) = []
      · rw [hC]; simp
      · exfalso
        obtain ⟨b, hb⟩ := List.exists_mem_of_ne_nil _ hB
        obtain ⟨c, hc⟩ := List.exists_mem_of_ne_nil _ hC
        rw [List.mem_filter] at hb hc
        have hcb := hCB c hc.1 b hb.1
        have he := utils.equivalent_trans hless (utils.equivalent_symm hc.2) hb.2
        simp only [utils.equivalent, Bool.and_eq_true, Bool.not_eq_true'] at he
        rw [hcb] at he
        cases he.1


/-- What a call of `Merge` owes: a result, the memory outside the range as
it was, and in the range a stable sorted arrangement of the two parts. -/
theorem utils.Merge_step {α : Type} {less : α → α → Bool} (hless : utils.StrictWeakOrder less)
    (fuel : Nat)
    (ih : ∀ (mem : Nat → α) (b p e : Nat), b ≤ p → p ≤ e → e - b < fuel →
      utils.Sorted less (utils.view mem b p) → utils.Sorted less (utils.view mem p e) →
      ∃ mem2, utils.Merge.go less fuel mem b p e = some mem2
        ∧ (∀ i, i < b ∨ e ≤ i → mem2 i = mem i)
        ∧ utils.StableSortOf less (utils.view mem b p ++ utils.view mem p e)
            (utils.view mem2 b e))
    (mem : Nat → α) (b f p s e : Nat)
    (hbf : b ≤ f) (hfp : f ≤ p) (hps : p ≤ s) (hse : s ≤ e)
    (hsz1 : (f - b) + (s - p) < fuel) (hsz2 : e - (f + (s - p)) < fuel)
    (hs1 : utils.Sorted less (utils.view mem b p)) (hs2 : utils.Sorted less (utils.view mem p e))
    (hAD : ∀ i j, b ≤ i → i < f → s ≤ j → j < e → less (mem j) (mem i) = false)
    (hCB : ∀ i j, p ≤ i → i < s → f ≤ j → j < p → less (mem i) (mem j) = true) :
    ∃ mem2,
      ((utils.Rotate mem f p s).bind fun mem1 =>
        (utils.Merge.go less fuel mem1 b f (f + (s - p))).bind fun mem2 =>
          utils.Merge.go less fuel mem2 (f + (s - p)) s e) = some mem2
      ∧ (∀ i, i < b ∨ e ≤ i → mem2 i = mem i)
      ∧ utils.StableSortOf less (utils.view mem b p ++ utils.view mem p e)
          (utils.view mem2 b e) := by
  rw [utils.Rotate_eq mem f p s hfp hps]
  simp only [Option.some_bind]
  generalize hm1 : (fun i =>
      if f ≤ i ∧ i < s then
        if i < f + (s - p) then mem (p + (i - f)) else mem (f + (i - (f + (s - p))))
      else mem i) = mem1
  have hout : ∀ i, i < f ∨ s ≤ i → mem1 i = mem i := by
    intro i hi
    rw [← hm1]
    simp only []
    rw [if_neg (by omega)]
  have hA : utils.view mem1 b f = utils.view mem b f :=
    utils.view_congr _ _ _ _ (fun i _ h2 => hout i (Or.inl h2))
  have hD : utils.view mem1 s e = utils.view mem s e :=
    utils.view_congr _ _ _ _ (fun i h1 _ => hout i (Or.inr h1))
  have hC : utils.view mem1 f (f + (s - p)) = utils.view mem p s := by
    apply utils.view_shift
    · omega
    · intro i hi
      rw [← hm1]
      simp only []
      rw [if_pos (by omega), if_pos (by omega)]
      congr 1
      omega
  have hB : utils.view mem1 (f + (s - p)) s = utils.view mem f p := by
    apply utils.view_shift
    · omega
    · intro i hi
      rw [← hm1]
      simp only []
      rw [if_pos (by omega), if_neg (by omega)]
      congr 1
      omega
  -- the four parts are sorted
  have hs1i := (utils.Sorted_view less mem b p).mp hs1
  have hs2i := (utils.Sorted_view less mem p e).mp hs2
  have hsA : utils.Sorted less (utils.view mem b f) :=
    (utils.Sorted_view less mem b f).mpr (fun i j h1 h2 h3 => hs1i i j h1 h2 (by omega))
  have hsB : utils.Sorted less (utils.view mem f p) :=
    (utils.Sorted_view less mem f p).mpr (fun i j h1 h2 h3 => hs1i i j (by omega) h2 h3)
  have hsC : utils.Sorted less (utils.view mem p s) :=
    (utils.Sorted_view less mem p s).mpr (fun i j h1 h2 h3 => hs2i i j h1 h2 (by omega))
  have hsD : utils.Sorted less (utils.view mem s e) :=
    (utils.Sorted_view less mem s e).mpr (fun i j h1 h2 h3 => hs2i i j (by omega) h2 h3)
  -- first call
  obtain ⟨mem2, hg2, hf2, hr2⟩ := ih mem1 b f (f + (s - p)) hbf (by omega) (by omega)
    (by rw [hA]; exact hsA) (by rw [hC]; exact hsC)
  rw [hg2]
  simp only [Option.some_bind]
  have hB2 : utils.view mem2 (f + (s - p)) s = utils.view mem f p := by
    rw [← hB]
    exact utils.view_congr _ _ _ _ (fun i h1 _ => hf2 i (Or.inr h1))
  have hD2 : utils.view mem2 s e = utils.view mem s e := by
    rw [← hD]
    exact utils.view_congr _ _ _ _ (fun i h1 _ => hf2 i (Or.inr (by omega)))
  -- second call
  obtain ⟨mem3, hg3, hf3, hr3⟩ := ih mem2 (f + (s - p)) s e (by omega) hse (by omega)
    (by rw [hB2]; exact hsB) (by rw [hD2]; exact hsD)
  rw [hg3]
  refine ⟨mem3, rfl, fun i hi => ?_, ?_⟩
  · rw [hf3 i (by omega), hf2 i (by omega), hout i (by omega)]
  · have hM1 : utils.view mem3 b (f + (s - p)) = utils.view mem2 b (f + (s - p)) :=
      utils.view_congr _ _ _ _ (fun i _ h2 => hf3 i (Or.inl h2))
    rw [utils.view_append mem3 b (f + (s - p)) e (by omega) (by omega), hM1,
      utils.view_append mem b f p hbf hfp, utils.view_append mem p s e hps hse]
    rw [hA, hC] at hr2
    rw [hB2, hD2] at hr3
    refine utils.merge_glue hless _ _ _ _ _ _ ?_ ?_ ?_ ?_ hr2 hr3
    · rw [← utils.view_append mem b f p hbf hfp]; exact hs1
    · rw [← utils.view_append mem p s e hps hse]; exact hs2
    · intro a ha d hd
      rw [utils.mem_view] at ha hd
      obtain ⟨i, hi1, hi2, rfl⟩ := ha
      obtain ⟨j, hj1, hj2, rfl⟩ := hd
      exact hAD i j hi1 hi2 hj1 hj2
    · intro c hc x hx
      rw [utils.mem_view] at hc hx
      obtain ⟨i, hi1, hi2, rfl⟩ := hc
      obtain ⟨j, hj1, hj2, rfl⟩ := hx
      exact hCB i j hi1 hi2 hj1 hj2


theorem utils.Merge_go_spec {α : Type} {less : α → α → Bool}
    (hless : utils.StrictWeakOrder less) (fuel : Nat) :
    ∀ (mem : Nat → α) (b p e : Nat), b ≤ p → p ≤ e → e - b < fuel →
      utils.Sorted less (utils.view mem b p) → utils.Sorted less (utils.view mem p e) →
      ∃ mem2, utils.Merge.go less fuel mem b p e = some mem2
        ∧ (∀ i, i < b ∨ e ≤ i → mem2 i = mem i)
        ∧ utils.StableSortOf less (utils.view mem b p ++ utils.view mem p e)
            (utils.view mem2 b e) := by
  induction fuel with
  | zero => intro mem b p e _ _ h; omega
  | succ fuel ih =>
    intro mem b p e hbp hpe hfuel hs1 hs2
    have hs1i := (utils.Sorted_view less mem b p).mp hs1
    have hs2i := (utils.Sorted_view less mem p e).mp hs2
    unfold utils.Merge.go
    simp only []
    by_cases h0 : p - b = 0 ∨ e - p = 0
    · -- one part is empty
      rw [if_pos h0]
      refine ⟨mem, rfl, fun _ _ => rfl, ?_⟩
      rw [← utils.view_append mem b p e hbp hpe]
      apply utils.StableSortOf_refl
      rcases h0 with h0 | h0
      · rw [utils.view_append mem b p e hbp hpe, utils.view_empty mem b p (by omega)]
        exact hs2
      · rw [utils.view_append mem b p e hbp hpe, utils.view_empty mem p e (by omega)]
        simpa using hs1
    · rw [if_neg h0]
      by_cases h2 : p - b + (e - p) = 2
      · -- two elements
        rw [if_pos h2]
        have hp : p = b + 1 := by omega
        have he : e = b + 2 := by omega
        subst hp he
        have hv1 : utils.view mem b (b + 1) = [mem b] := by
          apply List.ext_getElem
          · simp
          · intro i h3 h4
            simp only [List.length_singleton] at h4
            rw [utils.view_getElem]
            have : i = 0 := by omega
            subst this
            rfl
        have hv2 : utils.view mem (b + 1) (b + 2) = [mem (b + 1)] := by
          apply List.ext_getElem
          · simp
          · intro i h3 h4
            simp only [List.length_singleton] at h4
            rw [utils.view_getElem]
            have : i = 0 := by omega
            subst this
            rfl
        cases hc : less (mem (b + 1)) (mem b) with
        | true =>
          simp only [if_true]
          refine ⟨utils.Swap mem b (b + 1), rfl, fun i hi => ?_, ?_⟩
          · rw [utils.Swap_apply, if_neg (by omega), if_neg (by omega)]
          · have hv : utils.view (utils.Swap mem b (b + 1)) b (b + 2) = [mem (b + 1)] ++ [mem b] := by
              rw [utils.view_append _ b (b + 1) (b + 2) (by omega) (by omega)]
              congr 1
              · apply List.ext_getElem
                · simp
                · intro i h3 h4
                  simp only [List.length_singleton] at h4
                  rw [utils.view_getElem]
                  have : i = 0 := by omega
                  subst this
                  simp [utils.Swap_apply]
              · apply List.ext_getElem
                · simp
                · intro i h3 h4
                  simp only [List.length_singleton] at h4
                  rw [utils.view_getElem]
                  have : i = 0 := by omega
                  subst this
                  simp [utils.Swap_apply]
            rw [hv, hv1, hv2]
            have := utils.merge_glue hless [] [mem b] [mem (b + 1)] [] [mem (b + 1)] [mem b]
              (by simp [utils.Sorted]) (by simp [utils.Sorted]) (by simp)
              (by simpa using hc)
              (utils.StableSortOf_refl less _ (by simp [utils.Sorted]))
              (utils.StableSortOf_refl less _ (by simp [utils.Sorted]))
            simpa using this
        | false =>
          simp only [Bool.false_eq_true, if_false]
          refine ⟨mem, rfl, fun _ _ => rfl, ?_⟩
          rw [← utils.view_append mem b (b + 1) (b + 2) (by omega) (by omega)]
          apply utils.StableSortOf_refl
          rw [utils.view_append mem b (b + 1) (b + 2) (by omega) (by omega), hv1, hv2]
          simp [utils.Sorted, hc]
      · rw [if_neg h2]
        by_cases hgt : p - b > e - p
        · -- the first part is the longer one
          rw [if_pos hgt]
          obtain ⟨s, hs, hs_lo, hs_hi, hs_lt, hs_ge⟩ :=
            utils.LowerBound_spec less hless mem p e (mem (b + (p - b) / 2)) hs2
          rw [hs]
          simp only [Option.map_some', Option.some_bind]
          have hs_hi2 : s ≤ e := by rw [max_eq_right hpe] at hs_hi; exact hs_hi
          have hfb : b < b + (p - b) / 2 := by omega
          have hfp : b + (p - b) / 2 < p := by omega
          refine utils.Merge_step hless fuel ih mem b (b + (p - b) / 2) p s e (by omega)
            (by omega) hs_lo hs_hi2 (by omega) (by omega) hs1 hs2 ?_ ?_
          · intro i j hi1 hi2 hj1 hj2
            cases hd : less (mem j) (mem i) with
            | false => rfl
            | true =>
              rcases hless.cut hd (mem (b + (p - b) / 2)) with h | h
              · rw [hs_ge j hj1 hj2] at h; cases h
              · rw [hs1i i (b + (p - b) / 2) hi1 hi2 hfp] at h; cases h
          · intro i j hi1 hi2 hj1 hj2
            rcases hless.cut (hs_lt i hi1 hi2) (mem j) with h | h
            · exact h
            · by_cases hjf : j = b + (p - b) / 2
              · rw [hjf, hless.1] at h; cases h
              · rw [hs1i (b + (p - b) / 2) j (by omega) (by omega) hj2] at h; cases h
        · -- the second part is at least as long
          rw [if_neg hgt]
          obtain ⟨f, hf, hf_lo, hf_hi, hf_le, hf_gt⟩ :=
            utils.UpperBound_spec less hless mem b p (mem (p + (e - p) / 2)) hs1
          rw [hf]
          simp only [Option.map_some', Option.some_bind]
          have hf_hi2 : f ≤ p := by rw [max_eq_right hbp] at hf_hi; exact hf_hi
          have hsp : p < p + (e - p) / 2 := by omega
          have hse : p + (e - p) / 2 < e := by omega
          have hlen : p + (e - p) / 2 - p = (e - p) / 2 := by omega
          have hstep := utils.Merge_step hless fuel ih mem b f p (p + (e - p) / 2) e hf_lo hf_hi2
            (by omega) (by omega) (by omega) (by omega) hs1 hs2
          rw [hlen] at hstep
          refine hstep ?_ ?_
          · intro i j hi1 hi2 hj1 hj2
            cases hd : less (mem j) (mem i) with
            | false => rfl
            | true =>
              rcases hless.cut hd (mem (p + (e - p) / 2)) with h | h
              · by_cases hjs : j = p + (e - p) / 2
                · rw [hjs, hless.1] at h; cases h
                · rw [hs2i (p + (e - p) / 2) j (by omega) (by omega) hj2] at h; cases h
              · rw [hf_le i hi1 hi2] at h; cases h
          · intro i j hi1 hi2 hj1 hj2
            rcases hless.cut (hf_gt j hj1 hj2) (mem i) with h | h
            · rw [hs2i i (p + (e - p) / 2) hi1 hi2 hse] at h; cases h
            · exact h

/-- `Merge` of two sorted neighbouring ranges. -/
theorem utils.Merge_spec {α : Type} {less : α → α → Bool}
    (hless : utils.StrictWeakOrder less) (mem : Nat → α) (b p e : Nat) (hbp : b ≤ p)
    (hpe : p ≤ e) (hs1 : utils.Sorted less (utils.view mem b p))
    (hs2 : utils.Sorted less (utils.view mem p e)) :
    ∃ mem2, utils.Merge less mem b p e = some mem2
      ∧ (∀ i, i < b ∨ e ≤ i → mem2 i = mem i)
      ∧ utils.StableSortOf less (utils.view mem b e) (utils.view mem2 b e) := by
  rw [utils.view_append mem b p e hbp hpe]
  exact utils.Merge_go_spec hless _ mem b p e hbp hpe (by omega) hs1 hs2


theorem utils.StableSort_go_spec {α : Type} {less : α → α → Bool}
    (hless : utils.StrictWeakOrder less) (fuel : Nat) :
    ∀ (mem : Nat → α) (b e : Nat), e - b < fuel →
      ∃ mem2, utils.StableSort.go less fuel mem b e = some mem2
        ∧ (∀ i, i < b ∨ e ≤ i → mem2 i = mem i)
        ∧ utils.StableSortOf less (utils.view mem b e) (utils.view mem2 b e) := by
  induction fuel with
  | zero => intro mem b e h; omega
  | succ fuel ih =>
    intro mem b e hfuel
    have hshort : e - b < 2 → utils.StableSortOf less (utils.view mem b e) (utils.view mem b e) := by
      intro h
      apply utils.StableSortOf_refl
      rw [utils.Sorted_view]
      intro i j h1 h2 h3
      omega
    unfold utils.StableSort.go
    by_cases hbe : b = e
    · rw [if_pos hbe]
      exact ⟨mem, rfl, fun _ _ => rfl, hshort (by omega)⟩
    · rw [if_neg hbe]
      simp only []
      by_cases hsp : e - b < 2
      · rw [if_pos hsp]
        exact ⟨mem, rfl, fun _ _ => rfl, hshort hsp⟩
      · rw [if_neg hsp]
        have hbm : b ≤ b + (e - b) / 2 := by omega
        have hme : b + (e - b) / 2 ≤ e := by omega
        obtain ⟨mem1, hg1, hf1, hr1⟩ := ih mem b (b + (e - b) / 2) (by omega)
        rw [hg1]
        simp only [Option.some_bind]
        obtain ⟨mem2, hg2, hf2, hr2⟩ := ih mem1 (b + (e - b) / 2) e (by omega)
        rw [hg2]
        simp only [Option.some_bind]
        have hv1 : utils.view mem2 b (b + (e - b) / 2) = utils.view mem1 b (b + (e - b) / 2) :=
          utils.view_congr _ _ _ _ (fun i _ h2 => hf2 i (Or.inl h2))
        have hv2 : utils.view mem1 (b + (e - b) / 2) e = utils.view mem (b + (e - b) / 2) e :=
          utils.view_congr _ _ _ _ (fun i h1 _ => hf1 i (Or.inr h1))
        rw [hv2] at hr2
        obtain ⟨mem3, hg3, hf3, hr3⟩ := utils.Merge_spec hless mem2 b (b + (e - b) / 2) e hbm hme
          (by rw [hv1]; exact hr1.1) hr2.1
        refine ⟨mem3, hg3, fun i hi => ?_, hr3.1, ?_, fun x => ?_⟩
        · rw [hf3 i hi, hf2 i (by omega), hf1 i (by omega)]
        · refine hr3.2.1.trans ?_
          rw [utils.view_append mem2 b _ e hbm hme, utils.view_append mem b _ e hbm hme, hv1]
          exact hr1.2.1.append hr2.2.1
        · rw [hr3.2.2 x, utils.view_append mem2 b _ e hbm hme, utils.view_append mem b _ e hbm hme,
            hv1, List.filter_append, List.filter_append, hr1.2.2 x, hr2.2.2 x]

/-- `StableSort` returns, leaves the memory outside the range as it was, and
leaves in the range a stable sorted arrangement of what was there. -/
theorem utils.StableSort_spec {α : Type} {less : α → α → Bool}
    (hless : utils.StrictWeakOrder less) (mem : Nat → α) (b e : Nat) :
    ∃ mem2, utils.StableSort less mem b e = some mem2
      ∧ (∀ i, i < b ∨ e ≤ i → mem2 i = mem i)
      ∧ utils.StableSortOf less (utils.view mem b e) (utils.view mem2 b e) :=
  utils.StableSort_go_spec hless _ mem b e (by omega)


/-- For a strict weak order, sorted by neighbours is sorted by pairs. -/
theorem utils.Sorted_of_chain {α : Type} {less : α → α → Bool}
    (hless : utils.StrictWeakOrder less) (l : List α)
    (h : l.Chain' (fun a b => less b a = false)) : utils.Sorted less l := by
  haveI : IsTrans α (fun a b => less b a = false) :=
    ⟨fun a b c hab hbc => by
      cases hca : less c a with
      | false => rfl
      | true =>
        rcases hless.cut hca b with h | h
        · rw [hbc] at h; cases h
        · rw [hab] at h; cases h⟩
  exact List.chain'_iff_pairwise.mp h

theorem utils.lessTens_StrictWeakOrder : utils.StrictWeakOrder utils.lessTens := by
  refine ⟨fun a => by simp [utils.lessTens], fun a b c h1 h2 => ?_, fun a b c h1 h2 h3 h4 => ?_⟩
  · simp only [utils.lessTens, decide_eq_true_eq] at h1 h2 ⊢
    omega
  · simp only [utils.lessTens, decide_eq_false_iff_not] at h1 h2 h3 h4 ⊢
    constructor <;> omega

theorem utils.sampleSorted_chain :
    (utils.view utils.sampleSorted 0 10).Chain' (fun a b => utils.lessTens b a = false) :=
  List.Pairwise.chain' (by decide)

/-- C34: `StableSort` sorts stably.  For every comparator that is a strict
weak order and every range `[begin, end_)` of the memory, `StableSort` returns
(its recursion and every loop in it end within their rounds), the memory
outside the range is as before, and the range holds a permutation of what it
held, in which no element is less than its predecessor and the elements
equivalent to any `x` stand in their original order.  `LowerBound` on a range
in which no element is less than its predecessor returns a position `p` of
the range or its end such that every element before `p` is less than the
value and no element from `p` on is. -/
theorem StableSort_sorts_stably {α : Type} (less : α → α → Bool)
    (hless : utils.StrictWeakOrder less) (mem : Nat → α) (begin end_ : Nat) :
    (∃ sorted, utils.StableSort less mem begin end_ = some sorted
      ∧ (∀ i, i < begin ∨ end_ ≤ i → sorted i = mem i)
      ∧ (utils.view sorted begin end_).Perm (utils.view mem begin end_)
      ∧ (utils.view sorted begin end_).Chain' (fun a b => less b a = false)
      ∧ (∀ x, (utils.view sorted begin end_).filter (utils.equivalent less x)
          = (utils.view mem begin end_).filter (utils.equivalent less x)))
    ∧ (∀ value, (utils.view mem begin end_).Chain' (fun a b => less b a = false) →
        begin ≤ end_ →
        ∃ p, utils.LowerBound less mem begin end_ value = some p
          ∧ begin ≤ p ∧ p ≤ end_
          ∧ (∀ i, begin ≤ i → i < p → less (mem i) value = true)
          ∧ (∀ i, p ≤ i → i < end_ → less (mem i) value = false)) := by
  constructor
  · obtain ⟨sorted, h1, h2, h3, h4, h5⟩ := utils.StableSort_spec hless mem begin end_
    exact ⟨sorted, h1, h2, h4, List.Pairwise.chain' h3, h5⟩
  · intro value hs hbe
    obtain ⟨p, h1, h2, h3, h4, h5⟩ := utils.LowerBound_spec less hless mem begin end_ value
      (utils.Sorted_of_chain hless _ hs)
    rw [max_eq_right hbe] at h3
    exact ⟨p, h1, h2, h3, h4, h5⟩

theorem StableSort_sorts_stably_witness :
    utils.StrictWeakOrder utils.lessTens
    ∧ utils.view utils.sample 0 6 = [31, 10, 22, 17, 35, 4]
    ∧ (utils.StableSort utils.lessTens utils.sample 0 6).map (fun m => utils.view m 0 6)
        = some [4, 10, 17, 22, 31, 35]
    ∧ (∃ sorted, utils.StableSort utils.lessTens utils.sample 0 6 = some sorted
      ∧ (∀ i, i < 0 ∨ 6 ≤ i → sorted i = utils.sample i)
      ∧ (utils.view sorted 0 6).Perm (utils.view utils.sample 0 6)
      ∧ (utils.view sorted 0 6).Chain' (fun a b => utils.lessTens b a = false)
      ∧ (∀ x, (utils.view sorted 0 6).filter (utils.equivalent utils.lessTens x)
          = (utils.view utils.sample 0 6).filter (utils.equivalent utils.lessTens x)))
    ∧ (utils.view utils.sampleSorted 0 10).Chain' (fun a b => utils.lessTens b a = false)
    ∧ utils.LowerBound utils.lessTens utils.sampleSorted 0 10 20 = some 4
    ∧ (∃ p, utils.LowerBound utils.lessTens utils.sampleSorted 0 10 20 = some p
          ∧ 0 ≤ p ∧ p ≤ 10
          ∧ (∀ i, 0 ≤ i → i < p → utils.lessTens (utils.sampleSorted i) 20 = true)
          ∧ (∀ i, p ≤ i → i < 10 → utils.lessTens (utils.sampleSorted i) 20 = false)) :=
  ⟨utils.lessTens_StrictWeakOrder, by decide, by decide,
    (StableSort_sorts_stably utils.lessTens utils.lessTens_StrictWeakOrder utils.sample 0 6).1,
    utils.sampleSorted_chain, by decide,
    (StableSort_sorts_stably utils.lessTens utils.lessTens_StrictWeakOrder
      utils.sampleSorted 0 10).2 20 utils.sampleSorted_chain (by decide)⟩

end Macs
